import Mathlib

/-!
# RRGraph: a shallow embedding of `vpr/src/device/rr_graph_obj.cpp`

The routing-resource graph object keeps one array per attribute, indexed by
the integer value of a handle.  This development embeds the member functions
of `RRGraph` as functions on an explicit state record and proves properties of
adjacency construction (`rebuild_node_edges`), lazy deletion (`remove_node`,
`remove_edge`) and compaction (`compress`).

Conventions of the embedding

* A strong id (`RRNodeId`, `RREdgeId`, `RRSwitchId`, `RRSegmentId`) is a
  non-negative integer or the reserved `INVALID()` sentinel: `Option Nat`, with
  `none` for the sentinel.
* A `vtr::vector<Id, T>` is a `List T`; `std::unique_ptr<RREdgeId[]>` is the
  list of its allocated slots.
* `std::set` of invalid ids is a duplicate-free list; only `insert`, `count`
  and `clear` are used by the source.
* `VTR_ASSERT` / `VTR_ASSERT_MSG` abort: a function containing one returns
  `Option`, with `none` for the abort.  `VTR_ASSERT_SAFE` (checked builds only)
  is a precondition recorded in the doc comment of the accessor.
* Reading a vector outside its bounds is undefined in the source; accessors
  return the sentinel / zero there and every theorem that depends on such a
  read carries the hypothesis that excludes it.
* The edge counters are modelled as natural numbers (their element type is
  declared in `rr_graph_obj.h`).
-/

namespace RRGraphObj

/-! ## Handles and enumerations -/

/-- Modelled from the spec: the node handle declared in `rr_graph_types.h`,
"a plain non-negative integer plus one reserved invalid sentinel value";
`none` is `RRNodeId::INVALID()`. -/
abbrev RRNodeId := Option Nat
/-- Modelled from the spec: the edge handle; `none` is `RREdgeId::INVALID()`. -/
abbrev RREdgeId := Option Nat
/-- Modelled from the spec: the switch handle; `none` is
`RRSwitchId::INVALID()`. -/
abbrev RRSwitchId := Option Nat
/-- Modelled from the spec: the segment handle; `none` is
`RRSegmentId::INVALID()`. -/
abbrev RRSegmentId := Option Nat

/-- Modelled from the spec: the node types, "source, sink, input-pin,
output-pin, horizontal-channel, vertical-channel", under the names the
source uses (`NUM_RR_TYPES` is their number, 6). -/
inductive t_rr_type where
  | SOURCE | SINK | IPIN | OPIN | CHANX | CHANY
  deriving DecidableEq, Repr, Inhabited

/-- Modelled from the spec: the direction of a channel node,
"increasing/decreasing/bidirectional/none". -/
inductive e_direction where
  | INC_DIRECTION | DEC_DIRECTION | BI_DIRECTION | NO_DIRECTION
  deriving DecidableEq, Repr, Inhabited

/-- Modelled from the spec: the side of a pin node, "one of four compass
sides, else none"; `NUM_SIDES` is the "none" slot. -/
inductive e_side where
  | TOP | RIGHT | BOTTOM | LEFT | NUM_SIDES
  deriving DecidableEq, Repr, Inhabited

/-- Modelled from the spec: the bounding box `vtr::Rect<short>`,
"(xlow,ylow,xhigh,yhigh; short integers)". -/
structure Rect where
  xmin : Int
  ymin : Int
  xmax : Int
  ymax : Int
  deriving DecidableEq, Repr, Inhabited

/-- Modelled from the spec: the switch record `t_rr_switch_inf`, "an opaque
switch-model record" with "the referenced switch's configurable flag". -/
structure t_rr_switch_inf where
  configurable : Bool
  model : Nat
  deriving DecidableEq, Repr, Inhabited

/-- Modelled from the spec: the segment record `t_segment_inf`, "an opaque
segment-model record". -/
structure t_segment_inf where
  model : Nat
  deriving DecidableEq, Repr, Inhabited

/-! ## The graph state -/

/-- The data members of `RRGraph`, under the names the source uses (their
declarations are in `rr_graph_obj.h`).  `node_Rs_` / `node_Cs_` hold the
stored bit pattern of the float; the graph never computes with it. -/
structure RRGraph where
  num_nodes_ : Nat
  num_edges_ : Nat
  node_types_ : List t_rr_type
  node_bounding_boxes_ : List Rect
  node_capacities_ : List Int
  node_ptc_nums_ : List (List Int)
  node_cost_indices_ : List Int
  node_directions_ : List e_direction
  node_sides_ : List e_side
  node_Rs_ : List Nat
  node_Cs_ : List Nat
  node_rc_data_indices_ : List Int
  node_segments_ : List RRSegmentId
  node_num_in_edges_ : List Nat
  node_num_out_edges_ : List Nat
  node_num_non_configurable_in_edges_ : List Nat
  node_num_non_configurable_out_edges_ : List Nat
  node_edges_ : List (List RREdgeId)
  edge_src_nodes_ : List RRNodeId
  edge_sink_nodes_ : List RRNodeId
  edge_switches_ : List RRSwitchId
  switch_ids_ : List RRSwitchId
  switches_ : List t_rr_switch_inf
  segment_ids_ : List RRSegmentId
  segments_ : List t_segment_inf
  invalid_node_ids_ : List RRNodeId
  invalid_edge_ids_ : List RREdgeId
  dirty_ : Bool
  node_lookup_ : List (List (List (List (List RRNodeId))))
  deriving DecidableEq, Repr

/-- The state built by the constructor `RRGraph::RRGraph()`. -/
def RRGraph.empty : RRGraph :=
  { num_nodes_ := 0, num_edges_ := 0, node_types_ := [], node_bounding_boxes_ := [],
    node_capacities_ := [], node_ptc_nums_ := [], node_cost_indices_ := [],
    node_directions_ := [], node_sides_ := [], node_Rs_ := [], node_Cs_ := [],
    node_rc_data_indices_ := [], node_segments_ := [], node_num_in_edges_ := [],
    node_num_out_edges_ := [], node_num_non_configurable_in_edges_ := [],
    node_num_non_configurable_out_edges_ := [], node_edges_ := [],
    edge_src_nodes_ := [], edge_sink_nodes_ := [], edge_switches_ := [],
    switch_ids_ := [], switches_ := [], segment_ids_ := [], segments_ := [],
    invalid_node_ids_ := [], invalid_edge_ids_ := [], dirty_ := false,
    node_lookup_ := [] }

/-! ## Vector helpers -/

/-- Element `v[id]` of a vector of handles or counters, with `dflt` outside
the bounds and at the sentinel. -/
def at_id {α : Type} (v : List α) (id : Option Nat) (dflt : α) : α :=
  match id with
  | some i => v.getD i dflt
  | none => dflt

/-- Assignment `v[id] = x`. -/
def set_id {α : Type} (v : List α) (id : Option Nat) (x : α) : List α :=
  match id with
  | some i => v.set i x
  | none => v

/-- Pre-increment `++v[id]` of a counter vector. -/
def incr_id (v : List Nat) (id : Option Nat) : List Nat :=
  set_id v id (at_id v id 0 + 1)

/-- The `std::vector::resize(n, fill)` of a vector. -/
def resize {α : Type} (v : List α) (n : Nat) (fill : α) : List α :=
  v.take n ++ List.replicate (n - v.length) fill

/-- The `std::stable_partition` of a whole range: the elements satisfying `p`
in their original order, then the others in their original order. -/
def stable_partition {α : Type} (p : α → Bool) (l : List α) : List α :=
  l.filter p ++ l.filter (fun x => !p x)

/-- The `std::stable_partition` applied to the slots `[lo, hi)` of an array. -/
def stable_partition_range {α : Type} (p : α → Bool) (l : List α) (lo hi : Nat) : List α :=
  l.take lo ++ stable_partition p ((l.drop lo).take (hi - lo)) ++ l.drop hi

/-! ## Validity of handles -/

/-- Body of `RRGraph::valid_node_id`. -/
def valid_node_id (g : RRGraph) (node : RRNodeId) : Bool :=
  match node with
  | some i => decide (i < g.num_nodes_) && !(g.invalid_node_ids_.contains node)
  | none => false

/-- Body of `RRGraph::valid_edge_id`. -/
def valid_edge_id (g : RRGraph) (edge : RREdgeId) : Bool :=
  match edge with
  | some i => decide (i < g.num_edges_) && !(g.invalid_edge_ids_.contains edge)
  | none => false

/-- Body of `RRGraph::valid_switch_id`. -/
def valid_switch_id (g : RRGraph) (switch_id : RRSwitchId) : Bool :=
  match switch_id with
  | some i => decide (i < g.switches_.length)
  | none => false

/-- Body of `RRGraph::valid_segment_id`. -/
def valid_segment_id (g : RRGraph) (segment_id : RRSegmentId) : Bool :=
  match segment_id with
  | some i => decide (i < g.segments_.length)
  | none => false

/-- Modelled from the spec: the lazy node iterator of `rr_graph_obj.h`, which
"produces forward sequences over node/edge ids skipping invalidated entries";
`nodes()` runs from id 0 to `num_nodes_`. -/
def nodes (g : RRGraph) : List RRNodeId :=
  ((List.range g.num_nodes_).map some).filter (fun n => valid_node_id g n)

/-- Modelled from the spec: the lazy edge iterator of `rr_graph_obj.h`;
`edges()` runs from id 0 to `num_edges_`, skipping invalidated ids. -/
def edges (g : RRGraph) : List RREdgeId :=
  ((List.range g.num_edges_).map some).filter (fun e => valid_edge_id g e)

/-! ## Accessors -/

/-- Body of `RRGraph::node_type` (checked builds assert a valid node). -/
def node_type (g : RRGraph) (node : RRNodeId) : t_rr_type :=
  at_id g.node_types_ node default

/-- Entry of `node_num_in_edges_`: the in-edge counter of the node, as the
range accessors read it. -/
def node_num_in_edges (g : RRGraph) (node : RRNodeId) : Nat :=
  at_id g.node_num_in_edges_ node 0

/-- Entry of `node_num_out_edges_`: the out-edge counter of the node, as
the range accessors read it. -/
def node_num_out_edges (g : RRGraph) (node : RRNodeId) : Nat :=
  at_id g.node_num_out_edges_ node 0

/-- Entry of `node_num_non_configurable_in_edges_`. -/
def node_num_non_configurable_in_edges (g : RRGraph) (node : RRNodeId) : Nat :=
  at_id g.node_num_non_configurable_in_edges_ node 0

/-- Entry of `node_num_non_configurable_out_edges_`. -/
def node_num_non_configurable_out_edges (g : RRGraph) (node : RRNodeId) : Nat :=
  at_id g.node_num_non_configurable_out_edges_ node 0

/-- The allocated slots of `node_edges_[node]`. -/
def node_edge_slots (g : RRGraph) (node : RRNodeId) : List RREdgeId :=
  at_id g.node_edges_ node []

/-- Body of `RRGraph::node_edges`: slots `[0, in + out)`. -/
def node_edges (g : RRGraph) (node : RRNodeId) : List RREdgeId :=
  (node_edge_slots g node).take (node_num_in_edges g node + node_num_out_edges g node)

/-- Body of `RRGraph::node_in_edges`: slots `[0, in)`. -/
def node_in_edges (g : RRGraph) (node : RRNodeId) : List RREdgeId :=
  (node_edge_slots g node).take (node_num_in_edges g node)

/-- Body of `RRGraph::node_out_edges`: slots `[in, in + out)`. -/
def node_out_edges (g : RRGraph) (node : RRNodeId) : List RREdgeId :=
  ((node_edge_slots g node).drop (node_num_in_edges g node)).take (node_num_out_edges g node)

/-- Body of `RRGraph::node_configurable_in_edges`: slots `[0, in - nc_in)`. -/
def node_configurable_in_edges (g : RRGraph) (node : RRNodeId) : List RREdgeId :=
  (node_edge_slots g node).take
    (node_num_in_edges g node - node_num_non_configurable_in_edges g node)

/-- Body of `RRGraph::node_non_configurable_in_edges`: slots `[in - nc_in, in)`. -/
def node_non_configurable_in_edges (g : RRGraph) (node : RRNodeId) : List RREdgeId :=
  ((node_edge_slots g node).drop
    (node_num_in_edges g node - node_num_non_configurable_in_edges g node)).take
    (node_num_non_configurable_in_edges g node)

/-- Body of `RRGraph::node_configurable_out_edges`:
slots `[in, in + out - nc_out)`. -/
def node_configurable_out_edges (g : RRGraph) (node : RRNodeId) : List RREdgeId :=
  ((node_edge_slots g node).drop (node_num_in_edges g node)).take
    (node_num_out_edges g node - node_num_non_configurable_out_edges g node)

/-- Body of `RRGraph::node_non_configurable_out_edges`:
slots `[in + out - nc_out, in + out)`. -/
def node_non_configurable_out_edges (g : RRGraph) (node : RRNodeId) : List RREdgeId :=
  ((node_edge_slots g node).drop
    (node_num_in_edges g node + node_num_out_edges g node
      - node_num_non_configurable_out_edges g node)).take
    (node_num_non_configurable_out_edges g node)

/-- Body of `RRGraph::edge_src_node` (checked builds assert a valid edge). -/
def edge_src_node (g : RRGraph) (edge : RREdgeId) : RRNodeId :=
  at_id g.edge_src_nodes_ edge none

/-- Body of `RRGraph::edge_sink_node` (checked builds assert a valid edge). -/
def edge_sink_node (g : RRGraph) (edge : RREdgeId) : RRNodeId :=
  at_id g.edge_sink_nodes_ edge none

/-- Body of `RRGraph::edge_switch` (checked builds assert a valid edge). -/
def edge_switch (g : RRGraph) (edge : RREdgeId) : RRSwitchId :=
  at_id g.edge_switches_ edge none

/-- Body of `RRGraph::edge_is_configurable`: the configurable flag of the
switch the edge refers to.  The read `switches_[iswitch]` is defined only for
a switch id in range; outside it the model answers `false`. -/
def edge_is_configurable (g : RRGraph) (edge : RREdgeId) : Bool :=
  match edge_switch g edge with
  | some i =>
    match g.switches_.get? i with
    | some s => s.configurable
    | none => false
  | none => false

/-- Body of `RRGraph::edge_is_non_configurable`. -/
def edge_is_non_configurable (g : RRGraph) (edge : RREdgeId) : Bool :=
  !edge_is_configurable g edge

/-- Body of `RRGraph::is_dirty`. -/
def is_dirty (g : RRGraph) : Bool := g.dirty_

/-- Body of `RRGraph::set_dirty`. -/
def set_dirty (g : RRGraph) : RRGraph := { g with dirty_ := true }

/-- Body of `RRGraph::clear_dirty`. -/
def clear_dirty (g : RRGraph) : RRGraph := { g with dirty_ := false }

/-- Body of `RRGraph::invalidate_fast_node_lookup`: `node_lookup_.clear()`. -/
def invalidate_fast_node_lookup (g : RRGraph) : RRGraph := { g with node_lookup_ := [] }

/-- Body of `RRGraph::valid_fast_node_lookup`: `!node_lookup_.empty()`. -/
def valid_fast_node_lookup (g : RRGraph) : Bool := !g.node_lookup_.isEmpty

/-! ## Size checks -/

/-- Body of `RRGraph::validate_node_sizes`. -/
def validate_node_sizes (g : RRGraph) : Bool :=
  decide (g.node_types_.length = g.num_nodes_)
  && decide (g.node_bounding_boxes_.length = g.num_nodes_)
  && decide (g.node_capacities_.length = g.num_nodes_)
  && decide (g.node_ptc_nums_.length = g.num_nodes_)
  && decide (g.node_cost_indices_.length = g.num_nodes_)
  && decide (g.node_directions_.length = g.num_nodes_)
  && decide (g.node_sides_.length = g.num_nodes_)
  && decide (g.node_Rs_.length = g.num_nodes_)
  && decide (g.node_Cs_.length = g.num_nodes_)
  && decide (g.node_segments_.length = g.num_nodes_)
  && decide (g.node_num_non_configurable_in_edges_.length = g.num_nodes_)
  && decide (g.node_num_non_configurable_out_edges_.length = g.num_nodes_)
  && decide (g.node_edges_.length = g.num_nodes_)

/-- Body of `RRGraph::validate_edge_sizes`. -/
def validate_edge_sizes (g : RRGraph) : Bool :=
  decide (g.edge_src_nodes_.length = g.num_edges_)
  && decide (g.edge_sink_nodes_.length = g.num_edges_)
  && decide (g.edge_switches_.length = g.num_edges_)

/-- Body of `RRGraph::validate_switch_sizes`. -/
def validate_switch_sizes (g : RRGraph) : Bool :=
  decide (g.switches_.length = g.switch_ids_.length)

/-- Body of `RRGraph::validate_segment_sizes`. -/
def validate_segment_sizes (g : RRGraph) : Bool :=
  decide (g.segments_.length = g.segment_ids_.length)

/-- Body of `RRGraph::validate_sizes`. -/
def validate_sizes (g : RRGraph) : Bool :=
  validate_node_sizes g && validate_edge_sizes g
  && validate_switch_sizes g && validate_segment_sizes g

/-! ## Creation -/

/-- Body of `RRGraph::create_node`: allocates the next id, appends the
default value of every attribute, clears the spatial index and asserts the
size check. -/
def create_node (g : RRGraph) (type : t_rr_type) : Option (RRGraph × RRNodeId) :=
  let node_id : RRNodeId := some g.num_nodes_
  let g1 : RRGraph :=
    { g with
      num_nodes_ := g.num_nodes_ + 1
      node_types_ := g.node_types_ ++ [type]
      node_bounding_boxes_ := g.node_bounding_boxes_ ++ [⟨-1, -1, -1, -1⟩]
      node_capacities_ := g.node_capacities_ ++ [-1]
      node_ptc_nums_ := g.node_ptc_nums_ ++ [[-1]]
      node_cost_indices_ := g.node_cost_indices_ ++ [-1]
      node_directions_ := g.node_directions_ ++ [e_direction.NO_DIRECTION]
      node_sides_ := g.node_sides_ ++ [e_side.NUM_SIDES]
      node_Rs_ := g.node_Rs_ ++ [0]
      node_Cs_ := g.node_Cs_ ++ [0]
      node_rc_data_indices_ := g.node_rc_data_indices_ ++ [-1]
      node_segments_ := g.node_segments_ ++ [none]
      node_edges_ := g.node_edges_ ++ [[]]
      node_num_in_edges_ := g.node_num_in_edges_ ++ [0]
      node_num_out_edges_ := g.node_num_out_edges_ ++ [0]
      node_num_non_configurable_in_edges_ := g.node_num_non_configurable_in_edges_ ++ [0]
      node_num_non_configurable_out_edges_ := g.node_num_non_configurable_out_edges_ ++ [0] }
  let g2 := invalidate_fast_node_lookup g1
  if validate_sizes g2 then some (g2, node_id) else none

/-- Body of `RRGraph::create_edge`: asserts valid endpoints (and a valid switch
unless `fake_switch`), allocates the next id and appends the three edge
attributes.  The adjacency arrays are not touched. -/
def create_edge (g : RRGraph) (source sink : RRNodeId) (switch_id : RRSwitchId)
    (fake_switch : Bool) : Option (RRGraph × RREdgeId) :=
  if !valid_node_id g source then none
  else if !valid_node_id g sink then none
  else if !fake_switch && !valid_switch_id g switch_id then none
  else
    let edge_id : RREdgeId := some g.num_edges_
    let g1 : RRGraph :=
      { g with
        num_edges_ := g.num_edges_ + 1
        edge_src_nodes_ := g.edge_src_nodes_ ++ [source]
        edge_sink_nodes_ := g.edge_sink_nodes_ ++ [sink]
        edge_switches_ := g.edge_switches_ ++ [switch_id] }
    if validate_sizes g1 then some (g1, edge_id) else none

/-- Body of `RRGraph::create_switch`. -/
def create_switch (g : RRGraph) (switch_info : t_rr_switch_inf) : RRGraph × RRSwitchId :=
  let switch_id : RRSwitchId := some g.switch_ids_.length
  ({ g with
      switch_ids_ := g.switch_ids_ ++ [switch_id]
      switches_ := g.switches_ ++ [switch_info] }, switch_id)

/-- Body of `RRGraph::create_segment`. -/
def create_segment (g : RRGraph) (segment_info : t_segment_inf) : RRGraph × RRSegmentId :=
  let segment_id : RRSegmentId := some g.segment_ids_.length
  ({ g with
      segment_ids_ := g.segment_ids_ ++ [segment_id]
      segments_ := g.segments_ ++ [segment_info] }, segment_id)

/-! ## Adjacency construction -/

/-- One iteration of the counting loop of `rebuild_node_edges`. -/
def count_edge (g : RRGraph) (edge : RREdgeId) : RRGraph :=
  if edge.isNone then g
  else
    let src_node := edge_src_node g edge
    let sink_node := edge_sink_node g edge
    let config := edge_is_configurable g edge
    { g with
      node_num_out_edges_ := incr_id g.node_num_out_edges_ src_node
      node_num_in_edges_ := incr_id g.node_num_in_edges_ sink_node
      node_num_non_configurable_out_edges_ :=
        if config then g.node_num_non_configurable_out_edges_
        else incr_id g.node_num_non_configurable_out_edges_ src_node
      node_num_non_configurable_in_edges_ :=
        if config then g.node_num_non_configurable_in_edges_
        else incr_id g.node_num_non_configurable_in_edges_ sink_node }

/-- One iteration of the allocation loop: `node_edges_[node]` becomes a fresh
array of `in + out` slots, each holding the sentinel. -/
def allocate_node_edges (g : RRGraph) (node : RRNodeId) : RRGraph :=
  if node.isNone then g
  else
    { g with
      node_edges_ :=
        set_id g.node_edges_ node
          (List.replicate (node_num_in_edges g node + node_num_out_edges g node) none) }

/-- The statement `node_edges_[node][inserted_edge_cnt[node]++] = edge`. -/
def insert_at_cnt (st : List (List RREdgeId) × List Nat) (node : RRNodeId)
    (edge : RREdgeId) : List (List RREdgeId) × List Nat :=
  (set_id st.1 node ((at_id st.1 node []).set (at_id st.2 node 0) edge),
   incr_id st.2 node)

/-- One iteration of the insertion loop: the edge is written into the array
of its source, then into the array of its sink. -/
def insert_edge (g : RRGraph) (st : List (List RREdgeId) × List Nat)
    (edge : RREdgeId) : List (List RREdgeId) × List Nat :=
  let src_node := edge_src_node g edge
  let sink_node := edge_sink_node g edge
  insert_at_cnt (insert_at_cnt st src_node edge) sink_node edge

/-- The three `std::stable_partition` calls made for one node. -/
def partition_slots (g : RRGraph) (node : RRNodeId) (slots : List RREdgeId) : List RREdgeId :=
  let n_in := node_num_in_edges g node
  let n_out := node_num_out_edges g node
  let is_incoming_edge : RREdgeId → Bool := fun edge => edge_sink_node g edge == node
  let is_configurable_edge : RREdgeId → Bool := fun edge => edge_is_configurable g edge
  let s1 := stable_partition_range is_incoming_edge slots 0 (n_in + n_out)
  let s2 := stable_partition_range is_configurable_edge s1 0 n_in
  stable_partition_range is_configurable_edge s2 n_in (n_in + n_out)

/-- One iteration of the partition loop. -/
def partition_node_edges (g : RRGraph) (node : RRNodeId) : RRGraph :=
  if node.isNone then g
  else
    { g with
      node_edges_ :=
        set_id g.node_edges_ node (partition_slots g node (node_edge_slots g node)) }

/-- Body of `RRGraph::rebuild_node_edges`. -/
def rebuild_node_edges (g : RRGraph) : RRGraph :=
  let n := (nodes g).length
  let g0 : RRGraph :=
    { g with
      node_edges_ := resize g.node_edges_ n []
      node_num_in_edges_ := resize g.node_num_in_edges_ n 0
      node_num_out_edges_ := resize g.node_num_out_edges_ n 0
      node_num_non_configurable_in_edges_ := resize g.node_num_non_configurable_in_edges_ n 0
      node_num_non_configurable_out_edges_ := resize g.node_num_non_configurable_out_edges_ n 0 }
  let g1 := (edges g0).foldl count_edge g0
  let g2 := (nodes g1).foldl allocate_node_edges g1
  let st := (edges g2).foldl (insert_edge g2) (g2.node_edges_, List.replicate n 0)
  let g3 : RRGraph := { g2 with node_edges_ := st.1 }
  (nodes g3).foldl partition_node_edges g3

/-! ## Lazy deletion -/

/-- The scan-and-overwrite loop of `remove_edge` over the slots `[lo, hi)`,
`i` being the index of the head of the list: the first slot equal to `edge`
is overwritten with the sentinel and the scan stops. -/
def scrub_first : List RREdgeId → Nat → Nat → Nat → RREdgeId → List RREdgeId
  | [], _, _, _, _ => []
  | x :: xs, i, lo, hi, edge =>
    if lo ≤ i ∧ i < hi ∧ x = edge then none :: xs
    else x :: scrub_first xs (i + 1) lo hi edge

/-- Body of `RRGraph::remove_edge`: the first scan runs over the slots
`[0, in)` of the source node, the second over the slots `[in, in + out)` of
the sink node, as in the source.  The reads `edge_src_nodes_[edge]`,
`edge_sink_nodes_[edge]` and `node_num_in_edges_[...]` are defined only inside
the vectors: outside them the result is `none`. -/
def remove_edge (g : RRGraph) (edge : RREdgeId) : Option RRGraph :=
  match edge with
  | none => none
  | some e =>
    if e < g.edge_src_nodes_.length ∧ e < g.edge_sink_nodes_.length then
      let src_node := edge_src_node g edge
      let sink_node := edge_sink_node g edge
      match src_node, sink_node with
      | some s, some t =>
        if s < g.node_num_in_edges_.length ∧ t < g.node_num_in_edges_.length
            ∧ t < g.node_num_out_edges_.length then
          let e1 := set_id g.node_edges_ src_node
            (scrub_first (node_edge_slots g src_node) 0 0 (node_num_in_edges g src_node) edge)
          let g1 : RRGraph := { g with node_edges_ := e1 }
          let e2 := set_id g1.node_edges_ sink_node
            (scrub_first (node_edge_slots g1 sink_node) 0 (node_num_in_edges g1 sink_node)
              (node_num_in_edges g1 sink_node + node_num_out_edges g1 sink_node) edge)
          let g2 : RRGraph := { g1 with node_edges_ := e2 }
          let g3 : RRGraph :=
            { g2 with invalid_edge_ids_ := g2.invalid_edge_ids_.insert edge }
          some (set_dirty g3)
        else none
      | _, _ => none
    else none

/-- One step of a range-for over slots of `node_edges_[node]`: the handle is
read from the array as it is at that moment, and passed to `remove_edge`. -/
def remove_slot_edge (node : RRNodeId) (g : RRGraph) (i : Nat) : Option RRGraph :=
  remove_edge g ((node_edge_slots g node).getD i none)

/-- Body of `RRGraph::remove_node`: the in-edge range, then the out-edge
range, then the node is marked invalid, the spatial index cleared and the
dirty flag set. -/
def remove_node (g : RRGraph) (node : RRNodeId) : Option RRGraph := do
  let n_in := node_num_in_edges g node
  let n_out := node_num_out_edges g node
  let g1 ← (List.range n_in).foldlM (remove_slot_edge node) g
  let g2 ← ((List.range n_out).map (fun i => n_in + i)).foldlM (remove_slot_edge node) g1
  let g3 : RRGraph := { g2 with invalid_node_ids_ := g2.invalid_node_ids_.insert node }
  let g4 := invalidate_fast_node_lookup g3
  some (set_dirty g4)

/-! ## Compaction -/

/-- Modelled from the spec: the renumbering loop of `compress_ids`, `i` being
the next new id: a valid handle receives `i`, a removed one the sentinel. -/
def compress_ids_from : Nat → List (Option Nat) → List (Option Nat)
  | _, [] => []
  | i, some _ :: rest => some i :: compress_ids_from (i + 1) rest
  | i, none :: rest => none :: compress_ids_from i rest

/-- Modelled from the spec: `compress_ids` of `rr_graph_obj_utils.h`, which
builds a remap "by assigning new sequential ids to exactly the currently-valid
handles, in ascending original order, mapping removed handles to invalid".
The remap has one entry per old handle. -/
def compress_ids (ids : List (Option Nat)) : List (Option Nat) :=
  compress_ids_from 0 ids

/-- Modelled from the spec: `clean_and_reorder_values` of
`rr_graph_obj_utils.h`, which "reorders/shrinks every node attribute array and
every edge attribute array according to its remap, dropping invalid entries":
the value of an old id whose remap entry is a new id `k` becomes entry `k`,
and the result has as many entries as were kept. -/
def clean_and_reorder_values {α : Type} (values : List α) (id_map : List (Option Nat)) :
    List α :=
  let kept : List (Nat × α) :=
    (id_map.zip values).filterMap (fun p => p.1.map (fun k => (k, p.2)))
  (List.range kept.length).filterMap
    (fun k => (kept.find? (fun q => q.1 == k)).map Prod.snd)

/-- Modelled from the spec: `update_valid_refs` of `rr_graph_obj_utils.h`,
"replacing each stored edge handle with its new id via the edge remap", over
the slots `[0, n)` of an adjacency array. -/
def update_valid_refs (slots : List RREdgeId) (n : Nat) (id_map : List (Option Nat)) :
    List RREdgeId :=
  (slots.take n).map (fun h => at_id id_map h none) ++ slots.drop n

/-- Modelled from the spec: `all_valid` of `rr_graph_obj_utils.h`, the check
"that no invalid handle remains" in the slots `[0, n)`. -/
def all_valid (slots : List RREdgeId) (n : Nat) : Bool :=
  (slots.take n).all (fun h => h.isSome)

/-- Body of `RRGraph::build_id_maps`: the list of ids with the sentinel in
place of every invalid id, compressed, for nodes and for edges. -/
def build_id_maps (g : RRGraph) : List RRNodeId × List RREdgeId :=
  let node_ids : List RRNodeId :=
    (List.range g.num_nodes_).map
      (fun id => if valid_node_id g (some id) then some id else none)
  let edge_ids : List RREdgeId :=
    (List.range g.num_edges_).map
      (fun id => if valid_edge_id g (some id) then some id else none)
  (compress_ids node_ids, compress_ids edge_ids)

/-- The assignments of `RRGraph::clean_nodes`, before its assertion.
`node_rc_data_indices_` and `node_edges_` are not assigned by the source. -/
def clean_nodes_values (g : RRGraph) (node_id_map : List RRNodeId) : RRGraph :=
  { g with
    num_nodes_ := node_id_map.length
    node_types_ := clean_and_reorder_values g.node_types_ node_id_map
    node_bounding_boxes_ := clean_and_reorder_values g.node_bounding_boxes_ node_id_map
    node_capacities_ := clean_and_reorder_values g.node_capacities_ node_id_map
    node_ptc_nums_ := clean_and_reorder_values g.node_ptc_nums_ node_id_map
    node_cost_indices_ := clean_and_reorder_values g.node_cost_indices_ node_id_map
    node_directions_ := clean_and_reorder_values g.node_directions_ node_id_map
    node_sides_ := clean_and_reorder_values g.node_sides_ node_id_map
    node_Rs_ := clean_and_reorder_values g.node_Rs_ node_id_map
    node_Cs_ := clean_and_reorder_values g.node_Cs_ node_id_map
    node_segments_ := clean_and_reorder_values g.node_segments_ node_id_map
    node_num_non_configurable_in_edges_ :=
      clean_and_reorder_values g.node_num_non_configurable_in_edges_ node_id_map
    node_num_non_configurable_out_edges_ :=
      clean_and_reorder_values g.node_num_non_configurable_out_edges_ node_id_map
    node_num_in_edges_ := clean_and_reorder_values g.node_num_in_edges_ node_id_map
    node_num_out_edges_ := clean_and_reorder_values g.node_num_out_edges_ node_id_map }

/-- Body of `RRGraph::clean_nodes`: the assignments, then
`VTR_ASSERT(validate_node_sizes())`. -/
def clean_nodes (g : RRGraph) (node_id_map : List RRNodeId) : Option RRGraph :=
  let g1 := clean_nodes_values g node_id_map
  if validate_node_sizes g1 then some g1 else none

/-- The assignments of `RRGraph::clean_edges`, before its assertion. -/
def clean_edges_values (g : RRGraph) (edge_id_map : List RREdgeId) : RRGraph :=
  { g with
    num_edges_ := edge_id_map.length
    edge_src_nodes_ := clean_and_reorder_values g.edge_src_nodes_ edge_id_map
    edge_sink_nodes_ := clean_and_reorder_values g.edge_sink_nodes_ edge_id_map
    edge_switches_ := clean_and_reorder_values g.edge_switches_ edge_id_map }

/-- Body of `RRGraph::clean_edges`: the assignments, then
`VTR_ASSERT(validate_edge_sizes())`. -/
def clean_edges (g : RRGraph) (edge_id_map : List RREdgeId) : Option RRGraph :=
  let g1 := clean_edges_values g edge_id_map
  if validate_edge_sizes g1 then some g1 else none

/-- One iteration of the loop of `rebuild_node_refs`: an invalid id is
skipped; otherwise the slots `[0, in + out)` of the node are rewritten through
the edge remap and asserted to be all valid. -/
def rebuild_node_ref (edge_id_map : List RREdgeId) (g : RRGraph) (id : Nat) :
    Option RRGraph :=
  if !valid_node_id g (some id) then some g
  else
    let node : RRNodeId := some id
    let n := node_num_in_edges g node + node_num_out_edges g node
    let slots := update_valid_refs (node_edge_slots g node) n edge_id_map
    if all_valid slots n then some { g with node_edges_ := set_id g.node_edges_ node slots }
    else none

/-- Body of `RRGraph::rebuild_node_refs`. -/
def rebuild_node_refs (g : RRGraph) (edge_id_map : List RREdgeId) : Option RRGraph :=
  (List.range g.num_nodes_).foldlM (rebuild_node_ref edge_id_map) g

/-- Body of `RRGraph::compress`. -/
def compress (g : RRGraph) : Option RRGraph := do
  let maps := build_id_maps g
  let g1 ← clean_nodes g maps.1
  let g2 ← clean_edges g1 maps.2
  let g3 ← rebuild_node_refs g2 maps.2
  let g4 := invalidate_fast_node_lookup g3
  let g5 : RRGraph := { g4 with invalid_node_ids_ := [] }
  let g6 : RRGraph := { g5 with invalid_edge_ids_ := [] }
  some (clear_dirty g6)

/-! ## Reciprocity checks of the validator -/

/-- Body of `RRGraph::validate_node_is_edge_src`. -/
def validate_node_is_edge_src (g : RRGraph) (node : RRNodeId) (edge : RREdgeId) : Bool :=
  node == edge_src_node g edge

/-- Body of `RRGraph::validate_node_is_edge_sink`. -/
def validate_node_is_edge_sink (g : RRGraph) (node : RRNodeId) (edge : RREdgeId) : Bool :=
  node == edge_sink_node g edge

/-- Body of `RRGraph::validate_node_in_edges`: every edge of the in-range has
the node as its sink. -/
def validate_node_in_edges (g : RRGraph) (node : RRNodeId) : Bool :=
  (node_in_edges g node).all (fun edge => validate_node_is_edge_sink g node edge)

/-- Body of `RRGraph::validate_node_out_edges`: every edge of the out-range has
the node as its source. -/
def validate_node_out_edges (g : RRGraph) (node : RRNodeId) : Bool :=
  (node_out_edges g node).all (fun edge => validate_node_is_edge_src g node edge)

/-- Body of `RRGraph::validate_node_edges`. -/
def validate_node_edges (g : RRGraph) (node : RRNodeId) : Bool :=
  validate_node_in_edges g node && validate_node_out_edges g node

/-- Body of `RRGraph::validate_nodes_in_edges`: the check of every valid
node. -/
def validate_nodes_in_edges (g : RRGraph) : Bool :=
  (List.range g.num_nodes_).all
    (fun id => !valid_node_id g (some id) || validate_node_in_edges g (some id))

/-- Body of `RRGraph::validate_nodes_out_edges`: the check of every valid
node. -/
def validate_nodes_out_edges (g : RRGraph) : Bool :=
  (List.range g.num_nodes_).all
    (fun id => !valid_node_id g (some id) || validate_node_out_edges g (some id))

/-- Body of `RRGraph::validate_nodes_edges`. -/
def validate_nodes_edges (g : RRGraph) : Bool :=
  validate_nodes_in_edges g && validate_nodes_out_edges g

/-! ## Construction sequences and freshly built graphs -/

/-- A creation call issued by the external builder. -/
inductive BuildStep where
  | switch (info : t_rr_switch_inf)
  | segment (info : t_segment_inf)
  | node (type : t_rr_type)
  | edge (source sink : RRNodeId) (switch_id : RRSwitchId) (fake_switch : Bool)
  deriving DecidableEq, Repr

/-- The member function called by a creation step. -/
def build_step (g : RRGraph) : BuildStep → Option RRGraph
  | .switch info => some (create_switch g info).1
  | .segment info => some (create_segment g info).1
  | .node type => (create_node g type).map Prod.fst
  | .edge source sink switch_id fake_switch =>
    (create_edge g source sink switch_id fake_switch).map Prod.fst

/-- A graph built from the empty graph by a sequence of creation calls. -/
def build (steps : List BuildStep) : Option RRGraph :=
  steps.foldlM build_step RRGraph.empty

/-- The state of a graph built by creation calls alone, before the first
`rebuild_node_edges`: no id has been removed, every edge counter is zero, every
adjacency array is empty, the edge vectors are aligned with the edge count and
every stored endpoint is a valid node id. -/
structure FreshlyBuilt (g : RRGraph) : Prop where
  no_invalid_nodes : g.invalid_node_ids_ = []
  no_invalid_edges : g.invalid_edge_ids_ = []
  in_zero : g.node_num_in_edges_ = List.replicate g.num_nodes_ 0
  out_zero : g.node_num_out_edges_ = List.replicate g.num_nodes_ 0
  nc_in_zero : g.node_num_non_configurable_in_edges_ = List.replicate g.num_nodes_ 0
  nc_out_zero : g.node_num_non_configurable_out_edges_ = List.replicate g.num_nodes_ 0
  slots_empty : g.node_edges_ = List.replicate g.num_nodes_ []
  src_size : g.edge_src_nodes_.length = g.num_edges_
  sink_size : g.edge_sink_nodes_.length = g.num_edges_
  switch_size : g.edge_switches_.length = g.num_edges_
  src_valid : ∀ x ∈ g.edge_src_nodes_, valid_node_id g x = true
  sink_valid : ∀ x ∈ g.edge_sink_nodes_, valid_node_id g x = true

/-! ## The adjacency order stated by the specification -/

/-- The adjacency order stated by the specification for a node: configurable
edges whose sink is the node, non-configurable edges whose sink is the node,
configurable edges whose source is the node, non-configurable edges whose
source is the node, each group in ascending edge id. -/
def claimed_node_edges (g : RRGraph) (node : RRNodeId) : List RREdgeId :=
  (edges g).filter (fun e => edge_sink_node g e == node && edge_is_configurable g e)
  ++ (edges g).filter (fun e => edge_sink_node g e == node && edge_is_non_configurable g e)
  ++ (edges g).filter (fun e => edge_src_node g e == node && edge_is_configurable g e)
  ++ (edges g).filter (fun e => edge_src_node g e == node && edge_is_non_configurable g e)

/-! ## Stages and invariants used in the proofs -/

/-- The parts of the state that adjacency construction only reads. -/
def edge_view (g : RRGraph) :=
  (g.num_nodes_, g.num_edges_, g.edge_src_nodes_, g.edge_sink_nodes_, g.edge_switches_,
    g.switches_, g.invalid_node_ids_, g.invalid_edge_ids_)

/-- The four edge counters of every node. -/
def counter_view (g : RRGraph) :=
  (g.node_num_in_edges_, g.node_num_out_edges_, g.node_num_non_configurable_in_edges_,
    g.node_num_non_configurable_out_edges_)

/-- Counter slot incremented for the sink of an edge by the counting loop. -/
def in_target (g : RRGraph) (e : RREdgeId) : Option Nat :=
  if e.isNone then none else edge_sink_node g e
/-- Counter slot incremented for the source of an edge by the counting loop. -/
def out_target (g : RRGraph) (e : RREdgeId) : Option Nat :=
  if e.isNone then none else edge_src_node g e
/-- Non-configurable counter slot incremented for the sink of an edge. -/
def nc_in_target (g : RRGraph) (e : RREdgeId) : Option Nat :=
  if e.isNone || edge_is_configurable g e then none else edge_sink_node g e
/-- Non-configurable counter slot incremented for the source of an edge. -/
def nc_out_target (g : RRGraph) (e : RREdgeId) : Option Nat :=
  if e.isNone || edge_is_configurable g e then none else edge_src_node g e

/-- The state `g'` differs from `g` at most in the adjacency arrays. -/
def only_slots (g g' : RRGraph) : Prop := ∃ s, g' = { g with node_edges_ := s }

/-- The identity remap on `n` ids. -/
def id_map (n : Nat) : List (Option Nat) := (List.range n).map some

/-- The last four statements of `compress`, applied to the state left by
`rebuild_node_refs`. -/
def compress_tail (g : RRGraph) : RRGraph :=
  clear_dirty
    { ({ invalidate_fast_node_lookup g with invalid_node_ids_ := [] } : RRGraph) with
      invalid_edge_ids_ := [] }

/-- The state after `clean_nodes` and `clean_edges` when both remaps are the
identity. -/
def cleaned (g : RRGraph) : RRGraph :=
  clean_edges_values (clean_nodes_values g (id_map g.num_nodes_)) (id_map g.num_edges_)

/-- The conditions under which `compress` runs to completion. -/
structure CompressOk (g : RRGraph) : Prop where
  nodes_valid : ∀ i < g.num_nodes_, valid_node_id g (some i) = true
  edges_valid : ∀ e < g.num_edges_, valid_edge_id g (some e) = true
  node_sizes : validate_node_sizes (clean_nodes_values g (id_map g.num_nodes_)) = true
  edge_sizes : validate_edge_sizes (cleaned g) = true
  refs : ∀ id < g.num_nodes_,
    rebuild_node_ref (id_map g.num_edges_) (cleaned g) id = some (cleaned g)

/-- The node count and the set of invalid node ids. -/
def node_view (g : RRGraph) := (g.num_nodes_, g.invalid_node_ids_)

/-- The copies of an edge that the insertion loop writes into the array of node
`n`: one if `n` is its source, then one if `n` is its sink. -/
def contrib (g : RRGraph) (n : Nat) (e : RREdgeId) : List RREdgeId :=
  (if edge_src_node g e = some n then [e] else [])
    ++ (if edge_sink_node g e = some n then [e] else [])

/-- The array of node `n` after the insertion loop has run over `es`. -/
def scattered (g : RRGraph) (n : Nat) : List RREdgeId → List RREdgeId
  | [] => []
  | e :: es => contrib g n e ++ scattered g n es

/-- Invariant of the insertion loop over `N` nodes: the array of node `n` is
the written prefix `P n` followed by `R n` untouched slots, and the insertion
counter of `n` is the length of the prefix. -/
structure ScatterInv (N : Nat) (st : List (List RREdgeId) × List Nat)
    (P : Nat → List RREdgeId) (R : Nat → Nat) : Prop where
  len_slots : st.1.length = N
  len_cnt : st.2.length = N
  slots : ∀ n < N, st.1.getD n [] = P n ++ List.replicate (R n) none
  cnt : ∀ n < N, st.2.getD n 0 = (P n).length

/-- The state after the counting loop of `rebuild_node_edges` on a graph whose
vectors need no resizing. -/
def counted (g : RRGraph) : RRGraph := (edges g).foldl count_edge g

/-- The state after the allocation loop. -/
def allocated (g : RRGraph) : RRGraph :=
  (nodes (counted g)).foldl allocate_node_edges (counted g)

/-- The state after the insertion loop. -/
def inserted (g : RRGraph) : RRGraph :=
  { allocated g with
    node_edges_ :=
      ((edges (allocated g)).foldl (insert_edge (allocated g))
        ((allocated g).node_edges_, List.replicate g.num_nodes_ 0)).1 }

/-! ## Example graphs -/

/-- The scenario of the specification: a configurable and a non-configurable
switch, nodes SOURCE, CHANX, SINK, an edge SOURCE→CHANX over the configurable
switch and an edge CHANX→SINK over the non-configurable one. -/
def scenario_steps : List BuildStep :=
  [.switch ⟨true, 0⟩, .switch ⟨false, 1⟩,
   .node .SOURCE, .node .CHANX, .node .SINK,
   .edge (some 0) (some 1) (some 0) false,
   .edge (some 1) (some 2) (some 1) false]

/-- The graph of the scenario, before adjacency construction. -/
def scenario_graph : RRGraph := (build scenario_steps).getD RRGraph.empty

/-- The scenario graph after adjacency construction and `remove_node` of the
CHANX node (id 1). -/
def scenario_removed : Option RRGraph :=
  remove_node (rebuild_node_edges scenario_graph) (some 1)

/-- Two channel nodes, edge 0 from node 0 to node 1, then edge 1 from node 0
to itself, both over one configurable switch. -/
def out_then_loop_steps : List BuildStep :=
  [.switch ⟨true, 0⟩, .node .CHANX, .node .CHANX,
   .edge (some 0) (some 1) (some 0) false,
   .edge (some 0) (some 0) (some 0) false]

/-- The graph of `out_then_loop_steps`. -/
def out_then_loop_graph : RRGraph := (build out_then_loop_steps).getD RRGraph.empty

/-- Two channel nodes, edge 0 from node 0 to itself, then edge 1 from node 1
to node 0, both over one configurable switch. -/
def loop_then_in_steps : List BuildStep :=
  [.switch ⟨true, 0⟩, .node .CHANX, .node .CHANX,
   .edge (some 0) (some 0) (some 0) false,
   .edge (some 1) (some 0) (some 0) false]

/-- The graph of `loop_then_in_steps`. -/
def loop_then_in_graph : RRGraph := (build loop_then_in_steps).getD RRGraph.empty

/-- Three nodes SOURCE, CHANX, SINK and no edge. -/
def three_nodes_steps : List BuildStep :=
  [.node .SOURCE, .node .CHANX, .node .SINK]

/-- The graph of `three_nodes_steps` after `remove_node` of the SOURCE node
(id 0). -/
def three_nodes_removed : Option RRGraph :=
  (build three_nodes_steps).bind (fun g => remove_node g (some 0))

/-- One configurable switch, three channel nodes and edge 0 from node 1 to
node 2. -/
def tail_edge_steps : List BuildStep :=
  [.switch ⟨true, 0⟩, .node .CHANX, .node .CHANX, .node .CHANX,
   .edge (some 1) (some 2) (some 0) false]

/-- The graph of `tail_edge_steps` after `remove_node` of node 0, which has no
edge. -/
def tail_edge_removed : Option RRGraph :=
  (build tail_edge_steps).bind (fun g => remove_node g (some 0))

/-- The graph of `tail_edge_steps` after adjacency construction and
`remove_node` of node 0. -/
def tail_edge_rebuilt_removed : Option RRGraph :=
  (build tail_edge_steps).bind (fun g => remove_node (rebuild_node_edges g) (some 0))

/-- One configurable switch, two channel nodes and edge 0 from node 0 to
node 1. -/
def single_edge_steps : List BuildStep :=
  [.switch ⟨true, 0⟩, .node .CHANX, .node .CHANX,
   .edge (some 0) (some 1) (some 0) false]

/-- The graph of `single_edge_steps` after adjacency construction. -/
def single_edge_graph : RRGraph :=
  rebuild_node_edges ((build single_edge_steps).getD RRGraph.empty)

/-- Body of `RRGraph::node_bounding_box` (checked builds assert a valid node). -/
def node_bounding_box (g : RRGraph) (node : RRNodeId) : Rect :=
  at_id g.node_bounding_boxes_ node default

/-- Body of `RRGraph::node_xlow`. -/
def node_xlow (g : RRGraph) (node : RRNodeId) : Int := (node_bounding_box g node).xmin

/-- Body of `RRGraph::node_ylow`. -/
def node_ylow (g : RRGraph) (node : RRNodeId) : Int := (node_bounding_box g node).ymin

/-- Body of `RRGraph::node_xhigh`. -/
def node_xhigh (g : RRGraph) (node : RRNodeId) : Int := (node_bounding_box g node).xmax

/-- Body of `RRGraph::node_yhigh`. -/
def node_yhigh (g : RRGraph) (node : RRNodeId) : Int := (node_bounding_box g node).ymax

/-- Body of `RRGraph::node_capacity` (checked builds assert a valid node). -/
def node_capacity (g : RRGraph) (node : RRNodeId) : Int :=
  at_id g.node_capacities_ node 0

/-- Body of `RRGraph::node_cost_index` (checked builds assert a valid node). -/
def node_cost_index (g : RRGraph) (node : RRNodeId) : Int :=
  at_id g.node_cost_indices_ node 0

/-- Body of `RRGraph::node_rc_data_index` (checked builds assert a valid node). -/
def node_rc_data_index (g : RRGraph) (node : RRNodeId) : Int :=
  at_id g.node_rc_data_indices_ node 0

/-- Body of `RRGraph::node_segment` (checked builds assert a valid node). -/
def node_segment (g : RRGraph) (node : RRNodeId) : RRSegmentId :=
  at_id g.node_segments_ node none

/-- The per-node attribute vectors and the adjacency vector all have
`num_nodes_` entries, the per-edge vectors `num_edges_` entries: the size
check of `validate_node_sizes` extended to the vectors it does not read. -/
structure SizesOk (g : RRGraph) : Prop where
  types : g.node_types_.length = g.num_nodes_
  boxes : g.node_bounding_boxes_.length = g.num_nodes_
  capacities : g.node_capacities_.length = g.num_nodes_
  ptcs : g.node_ptc_nums_.length = g.num_nodes_
  costs : g.node_cost_indices_.length = g.num_nodes_
  directions : g.node_directions_.length = g.num_nodes_
  sides : g.node_sides_.length = g.num_nodes_
  rs : g.node_Rs_.length = g.num_nodes_
  cs : g.node_Cs_.length = g.num_nodes_
  rc_data : g.node_rc_data_indices_.length = g.num_nodes_
  segments : g.node_segments_.length = g.num_nodes_
  fan_in : g.node_num_in_edges_.length = g.num_nodes_
  fan_out : g.node_num_out_edges_.length = g.num_nodes_
  nc_in : g.node_num_non_configurable_in_edges_.length = g.num_nodes_
  nc_out : g.node_num_non_configurable_out_edges_.length = g.num_nodes_
  slots : g.node_edges_.length = g.num_nodes_
  srcs : g.edge_src_nodes_.length = g.num_edges_
  sinks : g.edge_sink_nodes_.length = g.num_edges_
  switches : g.edge_switches_.length = g.num_edges_
  switch_ids : g.switches_.length = g.switch_ids_.length
  segment_ids : g.segments_.length = g.segment_ids_.length

/-- The state `g'` keeps the counts, every attribute vector, every counter
and both catalogs of `g`, and its adjacency arrays have the lengths of those
of `g`: only slot contents, the invalid-id sets, the dirty flag and the
spatial index may differ. -/
structure StorageRetained (g g' : RRGraph) : Prop where
  num_nodes : g'.num_nodes_ = g.num_nodes_
  num_edges : g'.num_edges_ = g.num_edges_
  types : g'.node_types_ = g.node_types_
  boxes : g'.node_bounding_boxes_ = g.node_bounding_boxes_
  capacities : g'.node_capacities_ = g.node_capacities_
  ptcs : g'.node_ptc_nums_ = g.node_ptc_nums_
  costs : g'.node_cost_indices_ = g.node_cost_indices_
  directions : g'.node_directions_ = g.node_directions_
  sides : g'.node_sides_ = g.node_sides_
  rs : g'.node_Rs_ = g.node_Rs_
  cs : g'.node_Cs_ = g.node_Cs_
  rc_data : g'.node_rc_data_indices_ = g.node_rc_data_indices_
  segments : g'.node_segments_ = g.node_segments_
  fan_in : g'.node_num_in_edges_ = g.node_num_in_edges_
  fan_out : g'.node_num_out_edges_ = g.node_num_out_edges_
  nc_in : g'.node_num_non_configurable_in_edges_ = g.node_num_non_configurable_in_edges_
  nc_out : g'.node_num_non_configurable_out_edges_ = g.node_num_non_configurable_out_edges_
  srcs : g'.edge_src_nodes_ = g.edge_src_nodes_
  sinks : g'.edge_sink_nodes_ = g.edge_sink_nodes_
  switches : g'.edge_switches_ = g.edge_switches_
  switch_ids : g'.switch_ids_ = g.switch_ids_
  switch_infos : g'.switches_ = g.switches_
  segment_ids : g'.segment_ids_ = g.segment_ids_
  segment_infos : g'.segments_ = g.segments_
  slots_length : g'.node_edges_.length = g.node_edges_.length
  slot_lengths : ∀ i, (g'.node_edges_.getD i []).length = (g.node_edges_.getD i []).length

/-! ## Removal: further examples and plain slots -/

/-- One configurable switch, one channel node and edge 0 from node 0 to
itself. -/
def self_loop_steps : List BuildStep :=
  [.switch ⟨true, 0⟩, .node .CHANX, .edge (some 0) (some 0) (some 0) false]

/-- The graph of `self_loop_steps` after adjacency construction. -/
def self_loop_graph : RRGraph :=
  rebuild_node_edges ((build self_loop_steps).getD RRGraph.empty)

/-- Two nodes and no edge, after `remove_node` of node 0. -/
def two_nodes_removed : Option RRGraph :=
  (build [.node .SOURCE, .node .SINK]).bind (fun g => remove_node g (some 0))

/-- Slot `i` of `node` holds an edge inside the edge vectors whose endpoints
are inside the counter vectors; in the in-range the edge ends at `node` and
starts at another node, in the out-range it starts at `node` and ends at
another node. -/
def plain_slot (g : RRGraph) (node : RRNodeId) (i : Nat) : Bool :=
  match (node_edge_slots g node).getD i none with
  | none => false
  | some e =>
    match edge_src_node g (some e), edge_sink_node g (some e) with
    | some s, some t =>
      decide (e < g.edge_src_nodes_.length) && decide (e < g.edge_sink_nodes_.length)
      && decide (s < g.node_num_in_edges_.length)
      && decide (t < g.node_num_in_edges_.length)
      && decide (t < g.node_num_out_edges_.length)
      && (if i < node_num_in_edges g node then decide (some t = node) && decide (some s ≠ node)
          else decide (some s = node) && decide (some t ≠ node))
    | _, _ => false

/-- Every slot `[0, in + out)` of `node` is a `plain_slot`: the adjacency of
`node` is built, laid out in-edges first, and `node` carries no self-loop. -/
def plain_slots (g : RRGraph) (node : RRNodeId) : Bool :=
  (List.range (node_num_in_edges g node + node_num_out_edges g node)).all (plain_slot g node)

/-! ## Spatial index -/

/-- The five-level table `node_lookup_`, indexed `[x][y][type][ptc][side]`. -/
abbrev Lookup := List (List (List (List (List RRNodeId))))

/-- The constant `NUM_RR_TYPES`, the number of node types. -/
def NUM_RR_TYPES : Nat := 6

/-- Modelled from the spec: the integer of a node type (`size_t itype = type`),
its position in the list "source, sink, input-pin, output-pin,
horizontal-channel, vertical-channel". -/
def rr_type_index : t_rr_type → Nat
  | .SOURCE => 0
  | .SINK => 1
  | .IPIN => 2
  | .OPIN => 3
  | .CHANX => 4
  | .CHANY => 5

/-- Modelled from the spec: the integer of a side (`size_t iside = side`), the
four compass sides first and `NUM_SIDES`, the "not applicable" slot, last. -/
def side_index : e_side → Nat
  | .TOP => 0
  | .RIGHT => 1
  | .BOTTOM => 2
  | .LEFT => 3
  | .NUM_SIDES => 4

/-- Conversion of a signed integer to the 64-bit `size_t`. -/
def to_size_t (v : Int) : Nat := (v % 2 ^ 64).toNat

/-- Conversion of an integer to `short` (16 bits, two's complement). -/
def to_short (v : Int) : Int := (v + 2 ^ 15) % 2 ^ 16 - 2 ^ 15

/-- Body of `RRGraph::node_fan_in`: the counter `node_num_in_edges_[node]`,
returned as a `short`. -/
def node_fan_in (g : RRGraph) (node : RRNodeId) : Int :=
  to_short (node_num_in_edges g node)

/-- Body of `RRGraph::node_fan_out`: the counter `node_num_out_edges_[node]`,
returned as a `short`. -/
def node_fan_out (g : RRGraph) (node : RRNodeId) : Int :=
  to_short (node_num_out_edges g node)

/-- An upper bound of `max_size()` of every `std::vector` on a 64-bit target:
`resize` to more entries throws `std::length_error`. -/
def vector_max_size : Nat := 2 ^ 63 - 1

/-- The vector `node_ptc_nums_[node]`, also returned by `node_track_ids`. -/
def node_ptc_nums (g : RRGraph) (node : RRNodeId) : List Int :=
  at_id g.node_ptc_nums_ node []

/-- Body of `RRGraph::node_side` for a pin node. -/
def node_side (g : RRGraph) (node : RRNodeId) : e_side :=
  at_id g.node_sides_ node e_side.NUM_SIDES

/-- Body of `RRGraph::node_length`: the larger of the two extents, returned as
a `short`. -/
def node_length (g : RRGraph) (node : RRNodeId) : Int :=
  to_short (max (node_xhigh g node - node_xlow g node) (node_yhigh g node - node_ylow g node))

/-- Body of `RRGraph::set_node_bounding_box`. -/
def set_node_bounding_box (g : RRGraph) (node : RRNodeId) (bb : Rect) : Option RRGraph :=
  if valid_node_id g node then
    some { g with node_bounding_boxes_ := set_id g.node_bounding_boxes_ node bb }
  else none

/-- Body of `RRGraph::set_node_xhigh`. -/
def set_node_xhigh (g : RRGraph) (node : RRNodeId) (xhigh : Int) : Option RRGraph :=
  if valid_node_id g node then
    some { g with
      node_bounding_boxes_ :=
        set_id g.node_bounding_boxes_ node { node_bounding_box g node with xmax := xhigh } }
  else none

/-- Body of `RRGraph::set_node_ptc_num`: a channel node gets `node_length + 1`
entries, all equal to `ptc`; any other node must have exactly one entry, which
is overwritten. -/
def set_node_ptc_num (g : RRGraph) (node : RRNodeId) (ptc : Int) : Option RRGraph :=
  if valid_node_id g node then
    if node_type g node = t_rr_type.CHANX ∨ node_type g node = t_rr_type.CHANY then
      let n := (to_size_t (node_length g node) + 1) % 2 ^ 64
      if n ≠ (node_ptc_nums g node).length ∧ n > vector_max_size then none
      else some { g with node_ptc_nums_ := set_id g.node_ptc_nums_ node (List.replicate n ptc) }
    else if (node_ptc_nums g node).length = 1 then
      some { g with node_ptc_nums_ := set_id g.node_ptc_nums_ node [ptc] }
    else none
  else none

/-- Body of `RRGraph::set_node_track_num`. -/
def set_node_track_num (g : RRGraph) (node : RRNodeId) (track_id : Int) : Option RRGraph :=
  if valid_node_id g node
      ∧ (node_type g node = t_rr_type.CHANX ∨ node_type g node = t_rr_type.CHANY) then
    set_node_ptc_num g node track_id
  else none

/-- Body of `RRGraph::set_node_class_num`. -/
def set_node_class_num (g : RRGraph) (node : RRNodeId) (class_id : Int) : Option RRGraph :=
  if valid_node_id g node
      ∧ (node_type g node = t_rr_type.SOURCE ∨ node_type g node = t_rr_type.SINK) then
    set_node_ptc_num g node class_id
  else none

/-- One iteration of the first loop of `build_fast_node_lookup`: an invalid
id is skipped, a valid node contributes both corners of its bounding box. -/
def max_coord_step (g : RRGraph) (m : Int × Int) (id : Nat) : Int × Int :=
  if !valid_node_id g (some id) then m
  else
    (max m.1 (max (node_xhigh g (some id)) (node_xlow g (some id))),
     max m.2 (max (node_yhigh g (some id)) (node_ylow g (some id))))

/-- The value of `max_coord` after the first loop of
`build_fast_node_lookup`, which starts at (0, 0). -/
def lookup_max_coord (g : RRGraph) : Int × Int :=
  (List.range g.num_nodes_).foldl (max_coord_step g) (0, 0)

/-- The vector `node_x` (`node_y`) of `build_fast_node_lookup`:
`|lo - hi| + 1` consecutive `size_t` values from `size_t(min(lo, hi))`. -/
def span_cells (lo hi : Int) : List Nat :=
  (List.range ((lo - hi).natAbs + 1)).map (fun k => (to_size_t (min lo hi) + k) % 2 ^ 64)

/-- The statement `if (i >= v.size()) v.resize(i + 1)` of the write loop, the
sum taken in `size_t`. -/
def grow {α : Type} (v : List α) (i : Nat) (fill : α) : List α :=
  if i ≥ v.length then resize v ((i + 1) % 2 ^ 64) fill else v

/-- The last four statements of the innermost loop of
`build_fast_node_lookup`: the two conditional `resize` calls and the
assignment `node_lookup_[x][y][itype][ptc][iside] = node`.  An index outside
the table, or outside a vector after its `resize`, and a `resize` beyond
`vector_max_size`, give `none`. -/
def lookup_write (L : Lookup) (x y itype ptc iside : Nat) (node : RRNodeId) : Option Lookup :=
  if x < L.length ∧ y < (L.getD x []).length ∧ itype < ((L.getD x []).getD y []).length then
    let row := ((L.getD x []).getD y []).getD itype []
    if ptc ≥ row.length ∧ (ptc + 1) % 2 ^ 64 > vector_max_size then none
    else
      let row1 := grow row ptc []
      if ptc < row1.length then
        let cell1 := grow (row1.getD ptc []) iside none
        if iside < cell1.length then
          some (L.set x ((L.getD x []).set y
            (((L.getD x []).getD y []).set itype (row1.set ptc (cell1.set iside node)))))
        else none
      else none
  else none

/-- Body of the innermost loop of `build_fast_node_lookup` for node `id` at
the cell `(x, y)`: the track, pin or class number is read from the ptc vector
of the node (at the offset of the cell for a channel node), the side from the
node for a pin node, and the node is written into the table. -/
def lookup_cell_step (g : RRGraph) (id : Nat) (x : Nat) (L : Lookup) (y : Nat) :
    Option Lookup :=
  let node : RRNodeId := some id
  match (node_ptc_nums g node)[0]? with
  | none => none
  | some p0 =>
    let ptc : Option Nat :=
      if node_type g node = t_rr_type.CHANX then
        ((node_ptc_nums g node)[(x + 2 ^ 64 - to_size_t (node_xlow g node)) % 2 ^ 64]?).map
          to_size_t
      else if node_type g node = t_rr_type.CHANY then
        ((node_ptc_nums g node)[(y + 2 ^ 64 - to_size_t (node_ylow g node)) % 2 ^ 64]?).map
          to_size_t
      else some (to_size_t p0)
    let iside : Nat :=
      if node_type g node = t_rr_type.OPIN ∨ node_type g node = t_rr_type.IPIN then
        side_index (node_side g node)
      else side_index e_side.NUM_SIDES
    match ptc with
    | none => none
    | some p => lookup_write L x y (rr_type_index (node_type g node)) p iside node

/-- Body of the second loop of `build_fast_node_lookup` for one id: an
invalid id is skipped; otherwise the two assertions on `node_x.back()` and
`node_y.back()` are checked and the cells of the node are visited, `x` in the
outer loop and `y` in the inner one. -/
def lookup_node_step (g : RRGraph) (L : Lookup) (id : Nat) : Option Lookup :=
  if !valid_node_id g (some id) then some L
  else
    let node : RRNodeId := some id
    let node_x := span_cells (node_xlow g node) (node_xhigh g node)
    let node_y := span_cells (node_ylow g node) (node_yhigh g node)
    if node_x.getLast? = some (to_size_t (max (node_xlow g node) (node_xhigh g node)))
        ∧ node_y.getLast? = some (to_size_t (max (node_ylow g node) (node_yhigh g node))) then
      node_x.foldlM (fun L1 x => node_y.foldlM (lookup_cell_step g id x) L1) L
    else none

/-- Body of `RRGraph::build_fast_node_lookup`: the table is cleared, sized
`(max x + 1, max y + 1, NUM_RR_TYPES + 1)` and filled node by node in
ascending id. -/
def build_fast_node_lookup (g : RRGraph) : Option RRGraph :=
  let g0 := invalidate_fast_node_lookup g
  let m := lookup_max_coord g0
  let L0 : Lookup :=
    List.replicate (to_size_t m.1 + 1)
      (List.replicate (to_size_t m.2 + 1) (List.replicate (NUM_RR_TYPES + 1) []))
  ((List.range g0.num_nodes_).foldlM (lookup_node_step g0) L0).map
    (fun L => { g0 with node_lookup_ := L })

/-- Body of `RRGraph::initialize_fast_node_lookup`. -/
def initialize_fast_node_lookup (g : RRGraph) : Option RRGraph :=
  if valid_fast_node_lookup g then some g else build_fast_node_lookup g

/-- The `dim_size(i)` of the three outer levels of the table, which is
rectangular: the sizes of levels 1 and 2 are read at index 0. -/
def dim_size (L : Lookup) : Nat → Nat
  | 0 => L.length
  | 1 => (L.getD 0 []).length
  | _ => ((L.getD 0 []).getD 0 []).length

/-- The unsigned difference `n - 1` of a `size_t` value `n`. -/
def size_minus_one (n : Nat) : Nat := if n = 0 then 2 ^ 64 - 1 else n - 1

/-- The range checks and the final read of `RRGraph::find_node` on the table
`L`: each index is compared with the unsigned `size - 1` of its level and the
size with 0; any failed check gives the invalid handle. -/
def find_node_in (L : Lookup) (x y : Int) (type : t_rr_type) (ptc : Int) (side : e_side) :
    RRNodeId :=
  let itype := rr_type_index type
  let iside := side_index side
  if x < 0 ∨ to_size_t x > size_minus_one (dim_size L 0) ∨ 0 = dim_size L 0 then none
  else if y < 0 ∨ to_size_t y > size_minus_one (dim_size L 1) ∨ 0 = dim_size L 1 then none
  else if itype > size_minus_one (dim_size L 2) ∨ 0 = dim_size L 2 then none
  else
    let row := ((L.getD (to_size_t x) []).getD (to_size_t y) []).getD itype []
    if ptc < 0 ∨ to_size_t ptc > size_minus_one row.length ∨ 0 = row.length then none
    else
      let cell := row.getD (to_size_t ptc) []
      if iside > size_minus_one cell.length ∨ 0 = cell.length then none
      else cell.getD iside none

/-- Body of `RRGraph::find_node`: the lazy build, then the checks and the
read.  The result is paired with the state that holds the table. -/
def find_node (g : RRGraph) (x y : Int) (type : t_rr_type) (ptc : Int) (side : e_side) :
    Option (RRGraph × RRNodeId) :=
  (initialize_fast_node_lookup g).map
    (fun g1 => (g1, find_node_in g1.node_lookup_ x y type ptc side))

/-- The range checks and the final read of `RRGraph::chan_num_tracks` on the
table `L`: three checks against the unsigned `dim_size - 1`, then the number
of entries of `node_lookup_[x][y][type]` as a `short`.  The read is defined
only inside the table. -/
def chan_num_tracks_in (L : Lookup) (x y : Int) (type : t_rr_type) : Option Int :=
  if x < 0 ∨ to_size_t x > size_minus_one (dim_size L 0) then some 0
  else if y < 0 ∨ to_size_t y > size_minus_one (dim_size L 1) then some 0
  else if rr_type_index type > size_minus_one (dim_size L 2) then some 0
  else if to_size_t x < L.length ∧ to_size_t y < (L.getD (to_size_t x) []).length
      ∧ rr_type_index type < ((L.getD (to_size_t x) []).getD (to_size_t y) []).length then
    some (to_short
      (((L.getD (to_size_t x) []).getD (to_size_t y) []).getD (rr_type_index type) []).length)
  else none

/-- Body of `RRGraph::chan_num_tracks`: the type must be CHANX or CHANY; the
table is built if it is empty, then read. -/
def chan_num_tracks (g : RRGraph) (x y : Int) (type : t_rr_type) : Option (RRGraph × Int) :=
  if type = t_rr_type.CHANX ∨ type = t_rr_type.CHANY then
    (initialize_fast_node_lookup g).bind
      (fun g1 => (chan_num_tracks_in g1.node_lookup_ x y type).map (fun n => (g1, n)))
  else none

/-- The entry `[x][y][t][p][s]` of the table, the invalid handle outside
it. -/
def lookup_get (L : Lookup) (x y t p s : Nat) : RRNodeId :=
  ((((L.getD x []).getD y []).getD t []).getD p []).getD s none

/-- Sizes of the three outer levels of the table. -/
def lookup_shape (L : Lookup) : List (List Nat) := L.map (fun col => col.map List.length)

/-- The key `(x, y, itype, ptc, iside)` under which the innermost loop of
`build_fast_node_lookup` records node `c.1` at the cell `(c.2.1, c.2.2)`;
`none` where the ptc vector is read outside its bounds. -/
def cell_key (g : RRGraph) (c : Nat × Nat × Nat) : Option (Nat × Nat × Nat × Nat × Nat) :=
  let node : RRNodeId := some c.1
  match (node_ptc_nums g node)[0]? with
  | none => none
  | some p0 =>
    let ptc : Option Nat :=
      if node_type g node = t_rr_type.CHANX then
        ((node_ptc_nums g node)[(c.2.1 + 2 ^ 64 - to_size_t (node_xlow g node)) % 2 ^ 64]?).map
          to_size_t
      else if node_type g node = t_rr_type.CHANY then
        ((node_ptc_nums g node)[(c.2.2 + 2 ^ 64 - to_size_t (node_ylow g node)) % 2 ^ 64]?).map
          to_size_t
      else some (to_size_t p0)
    let iside : Nat :=
      if node_type g node = t_rr_type.OPIN ∨ node_type g node = t_rr_type.IPIN then
        side_index (node_side g node)
      else side_index e_side.NUM_SIDES
    ptc.map (fun p => (c.2.1, c.2.2, rr_type_index (node_type g node), p, iside))

/-- The cells `(id, x, y)` visited for node `id` by the second loop of
`build_fast_node_lookup`, in the order of the loops. -/
def node_cells (g : RRGraph) (id : Nat) : List (Nat × Nat × Nat) :=
  if valid_node_id g (some id) then
    (span_cells (node_xlow g (some id)) (node_xhigh g (some id))).flatMap
      (fun x => (span_cells (node_ylow g (some id)) (node_yhigh g (some id))).map
        (fun y => (id, x, y)))
  else []

/-- All cells visited by the second loop of `build_fast_node_lookup`. -/
def lookup_cells (g : RRGraph) : List (Nat × Nat × Nat) :=
  (List.range g.num_nodes_).flatMap (node_cells g)

/-- One iteration of the innermost loop, on a cell of `lookup_cells`. -/
def cell_step (g : RRGraph) (L : Lookup) (c : Nat × Nat × Nat) : Option Lookup :=
  lookup_cell_step g c.1 c.2.1 L c.2.2

/-- The table as sized by `build_fast_node_lookup` before it is filled. -/
def empty_lookup (g : RRGraph) : Lookup :=
  List.replicate (to_size_t (lookup_max_coord g).1 + 1)
    (List.replicate (to_size_t (lookup_max_coord g).2 + 1)
      (List.replicate (NUM_RR_TYPES + 1) []))

/-- The track, pin or class number under which `build_fast_node_lookup`
records a node at the cell `(x, y)`: the entry of its ptc vector at the offset
of the cell for a channel node, entry 0 for any other node. -/
def node_ptc_at (g : RRGraph) (node : RRNodeId) (x y : Int) : Int :=
  if node_type g node = t_rr_type.CHANX then
    (node_ptc_nums g node).getD (x - node_xlow g node).toNat 0
  else if node_type g node = t_rr_type.CHANY then
    (node_ptc_nums g node).getD (y - node_ylow g node).toNat 0
  else (node_ptc_nums g node).getD 0 0

/-- The side slot under which `build_fast_node_lookup` records a node: its
side for a pin node, `NUM_SIDES` for any other node. -/
def node_side_slot (g : RRGraph) (node : RRNodeId) : Nat :=
  if node_type g node = t_rr_type.OPIN ∨ node_type g node = t_rr_type.IPIN then
    side_index (node_side g node)
  else side_index e_side.NUM_SIDES

/-- Node `id` is recorded by `build_fast_node_lookup` under the query
`(x, y, type, ptc, side)`: the cell lies between the corners of its bounding
box, and its type, its ptc number at the cell and its side slot are those of
the query. -/
def node_records (g : RRGraph) (id : Nat) (x y : Int) (type : t_rr_type) (ptc : Int)
    (side : e_side) : Bool :=
  decide (min (node_xlow g (some id)) (node_xhigh g (some id)) ≤ x
    ∧ x ≤ max (node_xlow g (some id)) (node_xhigh g (some id))
    ∧ min (node_ylow g (some id)) (node_yhigh g (some id)) ≤ y
    ∧ y ≤ max (node_ylow g (some id)) (node_yhigh g (some id))
    ∧ node_type g (some id) = type
    ∧ node_ptc_at g (some id) x y = ptc
    ∧ node_side_slot g (some id) = side_index side)

/-- A valid node that `build_fast_node_lookup` can record without leaving the
table or the ptc vector: its coordinates and ptc numbers are non-negative
`short` values, a CHANX node has `xlow <= xhigh` and a ptc entry for every
offset `0..xhigh - xlow`, a CHANY node likewise along y, any other node has a
ptc entry 0. -/
def node_ready (g : RRGraph) (id : Nat) : Bool :=
  let node : RRNodeId := some id
  decide (0 ≤ node_xlow g node ∧ node_xlow g node < 2 ^ 15
    ∧ 0 ≤ node_ylow g node ∧ node_ylow g node < 2 ^ 15
    ∧ 0 ≤ node_xhigh g node ∧ node_xhigh g node < 2 ^ 15
    ∧ 0 ≤ node_yhigh g node ∧ node_yhigh g node < 2 ^ 15)
  && (node_ptc_nums g node).all (fun p => decide (0 ≤ p ∧ p < 2 ^ 15))
  && decide (0 < (node_ptc_nums g node).length)
  && (if node_type g node = t_rr_type.CHANX then
        decide (node_xlow g node ≤ node_xhigh g node
          ∧ node_xhigh g node - node_xlow g node < (node_ptc_nums g node).length)
      else if node_type g node = t_rr_type.CHANY then
        decide (node_ylow g node ≤ node_yhigh g node
          ∧ node_yhigh g node - node_ylow g node < (node_ptc_nums g node).length)
      else true)

/-- Every valid node is `node_ready`. -/
def lookup_ready (g : RRGraph) : Bool :=
  (List.range g.num_nodes_).all (fun id => !valid_node_id g (some id) || node_ready g id)

/-- The scenario of the specification with its geometry: SOURCE at (0, 0)
with class 0, CHANX spanning x = 0..2 at y = 0 on track 1, SINK at (2, 0)
with class 0. -/
def lookup_scenario : Option RRGraph := do
  let (g1, n0) ← create_node RRGraph.empty t_rr_type.SOURCE
  let g2 ← set_node_bounding_box g1 n0 ⟨0, 0, 0, 0⟩
  let g3 ← set_node_class_num g2 n0 0
  let (g4, n1) ← create_node g3 t_rr_type.CHANX
  let g5 ← set_node_bounding_box g4 n1 ⟨0, 0, 2, 0⟩
  let g6 ← set_node_track_num g5 n1 1
  let (g7, n2) ← create_node g6 t_rr_type.SINK
  let g8 ← set_node_bounding_box g7 n2 ⟨2, 0, 2, 0⟩
  set_node_class_num g8 n2 0

/-! ## Example graphs for the spatial index -/

/-- The graph of `lookup_scenario`. -/
def lookup_scenario_graph : RRGraph := lookup_scenario.getD RRGraph.empty

/-- One SOURCE node with the box (0, 0, 3, 0) and class 0; the index is built
by a query, then `set_node_xhigh` shrinks the box to (0, 0, 0, 0). -/
def stale_source : Option RRGraph := do
  let (g1, n0) ← create_node RRGraph.empty t_rr_type.SOURCE
  let g2 ← set_node_bounding_box g1 n0 ⟨0, 0, 3, 0⟩
  let g3 ← set_node_class_num g2 n0 0
  let (g4, _) ← find_node g3 3 0 t_rr_type.SOURCE 0 e_side.NUM_SIDES
  set_node_xhigh g4 n0 0

/-- One CHANX node with the box (0, 0, 5, 0) on track 0; the index is built
by a query, then `set_node_xhigh` shrinks the box to (0, 0, 0, 0). -/
def stale_channel : Option RRGraph := do
  let (g1, n0) ← create_node RRGraph.empty t_rr_type.CHANX
  let g2 ← set_node_bounding_box g1 n0 ⟨0, 0, 5, 0⟩
  let g3 ← set_node_track_num g2 n0 0
  let (g4, _) ← chan_num_tracks g3 5 0 t_rr_type.CHANX
  set_node_xhigh g4 n0 0

/-- Two CHANX nodes, both with the box (0, 0, 0, 0) and track 0. -/
def shared_track : Option RRGraph := do
  let (g1, n0) ← create_node RRGraph.empty t_rr_type.CHANX
  let g2 ← set_node_bounding_box g1 n0 ⟨0, 0, 0, 0⟩
  let g3 ← set_node_track_num g2 n0 0
  let (g4, n1) ← create_node g3 t_rr_type.CHANX
  let g5 ← set_node_bounding_box g4 n1 ⟨0, 0, 0, 0⟩
  set_node_track_num g5 n1 0

/-- One CHANX node with the box (0, 0, 0, 0) on track 0; the index is built
by a query, then the box is widened to (0, 0, 1, 0) and the track set again. -/
def moved_channel : Option RRGraph := do
  let (g1, n0) ← create_node RRGraph.empty t_rr_type.CHANX
  let g2 ← set_node_bounding_box g1 n0 ⟨0, 0, 0, 0⟩
  let g3 ← set_node_track_num g2 n0 0
  let (g4, _) ← find_node g3 0 0 t_rr_type.CHANX 0 e_side.NUM_SIDES
  let g5 ← set_node_bounding_box g4 n0 ⟨0, 0, 1, 0⟩
  set_node_track_num g5 n0 0

/-- One SOURCE node as `create_node` leaves it: box (-1, -1, -1, -1) and ptc
vector `[-1]`. -/
def default_node : Option RRGraph :=
  (create_node RRGraph.empty t_rr_type.SOURCE).map Prod.fst

/-- One SOURCE node with the box (0, 0, 0, 0) and the default ptc vector
`[-1]`. -/
def default_ptc_node : Option RRGraph := do
  let (g1, n0) ← create_node RRGraph.empty t_rr_type.SOURCE
  set_node_bounding_box g1 n0 ⟨0, 0, 0, 0⟩

/-- One CHANX node whose track is set to 5 while it has the default box, so
that its ptc vector has one entry, and whose box is then set to
(0, 0, 2, 0). -/
def short_ptc_channel : Option RRGraph := do
  let (g1, n0) ← create_node RRGraph.empty t_rr_type.CHANX
  let g2 ← set_node_track_num g1 n0 5
  set_node_bounding_box g2 n0 ⟨0, 0, 2, 0⟩

/-! ## Further accessors, setters and the validator -/

/-- Body of `RRGraph::node_direction`: the type must be CHANX or CHANY. -/
def node_direction (g : RRGraph) (node : RRNodeId) : Option e_direction :=
  if node_type g node = t_rr_type.CHANX ∨ node_type g node = t_rr_type.CHANY then
    some (at_id g.node_directions_ node e_direction.NO_DIRECTION)
  else none

/-- Body of `RRGraph::node_start_coordinate`: the type must be CHANX or CHANY;
the point starts as `(xlow, ylow)` and is set to `(xhigh, yhigh)` when the
direction is `DEC_DIRECTION`. -/
def node_start_coordinate (g : RRGraph) (node : RRNodeId) : Option (Int × Int) :=
  if node_type g node = t_rr_type.CHANX ∨ node_type g node = t_rr_type.CHANY then
    (node_direction g node).map (fun d =>
      if d = e_direction.DEC_DIRECTION then (node_xhigh g node, node_yhigh g node)
      else (node_xlow g node, node_ylow g node))
  else none

/-- Body of `RRGraph::node_end_coordinate`: the type must be CHANX or CHANY;
the point starts as `(xhigh, yhigh)` and is set to `(xlow, ylow)` when the
direction is `DEC_DIRECTION`. -/
def node_end_coordinate (g : RRGraph) (node : RRNodeId) : Option (Int × Int) :=
  if node_type g node = t_rr_type.CHANX ∨ node_type g node = t_rr_type.CHANY then
    (node_direction g node).map (fun d =>
      if d = e_direction.DEC_DIRECTION then (node_xlow g node, node_ylow g node)
      else (node_xhigh g node, node_yhigh g node))
  else none

/-- Body of `RRGraph::node_ptc_num`: entry 0 of the ptc vector of the node;
`none` where the vector is empty and the read leaves it. -/
def node_ptc_num (g : RRGraph) (node : RRNodeId) : Option Int :=
  (node_ptc_nums g node)[0]?

/-- Body of `RRGraph::node_pin_num`: the type must be IPIN or OPIN. -/
def node_pin_num (g : RRGraph) (node : RRNodeId) : Option Int :=
  if node_type g node = t_rr_type.IPIN ∨ node_type g node = t_rr_type.OPIN then
    node_ptc_num g node
  else none

/-- Body of `RRGraph::node_track_num`: the type must be CHANX or CHANY. -/
def node_track_num (g : RRGraph) (node : RRNodeId) : Option Int :=
  if node_type g node = t_rr_type.CHANX ∨ node_type g node = t_rr_type.CHANY then
    node_ptc_num g node
  else none

/-- Body of `RRGraph::node_class_num`: the type must be SOURCE or SINK. -/
def node_class_num (g : RRGraph) (node : RRNodeId) : Option Int :=
  if node_type g node = t_rr_type.SOURCE ∨ node_type g node = t_rr_type.SINK then
    node_ptc_num g node
  else none

/-- Body of `RRGraph::set_node_type`. -/
def set_node_type (g : RRGraph) (node : RRNodeId) (type : t_rr_type) : Option RRGraph :=
  if valid_node_id g node then
    some { g with node_types_ := set_id g.node_types_ node type }
  else none

/-- Body of `RRGraph::set_node_xlow`. -/
def set_node_xlow (g : RRGraph) (node : RRNodeId) (xlow : Int) : Option RRGraph :=
  if valid_node_id g node then
    some { g with
      node_bounding_boxes_ :=
        set_id g.node_bounding_boxes_ node { node_bounding_box g node with xmin := xlow } }
  else none

/-- Body of `RRGraph::set_node_ylow`. -/
def set_node_ylow (g : RRGraph) (node : RRNodeId) (ylow : Int) : Option RRGraph :=
  if valid_node_id g node then
    some { g with
      node_bounding_boxes_ :=
        set_id g.node_bounding_boxes_ node { node_bounding_box g node with ymin := ylow } }
  else none

/-- Body of `RRGraph::set_node_yhigh`. -/
def set_node_yhigh (g : RRGraph) (node : RRNodeId) (yhigh : Int) : Option RRGraph :=
  if valid_node_id g node then
    some { g with
      node_bounding_boxes_ :=
        set_id g.node_bounding_boxes_ node { node_bounding_box g node with ymax := yhigh } }
  else none

/-- Body of `RRGraph::set_node_direction`: the node must be valid and of type
CHANX or CHANY. -/
def set_node_direction (g : RRGraph) (node : RRNodeId) (direction : e_direction) :
    Option RRGraph :=
  if valid_node_id g node
      ∧ (node_type g node = t_rr_type.CHANX ∨ node_type g node = t_rr_type.CHANY) then
    some { g with node_directions_ := set_id g.node_directions_ node direction }
  else none

/-- Body of `RRGraph::set_node_pin_num`. -/
def set_node_pin_num (g : RRGraph) (node : RRNodeId) (pin_id : Int) : Option RRGraph :=
  if valid_node_id g node
      ∧ (node_type g node = t_rr_type.IPIN ∨ node_type g node = t_rr_type.OPIN) then
    set_node_ptc_num g node pin_id
  else none

/-- Body of `RRGraph::get_switch`: the record `switches_[switch_id]`, `none`
outside the catalog. -/
def get_switch (g : RRGraph) (switch_id : RRSwitchId) : Option t_rr_switch_inf :=
  match switch_id with
  | some i => g.switches_[i]?
  | none => none

/-- Body of `RRGraph::get_segment`: the record `segments_[segment_id]`, `none`
outside the catalog. -/
def get_segment (g : RRGraph) (segment_id : RRSegmentId) : Option t_segment_inf :=
  match segment_id with
  | some i => g.segments_[i]?
  | none => none

/-- Body of `RRGraph::find_edges`: the edges of the out-range of `src_node`
whose sink is `sink_node`, in the order of the out-range. -/
def find_edges (g : RRGraph) (src_node sink_node : RRNodeId) : List RREdgeId :=
  (node_out_edges g src_node).filter (fun edge => edge_sink_node g edge == sink_node)

/-- Body of `RRGraph::validate_node_segment`: a CHANX or CHANY node needs a
segment id inside the catalog, any other node passes. -/
def validate_node_segment (g : RRGraph) (node : RRNodeId) : Bool :=
  if node_type g node = t_rr_type.CHANX ∨ node_type g node = t_rr_type.CHANY then
    valid_segment_id g (node_segment g node)
  else true

/-- Body of `RRGraph::validate_node_segments`: the check of every valid
node. -/
def validate_node_segments (g : RRGraph) : Bool :=
  (List.range g.num_nodes_).all
    (fun id => !valid_node_id g (some id) || validate_node_segment g (some id))

/-- Body of `RRGraph::validate_edge_switch`. -/
def validate_edge_switch (g : RRGraph) (edge : RREdgeId) : Bool :=
  valid_switch_id g (edge_switch g edge)

/-- Body of `RRGraph::validate_edge_switches`: the check of every valid
edge. -/
def validate_edge_switches (g : RRGraph) : Bool :=
  (List.range g.num_edges_).all
    (fun id => !valid_edge_id g (some id) || validate_edge_switch g (some id))

/-- Body of `RRGraph::validate_edge_src_node`. -/
def validate_edge_src_node (g : RRGraph) (edge : RREdgeId) : Bool :=
  valid_node_id g (edge_src_node g edge)

/-- Body of `RRGraph::validate_edge_sink_node`. -/
def validate_edge_sink_node (g : RRGraph) (edge : RREdgeId) : Bool :=
  valid_node_id g (edge_sink_node g edge)

/-- Body of `RRGraph::validate_edge_src_nodes`: the check of every valid
edge. -/
def validate_edge_src_nodes (g : RRGraph) : Bool :=
  (List.range g.num_edges_).all
    (fun id => !valid_edge_id g (some id) || validate_edge_src_node g (some id))

/-- Body of `RRGraph::validate_edge_sink_nodes`: the check of every valid
edge. -/
def validate_edge_sink_nodes (g : RRGraph) : Bool :=
  (List.range g.num_edges_).all
    (fun id => !valid_edge_id g (some id) || validate_edge_sink_node g (some id))

/-- The counter `num_err` of `RRGraph::validate` before its `return`: one
count for each of the four checks that fails, each check being evaluated. -/
def validate_num_err (g : RRGraph) : Nat :=
  (if validate_sizes g = false then 1 else 0)
  + (if validate_nodes_edges g = false then 1 else 0)
  + (if validate_node_segments g = false then 1 else 0)
  + (if validate_edge_switches g = false then 1 else 0)

/-- Body of `RRGraph::validate`: the lazy build of the spatial index, the four
checks, and the verdict `0 == num_err`, paired with the state that holds the
table. -/
def validate (g : RRGraph) : Option (RRGraph × Bool) :=
  (initialize_fast_node_lookup g).map (fun g1 => (g1, decide (0 = validate_num_err g1)))

/-- The two catalogs with their id vectors. -/
def catalog_view (g : RRGraph) :=
  (g.switch_ids_, g.switches_, g.segment_ids_, g.segments_)

/-! ## Example graphs for accessors and the validator -/

/-- One CHANX node with the box (3, 0, 1, 0): `xhigh < xlow`. -/
def reversed_box : Option RRGraph := do
  let (g1, n0) ← create_node RRGraph.empty t_rr_type.CHANX
  set_node_bounding_box g1 n0 ⟨3, 0, 1, 0⟩

/-- One CHANX node with the box (1, 1, 0, 0), `xhigh < xlow` and
`yhigh < ylow`, after `set_node_ptc_num(0, 5)`. -/
def reversed_box_ptc : Option RRGraph := do
  let (g1, n0) ← create_node RRGraph.empty t_rr_type.CHANX
  let g2 ← set_node_bounding_box g1 n0 ⟨1, 1, 0, 0⟩
  set_node_ptc_num g2 n0 5

/-- A SOURCE node and a SINK node, both at (0, 0) with class 0, one
configurable switch and edge 0 from node 0 to node 1; no adjacency is built
and `remove_node(1)` is called. -/
def dangling_sink : Option RRGraph := do
  let (g1, n0) ← create_node RRGraph.empty t_rr_type.SOURCE
  let g2 ← set_node_bounding_box g1 n0 ⟨0, 0, 0, 0⟩
  let g3 ← set_node_class_num g2 n0 0
  let (g4, n1) ← create_node g3 t_rr_type.SINK
  let g5 ← set_node_bounding_box g4 n1 ⟨0, 0, 0, 0⟩
  let g6 ← set_node_class_num g5 n1 0
  let (g7, sw) := create_switch g6 ⟨true, 0⟩
  let (g8, _) ← create_edge g7 n0 n1 sw false
  remove_node g8 n1

/-- One CHANX node with the box (1, 2, 4, 2) and direction `DEC_DIRECTION`. -/
def dec_channel : Option RRGraph := do
  let (g1, n0) ← create_node RRGraph.empty t_rr_type.CHANX
  let g2 ← set_node_bounding_box g1 n0 ⟨1, 2, 4, 2⟩
  set_node_direction g2 n0 e_direction.DEC_DIRECTION

/-- The graph of `dec_channel`. -/
def dec_channel_graph : RRGraph := dec_channel.getD RRGraph.empty

/-- One node with the box (-1, 0, 32767, 0): `xlow` keeps the value -1 that
`create_node` stores and `set_node_xhigh` stores the largest `short`. -/
def wide_box : Option RRGraph := do
  let (g1, n0) ← create_node RRGraph.empty t_rr_type.CHANX
  let g2 ← set_node_xhigh g1 n0 32767
  let g3 ← set_node_ylow g2 n0 0
  set_node_yhigh g3 n0 0

/-- One CHANX node with the box (0, 0, 2, 0) and the ptc number 4 in its
three entries, then retyped to SOURCE by `set_node_type`. -/
def retyped_node : Option RRGraph := do
  let (g1, n0) ← create_node RRGraph.empty t_rr_type.CHANX
  let g2 ← set_node_bounding_box g1 n0 ⟨0, 0, 2, 0⟩
  let g3 ← set_node_ptc_num g2 n0 4
  set_node_type g3 n0 t_rr_type.SOURCE

/-- A SOURCE node and a SINK node, both at (0, 0) with class 0, one
configurable switch, edge 0 from node 0 to node 1 and the adjacency built by
`rebuild_node_edges`. -/
def connected_pair : Option RRGraph := do
  let (g1, n0) ← create_node RRGraph.empty t_rr_type.SOURCE
  let g2 ← set_node_bounding_box g1 n0 ⟨0, 0, 0, 0⟩
  let g3 ← set_node_class_num g2 n0 0
  let (g4, n1) ← create_node g3 t_rr_type.SINK
  let g5 ← set_node_bounding_box g4 n1 ⟨0, 0, 0, 0⟩
  let g6 ← set_node_class_num g5 n1 0
  let (g7, sw) := create_switch g6 ⟨true, 0⟩
  let (g8, _) ← create_edge g7 n0 n1 sw false
  some (rebuild_node_edges g8)

/-- The graph of `connected_pair`. -/
def connected_pair_graph : RRGraph := connected_pair.getD RRGraph.empty

/-- The graph of `dangling_sink`. -/
def dangling_sink_graph : RRGraph := dangling_sink.getD RRGraph.empty

/-! ## Remaining setters and sequences of public calls -/

/-- Body of `RRGraph::set_edge_switch`: the edge and the switch id must be
valid. -/
def set_edge_switch (g : RRGraph) (edge : RREdgeId) (switch_id : RRSwitchId) :
    Option RRGraph :=
  if valid_edge_id g edge ∧ valid_switch_id g switch_id then
    some { g with edge_switches_ := set_id g.edge_switches_ edge switch_id }
  else none

/-- Body of `RRGraph::set_node_capacity`. -/
def set_node_capacity (g : RRGraph) (node : RRNodeId) (capacity : Int) : Option RRGraph :=
  if valid_node_id g node then
    some { g with node_capacities_ := set_id g.node_capacities_ node capacity }
  else none

/-- Body of `RRGraph::add_node_track_num`: the node must be valid and of type
CHANX or CHANY; the ptc vector is resized to `node_length + 1` entries if it
has another size (new entries are 0), the offset
`node_offset.x - xlow + node_offset.y - ylow` is computed in `size_t` and must
lie inside the vector, and the entry at the offset is written. -/
def add_node_track_num (g : RRGraph) (node : RRNodeId) (node_offset : Nat × Nat)
    (track_id : Int) : Option RRGraph :=
  if valid_node_id g node
      ∧ (node_type g node = t_rr_type.CHANX ∨ node_type g node = t_rr_type.CHANY) then
    let n := (to_size_t (node_length g node) + 1) % 2 ^ 64
    if n ≠ (node_ptc_nums g node).length ∧ n > vector_max_size then none
    else
      let v : List Int :=
        if n ≠ (node_ptc_nums g node).length then resize (node_ptc_nums g node) n 0
        else node_ptc_nums g node
      let offset :=
        (node_offset.1 + 2 ^ 64 - to_size_t (node_xlow g node) + node_offset.2 + 2 ^ 64
          - to_size_t (node_ylow g node)) % 2 ^ 64
      if offset < v.length then
        some { g with node_ptc_nums_ := set_id g.node_ptc_nums_ node (v.set offset track_id) }
      else none
  else none

/-- Body of `RRGraph::set_node_cost_index`. -/
def set_node_cost_index (g : RRGraph) (node : RRNodeId) (cost_index : Int) : Option RRGraph :=
  if valid_node_id g node then
    some { g with node_cost_indices_ := set_id g.node_cost_indices_ node cost_index }
  else none

/-- Body of `RRGraph::set_node_side`: the node must be valid and of type IPIN
or OPIN. -/
def set_node_side (g : RRGraph) (node : RRNodeId) (side : e_side) : Option RRGraph :=
  if valid_node_id g node
      ∧ (node_type g node = t_rr_type.IPIN ∨ node_type g node = t_rr_type.OPIN) then
    some { g with node_sides_ := set_id g.node_sides_ node side }
  else none

/-- Body of `RRGraph::set_node_R`. -/
def set_node_R (g : RRGraph) (node : RRNodeId) (R : Nat) : Option RRGraph :=
  if valid_node_id g node then
    some { g with node_Rs_ := set_id g.node_Rs_ node R }
  else none

/-- Body of `RRGraph::set_node_C`. -/
def set_node_C (g : RRGraph) (node : RRNodeId) (C : Nat) : Option RRGraph :=
  if valid_node_id g node then
    some { g with node_Cs_ := set_id g.node_Cs_ node C }
  else none

/-- Body of `RRGraph::set_node_rc_data_index`. -/
def set_node_rc_data_index (g : RRGraph) (node : RRNodeId) (rc_data_index : Int) :
    Option RRGraph :=
  if valid_node_id g node then
    some { g with node_rc_data_indices_ := set_id g.node_rc_data_indices_ node rc_data_index }
  else none

/-- Body of `RRGraph::set_node_segment`: the node must be valid, and for a
CHANX or CHANY node the segment id must be valid. -/
def set_node_segment (g : RRGraph) (node : RRNodeId) (segment_id : RRSegmentId) :
    Option RRGraph :=
  if valid_node_id g node then
    if (node_type g node = t_rr_type.CHANX ∨ node_type g node = t_rr_type.CHANY)
        ∧ valid_segment_id g segment_id = false then none
    else some { g with node_segments_ := set_id g.node_segments_ node segment_id }
  else none

/-- A call of a public member function that may write the state: the
creation calls, the adjacency build, the removals, `compress`, every setter,
and the queries and the validator, which build the spatial index when it is
empty.  The calls that always return and take no handle, `clear` with its
four parts, `reserve_nodes`, `reserve_edges`, `reserve_switches`,
`reserve_segments`, `set_dirty` and `clear_dirty`, are not listed here; they
are the functions of the same names. -/
inductive Mutation where
  | create_node (type : t_rr_type)
  | create_edge (source sink : RRNodeId) (switch_id : RRSwitchId) (fake_switch : Bool)
  | create_switch (info : t_rr_switch_inf)
  | create_segment (info : t_segment_inf)
  | rebuild_node_edges
  | remove_node (node : RRNodeId)
  | remove_edge (edge : RREdgeId)
  | compress
  | set_edge_switch (edge : RREdgeId) (switch_id : RRSwitchId)
  | set_node_type (node : RRNodeId) (type : t_rr_type)
  | set_node_xlow (node : RRNodeId) (v : Int)
  | set_node_ylow (node : RRNodeId) (v : Int)
  | set_node_xhigh (node : RRNodeId) (v : Int)
  | set_node_yhigh (node : RRNodeId) (v : Int)
  | set_node_bounding_box (node : RRNodeId) (bb : Rect)
  | set_node_capacity (node : RRNodeId) (v : Int)
  | set_node_ptc_num (node : RRNodeId) (v : Int)
  | set_node_pin_num (node : RRNodeId) (v : Int)
  | set_node_track_num (node : RRNodeId) (v : Int)
  | set_node_class_num (node : RRNodeId) (v : Int)
  | add_node_track_num (node : RRNodeId) (node_offset : Nat × Nat) (v : Int)
  | set_node_cost_index (node : RRNodeId) (v : Int)
  | set_node_direction (node : RRNodeId) (d : e_direction)
  | set_node_side (node : RRNodeId) (side : e_side)
  | set_node_R (node : RRNodeId) (v : Nat)
  | set_node_C (node : RRNodeId) (v : Nat)
  | set_node_rc_data_index (node : RRNodeId) (v : Int)
  | set_node_segment (node : RRNodeId) (segment_id : RRSegmentId)
  | find_node (x y : Int) (type : t_rr_type) (ptc : Int) (side : e_side)
  | chan_num_tracks (x y : Int) (type : t_rr_type)
  | validate
  deriving DecidableEq, Repr

/-- The state left by a call, `none` where the call does not return. -/
def apply_mutation (g : RRGraph) : Mutation → Option RRGraph
  | .create_node type => (create_node g type).map Prod.fst
  | .create_edge source sink switch_id fake_switch =>
    (create_edge g source sink switch_id fake_switch).map Prod.fst
  | .create_switch info => some (create_switch g info).1
  | .create_segment info => some (create_segment g info).1
  | .rebuild_node_edges => some (rebuild_node_edges g)
  | .remove_node node => remove_node g node
  | .remove_edge edge => remove_edge g edge
  | .compress => compress g
  | .set_edge_switch edge switch_id => set_edge_switch g edge switch_id
  | .set_node_type node type => set_node_type g node type
  | .set_node_xlow node v => set_node_xlow g node v
  | .set_node_ylow node v => set_node_ylow g node v
  | .set_node_xhigh node v => set_node_xhigh g node v
  | .set_node_yhigh node v => set_node_yhigh g node v
  | .set_node_bounding_box node bb => set_node_bounding_box g node bb
  | .set_node_capacity node v => set_node_capacity g node v
  | .set_node_ptc_num node v => set_node_ptc_num g node v
  | .set_node_pin_num node v => set_node_pin_num g node v
  | .set_node_track_num node v => set_node_track_num g node v
  | .set_node_class_num node v => set_node_class_num g node v
  | .add_node_track_num node node_offset v => add_node_track_num g node node_offset v
  | .set_node_cost_index node v => set_node_cost_index g node v
  | .set_node_direction node d => set_node_direction g node d
  | .set_node_side node side => set_node_side g node side
  | .set_node_R node v => set_node_R g node v
  | .set_node_C node v => set_node_C g node v
  | .set_node_rc_data_index node v => set_node_rc_data_index g node v
  | .set_node_segment node segment_id => set_node_segment g node segment_id
  | .find_node x y type ptc side => (find_node g x y type ptc side).map Prod.fst
  | .chan_num_tracks x y type => (chan_num_tracks g x y type).map Prod.fst
  | .validate => (validate g).map Prod.fst

/-- The state reached from the empty graph by a sequence of calls, each of
which returns. -/
def run_mutations (ms : List Mutation) : Option RRGraph :=
  ms.foldlM apply_mutation RRGraph.empty

/-- The node count, the invalid-node set and the spatial index: what decides
the validity of a node id and the answer of a query on a built index. -/
def index_view (g : RRGraph) := (g.num_nodes_, g.invalid_node_ids_, g.node_lookup_)

/-- The calls of `Mutation` whose body runs `invalidate_fast_node_lookup()`:
`create_node`, `remove_node` and `compress`.  Outside `Mutation`, `clear`
runs it too and `clear_nodes` empties the table itself. -/
def clears_index : Mutation → Bool
  | .create_node _ => true
  | .remove_node _ => true
  | .compress => true
  | _ => false

/-- Every entry of the spatial index is the invalid handle or a valid node
id. -/
def index_sound (g : RRGraph) : Prop :=
  ∀ x y t p s : Nat, lookup_get g.node_lookup_ x y t p s = none
    ∨ valid_node_id g (lookup_get g.node_lookup_ x y t p s) = true

/-! ## Example graphs for the track setter, stale indices and shared keys -/

/-- One CHANX node with the box (0, 0, 1, 1): `node_length` is 1 and the
cell (1, 1) of its span has the offset 2. -/
def square_channel : Option RRGraph := do
  let (g1, n0) ← create_node RRGraph.empty t_rr_type.CHANX
  set_node_bounding_box g1 n0 ⟨0, 0, 1, 1⟩

/-- The graph of `square_channel`. -/
def square_channel_graph : RRGraph := square_channel.getD RRGraph.empty

/-- One SOURCE node at (0, 0) with class 0; the index is built by a query,
then `set_node_class_num` changes the class to 3. -/
def stale_class : Option RRGraph := do
  let (g1, n0) ← create_node RRGraph.empty t_rr_type.SOURCE
  let g2 ← set_node_bounding_box g1 n0 ⟨0, 0, 0, 0⟩
  let g3 ← set_node_class_num g2 n0 0
  let (g4, _) ← find_node g3 0 0 t_rr_type.SOURCE 0 e_side.NUM_SIDES
  set_node_class_num g4 n0 3

/-- One SOURCE node at (0, 0) with class 0; the index is built by a query,
then `set_node_type` makes the node a SINK. -/
def stale_type : Option RRGraph := do
  let (g1, n0) ← create_node RRGraph.empty t_rr_type.SOURCE
  let g2 ← set_node_bounding_box g1 n0 ⟨0, 0, 0, 0⟩
  let g3 ← set_node_class_num g2 n0 0
  let (g4, _) ← find_node g3 0 0 t_rr_type.SOURCE 0 e_side.NUM_SIDES
  set_node_type g4 n0 t_rr_type.SINK

/-- One CHANX node at (0, 0) on track 0; the index is built by a query, then
`add_node_track_num` moves the node to track 4. -/
def stale_track : Option RRGraph := do
  let (g1, n0) ← create_node RRGraph.empty t_rr_type.CHANX
  let g2 ← set_node_bounding_box g1 n0 ⟨0, 0, 0, 0⟩
  let g3 ← set_node_track_num g2 n0 0
  let (g4, _) ← chan_num_tracks g3 0 0 t_rr_type.CHANX
  add_node_track_num g4 n0 (0, 0) 4

/-- The scenario with geometry after a query has built its spatial index. -/
def indexed_scenario_graph : RRGraph :=
  ((find_node lookup_scenario_graph 0 0 t_rr_type.SOURCE 0 e_side.NUM_SIDES).map
    Prod.fst).getD RRGraph.empty

/-- A sequence of public calls: a SOURCE node at (0, 0) with class 0, a CHANX
node spanning x = 0..2 at y = 0 on track 1, and a query that builds the
spatial index. -/
def indexed_steps : List Mutation :=
  [.create_node t_rr_type.SOURCE,
   .set_node_bounding_box (some 0) ⟨0, 0, 0, 0⟩,
   .set_node_class_num (some 0) 0,
   .create_node t_rr_type.CHANX,
   .set_node_bounding_box (some 1) ⟨0, 0, 2, 0⟩,
   .set_node_track_num (some 1) 1,
   .find_node 0 0 t_rr_type.SOURCE 0 e_side.NUM_SIDES]

/-- The state reached by `indexed_steps`. -/
def indexed_steps_graph : RRGraph := (run_mutations indexed_steps).getD RRGraph.empty

/-- The graph of `shared_track`: two valid CHANX nodes with the box
(0, 0, 0, 0) on track 0. -/
def shared_track_graph : RRGraph := shared_track.getD RRGraph.empty

/-! ## Clearing and reserving -/

/-- Body of `RRGraph::reserve_nodes`: `reserve(num_nodes)` on every node
vector.  Only capacities change, which the state does not record. -/
def reserve_nodes (g : RRGraph) (_num_nodes : Nat) : RRGraph := g

/-- Body of `RRGraph::reserve_edges`: `reserve(num_edges)` on the three edge
vectors; contents and sizes are kept. -/
def reserve_edges (g : RRGraph) (_num_edges : Nat) : RRGraph := g

/-- Body of `RRGraph::reserve_switches`: `reserve(num_switches)` on the two
switch vectors; contents and sizes are kept. -/
def reserve_switches (g : RRGraph) (_num_switches : Nat) : RRGraph := g

/-- Body of `RRGraph::reserve_segments`: `reserve(num_segments)` on the two
segment vectors; contents and sizes are kept. -/
def reserve_segments (g : RRGraph) (_num_segments : Nat) : RRGraph := g

/-- Body of `RRGraph::clear_nodes`: the node count is zeroed, every node
attribute vector, the four edge counters and the adjacency arrays are
emptied, and so is the spatial index (`node_lookup_.clear()`). -/
def clear_nodes (g : RRGraph) : RRGraph :=
  { g with
    num_nodes_ := 0
    node_types_ := []
    node_bounding_boxes_ := []
    node_capacities_ := []
    node_ptc_nums_ := []
    node_cost_indices_ := []
    node_directions_ := []
    node_sides_ := []
    node_Rs_ := []
    node_Cs_ := []
    node_rc_data_indices_ := []
    node_segments_ := []
    node_num_in_edges_ := []
    node_num_out_edges_ := []
    node_num_non_configurable_in_edges_ := []
    node_num_non_configurable_out_edges_ := []
    node_edges_ := []
    node_lookup_ := [] }

/-- Body of `RRGraph::clear_edges`. -/
def clear_edges (g : RRGraph) : RRGraph :=
  { g with num_edges_ := 0, edge_src_nodes_ := [], edge_sink_nodes_ := [], edge_switches_ := [] }

/-- Body of `RRGraph::clear_switches`. -/
def clear_switches (g : RRGraph) : RRGraph :=
  { g with switch_ids_ := [], switches_ := [] }

/-- Body of `RRGraph::clear_segments`. -/
def clear_segments (g : RRGraph) : RRGraph :=
  { g with segment_ids_ := [], segments_ := [] }

/-- Body of `RRGraph::clear`: the four clearing calls, then
`invalidate_fast_node_lookup()`, then both invalid-id lists are emptied and
the dirty flag is cleared. -/
def clear (g : RRGraph) : RRGraph :=
  let g1 := clear_nodes g
  let g2 := clear_edges g1
  let g3 := clear_switches g2
  let g4 := clear_segments g3
  let g5 := invalidate_fast_node_lookup g4
  clear_dirty { g5 with invalid_node_ids_ := [], invalid_edge_ids_ := [] }

/-! ## Examples for the 16-bit fan-in and fan-out -/

/-- The calls made before the edges of `wide_fan_steps`: one configurable
switch, a SOURCE node (id 0) and a SINK node (id 1). -/
def wide_fan_base_steps : List BuildStep :=
  [.switch ⟨true, 0⟩, .node .SOURCE, .node .SINK]

/-- A configurable switch, a SOURCE node, a SINK node and `k` edges from
node 0 to node 1 over the switch. -/
def wide_fan_steps (k : Nat) : List BuildStep :=
  wide_fan_base_steps ++ List.replicate k (.edge (some 0) (some 1) (some 0) false)

/-- The graph built by `wide_fan_base_steps`. -/
def wide_fan_base : RRGraph := (build wide_fan_base_steps).getD RRGraph.empty

/-- The graph built by `wide_fan_steps k`, written out: the three edge
vectors hold `k` copies of the source, the sink and the switch. -/
def wide_fan_graph (k : Nat) : RRGraph :=
  { wide_fan_base with
    num_edges_ := k
    edge_src_nodes_ := List.replicate k (some 0)
    edge_sink_nodes_ := List.replicate k (some 1)
    edge_switches_ := List.replicate k (some 0) }

/-- A SOURCE node, a SINK node and one edge between them created with
`fake_switch = true` and the invalid switch id; the switch catalog is
empty. -/
def fake_switch_steps : List BuildStep :=
  [.node .SOURCE, .node .SINK, .edge (some 0) (some 1) none true]

/-- The graph built by `fake_switch_steps`. -/
def fake_switch_graph : RRGraph := (build fake_switch_steps).getD RRGraph.empty

/-! ## Theorems -/

theorem resize_self {α : Type} (v : List α) (fill : α) : resize v v.length fill = v := by
  simp [resize]

theorem incr_id_length (v : List Nat) (id : Option Nat) : (incr_id v id).length = v.length := by
  cases id <;> simp [incr_id, set_id]

theorem incr_id_getD (v : List Nat) (id : Option Nat) (n : Nat) (hn : n < v.length) :
    (incr_id v id).getD n 0 = v.getD n 0 + (if id = some n then 1 else 0) := by
  cases id with
  | none => simp [incr_id, set_id]
  | some i =>
    by_cases h : i = n
    · subst h
      simp [incr_id, set_id, at_id, List.getD_eq_getElem?_getD, List.getElem?_set, hn]
    · simp [incr_id, set_id, at_id, List.getD_eq_getElem?_getD, List.getElem?_set, h]

theorem incr_fold_getD {β : Type} (f : β → Option Nat) (es : List β) :
    ∀ (v : List Nat) (n : Nat), n < v.length →
      (es.foldl (fun v e => incr_id v (f e)) v).getD n 0
        = v.getD n 0 + (es.filter (fun e => f e == some n)).length := by
  induction es with
  | nil => intro v n _; simp
  | cons e es ih =>
    intro v n hn
    simp only [List.foldl_cons]
    rw [ih (incr_id v (f e)) n (by rw [incr_id_length]; exact hn), incr_id_getD v (f e) n hn]
    by_cases h : f e = some n
    · simp [List.filter_cons, h]; omega
    · simp [List.filter_cons, h]

theorem incr_id_none (v : List Nat) : incr_id v none = v := rfl

theorem count_edge_eq (g : RRGraph) (e : RREdgeId) :
    count_edge g e =
      { g with
        node_num_out_edges_ := incr_id g.node_num_out_edges_ (out_target g e)
        node_num_in_edges_ := incr_id g.node_num_in_edges_ (in_target g e)
        node_num_non_configurable_out_edges_ :=
          incr_id g.node_num_non_configurable_out_edges_ (nc_out_target g e)
        node_num_non_configurable_in_edges_ :=
          incr_id g.node_num_non_configurable_in_edges_ (nc_in_target g e) } := by
  cases e with
  | none => simp [count_edge, out_target, in_target, nc_out_target, nc_in_target, incr_id_none]
  | some i =>
    by_cases hc : edge_is_configurable g (some i) = true
    · simp [count_edge, out_target, in_target, nc_out_target, nc_in_target, incr_id_none, hc]
    · simp [count_edge, out_target, in_target, nc_out_target, nc_in_target, hc]

theorem edge_view_count_edge (g : RRGraph) (e : RREdgeId) :
    edge_view (count_edge g e) = edge_view g := by
  rw [count_edge_eq]; rfl

theorem targets_of_edge_view {g g' : RRGraph} (h : edge_view g' = edge_view g) :
    in_target g' = in_target g ∧ out_target g' = out_target g
      ∧ nc_in_target g' = nc_in_target g ∧ nc_out_target g' = nc_out_target g := by
  simp only [edge_view, Prod.mk.injEq] at h
  obtain ⟨_, _, h3, h4, h5, h6, _, _⟩ := h
  refine ⟨?_, ?_, ?_, ?_⟩ <;> funext e <;>
    simp [in_target, out_target, nc_in_target, nc_out_target, edge_sink_node, edge_src_node,
      edge_is_configurable, edge_switch, h3, h4, h5, h6]

theorem count_fold (es : List RREdgeId) :
    ∀ g : RRGraph, es.foldl count_edge g =
      { g with
        node_num_out_edges_ :=
          es.foldl (fun v e => incr_id v (out_target g e)) g.node_num_out_edges_
        node_num_in_edges_ :=
          es.foldl (fun v e => incr_id v (in_target g e)) g.node_num_in_edges_
        node_num_non_configurable_out_edges_ :=
          es.foldl (fun v e => incr_id v (nc_out_target g e))
            g.node_num_non_configurable_out_edges_
        node_num_non_configurable_in_edges_ :=
          es.foldl (fun v e => incr_id v (nc_in_target g e))
            g.node_num_non_configurable_in_edges_ } := by
  induction es with
  | nil => intro g; rfl
  | cons e es ih =>
    intro g
    simp only [List.foldl_cons]
    rw [ih (count_edge g e)]
    obtain ⟨h1, h2, h3, h4⟩ := targets_of_edge_view (edge_view_count_edge g e)
    rw [h1, h2, h3, h4, count_edge_eq]

theorem only_slots_refl (g : RRGraph) : only_slots g g := ⟨g.node_edges_, rfl⟩

theorem only_slots_trans {a b c : RRGraph} (h1 : only_slots a b) (h2 : only_slots b c) :
    only_slots a c := by
  obtain ⟨s1, rfl⟩ := h1
  obtain ⟨s2, rfl⟩ := h2
  exact ⟨s2, rfl⟩

theorem only_slots_foldl {β : Type} (f : RRGraph → β → RRGraph)
    (hf : ∀ g x, only_slots g (f g x)) (l : List β) :
    ∀ g, only_slots g (l.foldl f g) := by
  induction l with
  | nil => intro g; exact only_slots_refl g
  | cons x l ih => intro g; exact only_slots_trans (hf g x) (ih (f g x))

theorem only_slots_allocate (g : RRGraph) (node : RRNodeId) :
    only_slots g (allocate_node_edges g node) := by
  unfold allocate_node_edges
  split
  · exact only_slots_refl g
  · exact ⟨_, rfl⟩

theorem only_slots_partition (g : RRGraph) (node : RRNodeId) :
    only_slots g (partition_node_edges g node) := by
  unfold partition_node_edges
  split
  · exact only_slots_refl g
  · exact ⟨_, rfl⟩

theorem only_slots_counter_view {g g' : RRGraph} (h : only_slots g g') :
    counter_view g' = counter_view g := by
  obtain ⟨s, rfl⟩ := h; rfl

theorem only_slots_edge_view {g g' : RRGraph} (h : only_slots g g') :
    edge_view g' = edge_view g := by
  obtain ⟨s, rfl⟩ := h; rfl

theorem nodes_of_no_invalid (g : RRGraph) (h : g.invalid_node_ids_ = []) :
    nodes g = (List.range g.num_nodes_).map some := by
  unfold nodes
  rw [List.filter_eq_self]
  intro a ha
  simp only [List.mem_map, List.mem_range] at ha
  obtain ⟨i, hi, rfl⟩ := ha
  simp [valid_node_id, h, hi]

theorem edges_of_no_invalid (g : RRGraph) (h : g.invalid_edge_ids_ = []) :
    edges g = (List.range g.num_edges_).map some := by
  unfold edges
  rw [List.filter_eq_self]
  intro a ha
  simp only [List.mem_map, List.mem_range] at ha
  obtain ⟨i, hi, rfl⟩ := ha
  simp [valid_edge_id, h, hi]

theorem edges_isSome (g : RRGraph) : ∀ e ∈ edges g, e.isSome = true := by
  intro e he
  simp only [edges, List.mem_filter, List.mem_map] at he
  obtain ⟨⟨i, _, rfl⟩, _⟩ := he
  rfl

theorem edges_of_edge_view {g g' : RRGraph} (h : edge_view g' = edge_view g) :
    edges g' = edges g := by
  simp only [edge_view, Prod.mk.injEq] at h
  obtain ⟨_, h2, _, _, _, _, _, h8⟩ := h
  unfold edges valid_edge_id
  rw [h2, h8]

theorem rebuild_fresh (g : RRGraph) (hg : FreshlyBuilt g) :
    only_slots ((edges g).foldl count_edge g) (rebuild_node_edges g) := by
  have hn : (nodes g).length = g.num_nodes_ := by
    rw [nodes_of_no_invalid g hg.no_invalid_nodes]; simp
  have h0 : ({ g with
      node_edges_ := resize g.node_edges_ (nodes g).length []
      node_num_in_edges_ := resize g.node_num_in_edges_ (nodes g).length 0
      node_num_out_edges_ := resize g.node_num_out_edges_ (nodes g).length 0
      node_num_non_configurable_in_edges_ :=
        resize g.node_num_non_configurable_in_edges_ (nodes g).length 0
      node_num_non_configurable_out_edges_ :=
        resize g.node_num_non_configurable_out_edges_ (nodes g).length 0 } : RRGraph) = g := by
    have e1 : resize g.node_edges_ (nodes g).length [] = g.node_edges_ := by
      have : g.node_edges_.length = (nodes g).length := by rw [hn, hg.slots_empty]; simp
      rw [← this]; exact resize_self _ _
    have e2 : resize g.node_num_in_edges_ (nodes g).length 0 = g.node_num_in_edges_ := by
      have : g.node_num_in_edges_.length = (nodes g).length := by rw [hn, hg.in_zero]; simp
      rw [← this]; exact resize_self _ _
    have e3 : resize g.node_num_out_edges_ (nodes g).length 0 = g.node_num_out_edges_ := by
      have : g.node_num_out_edges_.length = (nodes g).length := by rw [hn, hg.out_zero]; simp
      rw [← this]; exact resize_self _ _
    have e4 : resize g.node_num_non_configurable_in_edges_ (nodes g).length 0
        = g.node_num_non_configurable_in_edges_ := by
      have : g.node_num_non_configurable_in_edges_.length = (nodes g).length := by
        rw [hn, hg.nc_in_zero]; simp
      rw [← this]; exact resize_self _ _
    have e5 : resize g.node_num_non_configurable_out_edges_ (nodes g).length 0
        = g.node_num_non_configurable_out_edges_ := by
      have : g.node_num_non_configurable_out_edges_.length = (nodes g).length := by
        rw [hn, hg.nc_out_zero]; simp
      rw [← this]; exact resize_self _ _
    rw [e1, e2, e3, e4, e5]
  unfold rebuild_node_edges
  simp only [h0]
  refine only_slots_trans ?_ (only_slots_foldl _ only_slots_partition _ _)
  refine only_slots_trans ?_ ⟨_, rfl⟩
  exact only_slots_foldl _ only_slots_allocate _ _

theorem accessors_of_edge_view {g g' : RRGraph} (h : edge_view g' = edge_view g) :
    edge_sink_node g' = edge_sink_node g ∧ edge_src_node g' = edge_src_node g
      ∧ edge_is_configurable g' = edge_is_configurable g := by
  simp only [edge_view, Prod.mk.injEq] at h
  obtain ⟨_, _, h3, h4, h5, h6, _, _⟩ := h
  refine ⟨?_, ?_, ?_⟩ <;> funext e <;>
    simp [edge_sink_node, edge_src_node, edge_is_configurable, edge_switch, h3, h4, h5, h6]

theorem edge_view_count_fold (es : List RREdgeId) (g : RRGraph) :
    edge_view (es.foldl count_edge g) = edge_view g := by
  rw [count_fold]; rfl

theorem targets_on_edges (g : RRGraph) (n : Nat) (e : RREdgeId) (he : e ∈ edges g) :
    (in_target g e == some n) = (edge_sink_node g e == some n)
    ∧ (out_target g e == some n) = (edge_src_node g e == some n)
    ∧ (nc_in_target g e == some n) = (edge_sink_node g e == some n && !edge_is_configurable g e)
    ∧ (nc_out_target g e == some n)
        = (edge_src_node g e == some n && !edge_is_configurable g e) := by
  have hsome := edges_isSome g e he
  cases e with
  | none => simp at hsome
  | some i =>
    cases hc : edge_is_configurable g (some i) <;>
      simp [in_target, out_target, nc_in_target, nc_out_target, hc]

theorem counts_of_only_slots (g g' : RRGraph) (hg : FreshlyBuilt g)
    (hs : only_slots ((edges g).foldl count_edge g) g') (n : Nat) (hn : n < g.num_nodes_) :
    node_num_in_edges g' (some n)
        = ((edges g').filter (fun e => edge_sink_node g' e == some n)).length
    ∧ node_num_out_edges g' (some n)
        = ((edges g').filter (fun e => edge_src_node g' e == some n)).length
    ∧ node_num_non_configurable_in_edges g' (some n)
        = ((edges g').filter
            (fun e => edge_sink_node g' e == some n && edge_is_non_configurable g' e)).length
    ∧ node_num_non_configurable_out_edges g' (some n)
        = ((edges g').filter
            (fun e => edge_src_node g' e == some n && edge_is_non_configurable g' e)).length := by
  have hev : edge_view g' = edge_view g :=
    (only_slots_edge_view hs).trans (edge_view_count_fold _ g)
  have hcv := only_slots_counter_view hs
  obtain ⟨a1, a2, a3⟩ := accessors_of_edge_view hev
  have hE := edges_of_edge_view hev
  rw [count_fold] at hcv
  simp only [counter_view, Prod.mk.injEq] at hcv
  obtain ⟨c1, c2, c3, c4⟩ := hcv
  have l1 : n < g.node_num_in_edges_.length := by rw [hg.in_zero]; simpa using hn
  have l2 : n < g.node_num_out_edges_.length := by rw [hg.out_zero]; simpa using hn
  have l3 : n < g.node_num_non_configurable_in_edges_.length := by
    rw [hg.nc_in_zero]; simpa using hn
  have l4 : n < g.node_num_non_configurable_out_edges_.length := by
    rw [hg.nc_out_zero]; simpa using hn
  have z1 : g.node_num_in_edges_.getD n 0 = 0 := by
    rw [hg.in_zero]; simp [List.getD_eq_getElem?_getD, List.getElem?_replicate, hn]
  have z2 : g.node_num_out_edges_.getD n 0 = 0 := by
    rw [hg.out_zero]; simp [List.getD_eq_getElem?_getD, List.getElem?_replicate, hn]
  have z3 : g.node_num_non_configurable_in_edges_.getD n 0 = 0 := by
    rw [hg.nc_in_zero]; simp [List.getD_eq_getElem?_getD, List.getElem?_replicate, hn]
  have z4 : g.node_num_non_configurable_out_edges_.getD n 0 = 0 := by
    rw [hg.nc_out_zero]; simp [List.getD_eq_getElem?_getD, List.getElem?_replicate, hn]
  have f1 := incr_fold_getD (in_target g) (edges g) _ n l1
  have f2 := incr_fold_getD (out_target g) (edges g) _ n l2
  have f3 := incr_fold_getD (nc_in_target g) (edges g) _ n l3
  have f4 := incr_fold_getD (nc_out_target g) (edges g) _ n l4
  rw [z1, Nat.zero_add] at f1
  rw [z2, Nat.zero_add] at f2
  rw [z3, Nat.zero_add] at f3
  rw [z4, Nat.zero_add] at f4
  unfold node_num_in_edges node_num_out_edges node_num_non_configurable_in_edges
    node_num_non_configurable_out_edges at_id edge_is_non_configurable
  rw [c1, c2, c3, c4, hE, a1, a2, a3]
  refine ⟨f1.trans ?_, f2.trans ?_, f3.trans ?_, f4.trans ?_⟩ <;> congr 1 <;>
    apply List.filter_congr <;> intro e he
  · exact (targets_on_edges g n e he).1
  · exact (targets_on_edges g n e he).2.1
  · exact (targets_on_edges g n e he).2.2.1
  · exact (targets_on_edges g n e he).2.2.2

theorem freshlyBuilt_empty : FreshlyBuilt RRGraph.empty := by
  constructor <;> simp [RRGraph.empty]

theorem valid_node_id_mono (g g' : RRGraph) (h1 : g.num_nodes_ ≤ g'.num_nodes_)
    (h2 : g'.invalid_node_ids_ = g.invalid_node_ids_) (x : RRNodeId)
    (hx : valid_node_id g x = true) : valid_node_id g' x = true := by
  cases x with
  | none => simp [valid_node_id] at hx
  | some i =>
    simp only [valid_node_id, Bool.and_eq_true, decide_eq_true_eq] at hx ⊢
    rw [h2]
    exact ⟨by omega, hx.2⟩

theorem freshlyBuilt_create_node (g g' : RRGraph) (t : t_rr_type) (id : RRNodeId)
    (hg : FreshlyBuilt g) (h : create_node g t = some (g', id)) : FreshlyBuilt g' := by
  unfold create_node at h
  dsimp only [invalidate_fast_node_lookup] at h
  split_ifs at h with hv
  simp only [Option.some.injEq, Prod.mk.injEq] at h
  obtain ⟨rfl, _⟩ := h
  constructor
  · exact hg.no_invalid_nodes
  · exact hg.no_invalid_edges
  · simp [hg.in_zero, List.replicate_succ']
  · simp [hg.out_zero, List.replicate_succ']
  · simp [hg.nc_in_zero, List.replicate_succ']
  · simp [hg.nc_out_zero, List.replicate_succ']
  · simp [hg.slots_empty, List.replicate_succ']
  · exact hg.src_size
  · exact hg.sink_size
  · exact hg.switch_size
  · intro x hx
    exact valid_node_id_mono g _ (by simp) (by rfl) x (hg.src_valid x hx)
  · intro x hx
    exact valid_node_id_mono g _ (by simp) (by rfl) x (hg.sink_valid x hx)

theorem freshlyBuilt_create_edge (g g' : RRGraph) (s t : RRNodeId) (sw : RRSwitchId)
    (fake : Bool) (id : RREdgeId)
    (hg : FreshlyBuilt g) (h : create_edge g s t sw fake = some (g', id)) :
    FreshlyBuilt g' := by
  unfold create_edge at h
  dsimp only at h
  split_ifs at h with hs ht hsw hv
  simp only [Bool.not_eq_true', Bool.not_eq_false] at hs ht
  simp only [Option.some.injEq, Prod.mk.injEq] at h
  obtain ⟨rfl, _⟩ := h
  constructor
  · exact hg.no_invalid_nodes
  · exact hg.no_invalid_edges
  · exact hg.in_zero
  · exact hg.out_zero
  · exact hg.nc_in_zero
  · exact hg.nc_out_zero
  · exact hg.slots_empty
  · simp [hg.src_size]
  · simp [hg.sink_size]
  · simp [hg.switch_size]
  · intro x hx
    simp only [List.mem_append, List.mem_singleton] at hx
    rcases hx with hx | rfl
    · exact valid_node_id_mono g _ (by simp) (by rfl) x (hg.src_valid x hx)
    · exact valid_node_id_mono g _ (by simp) (by rfl) x hs
  · intro x hx
    simp only [List.mem_append, List.mem_singleton] at hx
    rcases hx with hx | rfl
    · exact valid_node_id_mono g _ (by simp) (by rfl) x (hg.sink_valid x hx)
    · exact valid_node_id_mono g _ (by simp) (by rfl) x ht

theorem freshlyBuilt_build_step (g g' : RRGraph) (step : BuildStep)
    (hg : FreshlyBuilt g) (h : build_step g step = some g') : FreshlyBuilt g' := by
  cases step with
  | switch info =>
    simp only [build_step, create_switch, Option.some.injEq] at h
    subst h
    exact ⟨hg.1, hg.2, hg.3, hg.4, hg.5, hg.6, hg.7, hg.8, hg.9, hg.10, hg.11, hg.12⟩
  | segment info =>
    simp only [build_step, create_segment, Option.some.injEq] at h
    subst h
    exact ⟨hg.1, hg.2, hg.3, hg.4, hg.5, hg.6, hg.7, hg.8, hg.9, hg.10, hg.11, hg.12⟩
  | node type =>
    simp only [build_step, Option.map_eq_some'] at h
    obtain ⟨⟨g1, id⟩, h1, rfl⟩ := h
    exact freshlyBuilt_create_node g g1 type id hg h1
  | edge source sink switch_id fake_switch =>
    simp only [build_step, Option.map_eq_some'] at h
    obtain ⟨⟨g1, id⟩, h1, rfl⟩ := h
    exact freshlyBuilt_create_edge g g1 source sink switch_id fake_switch id hg h1

/-- Every graph built by creation calls alone satisfies `FreshlyBuilt`. -/
theorem freshlyBuilt_build (steps : List BuildStep) :
    ∀ (g0 g : RRGraph), FreshlyBuilt g0 → steps.foldlM build_step g0 = some g →
      FreshlyBuilt g := by
  induction steps with
  | nil =>
    intro g0 g h0 h
    simp only [List.foldlM, pure, Option.some.injEq] at h
    exact h ▸ h0
  | cons st steps ih =>
    intro g0 g h0 h
    simp only [List.foldlM, bind, Option.bind_eq_some] at h
    obtain ⟨g1, h1, h2⟩ := h
    exact ih g1 g (freshlyBuilt_build_step g0 g1 st h0 h1) h2

theorem scenario_graph_built : build scenario_steps = some scenario_graph := by decide

theorem scenario_graph_fresh : FreshlyBuilt scenario_graph :=
  freshlyBuilt_build scenario_steps RRGraph.empty scenario_graph freshlyBuilt_empty
    scenario_graph_built

/-- C1. Evaluation at two graphs with a self-loop, every edge valid and over
a valid switch.  Node 0 with the self-loop 0 and the later in-edge 1:
`rebuild_node_edges` leaves `[0, 0, 1]`, where the stated order is
`[0, 1, 0]`.  Node 0 with the out-edge 0 and the later self-loop 1:
`rebuild_node_edges` leaves `[1, 1, 0]`, whose out-range `[1, 0]` is not in
ascending edge id, where the stated order is `[1, 0, 1]`. -/
theorem rebuild_node_edges_self_loop_order :
    build loop_then_in_steps = some loop_then_in_graph
    ∧ (∀ e ∈ edges loop_then_in_graph,
        valid_switch_id loop_then_in_graph (edge_switch loop_then_in_graph e) = true)
    ∧ node_edges (rebuild_node_edges loop_then_in_graph) (some 0)
        = [some 0, some 0, some 1]
    ∧ claimed_node_edges (rebuild_node_edges loop_then_in_graph) (some 0)
        = [some 0, some 1, some 0]
    ∧ build out_then_loop_steps = some out_then_loop_graph
    ∧ (∀ e ∈ edges out_then_loop_graph,
        valid_switch_id out_then_loop_graph (edge_switch out_then_loop_graph e) = true)
    ∧ node_edges (rebuild_node_edges out_then_loop_graph) (some 0)
        = [some 1, some 1, some 0]
    ∧ claimed_node_edges (rebuild_node_edges out_then_loop_graph) (some 0)
        = [some 1, some 0, some 1] := by
  decide

/-- C2. Evaluation at a graph with a self-loop and a later in-edge: node 0
has the self-loop 0 and the in-edge 1 from node 1.  After
`rebuild_node_edges` the self-loop fills both in-slots of node 0 and is absent
from its out-range, which holds edge 1, an edge whose source is node 1; the
reciprocity check of the validator rejects the result. -/
theorem rebuild_node_edges_self_loop_occurrences :
    build loop_then_in_steps = some loop_then_in_graph
    ∧ node_in_edges (rebuild_node_edges loop_then_in_graph) (some 0) = [some 0, some 0]
    ∧ node_out_edges (rebuild_node_edges loop_then_in_graph) (some 0) = [some 1]
    ∧ edge_src_node (rebuild_node_edges loop_then_in_graph) (some 0) = some 0
    ∧ edge_sink_node (rebuild_node_edges loop_then_in_graph) (some 0) = some 0
    ∧ edge_src_node (rebuild_node_edges loop_then_in_graph) (some 1) = some 1
    ∧ (node_in_edges (rebuild_node_edges loop_then_in_graph) (some 0)).count (some 0) = 2
    ∧ (node_out_edges (rebuild_node_edges loop_then_in_graph) (some 0)).count (some 0) = 0
    ∧ validate_nodes_edges (rebuild_node_edges loop_then_in_graph) = false := by
  decide

/-- C4. Evaluation at the scenario of the specification: three nodes, two
edges, the middle node removed.  Two node ids and no edge id are valid before
`compress`; `clean_nodes` sets `num_nodes_` to the size of the remap, 3, the
attribute arrays shrink to 2 entries, the size assertion fails and `compress`
aborts.  The assignment of `clean_edges` likewise sets `num_edges_` to the
size of the edge remap, 2. -/
theorem compress_scenario_aborts :
    scenario_removed.map (fun g => ((nodes g).length, (edges g).length)) = some (2, 0)
    ∧ scenario_removed.map
        (fun g => ((clean_nodes_values g (build_id_maps g).1).num_nodes_,
                   (clean_nodes_values g (build_id_maps g).1).node_types_.length,
                   validate_node_sizes (clean_nodes_values g (build_id_maps g).1),
                   (clean_edges_values g (build_id_maps g).2).num_edges_,
                   (clean_edges_values g (build_id_maps g).2).edge_src_nodes_.length))
        = some (3, 2, false, 2, 0)
    ∧ scenario_removed.map compress = some none := by
  decide

theorem kept_length_le {α β : Type} (f : Nat → α → β) (m : List (Option Nat)) :
    ∀ v : List α,
      ((m.zip v).filterMap (fun p => p.1.map (fun k => f k p.2))).length
        ≤ (m.filter Option.isSome).length := by
  induction m with
  | nil => intro v; simp
  | cons a m ih =>
    intro v
    cases v with
    | nil => simp
    | cons x v =>
      cases a with
      | none => simpa using ih v
      | some k => simpa using ih v

theorem clean_length_le {α : Type} (v : List α) (m : List (Option Nat)) :
    (clean_and_reorder_values v m).length ≤ (m.filter Option.isSome).length := by
  unfold clean_and_reorder_values
  simp only []
  refine le_trans (List.length_filterMap_le _ _) ?_
  rw [List.length_range]
  exact kept_length_le (fun k x => (k, x)) m v

theorem all_some_of_clean_length {α : Type} (v : List α) (m : List (Option Nat))
    (h : (clean_and_reorder_values v m).length = m.length) :
    ∀ x ∈ m, x.isSome = true := by
  have h1 := clean_length_le v m
  have h2 := List.length_filter_le Option.isSome m
  exact List.filter_length_eq_length.mp (by omega)

theorem compress_ids_from_length (l : List (Option Nat)) :
    ∀ i, (compress_ids_from i l).length = l.length := by
  induction l with
  | nil => intro i; rfl
  | cons a l ih =>
    intro i
    cases a with
    | none => simp [compress_ids_from, ih]
    | some k => simp [compress_ids_from, ih]

theorem compress_ids_from_isSome (l : List (Option Nat)) :
    ∀ i, (compress_ids_from i l).map Option.isSome = l.map Option.isSome := by
  induction l with
  | nil => intro i; rfl
  | cons a l ih =>
    intro i
    cases a with
    | none => simp [compress_ids_from, ih]
    | some k => simp [compress_ids_from, ih]

theorem compress_ids_from_all_some (l : List (Option Nat)) :
    ∀ i, (∀ x ∈ l, x.isSome = true) →
      compress_ids_from i l = (List.range' i l.length).map some := by
  induction l with
  | nil => intro i _; rfl
  | cons a l ih =>
    intro i h
    cases a with
    | none => simpa using h none (List.mem_cons_self _ _)
    | some k =>
      simp only [compress_ids_from, List.length_cons, List.range'_succ, List.map_cons]
      rw [ih (i + 1) (fun x hx => h x (List.mem_cons_of_mem _ hx))]

theorem all_some_of_map_isSome {l l' : List (Option Nat)}
    (h : l'.map Option.isSome = l.map Option.isSome) (h' : ∀ x ∈ l', x.isSome = true) :
    ∀ x ∈ l, x.isSome = true := by
  intro x hx
  have : x.isSome ∈ l.map Option.isSome := List.mem_map_of_mem _ hx
  rw [← h] at this
  obtain ⟨y, hy, hxy⟩ := List.mem_map.mp this
  rw [← hxy]
  exact h' y hy

theorem id_map_length (n : Nat) : (id_map n).length = n := by simp [id_map]

theorem compress_ids_id_map (n : Nat) : compress_ids (id_map n) = id_map n := by
  unfold compress_ids
  rw [compress_ids_from_all_some]
  · simp [id_map, List.range_eq_range']
  · intro x hx
    simp only [id_map, List.mem_map] at hx
    obtain ⟨i, _, rfl⟩ := hx
    rfl

theorem at_id_map (n : Nat) (h : Option Nat) (e : Nat)
    (he : at_id (id_map n) h none = some e) : h = some e := by
  cases h with
  | none => simp [at_id] at he
  | some i =>
    simp only [at_id, id_map, List.getD_eq_getElem?_getD, List.getElem?_map] at he
    by_cases hi : i < n
    · simp [List.getElem?_range hi] at he
      rw [he]
    · have : (List.range n)[i]? = none := List.getElem?_eq_none (by simp; omega)
      simp [this] at he

theorem set_getD_self {α : Type} (d : α) :
    ∀ (l : List α) (i : Nat), l.set i (l.getD i d) = l := by
  intro l
  induction l with
  | nil => intro i; simp
  | cons x l ih =>
    intro i
    cases i with
    | zero => simp
    | succ i => simpa using ih i

theorem update_valid_refs_fix (s : List RREdgeId) (n ne : Nat)
    (h : all_valid (update_valid_refs s n (id_map ne)) n = true) :
    update_valid_refs s n (id_map ne) = s := by
  unfold all_valid update_valid_refs at h
  unfold update_valid_refs
  rw [List.take_append_eq_append_take, List.all_append, Bool.and_eq_true] at h
  have h1 := h.1
  rw [List.take_of_length_le (by simp [List.length_take])] at h1
  rw [List.all_eq_true] at h1
  have hmap : (s.take n).map (fun h => at_id (id_map ne) h none) = s.take n := by
    conv_rhs => rw [← List.map_id (s.take n)]
    apply List.map_congr_left
    intro x hx
    have hs := h1 _ (List.mem_map_of_mem _ hx)
    obtain ⟨e, he⟩ := Option.isSome_iff_exists.mp hs
    rw [he, at_id_map ne x e he]
    rfl
  rw [hmap, List.take_append_drop]

theorem rebuild_node_ref_fix (ne : Nat) (g g' : RRGraph) (id : Nat)
    (h : rebuild_node_ref (id_map ne) g id = some g') : g' = g := by
  unfold rebuild_node_ref at h
  dsimp only at h
  split_ifs at h with hv ha
  · exact (Option.some.inj h).symm
  · rw [update_valid_refs_fix _ _ _ ha] at h
    have hs : set_id g.node_edges_ (some id) (node_edge_slots g (some id)) = g.node_edges_ := by
      simp only [set_id, node_edge_slots, at_id]
      exact set_getD_self [] g.node_edges_ id
    rw [hs] at h
    exact (Option.some.inj h).symm

theorem foldlM_fix {β : Type} (f : RRGraph → β → Option RRGraph)
    (hf : ∀ g x g', f g x = some g' → g' = g) (l : List β) :
    ∀ g g', l.foldlM f g = some g' → g' = g ∧ ∀ x ∈ l, f g x = some g := by
  induction l with
  | nil =>
    intro g g' h
    simp only [List.foldlM, pure, Option.some.injEq] at h
    exact ⟨h.symm, by simp⟩
  | cons x l ih =>
    intro g g' h
    simp only [List.foldlM, bind, Option.bind_eq_some] at h
    obtain ⟨g1, h1, h2⟩ := h
    have e1 := hf g x g1 h1
    subst e1
    obtain ⟨e2, h3⟩ := ih g1 g' h2
    refine ⟨e2, ?_⟩
    intro y hy
    rcases List.mem_cons.mp hy with rfl | hy
    · exact h1
    · exact h3 y hy

theorem ids_all_some (n : Nat) (valid : Nat → Bool)
    (h : ∀ x ∈ (List.range n).map (fun id => if valid id then some id else none),
      x.isSome = true) :
    (∀ i < n, valid i = true)
      ∧ (List.range n).map (fun id => if valid id then some id else none) = id_map n := by
  have hv : ∀ i < n, valid i = true := by
    intro i hi
    have := h _ (List.mem_map_of_mem _ (List.mem_range.mpr hi))
    by_cases hc : valid i = true
    · exact hc
    · simp [hc] at this
  refine ⟨hv, ?_⟩
  unfold id_map
  apply List.map_congr_left
  intro i hi
  simp [hv i (List.mem_range.mp hi)]

theorem compressed_all_some (n : Nat) (valid : Nat → Bool)
    (h : ∀ x ∈ compress_ids
        ((List.range n).map (fun id => if valid id then some id else none)),
      x.isSome = true) :
    (∀ i < n, valid i = true)
      ∧ compress_ids ((List.range n).map (fun id => if valid id then some id else none))
          = id_map n := by
  have h1 := all_some_of_map_isSome (compress_ids_from_isSome _ 0) h
  obtain ⟨hv, he⟩ := ids_all_some n valid h1
  exact ⟨hv, by rw [he, compress_ids_id_map]⟩

theorem build_id_maps_length (g : RRGraph) :
    (build_id_maps g).1.length = g.num_nodes_ ∧ (build_id_maps g).2.length = g.num_edges_ := by
  simp [build_id_maps, compress_ids, compress_ids_from_length]

theorem clean_nodes_some (g g1 : RRGraph) (m : List RRNodeId)
    (h : clean_nodes g m = some g1) :
    g1 = clean_nodes_values g m ∧ validate_node_sizes (clean_nodes_values g m) = true
      ∧ ∀ x ∈ m, x.isSome = true := by
  unfold clean_nodes at h
  dsimp only at h
  split_ifs at h with hv
  refine ⟨(Option.some.inj h).symm, hv, ?_⟩
  have hlen : (clean_and_reorder_values g.node_types_ m).length = m.length := by
    simp only [validate_node_sizes, Bool.and_eq_true, decide_eq_true_eq] at hv
    exact hv.1.1.1.1.1.1.1.1.1.1.1.1
  exact all_some_of_clean_length _ _ hlen

theorem clean_edges_some (g g1 : RRGraph) (m : List RREdgeId)
    (h : clean_edges g m = some g1) :
    g1 = clean_edges_values g m ∧ validate_edge_sizes (clean_edges_values g m) = true
      ∧ ∀ x ∈ m, x.isSome = true := by
  unfold clean_edges at h
  dsimp only at h
  split_ifs at h with hv
  refine ⟨(Option.some.inj h).symm, hv, ?_⟩
  have hlen : (clean_and_reorder_values g.edge_src_nodes_ m).length = m.length := by
    simp only [validate_edge_sizes, Bool.and_eq_true, decide_eq_true_eq] at hv
    exact hv.1.1
  exact all_some_of_clean_length _ _ hlen

theorem cleaned_num_nodes (g : RRGraph) : (cleaned g).num_nodes_ = g.num_nodes_ := by
  simp [cleaned, clean_edges_values, clean_nodes_values, id_map_length]

theorem compress_some (g g' : RRGraph) (h : compress g = some g') :
    CompressOk g ∧ g' = compress_tail (cleaned g) := by
  unfold compress at h
  simp only [bind, Option.bind_eq_some, Option.some.injEq] at h
  obtain ⟨g1, h1, g2, h2, g3, h3, h4⟩ := h
  obtain ⟨e1, v1, s1⟩ := clean_nodes_some g g1 _ h1
  obtain ⟨e2, v2, s2⟩ := clean_edges_some g1 g2 _ h2
  have hn : (∀ i < g.num_nodes_, valid_node_id g (some i) = true)
      ∧ (build_id_maps g).1 = id_map g.num_nodes_ :=
    compressed_all_some g.num_nodes_ (fun i => valid_node_id g (some i)) s1
  have he : (∀ i < g.num_edges_, valid_edge_id g (some i) = true)
      ∧ (build_id_maps g).2 = id_map g.num_edges_ :=
    compressed_all_some g.num_edges_ (fun i => valid_edge_id g (some i)) s2
  rw [hn.2] at e1 v1
  rw [he.2] at e2 v2 h3
  subst e1
  have e2' : g2 = cleaned g := e2
  subst e2'
  unfold rebuild_node_refs at h3
  obtain ⟨e3, hr⟩ := foldlM_fix _ (fun a x b hab => rebuild_node_ref_fix g.num_edges_ a b x hab) _ _ _ h3
  subst e3
  refine ⟨⟨hn.1, he.1, v1, v2, ?_⟩, ?_⟩
  · intro id hid
    exact hr id (List.mem_range.mpr (by rw [cleaned_num_nodes]; exact hid))
  · rw [← h4]; rfl

theorem compress_tail_idem (g : RRGraph) :
    compress_tail (compress_tail g) = compress_tail g := rfl

/-- C5. Evaluation at three nodes SOURCE, CHANX, SINK with node 0 removed:
node 2 (SINK) is valid and one valid id precedes it.  The arrays assigned by
`clean_nodes` hold CHANX, SINK at the new ids 0, 1, but the size assertion
that follows fails and `compress` aborts, so no state after `compress`
exists in which node 1 carries the attributes of old node 2.  In the state
left by the assignments id 2 is still below `num_nodes_` and valid, while the
counter vectors read by `rebuild_node_refs` have 2 entries. -/
theorem compress_three_nodes_aborts :
    three_nodes_removed.map
        (fun g => (valid_node_id g (some 2),
                   ((List.range 2).filter (fun i => valid_node_id g (some i))).length,
                   (clean_nodes_values g (build_id_maps g).1).node_types_,
                   (clean_nodes_values g (build_id_maps g).1).num_nodes_,
                   (clean_nodes_values g (build_id_maps g).1).node_edges_.length))
      = some (true, 1, [t_rr_type.CHANX, t_rr_type.SINK], 3, 3)
    ∧ three_nodes_removed.map
        (fun g => (valid_node_id (clean_nodes_values g (build_id_maps g).1) (some 2),
                   (clean_nodes_values g (build_id_maps g).1).node_num_in_edges_.length))
      = some (true, 2)
    ∧ three_nodes_removed.map compress = some none := by
  decide

/-- C6. Evaluation at three nodes with edge 0 from node 1 to node 2 and node 0
removed: the node remap sends 1 to 0 and 2 to 1, but the arrays assigned by
`clean_edges` keep source 1 and sink 2 for edge 0, and `compress` aborts at
the size assertion of `clean_nodes`. -/
theorem compress_keeps_old_endpoints :
    tail_edge_removed.map
        (fun g => (build_id_maps g,
                   (clean_edges_values g (build_id_maps g).2).edge_src_nodes_,
                   (clean_edges_values g (build_id_maps g).2).edge_sink_nodes_))
      = some (([none, some 0, some 1], [some 0]), [some 1], [some 2])
    ∧ tail_edge_removed.map compress = some none := by
  decide

/-- C7. Evaluation at the same graph with adjacency built before node 0 is
removed: old node 1 has the adjacency array `[0]`.  `clean_nodes` moves the
counters of old node 1 to new id 0 but does not move `node_edges_`, so the
adjacency array of new node 0 is the empty array of old node 0; `compress`
then aborts at the size assertion. -/
theorem compress_leaves_node_edges_in_place :
    tail_edge_rebuilt_removed.map
        (fun g => (node_edges g (some 1),
                   (clean_nodes_values g (build_id_maps g).1).node_edges_,
                   node_num_out_edges (clean_nodes_values g (build_id_maps g).1) (some 0),
                   node_edges (clean_nodes_values g (build_id_maps g).1) (some 0)))
      = some ([some 0], [[], [some 0], [some 0]], 1, [])
    ∧ tail_edge_rebuilt_removed.map compress = some none := by
  decide

theorem node_view_remove_edge (g g' : RRGraph) (edge : RREdgeId)
    (h : remove_edge g edge = some g') : node_view g' = node_view g := by
  unfold remove_edge at h
  cases edge with
  | none => simp at h
  | some e =>
    dsimp only at h
    split_ifs at h with h1
    split at h
    · split_ifs at h with h2
      rw [← Option.some.inj h]
      rfl
    · simp at h

theorem node_view_foldlM {β : Type} (f : RRGraph → β → Option RRGraph)
    (hf : ∀ g x g', f g x = some g' → node_view g' = node_view g) (l : List β) :
    ∀ g g', l.foldlM f g = some g' → node_view g' = node_view g := by
  induction l with
  | nil =>
    intro g g' h
    simp only [List.foldlM, pure, Option.some.injEq] at h
    rw [h]
  | cons x l ih =>
    intro g g' h
    simp only [List.foldlM, bind, Option.bind_eq_some] at h
    obtain ⟨g1, h1, h2⟩ := h
    rw [ih g1 g' h2, hf g x g1 h1]

theorem remove_node_invalidates (g g1 : RRGraph) (node : RRNodeId)
    (h : remove_node g node = some g1) :
    g1.num_nodes_ = g.num_nodes_ ∧ valid_node_id g1 node = false := by
  unfold remove_node at h
  simp only [bind, Option.bind_eq_some, Option.some.injEq] at h
  obtain ⟨a, ha, b, hb, hg1⟩ := h
  have va := node_view_foldlM _
    (fun g x g' hx => node_view_remove_edge g g' _ hx) _ _ _ ha
  have vb := node_view_foldlM _
    (fun g x g' hx => node_view_remove_edge g g' _ hx) _ _ _ hb
  rw [va] at vb
  simp only [node_view, Prod.mk.injEq] at vb
  subst hg1
  refine ⟨vb.1, ?_⟩
  cases node with
  | none => rfl
  | some i =>
    simp [valid_node_id, set_dirty, invalidate_fast_node_lookup]

/-- C8. Whenever `remove_node` of a node id in range returns, the `compress`
that follows aborts: no state after `remove_node` followed by `compress`
exists. -/
theorem compress_after_remove_node_aborts (g g1 : RRGraph) (n : Nat)
    (hn : n < g.num_nodes_) (h : remove_node g (some n) = some g1) :
    compress g1 = none := by
  obtain ⟨hnum, hinv⟩ := remove_node_invalidates g g1 (some n) h
  cases hc : compress g1 with
  | none => rfl
  | some g' =>
    obtain ⟨hok, _⟩ := compress_some g1 g' hc
    have := hok.nodes_valid n (by rw [hnum]; exact hn)
    rw [hinv] at this
    exact absurd this (by simp)

/-- Witness for C8: in the graph with edge 0 from node 0 to node 1 and built
adjacency, `remove_node` of node 0 returns, marks edge 0 and node 0 invalid,
and the `compress` that follows aborts; the assignment of `clean_edges` sets
`num_edges_` to 1 although no edge id is valid. -/
theorem compress_after_remove_node_aborts_witness :
    0 < single_edge_graph.num_nodes_
    ∧ node_edges single_edge_graph (some 0) = [some 0]
    ∧ (remove_node single_edge_graph (some 0)).map
        (fun g => (g.invalid_node_ids_, g.invalid_edge_ids_)) = some ([some 0], [some 0])
    ∧ (remove_node single_edge_graph (some 0)).map
        (fun g => ((edges g).length, (clean_edges_values g (build_id_maps g).2).num_edges_))
        = some (0, 1)
    ∧ (remove_node single_edge_graph (some 0)).bind compress = none := by
  refine ⟨by decide, by decide, by decide, by decide, ?_⟩
  cases h : remove_node single_edge_graph (some 0) with
  | none => rfl
  | some g1 => exact compress_after_remove_node_aborts single_edge_graph g1 0 (by decide) h

theorem foldl_set_getD {α : Type} (d : α) (F : Nat → α → α) (l : List Nat) :
    ∀ (a : List α), l.Nodup → ∀ n,
      (l.foldl (fun a m => a.set m (F m (a.getD m d))) a).getD n d
        = if n ∈ l ∧ n < a.length then F n (a.getD n d) else a.getD n d := by
  induction l with
  | nil => intro a _ n; simp
  | cons m l ih =>
    intro a hnd n
    rw [List.nodup_cons] at hnd
    simp only [List.foldl_cons]
    rw [ih _ hnd.2 n]
    simp only [List.length_set, List.mem_cons]
    by_cases hnm : n = m
    · subst hnm
      by_cases hlen : n < a.length
      · simp [hnd.1, hlen, List.getD_eq_getElem?_getD, List.getElem?_set]
      · have hnone : a[n]? = none := List.getElem?_eq_none (by omega)
        simp [hnd.1, hlen, List.getD_eq_getElem?_getD, List.getElem?_set, hnone]
    · have hmn : m ≠ n := fun h => hnm h.symm
      simp [hnm, List.getD_eq_getElem?_getD, List.getElem?_set, hmn]

theorem foldl_set_length {α : Type} (d : α) (F : Nat → α → α) (l : List Nat) :
    ∀ (a : List α), (l.foldl (fun a m => a.set m (F m (a.getD m d))) a).length = a.length := by
  induction l with
  | nil => intro a; rfl
  | cons m l ih => intro a; simp only [List.foldl_cons]; rw [ih]; simp

theorem fan_of_only_slots {g g' : RRGraph} (h : only_slots g g') (node : RRNodeId) :
    node_num_in_edges g' node = node_num_in_edges g node ∧ node_num_out_edges g' node = node_num_out_edges g node := by
  obtain ⟨s, rfl⟩ := h
  exact ⟨rfl, rfl⟩

theorem partition_slots_of_only_slots {g g' : RRGraph} (h : only_slots g g') :
    partition_slots g' = partition_slots g := by
  obtain ⟨s, rfl⟩ := h
  rfl

theorem allocate_fold (l : List Nat) :
    ∀ g : RRGraph, (l.map some).foldl allocate_node_edges g =
      { g with
        node_edges_ :=
          l.foldl
            (fun a m => a.set m
              ((fun n (_ : List RREdgeId) =>
                List.replicate (node_num_in_edges g (some n) + node_num_out_edges g (some n)) none) m
                (a.getD m [])))
            g.node_edges_ } := by
  induction l with
  | nil => intro g; rfl
  | cons m l ih =>
    intro g
    simp only [List.map_cons, List.foldl_cons]
    rw [ih]
    have hs : only_slots g (allocate_node_edges g (some m)) := only_slots_allocate g (some m)
    have hf : ∀ n, node_num_in_edges (allocate_node_edges g (some m)) (some n)
        + node_num_out_edges (allocate_node_edges g (some m)) (some n)
        = node_num_in_edges g (some n) + node_num_out_edges g (some n) := by
      intro n
      rw [(fan_of_only_slots hs (some n)).1, (fan_of_only_slots hs (some n)).2]
    simp only [hf]
    simp [allocate_node_edges, set_id]

theorem partition_fold (l : List Nat) :
    ∀ g : RRGraph, (l.map some).foldl partition_node_edges g =
      { g with
        node_edges_ :=
          l.foldl
            (fun a m => a.set m
              ((fun n (s : List RREdgeId) => partition_slots g (some n) s) m (a.getD m [])))
            g.node_edges_ } := by
  induction l with
  | nil => intro g; rfl
  | cons m l ih =>
    intro g
    simp only [List.map_cons, List.foldl_cons]
    rw [ih]
    have hs : only_slots g (partition_node_edges g (some m)) := only_slots_partition g (some m)
    rw [partition_slots_of_only_slots hs]
    simp [partition_node_edges, set_id, node_edge_slots, at_id]

theorem scatterInv_congr {N : Nat} {st : List (List RREdgeId) × List Nat}
    {P P' : Nat → List RREdgeId} {R R' : Nat → Nat} (h : ScatterInv N st P R)
    (hP : ∀ n < N, P n = P' n) (hR : ∀ n < N, R n = R' n) : ScatterInv N st P' R' :=
  ⟨h.len_slots, h.len_cnt,
    fun n hn => by rw [← hP n hn, ← hR n hn]; exact h.slots n hn,
    fun n hn => by rw [← hP n hn]; exact h.cnt n hn⟩

theorem set_prefix_replicate {α : Type} (x e : α) (k : Nat) :
    ∀ P : List α, (P ++ List.replicate (k + 1) x).set P.length e
      = (P ++ [e]) ++ List.replicate k x := by
  intro P
  induction P with
  | nil => simp [List.replicate_succ]
  | cons p P ih => simpa using ih

theorem scatterInv_insert_at_cnt {N : Nat} {st : List (List RREdgeId) × List Nat}
    {P : Nat → List RREdgeId} {R : Nat → Nat} (h : ScatterInv N st P R)
    (m : Nat) (e : RREdgeId) (hm : m < N) (hR : 1 ≤ R m) :
    ScatterInv N (insert_at_cnt st (some m) e)
      (fun n => if n = m then P n ++ [e] else P n)
      (fun n => if n = m then R n - 1 else R n) := by
  have hs := h.slots m hm
  have hc := h.cnt m hm
  have hlen1 : m < st.1.length := by rw [h.len_slots]; exact hm
  have hlen2 : m < st.2.length := by rw [h.len_cnt]; exact hm
  obtain ⟨k, hk⟩ : ∃ k, R m = k + 1 := ⟨R m - 1, by omega⟩
  constructor
  · simp [insert_at_cnt, set_id, h.len_slots]
  · simp [insert_at_cnt, incr_id, set_id, h.len_cnt]
  · intro n hn
    by_cases hnm : n = m
    · subst hnm
      simp only [insert_at_cnt, set_id, at_id, if_true]
      rw [List.getD_eq_getElem?_getD, List.getElem?_set_self hlen1, Option.getD_some, hs, hc, hk,
        set_prefix_replicate]
      simp
    · have hmn : m ≠ n := fun h => hnm h.symm
      simp only [insert_at_cnt, set_id, at_id, if_neg hnm]
      rw [List.getD_eq_getElem?_getD, List.getElem?_set_ne hmn, ← List.getD_eq_getElem?_getD]
      exact h.slots n hn
  · intro n hn
    by_cases hnm : n = m
    · subst hnm
      simp only [insert_at_cnt, incr_id, set_id, at_id, if_true]
      rw [List.getD_eq_getElem?_getD, List.getElem?_set_self hlen2, Option.getD_some, hc]
      simp
    · have hmn : m ≠ n := fun h => hnm h.symm
      simp only [insert_at_cnt, incr_id, set_id, at_id, if_neg hnm]
      rw [List.getD_eq_getElem?_getD, List.getElem?_set_ne hmn, ← List.getD_eq_getElem?_getD]
      exact h.cnt n hn

theorem contrib_eq (g : RRGraph) (n : Nat) (e : RREdgeId) (s t : Nat)
    (hs : edge_src_node g e = some s) (ht : edge_sink_node g e = some t) :
    contrib g n e = (if n = s then [e] else []) ++ (if n = t then [e] else []) := by
  simp only [contrib, hs, ht, Option.some.injEq]
  congr 1 <;> split_ifs <;> first | rfl | omega

theorem scatterInv_insert_edge (g : RRGraph) {N : Nat}
    {st : List (List RREdgeId) × List Nat}
    {P : Nat → List RREdgeId} {R : Nat → Nat} (h : ScatterInv N st P R)
    (e : RREdgeId) (s t : Nat) (hs : edge_src_node g e = some s)
    (ht : edge_sink_node g e = some t) (hsN : s < N) (htN : t < N)
    (hroom : ∀ n < N, (contrib g n e).length ≤ R n) :
    ScatterInv N (insert_edge g st e) (fun n => P n ++ contrib g n e)
      (fun n => R n - (contrib g n e).length) := by
  have r1 : 1 ≤ R s := by
    have := hroom s hsN
    rw [contrib_eq g s e s t hs ht] at this
    simp only [if_true, List.length_append, List.length_singleton] at this
    omega
  have h1 := scatterInv_insert_at_cnt h s e hsN r1
  have r2 : 1 ≤ (fun n => if n = s then R n - 1 else R n) t := by
    have := hroom t htN
    rw [contrib_eq g t e s t hs ht] at this
    by_cases hts : t = s
    · simp only [hts, if_true, List.length_append, List.length_singleton] at this ⊢
      omega
    · simp only [if_neg hts, if_true, List.length_append, List.length_singleton,
        List.length_nil] at this ⊢
      omega
  have h2 := scatterInv_insert_at_cnt h1 t e htN r2
  unfold insert_edge
  simp only [hs, ht]
  refine scatterInv_congr h2 ?_ ?_
  · intro n _
    rw [contrib_eq g n e s t hs ht]
    split_ifs <;> simp
  · intro n hn
    have hr := hroom n hn
    rw [contrib_eq g n e s t hs ht] at hr ⊢
    split_ifs at hr ⊢ <;> (simp at hr ⊢; try omega)

theorem scatterInv_fold (g : RRGraph) {N : Nat} (es : List RREdgeId) :
    ∀ (st : List (List RREdgeId) × List Nat) (P : Nat → List RREdgeId) (r : Nat → Nat),
      ScatterInv N st P (fun n => (scattered g n es).length + r n) →
      (∀ e ∈ es, ∃ s t, edge_src_node g e = some s ∧ edge_sink_node g e = some t
        ∧ s < N ∧ t < N) →
      ScatterInv N (es.foldl (insert_edge g) st) (fun n => P n ++ scattered g n es) r := by
  induction es with
  | nil =>
    intro st P r h _
    exact scatterInv_congr h (fun n _ => by simp [scattered]) (fun n _ => by simp [scattered])
  | cons e es ih =>
    intro st P r h hends
    obtain ⟨s, t, hs, ht, hsN, htN⟩ := hends e (List.mem_cons_self _ _)
    have h1 := scatterInv_insert_edge g h e s t hs ht hsN htN
      (fun n _ => by simp only [scattered, List.length_append]; omega)
    have h2 : ScatterInv N (insert_edge g st e) (fun n => P n ++ contrib g n e)
        (fun n => (scattered g n es).length + r n) :=
      scatterInv_congr h1 (fun _ _ => rfl)
        (fun n _ => by simp only [scattered, List.length_append]; omega)
    have h3 := ih _ _ _ h2 (fun e' he' => hends e' (List.mem_cons_of_mem _ he'))
    simp only [List.foldl_cons]
    exact scatterInv_congr h3 (fun n _ => by simp [scattered]) (fun _ _ => rfl)

theorem scattered_length (g : RRGraph) (n : Nat) (es : List RREdgeId) :
    (scattered g n es).length
      = (es.filter (fun e => edge_sink_node g e == some n)).length
        + (es.filter (fun e => edge_src_node g e == some n)).length := by
  induction es with
  | nil => rfl
  | cons e es ih =>
    simp only [scattered, contrib, List.length_append, ih, List.filter_cons]
    by_cases h1 : edge_src_node g e = some n <;> by_cases h2 : edge_sink_node g e = some n <;>
      simp [h1, h2] <;> omega

theorem nodes_of_edge_view {g g' : RRGraph} (h : edge_view g' = edge_view g) :
    nodes g' = nodes g := by
  simp only [edge_view, Prod.mk.injEq] at h
  obtain ⟨h1, _, _, _, _, _, h7, _⟩ := h
  unfold nodes valid_node_id
  rw [h1, h7]

theorem insert_edge_of_edge_view {g g' : RRGraph} (h : edge_view g' = edge_view g) :
    insert_edge g' = insert_edge g := by
  obtain ⟨a1, a2, _⟩ := accessors_of_edge_view h
  funext st e
  simp only [insert_edge, a1, a2]

theorem scattered_of_edge_view {g g' : RRGraph} (h : edge_view g' = edge_view g) :
    scattered g' = scattered g := by
  obtain ⟨a1, a2, _⟩ := accessors_of_edge_view h
  funext n es
  induction es with
  | nil => rfl
  | cons e es ih => simp only [scattered, contrib, a1, a2, ih]

theorem scatter_result (g : RRGraph) (N : Nat) (es : List RREdgeId)
    (A : List (List RREdgeId)) (hA : A.length = N)
    (hslots : ∀ n < N, A.getD n [] = List.replicate (scattered g n es).length none)
    (hends : ∀ e ∈ es, ∃ s t, edge_src_node g e = some s ∧ edge_sink_node g e = some t
      ∧ s < N ∧ t < N) :
    (es.foldl (insert_edge g) (A, List.replicate N 0)).1.length = N
    ∧ ∀ n < N, (es.foldl (insert_edge g) (A, List.replicate N 0)).1.getD n []
        = scattered g n es := by
  have h0 : ScatterInv N (A, List.replicate N 0) (fun _ => [])
      (fun n => (scattered g n es).length + (fun _ => 0) n) := by
    constructor
    · exact hA
    · simp
    · intro n hn
      simpa using hslots n hn
    · intro n hn
      simp [List.getD_eq_getElem?_getD, List.getElem?_replicate, hn]
  have h1 := scatterInv_fold g es _ _ _ h0 hends
  refine ⟨h1.len_slots, ?_⟩
  intro n hn
  simpa using h1.slots n hn

theorem fresh_endpoints (g : RRGraph) (hg : FreshlyBuilt g) :
    ∀ e ∈ edges g, ∃ s t, edge_src_node g e = some s ∧ edge_sink_node g e = some t
      ∧ s < g.num_nodes_ ∧ t < g.num_nodes_ := by
  intro e he
  simp only [edges, List.mem_filter, List.mem_map, List.mem_range] at he
  obtain ⟨⟨i, hi, rfl⟩, _⟩ := he
  have hi1 : i < g.edge_src_nodes_.length := by rw [hg.src_size]; exact hi
  have hi2 : i < g.edge_sink_nodes_.length := by rw [hg.sink_size]; exact hi
  have hs : edge_src_node g (some i) = g.edge_src_nodes_[i] := by
    simp [edge_src_node, at_id, List.getD_eq_getElem?_getD, List.getElem?_eq_getElem hi1]
  have ht : edge_sink_node g (some i) = g.edge_sink_nodes_[i] := by
    simp [edge_sink_node, at_id, List.getD_eq_getElem?_getD, List.getElem?_eq_getElem hi2]
  have vs := hg.src_valid _ (List.getElem_mem hi1)
  have vt := hg.sink_valid _ (List.getElem_mem hi2)
  rw [← hs] at vs
  rw [← ht] at vt
  cases h1 : edge_src_node g (some i) with
  | none => rw [h1] at vs; simp [valid_node_id] at vs
  | some s =>
    cases h2 : edge_sink_node g (some i) with
    | none => rw [h2] at vt; simp [valid_node_id] at vt
    | some t =>
      rw [h1] at vs
      rw [h2] at vt
      simp only [valid_node_id, Bool.and_eq_true, decide_eq_true_eq] at vs vt
      exact ⟨s, t, rfl, rfl, vs.1, vt.1⟩

theorem rebuild_unfold_fresh (g : RRGraph) (hg : FreshlyBuilt g) :
    rebuild_node_edges g = (nodes (inserted g)).foldl partition_node_edges (inserted g) := by
  have hn : (nodes g).length = g.num_nodes_ := by
    rw [nodes_of_no_invalid g hg.no_invalid_nodes]; simp
  have e1 : resize g.node_edges_ g.num_nodes_ [] = g.node_edges_ := by
    have : g.node_edges_.length = g.num_nodes_ := by rw [hg.slots_empty]; simp
    conv_lhs => rw [← this]
    exact resize_self _ _
  have e2 : resize g.node_num_in_edges_ g.num_nodes_ 0 = g.node_num_in_edges_ := by
    have : g.node_num_in_edges_.length = g.num_nodes_ := by rw [hg.in_zero]; simp
    conv_lhs => rw [← this]
    exact resize_self _ _
  have e3 : resize g.node_num_out_edges_ g.num_nodes_ 0 = g.node_num_out_edges_ := by
    have : g.node_num_out_edges_.length = g.num_nodes_ := by rw [hg.out_zero]; simp
    conv_lhs => rw [← this]
    exact resize_self _ _
  have e4 : resize g.node_num_non_configurable_in_edges_ g.num_nodes_ 0
      = g.node_num_non_configurable_in_edges_ := by
    have : g.node_num_non_configurable_in_edges_.length = g.num_nodes_ := by
      rw [hg.nc_in_zero]; simp
    conv_lhs => rw [← this]
    exact resize_self _ _
  have e5 : resize g.node_num_non_configurable_out_edges_ g.num_nodes_ 0
      = g.node_num_non_configurable_out_edges_ := by
    have : g.node_num_non_configurable_out_edges_.length = g.num_nodes_ := by
      rw [hg.nc_out_zero]; simp
    conv_lhs => rw [← this]
    exact resize_self _ _
  unfold rebuild_node_edges inserted allocated counted
  simp only [hn, e1, e2, e3, e4, e5]

theorem only_slots_allocated (g : RRGraph) : only_slots (counted g) (allocated g) :=
  only_slots_foldl _ only_slots_allocate _ _

theorem only_slots_inserted (g : RRGraph) : only_slots (counted g) (inserted g) :=
  only_slots_trans (only_slots_allocated g) ⟨_, rfl⟩

theorem edge_view_counted (g : RRGraph) : edge_view (counted g) = edge_view g :=
  edge_view_count_fold _ g

theorem edge_view_inserted (g : RRGraph) : edge_view (inserted g) = edge_view g :=
  (only_slots_edge_view (only_slots_inserted g)).trans (edge_view_counted g)

theorem nodes_fresh (g g' : RRGraph) (hg : FreshlyBuilt g) (h : edge_view g' = edge_view g) :
    nodes g' = (List.range g.num_nodes_).map some := by
  rw [nodes_of_edge_view h, nodes_of_no_invalid g hg.no_invalid_nodes]

theorem counted_slots_length (g : RRGraph) (hg : FreshlyBuilt g) :
    (counted g).node_edges_.length = g.num_nodes_ := by
  unfold counted
  rw [count_fold]
  simp [hg.slots_empty]

theorem fan_counted (g : RRGraph) (hg : FreshlyBuilt g) (n : Nat) (hn : n < g.num_nodes_) :
    node_num_in_edges (counted g) (some n) + node_num_out_edges (counted g) (some n)
      = (scattered g n (edges g)).length := by
  obtain ⟨c1, c2, _, _⟩ := counts_of_only_slots g (counted g) hg (only_slots_refl _) n hn
  obtain ⟨a1, a2, _⟩ := accessors_of_edge_view (edge_view_counted g)
  rw [c1, c2, edges_of_edge_view (edge_view_counted g), a1, a2, scattered_length]

theorem allocated_slots (g : RRGraph) (hg : FreshlyBuilt g) :
    (allocated g).node_edges_.length = g.num_nodes_
    ∧ ∀ n < g.num_nodes_, (allocated g).node_edges_.getD n []
        = List.replicate (scattered g n (edges g)).length none := by
  have hnodes := nodes_fresh g (counted g) hg (edge_view_counted g)
  unfold allocated
  rw [hnodes, allocate_fold]
  constructor
  · exact (foldl_set_length []
      (fun m (_ : List RREdgeId) =>
        List.replicate (node_num_in_edges (counted g) (some m) + node_num_out_edges (counted g) (some m)) none)
      (List.range g.num_nodes_) (counted g).node_edges_).trans (counted_slots_length g hg)
  · intro n hn
    have key := foldl_set_getD []
      (fun m (_ : List RREdgeId) =>
        List.replicate (node_num_in_edges (counted g) (some m) + node_num_out_edges (counted g) (some m)) none)
      (List.range g.num_nodes_) (counted g).node_edges_ (List.nodup_range _) n
    have h1 : n ∈ List.range g.num_nodes_ ∧ n < (counted g).node_edges_.length := by
      rw [counted_slots_length g hg]
      exact ⟨List.mem_range.mpr hn, hn⟩
    rw [if_pos h1] at key
    exact key.trans (by rw [fan_counted g hg n hn])

theorem inserted_slots (g : RRGraph) (hg : FreshlyBuilt g) :
    (inserted g).node_edges_.length = g.num_nodes_
    ∧ ∀ n < g.num_nodes_, (inserted g).node_edges_.getD n [] = scattered g n (edges g) := by
  have hev : edge_view (allocated g) = edge_view g :=
    (only_slots_edge_view (only_slots_allocated g)).trans (edge_view_counted g)
  obtain ⟨hl, hs⟩ := allocated_slots g hg
  have := scatter_result g g.num_nodes_ (edges g) (allocated g).node_edges_ hl hs
    (fresh_endpoints g hg)
  unfold inserted
  simp only
  rw [edges_of_edge_view hev, insert_edge_of_edge_view hev]
  exact this

/-- On a freshly built graph, the adjacency array that `rebuild_node_edges`
leaves for node `n` is the three-fold partition of the array written by the
insertion loop. -/
theorem rebuild_slots (g : RRGraph) (hg : FreshlyBuilt g) (n : Nat) (hn : n < g.num_nodes_) :
    node_edge_slots (rebuild_node_edges g) (some n)
      = partition_slots (inserted g) (some n) (scattered g n (edges g)) := by
  obtain ⟨hl, hs⟩ := inserted_slots g hg
  rw [rebuild_unfold_fresh g hg, nodes_fresh g (inserted g) hg (edge_view_inserted g),
    partition_fold]
  have key := foldl_set_getD []
    (fun m (s : List RREdgeId) => partition_slots (inserted g) (some m) s)
    (List.range g.num_nodes_) (inserted g).node_edges_ (List.nodup_range _) n
  have h1 : n ∈ List.range g.num_nodes_ ∧ n < (inserted g).node_edges_.length := by
    rw [hl]
    exact ⟨List.mem_range.mpr hn, hn⟩
  rw [if_pos h1, hs n hn] at key
  exact key

theorem filter_length_add {α : Type} (p : α → Bool) (l : List α) :
    (l.filter p).length + (l.filter (fun x => !p x)).length = l.length := by
  induction l with
  | nil => rfl
  | cons x l ih =>
    cases h : p x <;> simp [List.filter_cons, h] <;> omega

theorem stable_partition_length {α : Type} (p : α → Bool) (l : List α) :
    (stable_partition p l).length = l.length := by
  simp [stable_partition, filter_length_add]

theorem stable_partition_range_all {α : Type} (p : α → Bool) (l : List α) (hi : Nat)
    (h : hi = l.length) :
    stable_partition_range p l 0 hi = stable_partition p l := by
  subst h
  simp [stable_partition_range]

theorem stable_partition_range_prefix {α : Type} (q : α → Bool) (u v : List α) :
    stable_partition_range q (u ++ v) 0 u.length = stable_partition q u ++ v := by
  simp [stable_partition_range]

theorem stable_partition_range_suffix {α : Type} (q : α → Bool) (u v : List α) :
    stable_partition_range q (u ++ v) u.length (u.length + v.length)
      = u ++ stable_partition q v := by
  simp [stable_partition_range]

/-- The three partitions of `rebuild_node_edges` on an array whose elements
satisfying `p` number exactly `a`: the `p` elements split by `q`, then the
others split by `q`. -/
theorem three_partitions {α : Type} (p q : α → Bool) (S : List α) (a b : Nat)
    (ha : a = (S.filter p).length) (hb : a + b = S.length) :
    stable_partition_range q
        (stable_partition_range q (stable_partition_range p S 0 (a + b)) 0 a) a (a + b)
      = stable_partition q (S.filter p) ++ stable_partition q (S.filter (fun x => !p x)) := by
  have hb' : b = (S.filter (fun x => !p x)).length := by
    have := filter_length_add p S
    omega
  rw [stable_partition_range_all p S (a + b) hb]
  unfold stable_partition
  rw [ha, stable_partition_range_prefix q (S.filter p)]
  have hlen : (S.filter p).length = (stable_partition q (S.filter p)).length :=
    (stable_partition_length q _).symm
  rw [hb']
  conv_lhs => rw [hlen]
  exact stable_partition_range_suffix q _ _

theorem scattered_filter_in (g : RRGraph) (n : Nat) (es : List RREdgeId)
    (h : ∀ e ∈ es, ¬ (edge_src_node g e = some n ∧ edge_sink_node g e = some n)) :
    (scattered g n es).filter (fun e => edge_sink_node g e == some n)
      = es.filter (fun e => edge_sink_node g e == some n) := by
  induction es with
  | nil => rfl
  | cons e es ih =>
    have h0 := h e (List.mem_cons_self _ _)
    have ih' := ih (fun e' he' => h e' (List.mem_cons_of_mem _ he'))
    simp only [scattered, contrib, List.filter_append, ih', List.filter_cons]
    by_cases h1 : edge_src_node g e = some n <;> by_cases h2 : edge_sink_node g e = some n
    · exact absurd ⟨h1, h2⟩ h0
    · simp [h1, h2]
    · simp [h1, h2]
    · simp [h1, h2]

theorem scattered_filter_out (g : RRGraph) (n : Nat) (es : List RREdgeId)
    (h : ∀ e ∈ es, ¬ (edge_src_node g e = some n ∧ edge_sink_node g e = some n)) :
    (scattered g n es).filter (fun e => !(edge_sink_node g e == some n))
      = es.filter (fun e => edge_src_node g e == some n) := by
  induction es with
  | nil => rfl
  | cons e es ih =>
    have h0 := h e (List.mem_cons_self _ _)
    have ih' := ih (fun e' he' => h e' (List.mem_cons_of_mem _ he'))
    simp only [scattered, contrib, List.filter_append, ih', List.filter_cons]
    by_cases h1 : edge_src_node g e = some n <;> by_cases h2 : edge_sink_node g e = some n
    · exact absurd ⟨h1, h2⟩ h0
    · simp [h1, h2]
    · simp [h1, h2]
    · simp [h1, h2]

theorem layout_of_slots (g g' : RRGraph) (hg : FreshlyBuilt g) (n : Nat)
    (hn : n < g.num_nodes_)
    (hloop : ∀ e ∈ edges g, ¬ (edge_src_node g e = some n ∧ edge_sink_node g e = some n))
    (hs : only_slots (counted g) g')
    (hslots : node_edge_slots g' (some n)
      = partition_slots (inserted g) (some n) (scattered g n (edges g))) :
    node_edge_slots g' (some n) = claimed_node_edges g' (some n)
    ∧ (node_edge_slots g' (some n)).length = node_num_in_edges g' (some n) + node_num_out_edges g' (some n)
    ∧ node_in_edges g' (some n)
        = (edges g').filter
            (fun e => edge_sink_node g' e == some n && edge_is_configurable g' e)
          ++ (edges g').filter
            (fun e => edge_sink_node g' e == some n && edge_is_non_configurable g' e)
    ∧ node_out_edges g' (some n)
        = (edges g').filter
            (fun e => edge_src_node g' e == some n && edge_is_configurable g' e)
          ++ (edges g').filter
            (fun e => edge_src_node g' e == some n && edge_is_non_configurable g' e) := by
  have hev : edge_view g' = edge_view g := (only_slots_edge_view hs).trans (edge_view_counted g)
  obtain ⟨a1, a2, a3⟩ := accessors_of_edge_view hev
  obtain ⟨b1, b2, b3⟩ := accessors_of_edge_view (edge_view_inserted g)
  have hE := edges_of_edge_view hev
  obtain ⟨c1, c2, _, _⟩ := counts_of_only_slots g g' hg hs n hn
  rw [hE, a1] at c1
  rw [hE, a2] at c2
  have fi : node_num_in_edges (inserted g) (some n) = node_num_in_edges g' (some n) := by
    rw [(fan_of_only_slots (only_slots_inserted g) (some n)).1, (fan_of_only_slots hs (some n)).1]
  have fo : node_num_out_edges (inserted g) (some n) = node_num_out_edges g' (some n) := by
    rw [(fan_of_only_slots (only_slots_inserted g) (some n)).2, (fan_of_only_slots hs (some n)).2]
  have hin := scattered_filter_in g n (edges g) hloop
  have hout := scattered_filter_out g n (edges g) hloop
  have ha : node_num_in_edges g' (some n)
      = ((scattered g n (edges g)).filter (fun e => edge_sink_node g e == some n)).length := by
    rw [hin, c1]
  have hb : node_num_in_edges g' (some n) + node_num_out_edges g' (some n)
      = (scattered g n (edges g)).length := by
    rw [scattered_length, c1, c2]
  have key : node_edge_slots g' (some n)
      = stable_partition (edge_is_configurable g)
          ((edges g).filter (fun e => edge_sink_node g e == some n))
        ++ stable_partition (edge_is_configurable g)
          ((edges g).filter (fun e => edge_src_node g e == some n)) := by
    rw [hslots]
    unfold partition_slots
    simp only [fi, fo, b1, b3]
    rw [three_partitions (fun e => edge_sink_node g e == some n) (edge_is_configurable g)
      (scattered g n (edges g)) _ _ ha hb, hin, hout]
  have hlenIn : (stable_partition (edge_is_configurable g)
      ((edges g).filter (fun e => edge_sink_node g e == some n))).length
      = node_num_in_edges g' (some n) := by
    rw [stable_partition_length, c1]
  have hlenOut : (stable_partition (edge_is_configurable g)
      ((edges g).filter (fun e => edge_src_node g e == some n))).length
      = node_num_out_edges g' (some n) := by
    rw [stable_partition_length, c2]
  have f1 : ∀ (p : RREdgeId → Bool),
      stable_partition (edge_is_configurable g) ((edges g).filter p)
        = (edges g).filter (fun e => p e && edge_is_configurable g e)
          ++ (edges g).filter (fun e => p e && !edge_is_configurable g e) := by
    intro p
    unfold stable_partition
    rw [List.filter_filter, List.filter_filter]
    congr 1 <;> apply List.filter_congr <;> intro e _ <;> exact Bool.and_comm _ _
  refine ⟨?_, ?_, ?_, ?_⟩
  · rw [key, f1, f1]
    simp only [claimed_node_edges, hE, a1, a2, a3, edge_is_non_configurable,
      List.append_assoc]
  · rw [key, List.length_append, hlenIn, hlenOut]
  · unfold node_in_edges
    rw [key, ← hlenIn, List.take_left, f1]
    simp only [hE, a1, a3, edge_is_non_configurable]
  · unfold node_out_edges
    rw [key, ← hlenIn, List.drop_left, ← hlenOut, List.take_length, f1]
    simp only [hE, a2, a3, edge_is_non_configurable]

/-- On a freshly built graph, for every node `n` that carries no self-loop
edge: after `rebuild_node_edges` the adjacency array of `n` has length
fan-in + fan-out and is the concatenation of the configurable in-edges, the
non-configurable in-edges, the configurable out-edges and the
non-configurable out-edges of `n`, each in ascending edge id; its in-range
and out-range are the first two and the last two groups. -/
theorem rebuild_node_edges_layout (g : RRGraph) (hg : FreshlyBuilt g) (n : Nat)
    (hn : n < g.num_nodes_)
    (hloop : ∀ e ∈ edges g, ¬ (edge_src_node g e = some n ∧ edge_sink_node g e = some n)) :
    node_edges (rebuild_node_edges g) (some n)
        = claimed_node_edges (rebuild_node_edges g) (some n)
    ∧ (node_edges (rebuild_node_edges g) (some n)).length
        = node_num_in_edges (rebuild_node_edges g) (some n)
          + node_num_out_edges (rebuild_node_edges g) (some n)
    ∧ node_in_edges (rebuild_node_edges g) (some n)
        = (edges (rebuild_node_edges g)).filter
            (fun e => edge_sink_node (rebuild_node_edges g) e == some n
              && edge_is_configurable (rebuild_node_edges g) e)
          ++ (edges (rebuild_node_edges g)).filter
            (fun e => edge_sink_node (rebuild_node_edges g) e == some n
              && edge_is_non_configurable (rebuild_node_edges g) e)
    ∧ node_out_edges (rebuild_node_edges g) (some n)
        = (edges (rebuild_node_edges g)).filter
            (fun e => edge_src_node (rebuild_node_edges g) e == some n
              && edge_is_configurable (rebuild_node_edges g) e)
          ++ (edges (rebuild_node_edges g)).filter
            (fun e => edge_src_node (rebuild_node_edges g) e == some n
              && edge_is_non_configurable (rebuild_node_edges g) e) := by
  obtain ⟨h1, h2, h3, h4⟩ := layout_of_slots g (rebuild_node_edges g) hg n hn hloop
    (rebuild_fresh g hg) (rebuild_slots g hg n hn)
  refine ⟨?_, ?_, h3, h4⟩
  · unfold node_edges
    rw [← h2, List.take_length]
    exact h1
  · unfold node_edges
    rw [← h2, List.take_length]

/-! ## Handles, creation and removal -/

/-- C18. A node (edge) handle is valid iff its integer is below the node
(edge) count and it is not in the invalid-node (invalid-edge) set; a switch
(segment) handle is valid iff its integer is below the catalog size; the
invalid sentinel of each id type is never valid. -/
theorem valid_ids_characterised (g : RRGraph) :
    (∀ node : RRNodeId, valid_node_id g node = true
        ↔ (∃ i, node = some i ∧ i < g.num_nodes_) ∧ node ∉ g.invalid_node_ids_)
    ∧ (∀ edge : RREdgeId, valid_edge_id g edge = true
        ↔ (∃ i, edge = some i ∧ i < g.num_edges_) ∧ edge ∉ g.invalid_edge_ids_)
    ∧ (∀ switch_id : RRSwitchId, valid_switch_id g switch_id = true
        ↔ ∃ i, switch_id = some i ∧ i < g.switches_.length)
    ∧ (∀ segment_id : RRSegmentId, valid_segment_id g segment_id = true
        ↔ ∃ i, segment_id = some i ∧ i < g.segments_.length)
    ∧ valid_node_id g none = false ∧ valid_edge_id g none = false
    ∧ valid_switch_id g none = false ∧ valid_segment_id g none = false := by
  refine ⟨?_, ?_, ?_, ?_, rfl, rfl, rfl, rfl⟩
  · intro node
    cases node with
    | none =>
      simp [valid_node_id]
    | some i =>
      simp [valid_node_id]
  · intro edge
    cases edge with
    | none =>
      simp [valid_edge_id]
    | some i =>
      simp [valid_edge_id]
  · intro s
    cases s with
    | none => simp [valid_switch_id]
    | some i => simp [valid_switch_id]
  · intro s
    cases s with
    | none => simp [valid_segment_id]
    | some i => simp [valid_segment_id]

theorem validate_sizes_of_sizesOk (g : RRGraph) (h : SizesOk g) : validate_sizes g = true := by
  simp [validate_sizes, validate_node_sizes, validate_edge_sizes, validate_switch_sizes,
    validate_segment_sizes, h.types, h.boxes, h.capacities, h.ptcs, h.costs, h.directions,
    h.sides, h.rs, h.cs, h.segments, h.nc_in, h.nc_out, h.slots, h.srcs, h.sinks, h.switches,
    h.switch_ids, h.segment_ids]

theorem getElem?_append_new {α : Type} (l : List α) (x : α) (n : Nat) (h : l.length = n) :
    (l ++ [x])[n]? = some x := by
  subst h
  simp

theorem getElem?_append_old {α : Type} (l : List α) (x : α) (n i : Nat) (h : l.length = n)
    (hi : i < n) : (l ++ [x])[i]? = l[i]? := by
  subst h
  exact List.getElem?_append_left hi

theorem create_node_eq (g : RRGraph) (type : t_rr_type) (hs : SizesOk g) :
    create_node g type =
      some
        (invalidate_fast_node_lookup
          { g with
            num_nodes_ := g.num_nodes_ + 1
            node_types_ := g.node_types_ ++ [type]
            node_bounding_boxes_ := g.node_bounding_boxes_ ++ [⟨-1, -1, -1, -1⟩]
            node_capacities_ := g.node_capacities_ ++ [-1]
            node_ptc_nums_ := g.node_ptc_nums_ ++ [[-1]]
            node_cost_indices_ := g.node_cost_indices_ ++ [-1]
            node_directions_ := g.node_directions_ ++ [e_direction.NO_DIRECTION]
            node_sides_ := g.node_sides_ ++ [e_side.NUM_SIDES]
            node_Rs_ := g.node_Rs_ ++ [0]
            node_Cs_ := g.node_Cs_ ++ [0]
            node_rc_data_indices_ := g.node_rc_data_indices_ ++ [-1]
            node_segments_ := g.node_segments_ ++ [none]
            node_edges_ := g.node_edges_ ++ [[]]
            node_num_in_edges_ := g.node_num_in_edges_ ++ [0]
            node_num_out_edges_ := g.node_num_out_edges_ ++ [0]
            node_num_non_configurable_in_edges_ :=
              g.node_num_non_configurable_in_edges_ ++ [0]
            node_num_non_configurable_out_edges_ :=
              g.node_num_non_configurable_out_edges_ ++ [0] },
          some g.num_nodes_) := by
  unfold create_node
  dsimp only
  rw [if_pos]
  simp [invalidate_fast_node_lookup, validate_sizes, validate_node_sizes, validate_edge_sizes,
    validate_switch_sizes, validate_segment_sizes, hs.types, hs.boxes, hs.capacities, hs.ptcs,
    hs.costs, hs.directions, hs.sides, hs.rs, hs.cs, hs.segments, hs.nc_in, hs.nc_out,
    hs.slots, hs.srcs, hs.sinks, hs.switches, hs.switch_ids, hs.segment_ids]

/-- C19. On a size-consistent graph whose invalid-node set does not hold the
next id, `create_node(type)` returns the id equal to the node count before the
call; that id is valid and reads back `type`, the box (-1,-1,-1,-1), capacity
-1, the ptc array `[-1]`, cost index -1, `NO_DIRECTION`, `NUM_SIDES`,
R = C = 0, rc-data index -1, the invalid segment, zero counters and an empty
adjacency array; the node count grows by one, every stored attribute of every
earlier node is unchanged and the spatial index is unbuilt. -/
theorem create_node_postcondition (g : RRGraph) (type : t_rr_type) (hs : SizesOk g)
    (hfresh : some g.num_nodes_ ∉ g.invalid_node_ids_) :
    ∃ g', create_node g type = some (g', some g.num_nodes_)
      ∧ g'.num_nodes_ = g.num_nodes_ + 1
      ∧ valid_node_id g' (some g.num_nodes_) = true
      ∧ (g'.node_types_[g.num_nodes_]? = some type
        ∧ g'.node_bounding_boxes_[g.num_nodes_]? = some ⟨-1, -1, -1, -1⟩
        ∧ g'.node_capacities_[g.num_nodes_]? = some (-1)
        ∧ g'.node_ptc_nums_[g.num_nodes_]? = some [-1]
        ∧ g'.node_cost_indices_[g.num_nodes_]? = some (-1)
        ∧ g'.node_directions_[g.num_nodes_]? = some e_direction.NO_DIRECTION
        ∧ g'.node_sides_[g.num_nodes_]? = some e_side.NUM_SIDES
        ∧ g'.node_Rs_[g.num_nodes_]? = some 0
        ∧ g'.node_Cs_[g.num_nodes_]? = some 0
        ∧ g'.node_rc_data_indices_[g.num_nodes_]? = some (-1)
        ∧ g'.node_segments_[g.num_nodes_]? = some none)
      ∧ (g'.node_num_in_edges_[g.num_nodes_]? = some 0
        ∧ g'.node_num_out_edges_[g.num_nodes_]? = some 0
        ∧ g'.node_num_non_configurable_in_edges_[g.num_nodes_]? = some 0
        ∧ g'.node_num_non_configurable_out_edges_[g.num_nodes_]? = some 0
        ∧ g'.node_edges_[g.num_nodes_]? = some [])
      ∧ (∀ i < g.num_nodes_,
          g'.node_types_[i]? = g.node_types_[i]?
          ∧ g'.node_bounding_boxes_[i]? = g.node_bounding_boxes_[i]?
          ∧ g'.node_capacities_[i]? = g.node_capacities_[i]?
          ∧ g'.node_ptc_nums_[i]? = g.node_ptc_nums_[i]?
          ∧ g'.node_cost_indices_[i]? = g.node_cost_indices_[i]?
          ∧ g'.node_directions_[i]? = g.node_directions_[i]?
          ∧ g'.node_sides_[i]? = g.node_sides_[i]?
          ∧ g'.node_Rs_[i]? = g.node_Rs_[i]?
          ∧ g'.node_Cs_[i]? = g.node_Cs_[i]?
          ∧ g'.node_rc_data_indices_[i]? = g.node_rc_data_indices_[i]?
          ∧ g'.node_segments_[i]? = g.node_segments_[i]?
          ∧ g'.node_num_in_edges_[i]? = g.node_num_in_edges_[i]?
          ∧ g'.node_num_out_edges_[i]? = g.node_num_out_edges_[i]?
          ∧ g'.node_num_non_configurable_in_edges_[i]?
              = g.node_num_non_configurable_in_edges_[i]?
          ∧ g'.node_num_non_configurable_out_edges_[i]?
              = g.node_num_non_configurable_out_edges_[i]?
          ∧ g'.node_edges_[i]? = g.node_edges_[i]?
          ∧ valid_node_id g' (some i) = valid_node_id g (some i))
      ∧ valid_fast_node_lookup g' = false := by
  refine ⟨_, create_node_eq g type hs, rfl, ?_, ?_, ?_, ?_, rfl⟩
  · simp only [valid_node_id, invalidate_fast_node_lookup, Bool.and_eq_true, decide_eq_true_eq,
      Bool.not_eq_true']
    exact ⟨Nat.lt_succ_self _, by simpa using hfresh⟩
  · simp only [invalidate_fast_node_lookup]
    exact ⟨getElem?_append_new _ _ _ hs.types, getElem?_append_new _ _ _ hs.boxes,
      getElem?_append_new _ _ _ hs.capacities, getElem?_append_new _ _ _ hs.ptcs,
      getElem?_append_new _ _ _ hs.costs, getElem?_append_new _ _ _ hs.directions,
      getElem?_append_new _ _ _ hs.sides, getElem?_append_new _ _ _ hs.rs,
      getElem?_append_new _ _ _ hs.cs, getElem?_append_new _ _ _ hs.rc_data,
      getElem?_append_new _ _ _ hs.segments⟩
  · simp only [invalidate_fast_node_lookup]
    exact ⟨getElem?_append_new _ _ _ hs.fan_in, getElem?_append_new _ _ _ hs.fan_out,
      getElem?_append_new _ _ _ hs.nc_in, getElem?_append_new _ _ _ hs.nc_out,
      getElem?_append_new _ _ _ hs.slots⟩
  · intro i hi
    simp only [invalidate_fast_node_lookup]
    refine ⟨getElem?_append_old _ _ _ _ hs.types hi, getElem?_append_old _ _ _ _ hs.boxes hi,
      getElem?_append_old _ _ _ _ hs.capacities hi, getElem?_append_old _ _ _ _ hs.ptcs hi,
      getElem?_append_old _ _ _ _ hs.costs hi, getElem?_append_old _ _ _ _ hs.directions hi,
      getElem?_append_old _ _ _ _ hs.sides hi, getElem?_append_old _ _ _ _ hs.rs hi,
      getElem?_append_old _ _ _ _ hs.cs hi, getElem?_append_old _ _ _ _ hs.rc_data hi,
      getElem?_append_old _ _ _ _ hs.segments hi, getElem?_append_old _ _ _ _ hs.fan_in hi,
      getElem?_append_old _ _ _ _ hs.fan_out hi, getElem?_append_old _ _ _ _ hs.nc_in hi,
      getElem?_append_old _ _ _ _ hs.nc_out hi, getElem?_append_old _ _ _ _ hs.slots hi, ?_⟩
    simp only [valid_node_id]
    have h1 : i < g.num_nodes_ + 1 := Nat.lt_succ_of_lt hi
    simp [hi, h1]

theorem storageRetained_refl (g : RRGraph) : StorageRetained g g := by
  constructor <;> first | rfl | (intro i; rfl)

theorem storageRetained_trans {a b c : RRGraph} (h1 : StorageRetained a b)
    (h2 : StorageRetained b c) : StorageRetained a c := by
  constructor
  · exact h2.num_nodes.trans h1.num_nodes
  · exact h2.num_edges.trans h1.num_edges
  · exact h2.types.trans h1.types
  · exact h2.boxes.trans h1.boxes
  · exact h2.capacities.trans h1.capacities
  · exact h2.ptcs.trans h1.ptcs
  · exact h2.costs.trans h1.costs
  · exact h2.directions.trans h1.directions
  · exact h2.sides.trans h1.sides
  · exact h2.rs.trans h1.rs
  · exact h2.cs.trans h1.cs
  · exact h2.rc_data.trans h1.rc_data
  · exact h2.segments.trans h1.segments
  · exact h2.fan_in.trans h1.fan_in
  · exact h2.fan_out.trans h1.fan_out
  · exact h2.nc_in.trans h1.nc_in
  · exact h2.nc_out.trans h1.nc_out
  · exact h2.srcs.trans h1.srcs
  · exact h2.sinks.trans h1.sinks
  · exact h2.switches.trans h1.switches
  · exact h2.switch_ids.trans h1.switch_ids
  · exact h2.switch_infos.trans h1.switch_infos
  · exact h2.segment_ids.trans h1.segment_ids
  · exact h2.segment_infos.trans h1.segment_infos
  · exact h2.slots_length.trans h1.slots_length
  · intro i
    exact (h2.slot_lengths i).trans (h1.slot_lengths i)

theorem scrub_first_length (l : List RREdgeId) :
    ∀ (i lo hi : Nat) (edge : RREdgeId), (scrub_first l i lo hi edge).length = l.length := by
  induction l with
  | nil => intro i lo hi edge; rfl
  | cons x xs ih =>
    intro i lo hi edge
    unfold scrub_first
    split
    · rfl
    · simp [ih]

theorem getD_set_length {α : Type} (l : List (List α)) (i j : Nat) (x : List α)
    (hx : x.length = (l.getD i []).length) :
    ((l.set i x).getD j []).length = (l.getD j []).length := by
  by_cases hij : i = j
  · subst hij
    by_cases hlen : i < l.length
    · simp [List.getD_eq_getElem?_getD, List.getElem?_set_self hlen, hx]
    · rw [List.set_eq_of_length_le (by omega)]
  · simp [List.getD_eq_getElem?_getD, List.getElem?_set_ne hij]

/-- The state written by a `remove_edge` that returns: adjacency slots may be
overwritten in place, the edge joins the invalid-edge set and the dirty flag
is set. -/
theorem remove_edge_some (g g' : RRGraph) (edge : RREdgeId)
    (h : remove_edge g edge = some g') :
    ∃ s, g' = { g with
                node_edges_ := s
                invalid_edge_ids_ := g.invalid_edge_ids_.insert edge
                dirty_ := true }
      ∧ s.length = g.node_edges_.length
      ∧ ∀ i, (s.getD i []).length = (g.node_edges_.getD i []).length := by
  unfold remove_edge at h
  cases edge with
  | none => simp at h
  | some e =>
    dsimp only at h
    split_ifs at h with h1
    split at h
    · rename_i s t hs ht
      split_ifs at h with h2
      refine ⟨_, (Option.some.inj h).symm, ?_, ?_⟩
      · simp [set_id, hs, ht]
      · intro i
        simp only [set_id, hs, ht, node_edge_slots, at_id]
        rw [getD_set_length _ _ _ _ (by rw [scrub_first_length])]
        exact getD_set_length _ _ _ _ (scrub_first_length _ _ _ _ _)
    · simp at h

theorem storageRetained_remove_edge (g g' : RRGraph) (edge : RREdgeId)
    (h : remove_edge g edge = some g') : StorageRetained g g' := by
  obtain ⟨s, rfl, h1, h2⟩ := remove_edge_some g g' edge h
  constructor <;> first | rfl | exact h1 | exact h2

theorem storageRetained_foldlM {β : Type} (f : RRGraph → β → Option RRGraph)
    (hf : ∀ g x g', f g x = some g' → StorageRetained g g') (l : List β) :
    ∀ g g', l.foldlM f g = some g' → StorageRetained g g' := by
  induction l with
  | nil =>
    intro g g' h
    simp only [List.foldlM, pure, Option.some.injEq] at h
    rw [← h]
    exact storageRetained_refl g
  | cons x l ih =>
    intro g g' h
    simp only [List.foldlM, bind, Option.bind_eq_some] at h
    obtain ⟨g1, h1, h2⟩ := h
    exact storageRetained_trans (hf g x g1 h1) (ih g1 g' h2)

theorem remove_node_some (g g1 : RRGraph) (node : RRNodeId)
    (h : remove_node g node = some g1) :
    ∃ g2, StorageRetained g g2 ∧ g2.invalid_node_ids_ = g.invalid_node_ids_
      ∧ g1 = set_dirty (invalidate_fast_node_lookup
          { g2 with invalid_node_ids_ := g2.invalid_node_ids_.insert node }) := by
  unfold remove_node at h
  simp only [bind, Option.bind_eq_some, Option.some.injEq] at h
  obtain ⟨a, ha, b, hb, hg1⟩ := h
  have ra := storageRetained_foldlM _
    (fun g x g' hx => storageRetained_remove_edge g g' _ hx) _ _ _ ha
  have rb := storageRetained_foldlM _
    (fun g x g' hx => storageRetained_remove_edge g g' _ hx) _ _ _ hb
  have va := node_view_foldlM _
    (fun g x g' hx => node_view_remove_edge g g' _ hx) _ _ _ ha
  have vb := node_view_foldlM _
    (fun g x g' hx => node_view_remove_edge g g' _ hx) _ _ _ hb
  rw [va] at vb
  simp only [node_view, Prod.mk.injEq] at vb
  exact ⟨b, storageRetained_trans ra rb, vb.2, hg1.symm⟩

/-- Frame of every `remove_node(n)` that returns: `n` is not a valid node id,
the dirty flag is set, the spatial index is unbuilt, the node count, every
per-node attribute vector and every edge counter are unchanged, the adjacency
vector and each adjacency array keep their lengths, and the validity of every
other node id is unchanged. -/
theorem remove_node_frame_of_some (g g1 : RRGraph) (node : RRNodeId)
    (h : remove_node g node = some g1) :
    valid_node_id g1 node = false ∧ is_dirty g1 = true ∧ valid_fast_node_lookup g1 = false
    ∧ g1.num_nodes_ = g.num_nodes_
    ∧ (g1.node_types_ = g.node_types_
      ∧ g1.node_bounding_boxes_ = g.node_bounding_boxes_
      ∧ g1.node_capacities_ = g.node_capacities_
      ∧ g1.node_ptc_nums_ = g.node_ptc_nums_
      ∧ g1.node_cost_indices_ = g.node_cost_indices_
      ∧ g1.node_directions_ = g.node_directions_
      ∧ g1.node_sides_ = g.node_sides_
      ∧ g1.node_Rs_ = g.node_Rs_
      ∧ g1.node_Cs_ = g.node_Cs_
      ∧ g1.node_rc_data_indices_ = g.node_rc_data_indices_
      ∧ g1.node_segments_ = g.node_segments_)
    ∧ (g1.node_num_in_edges_ = g.node_num_in_edges_
      ∧ g1.node_num_out_edges_ = g.node_num_out_edges_
      ∧ g1.node_num_non_configurable_in_edges_ = g.node_num_non_configurable_in_edges_
      ∧ g1.node_num_non_configurable_out_edges_ = g.node_num_non_configurable_out_edges_)
    ∧ (g1.node_edges_.length = g.node_edges_.length
      ∧ ∀ i, (g1.node_edges_.getD i []).length = (g.node_edges_.getD i []).length)
    ∧ (∀ m : RRNodeId, m ≠ node → valid_node_id g1 m = valid_node_id g m) := by
  obtain ⟨g2, r, hinv, rfl⟩ := remove_node_some g g1 node h
  refine ⟨(remove_node_invalidates g _ node h).2, rfl, rfl, r.num_nodes,
    ⟨r.types, r.boxes, r.capacities, r.ptcs, r.costs, r.directions, r.sides, r.rs, r.cs,
      r.rc_data, r.segments⟩,
    ⟨r.fan_in, r.fan_out, r.nc_in, r.nc_out⟩, ⟨r.slots_length, r.slot_lengths⟩, ?_⟩
  intro m hm
  cases m with
  | none => rfl
  | some i =>
    simp only [valid_node_id, set_dirty, invalidate_fast_node_lookup, r.num_nodes, hinv]
    congr 2
    simp [List.mem_insert_iff, hm]

/-- C13. On the graph with the single edge 0 from node 0 to node 1 and built
adjacency, `remove_edge(0)` returns with edge 0 in the invalid set and the
dirty flag set, but both adjacency arrays still hold edge 0: it is still the
out-edge of its source and the in-edge of its sink.  The first scan of
`remove_edge` runs over the in-range of the source and the second over the
out-range of the sink, and both ranges are empty here. -/
theorem remove_edge_keeps_slots :
    valid_edge_id single_edge_graph (some 0) = true
    ∧ edge_src_node single_edge_graph (some 0) = some 0
    ∧ edge_sink_node single_edge_graph (some 0) = some 1
    ∧ single_edge_graph.node_edges_ = [[some 0], [some 0]]
    ∧ (node_num_in_edges single_edge_graph (some 0) = 0
      ∧ node_num_out_edges single_edge_graph (some 0) = 1
      ∧ node_num_in_edges single_edge_graph (some 1) = 1
      ∧ node_num_out_edges single_edge_graph (some 1) = 0)
    ∧ ∃ g1, remove_edge single_edge_graph (some 0) = some g1
      ∧ g1.node_edges_ = [[some 0], [some 0]]
      ∧ node_out_edges g1 (some 0) = [some 0]
      ∧ node_in_edges g1 (some 1) = [some 0]
      ∧ g1.invalid_edge_ids_ = [some 0]
      ∧ valid_edge_id g1 (some 0) = false
      ∧ is_dirty g1 = true := by
  refine ⟨by decide, by decide, by decide, by decide, by decide, ?_⟩
  cases h : remove_edge single_edge_graph (some 0) with
  | none => exact absurd h (by decide)
  | some g1 =>
    have h1 : (remove_edge single_edge_graph (some 0)).map (fun g => g.node_edges_)
        = some [[some 0], [some 0]] := by decide
    have h2 : (remove_edge single_edge_graph (some 0)).map
        (fun g => (node_out_edges g (some 0), node_in_edges g (some 1)))
        = some ([some 0], [some 0]) := by decide
    have h3 : (remove_edge single_edge_graph (some 0)).map
        (fun g => (g.invalid_edge_ids_, valid_edge_id g (some 0), is_dirty g))
        = some ([some 0], false, true) := by decide
    rw [h] at h1 h2 h3
    simp only [Option.map_some', Option.some.injEq, Prod.mk.injEq] at h1 h2 h3
    exact ⟨g1, rfl, h1, h2.1, h2.2, h3.1, h3.2.1, h3.2.2⟩

/-- C11. On the graph with one node and the self-loop edge 0, adjacency
built, node 0 is valid and its array is `[0, 0]` with fan-in 1 and fan-out 1.
The in-edge loop of `remove_node(0)` calls `remove_edge(0)`, which overwrites
both slots with the sentinel; the out-edge loop then reads the sentinel from
slot 1 and passes it to `remove_edge`, whose first statement indexes
`edge_src_nodes_` with it: `remove_node` does not complete. -/
theorem remove_node_self_loop_fails :
    valid_node_id self_loop_graph (some 0) = true
    ∧ edge_src_node self_loop_graph (some 0) = some 0
    ∧ edge_sink_node self_loop_graph (some 0) = some 0
    ∧ self_loop_graph.node_edges_ = [[some 0, some 0]]
    ∧ node_num_in_edges self_loop_graph (some 0) = 1
    ∧ node_num_out_edges self_loop_graph (some 0) = 1
    ∧ (remove_slot_edge (some 0) self_loop_graph 0).map (fun g => g.node_edges_)
        = some [[none, none]]
    ∧ ((remove_slot_edge (some 0) self_loop_graph 0).bind
        (fun g => remove_slot_edge (some 0) g 1)) = none
    ∧ remove_node self_loop_graph (some 0) = none := by
  refine ⟨by decide, by decide, by decide, by decide, by decide, by decide, by decide,
    by decide, by decide⟩

/-- C20. Two nodes are created and node 0 is removed: the size check holds.
The assignments of `clean_nodes` inside `compress` then leave `num_nodes_` at
2 and `node_edges_`, `node_rc_data_indices_` at 2 entries while the reordered
attribute vectors have 1 entry, so `validate_node_sizes` is false at the
assertion and `compress` does not complete. -/
theorem compress_breaks_size_consistency :
    (two_nodes_removed.map (fun g => validate_sizes g)) = some true
    ∧ (two_nodes_removed.map (fun g => (build_id_maps g).1)) = some [none, some 0]
    ∧ (two_nodes_removed.map (fun g =>
        let g1 := clean_nodes_values g (build_id_maps g).1
        (g1.num_nodes_, g1.node_types_.length, g1.node_edges_.length,
          g1.node_rc_data_indices_.length, validate_node_sizes g1)))
        = some (2, 1, 2, 2, false)
    ∧ two_nodes_removed.bind compress = none := by
  refine ⟨by decide, by decide, by decide, by decide⟩

theorem scrub_first_noop (edge : RREdgeId) (lo hi : Nat) :
    ∀ (l : List RREdgeId) (i : Nat),
      (∀ j < l.length, lo ≤ i + j → i + j < hi → l.getD j none ≠ edge) →
      scrub_first l i lo hi edge = l := by
  intro l
  induction l with
  | nil => intro i _; rfl
  | cons x xs ih =>
    intro i h
    unfold scrub_first
    rw [if_neg]
    · rw [ih (i + 1)]
      intro j hj h1 h2
      have := h (j + 1) (by simp; omega) (by omega) (by omega)
      simpa using this
    · rintro ⟨h1, h2, h3⟩
      exact h 0 (by simp) (by omega) (by omega) (by simpa using h3)

theorem plain_slot_spec (g : RRGraph) (node : RRNodeId) (i : Nat)
    (h : plain_slot g node i = true) :
    ∃ e s t, (node_edge_slots g node).getD i none = some e
      ∧ edge_src_node g (some e) = some s ∧ edge_sink_node g (some e) = some t
      ∧ e < g.edge_src_nodes_.length ∧ e < g.edge_sink_nodes_.length
      ∧ s < g.node_num_in_edges_.length ∧ t < g.node_num_in_edges_.length
      ∧ t < g.node_num_out_edges_.length
      ∧ (i < node_num_in_edges g node → some t = node ∧ some s ≠ node)
      ∧ (¬ i < node_num_in_edges g node → some s = node ∧ some t ≠ node) := by
  unfold plain_slot at h
  split at h
  · simp at h
  · rename_i e he
    split at h
    · rename_i s t hs ht
      simp only [Bool.and_eq_true, decide_eq_true_eq] at h
      obtain ⟨⟨⟨⟨⟨h1, h2⟩, h3⟩, h4⟩, h5⟩, h6⟩ := h
      refine ⟨e, s, t, he, hs, ht, h1, h2, h3, h4, h5, ?_, ?_⟩
      · intro hlt
        rw [if_pos hlt] at h6
        simpa using h6
      · intro hlt
        rw [if_neg hlt] at h6
        simpa using h6
    · simp at h

theorem remove_edge_eq (g : RRGraph) (e s t : Nat)
    (he1 : e < g.edge_src_nodes_.length) (he2 : e < g.edge_sink_nodes_.length)
    (hs : edge_src_node g (some e) = some s) (ht : edge_sink_node g (some e) = some t)
    (h1 : s < g.node_num_in_edges_.length) (h2 : t < g.node_num_in_edges_.length)
    (h3 : t < g.node_num_out_edges_.length) :
    ∃ g', remove_edge g (some e) = some g'
      ∧ g'.node_edges_ =
        (g.node_edges_.set s
          (scrub_first (g.node_edges_.getD s []) 0 0 (g.node_num_in_edges_.getD s 0)
            (some e))).set t
          (scrub_first
            ((g.node_edges_.set s
              (scrub_first (g.node_edges_.getD s []) 0 0 (g.node_num_in_edges_.getD s 0)
                (some e))).getD t [])
            0 (g.node_num_in_edges_.getD t 0)
            (g.node_num_in_edges_.getD t 0 + g.node_num_out_edges_.getD t 0) (some e))
      ∧ g'.invalid_edge_ids_ = g.invalid_edge_ids_.insert (some e) := by
  unfold remove_edge
  dsimp only
  rw [if_pos ⟨he1, he2⟩]
  simp only [hs, ht]
  rw [if_pos ⟨h1, h2, h3⟩]
  exact ⟨_, rfl, rfl, rfl⟩

theorem getD_set_ne {α : Type} (l : List α) (i j : Nat) (x d : α) (h : i ≠ j) :
    (l.set i x).getD j d = l.getD j d := by
  simp [List.getD_eq_getElem?_getD, List.getElem?_set_ne h]

/-- One `remove_edge` of the loops of `remove_node`, on a node all of whose
slots are plain: it returns, keeps the storage, leaves the slots of the node
as they were and enters the edge into the invalid-edge set. -/
theorem remove_slot_edge_plain (g0 gk : RRGraph) (node : RRNodeId) (i : Nat)
    (r : StorageRetained g0 gk)
    (hslots : node_edge_slots gk node = node_edge_slots g0 node)
    (hall : plain_slots g0 node = true)
    (hi : i < node_num_in_edges g0 node + node_num_out_edges g0 node) :
    ∃ gk', remove_slot_edge node gk i = some gk'
      ∧ StorageRetained g0 gk'
      ∧ node_edge_slots gk' node = node_edge_slots g0 node
      ∧ gk'.invalid_edge_ids_
          = gk.invalid_edge_ids_.insert ((node_edge_slots g0 node).getD i none) := by
  have hp : ∀ j < node_num_in_edges g0 node + node_num_out_edges g0 node, plain_slot g0 node j = true := by
    intro j hj
    unfold plain_slots at hall
    rw [List.all_eq_true] at hall
    exact hall j (List.mem_range.mpr hj)
  obtain ⟨e, s, t, hA, hs, ht, b1, b2, b3, b4, b5, c1, c2⟩ := plain_slot_spec g0 node i (hp i hi)
  have hs' : edge_src_node gk (some e) = some s := by
    rw [← hs]; simp [edge_src_node, r.srcs]
  have ht' : edge_sink_node gk (some e) = some t := by
    rw [← ht]; simp [edge_sink_node, r.sinks]
  obtain ⟨gk', hrem, hedges, hinv⟩ := remove_edge_eq gk e s t (by rw [r.srcs]; exact b1)
    (by rw [r.sinks]; exact b2) hs' ht' (by rw [r.fan_in]; exact b3)
    (by rw [r.fan_in]; exact b4) (by rw [r.fan_out]; exact b5)
  have hrem' : remove_slot_edge node gk i = some gk' := by
    unfold remove_slot_edge
    rw [hslots, hA]
    exact hrem
  refine ⟨gk', hrem', storageRetained_trans r (storageRetained_remove_edge gk gk' _ hrem), ?_, ?_⟩
  · by_cases hlt : i < node_num_in_edges g0 node
    · obtain ⟨d1, d2⟩ := c1 hlt
      subst d1
      have hst : s ≠ t := fun h => d2 (by rw [h])
      simp only [node_edge_slots, at_id] at hslots ⊢
      rw [hedges]
      generalize scrub_first (gk.node_edges_.getD s []) 0 0 (gk.node_num_in_edges_.getD s 0)
        (some e) = X
      have e1 : (gk.node_edges_.set s X).getD t [] = g0.node_edges_.getD t [] :=
        (getD_set_ne _ s t X [] hst).trans hslots
      rw [e1, scrub_first_noop, ← e1, set_getD_self]
      intro j _ hj1 hj2
      simp only [r.fan_in, r.fan_out, Nat.zero_add] at hj1 hj2
      have hj : j < node_num_in_edges g0 (some t) + node_num_out_edges g0 (some t) := hj2
      obtain ⟨e', s', t', hA', hs2, _, _, _, _, _, _, _, c2'⟩ :=
        plain_slot_spec g0 (some t) j (hp j hj)
      have hnot : ¬ j < node_num_in_edges g0 (some t) := Nat.not_lt.mpr hj1
      obtain ⟨d3, _⟩ := c2' hnot
      simp only [node_edge_slots, at_id] at hA'
      rw [hA']
      intro heq
      rw [Option.some.inj heq, hs] at hs2
      exact d2 (hs2.trans d3)
    · obtain ⟨d1, d2⟩ := c2 hlt
      subst d1
      have hst : t ≠ s := fun h => d2 (by rw [h])
      simp only [node_edge_slots, at_id] at hslots ⊢
      rw [hedges]
      have hno : scrub_first (gk.node_edges_.getD s []) 0 0 (gk.node_num_in_edges_.getD s 0)
          (some e) = gk.node_edges_.getD s [] := by
        rw [hslots]
        apply scrub_first_noop
        intro j _ _ hj2
        simp only [r.fan_in, Nat.zero_add] at hj2
        have hj2' : j < node_num_in_edges g0 (some s) := hj2
        obtain ⟨e', s', t', hA', _, ht2, _, _, _, _, _, c1', _⟩ :=
          plain_slot_spec g0 (some s) j (hp j (by omega))
        obtain ⟨d3, _⟩ := c1' hj2'
        simp only [node_edge_slots, at_id] at hA'
        rw [hA']
        intro heq
        rw [Option.some.inj heq, ht] at ht2
        exact d2 (ht2.trans d3)
      rw [hno, set_getD_self, getD_set_ne _ _ _ _ _ hst, hslots]
  · rw [hinv, hA]

/-- A run of `remove_edge` calls over slots of a node all of whose slots are
plain: it returns, the slots of the node are still as they were, and every
edge read from those slots is in the invalid-edge set. -/
theorem remove_slots_plain (g0 : RRGraph) (node : RRNodeId)
    (hall : plain_slots g0 node = true) (idxs : List Nat) :
    (∀ i ∈ idxs, i < node_num_in_edges g0 node + node_num_out_edges g0 node) →
    ∀ gk, StorageRetained g0 gk → node_edge_slots gk node = node_edge_slots g0 node →
    ∃ gk', idxs.foldlM (remove_slot_edge node) gk = some gk'
      ∧ StorageRetained g0 gk'
      ∧ node_edge_slots gk' node = node_edge_slots g0 node
      ∧ (∀ x ∈ gk.invalid_edge_ids_, x ∈ gk'.invalid_edge_ids_)
      ∧ ∀ i ∈ idxs, (node_edge_slots g0 node).getD i none ∈ gk'.invalid_edge_ids_ := by
  induction idxs with
  | nil =>
    intro _ gk r hs
    exact ⟨gk, rfl, r, hs, fun x hx => hx, by simp⟩
  | cons i rest ih =>
    intro hidx gk r hs
    obtain ⟨g1, h1, r1, s1, inv1⟩ :=
      remove_slot_edge_plain g0 gk node i r hs hall (hidx i (List.mem_cons_self _ _))
    obtain ⟨g2, h2, r2, s2, mono2, inv2⟩ :=
      ih (fun j hj => hidx j (List.mem_cons_of_mem _ hj)) g1 r1 s1
    refine ⟨g2, ?_, r2, s2, ?_, ?_⟩
    · simp only [List.foldlM, bind, Option.bind_eq_some]
      exact ⟨g1, h1, h2⟩
    · intro x hx
      apply mono2
      rw [inv1]
      exact List.mem_insert_of_mem hx
    · intro j hj
      rcases List.mem_cons.mp hj with rfl | hj
      · apply mono2
        rw [inv1]
        exact List.mem_insert_self _ _
      · exact inv2 j hj

/-- On a node all of whose slots are plain, `remove_node` returns and every
edge held in the slots `[0, in + out)` of the node is in the invalid-edge set
afterwards. -/
theorem remove_node_of_plain_slots (g : RRGraph) (node : RRNodeId)
    (hall : plain_slots g node = true) :
    ∃ g1, remove_node g node = some g1
      ∧ ∀ i < node_num_in_edges g node + node_num_out_edges g node,
          (node_edge_slots g node).getD i none ∈ g1.invalid_edge_ids_ := by
  obtain ⟨ga, ha, ra, sa, _, ia⟩ := remove_slots_plain g node hall
    (List.range (node_num_in_edges g node))
    (fun i hi => by have := List.mem_range.mp hi; omega) g (storageRetained_refl g) rfl
  obtain ⟨gb, hb, _, _, mb, ib⟩ := remove_slots_plain g node hall
    ((List.range (node_num_out_edges g node)).map (fun i => node_num_in_edges g node + i))
    (fun i hi => by
      obtain ⟨k, hk, rfl⟩ := List.mem_map.mp hi
      have := List.mem_range.mp hk
      omega) ga ra sa
  refine ⟨set_dirty (invalidate_fast_node_lookup
    { gb with invalid_node_ids_ := gb.invalid_node_ids_.insert node }), ?_, ?_⟩
  · unfold remove_node
    simp only [bind, Option.bind_eq_some]
    exact ⟨ga, ha, gb, hb, rfl⟩
  · intro i hi
    show _ ∈ gb.invalid_edge_ids_
    by_cases hlt : i < node_num_in_edges g node
    · exact mb _ (ia i (List.mem_range.mpr hlt))
    · apply ib
      rw [List.mem_map]
      exact ⟨i - node_num_in_edges g node, List.mem_range.mpr (by omega), by omega⟩

theorem incr_fold_length {β : Type} (f : β → Option Nat) (es : List β) :
    ∀ v : List Nat, (es.foldl (fun v e => incr_id v (f e)) v).length = v.length := by
  induction es with
  | nil => intro v; rfl
  | cons e es ih =>
    intro v
    simp only [List.foldl_cons]
    rw [ih, incr_id_length]

theorem plain_slot_intro (g : RRGraph) (node : RRNodeId) (i e s t : Nat)
    (hA : (node_edge_slots g node).getD i none = some e)
    (hs : edge_src_node g (some e) = some s) (ht : edge_sink_node g (some e) = some t)
    (b1 : e < g.edge_src_nodes_.length) (b2 : e < g.edge_sink_nodes_.length)
    (b3 : s < g.node_num_in_edges_.length) (b4 : t < g.node_num_in_edges_.length)
    (b5 : t < g.node_num_out_edges_.length)
    (c1 : i < node_num_in_edges g node → some t = node ∧ some s ≠ node)
    (c2 : ¬ i < node_num_in_edges g node → some s = node ∧ some t ≠ node) :
    plain_slot g node i = true := by
  unfold plain_slot
  rw [hA]
  simp only [hs, ht]
  by_cases hlt : i < node_num_in_edges g node
  · obtain ⟨d1, d2⟩ := c1 hlt
    simp [b1, b2, b3, b4, b5, hlt, d1, d2]
  · obtain ⟨d1, d2⟩ := c2 hlt
    simp [b1, b2, b3, b4, b5, hlt, d1, d2]

theorem getD_mem_of_lt {α : Type} (l : List α) (j : Nat) (d : α) (h : j < l.length) :
    l.getD j d ∈ l := by
  rw [List.getD_eq_getElem _ _ h]
  exact List.getElem_mem h

/-- The facts about an edge of a freshly built graph that `remove_edge`
reads, stated on a state that differs from the counted graph only in the
adjacency arrays. -/
theorem fresh_edge_bounds (g g' : RRGraph) (hg : FreshlyBuilt g)
    (hs : only_slots (counted g) g') (x : RREdgeId) (hx : x ∈ edges g') :
    ∃ e s t, x = some e ∧ edge_src_node g' (some e) = some s
      ∧ edge_sink_node g' (some e) = some t
      ∧ e < g'.edge_src_nodes_.length ∧ e < g'.edge_sink_nodes_.length
      ∧ s < g'.node_num_in_edges_.length ∧ t < g'.node_num_in_edges_.length
      ∧ t < g'.node_num_out_edges_.length := by
  have hev : edge_view g' = edge_view g := (only_slots_edge_view hs).trans (edge_view_counted g)
  obtain ⟨a1, a2, _⟩ := accessors_of_edge_view hev
  have hE := edges_of_edge_view hev
  rw [hE] at hx
  obtain ⟨s, t, h1, h2, h3, h4⟩ := fresh_endpoints g hg x hx
  have hx' := hx
  simp only [edges, List.mem_filter, List.mem_map, List.mem_range] at hx'
  obtain ⟨⟨e, he, rfl⟩, _⟩ := hx'
  have hview := hev
  simp only [edge_view, Prod.mk.injEq] at hview
  obtain ⟨_, _, v3, v4, _⟩ := hview
  have hc := only_slots_counter_view hs
  simp only [counter_view, Prod.mk.injEq] at hc
  obtain ⟨k1, k2, _, _⟩ := hc
  have l1 : g'.node_num_in_edges_.length = g.num_nodes_ := by
    rw [k1]
    unfold counted
    rw [count_fold]
    simp only
    rw [incr_fold_length, hg.in_zero, List.length_replicate]
  have l2 : g'.node_num_out_edges_.length = g.num_nodes_ := by
    rw [k2]
    unfold counted
    rw [count_fold]
    simp only
    rw [incr_fold_length, hg.out_zero, List.length_replicate]
  refine ⟨e, s, t, rfl, by rw [a2]; exact h1, by rw [a1]; exact h2, ?_, ?_, ?_, ?_, ?_⟩
  · rw [v3, hg.src_size]; exact he
  · rw [v4, hg.sink_size]; exact he
  · rw [l1]; exact h3
  · rw [l1]; exact h4
  · rw [l2]; exact h4

/-- After `rebuild_node_edges` on a freshly built graph, every slot of a node
without self-loop is plain. -/
theorem plain_slots_of_layout (g g' : RRGraph) (hg : FreshlyBuilt g) (n : Nat)
    (hn : n < g.num_nodes_)
    (hloop : ∀ e ∈ edges g, ¬ (edge_src_node g e = some n ∧ edge_sink_node g e = some n))
    (hs : only_slots (counted g) g')
    (hslots : node_edge_slots g' (some n)
      = partition_slots (inserted g) (some n) (scattered g n (edges g))) :
    plain_slots g' (some n) = true := by
  obtain ⟨_, hlen, hin, hout⟩ := layout_of_slots g g' hg n hn hloop hs hslots
  have hev : edge_view g' = edge_view g := (only_slots_edge_view hs).trans (edge_view_counted g)
  obtain ⟨a1, a2, _⟩ := accessors_of_edge_view hev
  have hE := edges_of_edge_view hev
  unfold plain_slots
  rw [List.all_eq_true]
  intro j hj
  have hj' := List.mem_range.mp hj
  by_cases hlt : j < node_num_in_edges g' (some n)
  · have hmem : (node_edge_slots g' (some n)).getD j none ∈ node_in_edges g' (some n) := by
      have h1 : (node_edge_slots g' (some n)).getD j none
          = (node_in_edges g' (some n)).getD j none := by
        unfold node_in_edges
        simp [List.getD_eq_getElem?_getD, List.getElem?_take, hlt]
      rw [h1]
      apply getD_mem_of_lt
      unfold node_in_edges
      rw [List.length_take]
      omega
    rw [hin, List.mem_append, List.mem_filter, List.mem_filter] at hmem
    have hx : (node_edge_slots g' (some n)).getD j none ∈ edges g'
        ∧ edge_sink_node g' ((node_edge_slots g' (some n)).getD j none) = some n := by
      rcases hmem with ⟨m1, m2⟩ | ⟨m1, m2⟩
      · simp only [Bool.and_eq_true, beq_iff_eq] at m2
        exact ⟨m1, m2.1⟩
      · simp only [Bool.and_eq_true, beq_iff_eq] at m2
        exact ⟨m1, m2.1⟩
    obtain ⟨e, s, t, he, b⟩ := fresh_edge_bounds g g' hg hs _ hx.1
    obtain ⟨hsrc, hsink, b1, b2, b3, b4, b5⟩ := b
    have hsn : edge_sink_node g' (some e) = some n := by rw [← he]; exact hx.2
    refine plain_slot_intro g' (some n) j e s t he hsrc hsink b1 b2 b3 b4 b5 ?_ ?_
    · intro _
      refine ⟨by rw [← hsink, hsn], ?_⟩
      intro heq
      apply hloop (some e) (by rw [← hE, ← he]; exact hx.1)
      rw [← a1, ← a2]
      exact ⟨hsrc.trans heq, hsn⟩
    · intro h; exact absurd hlt h
  · have hmem : (node_edge_slots g' (some n)).getD j none ∈ node_out_edges g' (some n) := by
      have h1 : (node_edge_slots g' (some n)).getD j none
          = (node_out_edges g' (some n)).getD (j - node_num_in_edges g' (some n)) none := by
        unfold node_out_edges
        have : j - node_num_in_edges g' (some n) < node_num_out_edges g' (some n) := by omega
        simp only [List.getD_eq_getElem?_getD, List.getElem?_take, this, if_true,
          List.getElem?_drop]
        congr 2
        omega
      rw [h1]
      apply getD_mem_of_lt
      unfold node_out_edges
      rw [List.length_take, List.length_drop]
      omega
    rw [hout, List.mem_append, List.mem_filter, List.mem_filter] at hmem
    have hx : (node_edge_slots g' (some n)).getD j none ∈ edges g'
        ∧ edge_src_node g' ((node_edge_slots g' (some n)).getD j none) = some n := by
      rcases hmem with ⟨m1, m2⟩ | ⟨m1, m2⟩
      · simp only [Bool.and_eq_true, beq_iff_eq] at m2
        exact ⟨m1, m2.1⟩
      · simp only [Bool.and_eq_true, beq_iff_eq] at m2
        exact ⟨m1, m2.1⟩
    obtain ⟨e, s, t, he, b⟩ := fresh_edge_bounds g g' hg hs _ hx.1
    obtain ⟨hsrc, hsink, b1, b2, b3, b4, b5⟩ := b
    have hsn : edge_src_node g' (some e) = some n := by rw [← he]; exact hx.2
    refine plain_slot_intro g' (some n) j e s t he hsrc hsink b1 b2 b3 b4 b5 ?_ ?_
    · intro h; exact absurd h hlt
    · intro _
      refine ⟨by rw [← hsrc, hsn], ?_⟩
      intro heq
      apply hloop (some e) (by rw [← hE, ← he]; exact hx.1)
      rw [← a1, ← a2]
      exact ⟨hsn, hsink.trans heq⟩

/-- Every edge that ends or starts at a node is held in a slot of its in-range
or out-range once the ranges are the filtered edge lists. -/
theorem incident_in_slots (g' : RRGraph) (n : Nat)
    (hlen : (node_edge_slots g' (some n)).length
      = node_num_in_edges g' (some n) + node_num_out_edges g' (some n))
    (hin : node_in_edges g' (some n)
        = (edges g').filter
            (fun e => edge_sink_node g' e == some n && edge_is_configurable g' e)
          ++ (edges g').filter
            (fun e => edge_sink_node g' e == some n && edge_is_non_configurable g' e))
    (hout : node_out_edges g' (some n)
        = (edges g').filter
            (fun e => edge_src_node g' e == some n && edge_is_configurable g' e)
          ++ (edges g').filter
            (fun e => edge_src_node g' e == some n && edge_is_non_configurable g' e))
    (x : RREdgeId) (hx : x ∈ edges g')
    (hinc : edge_src_node g' x = some n ∨ edge_sink_node g' x = some n) :
    ∃ i < node_num_in_edges g' (some n) + node_num_out_edges g' (some n),
      (node_edge_slots g' (some n)).getD i none = x := by
  have hmem : x ∈ node_edges g' (some n) := by
    have hsplit : node_edges g' (some n)
        = node_in_edges g' (some n) ++ node_out_edges g' (some n) := by
      unfold node_edges node_in_edges node_out_edges
      rw [List.take_add]
    rw [hsplit, List.mem_append]
    rcases hinc with h | h
    · right
      rw [hout, List.mem_append, List.mem_filter, List.mem_filter]
      cases hc : edge_is_configurable g' x
      · right; simp [hx, h, edge_is_non_configurable, hc]
      · left; simp [hx, h, hc]
    · left
      rw [hin, List.mem_append, List.mem_filter, List.mem_filter]
      cases hc : edge_is_configurable g' x
      · right; simp [hx, h, edge_is_non_configurable, hc]
      · left; simp [hx, h, hc]
  unfold node_edges at hmem
  obtain ⟨i, hi, hget⟩ := List.getElem_of_mem hmem
  rw [List.length_take] at hi
  refine ⟨i, by omega, ?_⟩
  rw [List.getElem_take] at hget
  rw [List.getD_eq_getElem _ _ (by omega)]
  exact hget

/-- On a freshly built graph with built adjacency, `remove_node(n)` of a node
that carries no self-loop edge returns, and afterwards every edge whose
source or sink is `n` is invalid. -/
theorem remove_node_clears_incident_edges (g : RRGraph) (hg : FreshlyBuilt g) (n : Nat)
    (hn : n < g.num_nodes_)
    (hloop : ∀ e ∈ edges g, ¬ (edge_src_node g e = some n ∧ edge_sink_node g e = some n)) :
    ∃ g1, remove_node (rebuild_node_edges g) (some n) = some g1
      ∧ ∀ e ∈ edges (rebuild_node_edges g),
          edge_src_node (rebuild_node_edges g) e = some n
            ∨ edge_sink_node (rebuild_node_edges g) e = some n →
          valid_edge_id g1 e = false := by
  have hs := rebuild_fresh g hg
  have hslots := rebuild_slots g hg n hn
  obtain ⟨_, hlen, hin, hout⟩ := layout_of_slots g _ hg n hn hloop hs hslots
  obtain ⟨g1, h1, h2⟩ := remove_node_of_plain_slots _ (some n)
    (plain_slots_of_layout g _ hg n hn hloop hs hslots)
  refine ⟨g1, h1, ?_⟩
  intro e he hinc
  obtain ⟨i, hi, hget⟩ := incident_in_slots _ n hlen hin hout e he hinc
  have hmem := h2 i hi
  rw [hget] at hmem
  cases e with
  | none => rfl
  | some k => simp [valid_edge_id, hmem]

/-- C12. After a `remove_node(n)` that returns, `n` is not a valid node id,
the dirty flag is set, the spatial index is unbuilt, the node count, every
per-node attribute vector and every edge counter are unchanged, the adjacency
vector and each adjacency array keep their lengths, and the validity of every
other node id is unchanged.  The call returns on every node whose slots
`[0, in + out)` are plain: adjacency not yet built, or built and no self-loop
edge at the node. -/
theorem remove_node_frame (g : RRGraph) (node : RRNodeId) :
    (plain_slots g node = true → ∃ g1, remove_node g node = some g1)
    ∧ ∀ g1, remove_node g node = some g1 →
      valid_node_id g1 node = false ∧ is_dirty g1 = true ∧ valid_fast_node_lookup g1 = false
      ∧ g1.num_nodes_ = g.num_nodes_
      ∧ (g1.node_types_ = g.node_types_
        ∧ g1.node_bounding_boxes_ = g.node_bounding_boxes_
        ∧ g1.node_capacities_ = g.node_capacities_
        ∧ g1.node_ptc_nums_ = g.node_ptc_nums_
        ∧ g1.node_cost_indices_ = g.node_cost_indices_
        ∧ g1.node_directions_ = g.node_directions_
        ∧ g1.node_sides_ = g.node_sides_
        ∧ g1.node_Rs_ = g.node_Rs_
        ∧ g1.node_Cs_ = g.node_Cs_
        ∧ g1.node_rc_data_indices_ = g.node_rc_data_indices_
        ∧ g1.node_segments_ = g.node_segments_)
      ∧ (g1.node_num_in_edges_ = g.node_num_in_edges_
        ∧ g1.node_num_out_edges_ = g.node_num_out_edges_
        ∧ g1.node_num_non_configurable_in_edges_ = g.node_num_non_configurable_in_edges_
        ∧ g1.node_num_non_configurable_out_edges_ = g.node_num_non_configurable_out_edges_)
      ∧ (g1.node_edges_.length = g.node_edges_.length
        ∧ ∀ i, (g1.node_edges_.getD i []).length = (g.node_edges_.getD i []).length)
      ∧ (∀ m : RRNodeId, m ≠ node → valid_node_id g1 m = valid_node_id g m) := by
  constructor
  · intro hall
    obtain ⟨g1, h, _⟩ := remove_node_of_plain_slots g node hall
    exact ⟨g1, h⟩
  · intro g1 h
    exact remove_node_frame_of_some g g1 node h

/-- Witness for C12: the CHANX node of the scenario graph, adjacency built,
has plain slots; `remove_node` returns, node 1 is valid before and invalid
after, and nodes 0 and 2 stay valid. -/
theorem remove_node_frame_witness :
    valid_node_id (rebuild_node_edges scenario_graph) (some 1) = true
    ∧ plain_slots (rebuild_node_edges scenario_graph) (some 1) = true
    ∧ ∃ g1, remove_node (rebuild_node_edges scenario_graph) (some 1) = some g1
      ∧ valid_node_id g1 (some 1) = false ∧ is_dirty g1 = true
      ∧ g1.node_types_ = [t_rr_type.SOURCE, t_rr_type.CHANX, t_rr_type.SINK]
      ∧ valid_node_id g1 (some 0) = true ∧ valid_node_id g1 (some 2) = true := by
  refine ⟨by decide, by decide, ?_⟩
  obtain ⟨hret, hframe⟩ := remove_node_frame (rebuild_node_edges scenario_graph) (some 1)
  obtain ⟨g1, h⟩ := hret (by decide)
  obtain ⟨h1, h2, _, _, ⟨h5, _⟩, _, _, h9⟩ := hframe g1 h
  refine ⟨g1, h, h1, h2, ?_, ?_, ?_⟩
  · rw [h5]; decide
  · rw [h9 (some 0) (by decide)]; decide
  · rw [h9 (some 2) (by decide)]; decide

/-- Witness for C19: on the scenario graph `create_node(IPIN)` returns id 3,
which is valid afterwards and reads back the type IPIN and the default ptc
array. -/
theorem create_node_postcondition_witness :
    SizesOk scenario_graph ∧ some scenario_graph.num_nodes_ ∉ scenario_graph.invalid_node_ids_
    ∧ ∃ g', create_node scenario_graph t_rr_type.IPIN = some (g', some 3)
      ∧ g'.num_nodes_ = 4 ∧ valid_node_id g' (some 3) = true
      ∧ g'.node_types_[3]? = some t_rr_type.IPIN
      ∧ g'.node_ptc_nums_[3]? = some [-1] := by
  have hs : SizesOk scenario_graph := by constructor <;> decide
  have hf : some scenario_graph.num_nodes_ ∉ scenario_graph.invalid_node_ids_ := by decide
  refine ⟨hs, hf, ?_⟩
  obtain ⟨g', h1, h2, h3, ⟨h4, _, _, h5, _⟩, _⟩ :=
    create_node_postcondition scenario_graph t_rr_type.IPIN hs hf
  exact ⟨g', h1, h2, h3, h4, h5⟩

/-! ## Spatial index: build and queries -/

theorem getD_set_lt {α : Type} (l : List α) (i j : Nat) (v d : α) (h : i < l.length) :
    (l.set i v).getD j d = if j = i then v else l.getD j d := by
  by_cases hij : j = i
  · subst hij
    simp [List.getD_eq_getElem?_getD, List.getElem?_set_self h]
  · rw [if_neg hij]
    exact getD_set_ne l i j v d (fun h' => hij h'.symm)

theorem length_resize {α : Type} (l : List α) (n : Nat) (d : α) : (resize l n d).length = n := by
  simp only [resize, List.length_append, List.length_take, List.length_replicate]
  omega

theorem getD_resize_of_le {α : Type} (l : List α) (n : Nat) (d : α) (j : Nat)
    (h : l.length ≤ n) : (resize l n d).getD j d = l.getD j d := by
  unfold resize
  rw [List.take_of_length_le h]
  by_cases hj : j < l.length
  · simp [List.getD_eq_getElem?_getD, List.getElem?_append_left hj]
  · have hj' : l.length ≤ j := Nat.le_of_not_lt hj
    rw [List.getD_eq_getElem?_getD, List.getElem?_append_right hj', List.getD_eq_default _ _ hj']
    by_cases hk : j - l.length < n - l.length
    · simp [List.getElem?_replicate, hk]
    · simp [List.getElem?_replicate, hk]

/-- The vector after the conditional `resize` of the write loop reads as the
vector before it, once the index is within its bounds. -/
theorem grow_getD {α : Type} (l : List α) (d : α) (i : Nat)
    (h : i < (grow l i d).length) (j : Nat) : (grow l i d).getD j d = l.getD j d := by
  unfold grow at h ⊢
  by_cases hi : i ≥ l.length
  · rw [if_pos hi] at h ⊢
    rw [length_resize] at h
    exact getD_resize_of_le l _ d j (by omega)
  · rw [if_neg hi]

theorem grow_length_of_lt {α : Type} (l : List α) (d : α) (i : Nat)
    (h : (i + 1) % 2 ^ 64 = i + 1) : i < (grow l i d).length := by
  unfold grow
  split_ifs with hc
  · rw [length_resize, h]; omega
  · omega

/-- The table after a write reads as before, except at the written key. -/
theorem lookup_write_get (L L' : Lookup) (x y t p s : Nat) (node : RRNodeId)
    (h : lookup_write L x y t p s node = some L') (x' y' t' p' s' : Nat) :
    lookup_get L' x' y' t' p' s'
      = if x' = x ∧ y' = y ∧ t' = t ∧ p' = p ∧ s' = s then node
        else lookup_get L x' y' t' p' s' := by
  unfold lookup_write at h
  dsimp only at h
  split_ifs at h with h1 h2 h3 h4
  obtain ⟨hx, hy, ht⟩ := h1
  rw [← Option.some.inj h]
  unfold lookup_get
  rw [getD_set_lt _ _ _ _ _ hx]
  by_cases ex : x' = x
  · subst ex
    rw [if_pos rfl, getD_set_lt _ _ _ _ _ hy]
    by_cases ey : y' = y
    · subst ey
      rw [if_pos rfl, getD_set_lt _ _ _ _ _ ht]
      by_cases et : t' = t
      · subst et
        rw [if_pos rfl, getD_set_lt _ _ _ _ _ h3]
        by_cases ep : p' = p
        · subst ep
          rw [if_pos rfl, getD_set_lt _ _ _ _ _ h4]
          by_cases es : s' = s
          · subst es
            simp
          · rw [if_neg es, grow_getD _ _ _ h4, grow_getD _ _ _ h3]
            simp [es]
        · rw [if_neg ep, grow_getD _ _ _ h3]
          simp [ep]
      · simp [et]
    · simp [ey]
  · simp [ex]

/-- A write keeps the sizes of the three outer levels. -/
theorem lookup_write_shape (L L' : Lookup) (x y t p s : Nat) (node : RRNodeId)
    (h : lookup_write L x y t p s node = some L') : lookup_shape L' = lookup_shape L := by
  unfold lookup_write at h
  dsimp only at h
  split_ifs at h with h1 h2 h3 h4
  obtain ⟨hx, hy, ht⟩ := h1
  rw [← Option.some.inj h]
  unfold lookup_shape
  apply List.ext_getElem
  · simp
  · intro i hi1 hi2
    simp only [List.length_map, List.length_set] at hi1 hi2
    simp only [List.getElem_map, List.getElem_set]
    by_cases hix : x = i
    · subst hix
      rw [if_pos rfl]
      have hgx : L.getD x [] = L[x] := by
        simp [List.getD_eq_getElem?_getD, List.getElem?_eq_getElem hx]
      rw [hgx] at hy ht ⊢
      apply List.ext_getElem
      · simp
      · intro j hj1 hj2
        simp only [List.length_map, List.length_set] at hj1 hj2
        simp only [List.getElem_map, List.getElem_set]
        by_cases hjy : y = j
        · subst hjy
          rw [if_pos rfl, List.length_set]
          simp [List.getD_eq_getElem?_getD, List.getElem?_eq_getElem hy]
        · rw [if_neg hjy]
    · rw [if_neg hix]

/-- A write inside the table succeeds when neither `resize` overflows. -/
theorem lookup_write_some (L : Lookup) (x y t p s : Nat) (node : RRNodeId)
    (hx : x < L.length) (hy : y < (L.getD x []).length)
    (ht : t < ((L.getD x []).getD y []).length)
    (hp : p + 1 ≤ vector_max_size) (hs : s + 1 < 2 ^ 64) :
    ∃ L', lookup_write L x y t p s node = some L' := by
  have hp' : (p + 1) % 2 ^ 64 = p + 1 := by
    apply Nat.mod_eq_of_lt
    unfold vector_max_size at hp
    omega
  have hs' : (s + 1) % 2 ^ 64 = s + 1 := Nat.mod_eq_of_lt hs
  unfold lookup_write
  rw [if_pos ⟨hx, hy, ht⟩]
  dsimp only
  rw [if_neg (by rw [hp']; omega)]
  have h3 := grow_length_of_lt (((L.getD x []).getD y []).getD t []) [] p hp'
  rw [if_pos h3]
  have h4 := grow_length_of_lt ((grow (((L.getD x []).getD y []).getD t []) p []).getD p [])
    none s hs'
  rw [if_pos h4]
  exact ⟨_, rfl⟩

theorem to_size_t_span (lo hi : Int) :
    (to_size_t (min lo hi) + (lo - hi).natAbs) % 2 ^ 64 = to_size_t (max lo hi) := by
  unfold to_size_t
  norm_num
  omega

theorem to_size_t_of_nonneg (v : Int) (h0 : 0 ≤ v) (h1 : v < 2 ^ 64) :
    to_size_t v = v.toNat := by
  unfold to_size_t
  norm_num at h1 ⊢
  omega

theorem span_cells_last (lo hi : Int) :
    (span_cells lo hi).getLast? = some (to_size_t (max lo hi)) := by
  unfold span_cells
  rw [List.range_succ, List.map_append, List.map_singleton, List.getLast?_append]
  rw [to_size_t_span]
  simp

theorem foldlM_flatMap {α β γ : Type} (f : α → List β) (step : γ → β → Option γ) :
    ∀ (l : List α) (init : γ),
      (l.flatMap f).foldlM step init = l.foldlM (fun acc a => (f a).foldlM step acc) init := by
  intro l
  induction l with
  | nil => intro init; rfl
  | cons a l ih =>
    intro init
    rw [List.flatMap_cons, List.foldlM_append, List.foldlM_cons]
    cases h : (f a).foldlM step init with
    | none => rfl
    | some b => exact ih b

theorem lookup_node_step_eq (g : RRGraph) (L : Lookup) (id : Nat) :
    lookup_node_step g L id = (node_cells g id).foldlM (cell_step g) L := by
  unfold lookup_node_step node_cells
  by_cases hv : valid_node_id g (some id) = true
  · simp only [hv, Bool.not_true, Bool.false_eq_true, if_false, if_true]
    rw [if_pos ⟨span_cells_last _ _, span_cells_last _ _⟩, foldlM_flatMap]
    congr 1
    funext L1 x
    rw [List.foldlM_map]
    rfl
  · simp only [hv, Bool.not_eq_true] at hv ⊢
    simp [hv]

theorem cell_step_eq (g : RRGraph) (L : Lookup) (c : Nat × Nat × Nat) :
    cell_step g L c
      = (cell_key g c).bind
          (fun k => lookup_write L k.1 k.2.1 k.2.2.1 k.2.2.2.1 k.2.2.2.2 (some c.1)) := by
  unfold cell_step lookup_cell_step cell_key
  dsimp only
  split
  · rfl
  · generalize (if node_type g (some c.1) = t_rr_type.CHANX then
        ((node_ptc_nums g (some c.1))[(c.2.1 + 2 ^ 64
          - to_size_t (node_xlow g (some c.1))) % 2 ^ 64]?).map to_size_t
      else if node_type g (some c.1) = t_rr_type.CHANY then
        ((node_ptc_nums g (some c.1))[(c.2.2 + 2 ^ 64
          - to_size_t (node_ylow g (some c.1))) % 2 ^ 64]?).map to_size_t
      else some (to_size_t _)) = ptc
    cases ptc <;> rfl

theorem lookup_fold_eq (g : RRGraph) (L : Lookup) :
    (List.range g.num_nodes_).foldlM (lookup_node_step g) L
      = (lookup_cells g).foldlM (cell_step g) L := by
  unfold lookup_cells
  rw [foldlM_flatMap]
  congr 1
  funext L1 id
  exact lookup_node_step_eq g L1 id

/-- The build as one pass over the cells of all valid nodes. -/
theorem build_fast_node_lookup_eq (g : RRGraph) :
    build_fast_node_lookup g
      = ((lookup_cells g).foldlM (cell_step g) (empty_lookup g)).map
          (fun L => { g with node_lookup_ := L }) := by
  unfold build_fast_node_lookup
  dsimp only
  rw [lookup_fold_eq]
  rfl

/-- The table after a run of the write loop: the sizes of the outer levels
are kept; a key recorded by some visited cell holds the node of one of the
cells that record it, and every other key reads as before. -/
theorem cells_fold (g : RRGraph) :
    ∀ (W : List (Nat × Nat × Nat)) (L L' : Lookup),
      W.foldlM (cell_step g) L = some L' →
      lookup_shape L' = lookup_shape L
      ∧ ∀ x y t p s,
        ((∃ c ∈ W, cell_key g c = some (x, y, t, p, s)) →
            ∃ c ∈ W, cell_key g c = some (x, y, t, p, s)
              ∧ lookup_get L' x y t p s = some c.1)
        ∧ ((¬ ∃ c ∈ W, cell_key g c = some (x, y, t, p, s)) →
            lookup_get L' x y t p s = lookup_get L x y t p s) := by
  intro W
  induction W with
  | nil =>
    intro L L' h
    simp only [List.foldlM, pure, Option.some.injEq] at h
    subst h
    refine ⟨rfl, fun x y t p s => ⟨?_, fun _ => rfl⟩⟩
    rintro ⟨c, hc, _⟩
    simp at hc
  | cons c W ih =>
    intro L L' h
    simp only [List.foldlM, bind, Option.bind_eq_some] at h
    obtain ⟨L1, h1, h2⟩ := h
    rw [cell_step_eq] at h1
    simp only [Option.bind_eq_some] at h1
    obtain ⟨k, hk, hw⟩ := h1
    obtain ⟨ihs, ihg⟩ := ih L1 L' h2
    refine ⟨ihs.trans (lookup_write_shape _ _ _ _ _ _ _ _ hw), ?_⟩
    intro x y t p s
    have hget := lookup_write_get _ _ _ _ _ _ _ _ hw x y t p s
    obtain ⟨g1, g2⟩ := ihg x y t p s
    constructor
    · rintro ⟨c', hc', hkey⟩
      by_cases hW : ∃ c'' ∈ W, cell_key g c'' = some (x, y, t, p, s)
      · obtain ⟨c'', hc'', hk'', hv''⟩ := g1 hW
        exact ⟨c'', List.mem_cons_of_mem _ hc'', hk'', hv''⟩
      · have hcc : c' = c := by
          rcases List.mem_cons.mp hc' with h' | h'
          · exact h'
          · exact absurd ⟨c', h', hkey⟩ hW
        subst hcc
        refine ⟨c', List.mem_cons_self _ _, hkey, ?_⟩
        rw [g2 hW, hget]
        rw [hk] at hkey
        have hk' := Option.some.inj hkey
        subst hk'
        simp
    · intro hno
      have hW : ¬ ∃ c'' ∈ W, cell_key g c'' = some (x, y, t, p, s) := by
        rintro ⟨c'', hc'', hk''⟩
        exact hno ⟨c'', List.mem_cons_of_mem _ hc'', hk''⟩
      rw [g2 hW, hget, if_neg]
      rintro ⟨rfl, rfl, rfl, rfl, rfl⟩
      exact hno ⟨c, List.mem_cons_self _ _, hk⟩

theorem lookup_shape_empty (g : RRGraph) :
    lookup_shape (empty_lookup g)
      = List.replicate (to_size_t (lookup_max_coord g).1 + 1)
          (List.replicate (to_size_t (lookup_max_coord g).2 + 1) (NUM_RR_TYPES + 1)) := by
  simp [lookup_shape, empty_lookup]

theorem lookup_get_empty (g : RRGraph) (x y t p s : Nat) :
    lookup_get (empty_lookup g) x y t p s = none := by
  unfold lookup_get empty_lookup
  have h3 : ∀ (n : Nat) (t : Nat), ((List.replicate n ([] : List (List RRNodeId))).getD t []) = [] := by
    intro n t
    by_cases h : t < n
    · simp [List.getD_eq_getElem?_getD, List.getElem?_replicate, h]
    · simp [List.getD_eq_getElem?_getD, List.getElem?_replicate, h]
  have h2 : ∀ (m n : Nat) (y t : Nat),
      ((List.replicate m (List.replicate n ([] : List (List RRNodeId)))).getD y []).getD t []
        = [] := by
    intro m n y t
    by_cases h : y < m
    · simp [List.getD_eq_getElem?_getD, List.getElem?_replicate, h] at h3 ⊢
      exact h3 n t
    · simp [List.getD_eq_getElem?_getD, List.getElem?_replicate, h]
  by_cases h : x < to_size_t (lookup_max_coord g).1 + 1
  · simp only [List.getD_eq_getElem?_getD, List.getElem?_replicate, h, if_true,
      Option.getD_some] at h2 ⊢
    rw [h2]
    simp
  · simp [List.getD_eq_getElem?_getD, List.getElem?_replicate, h]

/-- Sizes of a rectangular table, read from its shape. -/
theorem dims_of_shape (L : Lookup) (a b c : Nat)
    (h : lookup_shape L = List.replicate a (List.replicate b c)) :
    L.length = a
    ∧ (∀ x < a, (L.getD x []).length = b)
    ∧ (∀ x < a, ∀ y < b, ((L.getD x []).getD y []).length = c) := by
  have hlen : L.length = a := by
    have := congrArg List.length h
    simpa [lookup_shape] using this
  have hcol : ∀ x (hx : x < a), (L.getD x []).map List.length = List.replicate b c := by
    intro x hx
    have hx' : x < L.length := by omega
    have h1 : (lookup_shape L)[x]? = some ((L.getD x []).map List.length) := by
      simp [lookup_shape, List.getD_eq_getElem?_getD, List.getElem?_eq_getElem hx']
    rw [h, List.getElem?_replicate, if_pos hx] at h1
    exact (Option.some.inj h1).symm
  refine ⟨hlen, ?_, ?_⟩
  · intro x hx
    have := congrArg List.length (hcol x hx)
    simpa using this
  · intro x hx y hy
    have hb : (L.getD x []).length = b := by
      have := congrArg List.length (hcol x hx)
      simpa using this
    have hy' : y < (L.getD x []).length := by omega
    have h1 : ((L.getD x []).map List.length)[y]? = some ((L.getD x []).getD y []).length := by
      rw [List.getElem?_map, List.getD_eq_getElem?_getD (L.getD x []) y,
        List.getElem?_eq_getElem hy']
      rfl
    rw [hcol x hx, List.getElem?_replicate, if_pos hy] at h1
    exact (Option.some.inj h1).symm

theorem to_size_t_lt (v : Int) : to_size_t v < 2 ^ 64 := by
  unfold to_size_t
  norm_num
  omega

theorem size_check (i n : Nat) (hi : i < 2 ^ 64) :
    (i > size_minus_one n ∨ 0 = n) ↔ n ≤ i := by
  unfold size_minus_one
  norm_num at hi ⊢
  split_ifs with h
  · omega
  · omega

theorem rr_type_index_lt (type : t_rr_type) : rr_type_index type < NUM_RR_TYPES + 1 := by
  cases type <;> decide

theorem side_index_le (side : e_side) : side_index side ≤ 4 := by
  cases side <;> decide

/-- On a rectangular table the checks of `find_node` pass exactly for a key
inside every level, so that `find_node` reads the entry of its key, which is
the invalid handle outside the table. -/
theorem find_node_in_eq (L : Lookup) (a b c : Nat)
    (h : lookup_shape L = List.replicate a (List.replicate b c))
    (x y : Int) (type : t_rr_type) (ptc : Int) (side : e_side)
    (hx : 0 ≤ x) (hy : 0 ≤ y) (hp : 0 ≤ ptc) :
    find_node_in L x y type ptc side
      = lookup_get L (to_size_t x) (to_size_t y) (rr_type_index type) (to_size_t ptc)
          (side_index side) := by
  obtain ⟨hl, hc, hr⟩ := dims_of_shape L a b c h
  have hT : rr_type_index type < 2 ^ 64 :=
    Nat.lt_of_lt_of_le (rr_type_index_lt type) (by norm_num [NUM_RR_TYPES])
  have hS : side_index side < 2 ^ 64 :=
    Nat.lt_of_le_of_lt (side_index_le side) (by norm_num)
  unfold find_node_in lookup_get
  dsimp only
  by_cases hxa : a ≤ to_size_t x
  · rw [if_pos (Or.inr ((size_check _ _ (to_size_t_lt x)).mpr (by simpa [dim_size, hl] using hxa))),
      List.getD_eq_default L [] (by omega)]
    simp
  have hxa' : to_size_t x < a := Nat.lt_of_not_le hxa
  have hapos : 0 < a := by omega
  rw [if_neg (by
    rw [not_or]
    exact ⟨not_lt.mpr hx, by
      rw [size_check _ _ (to_size_t_lt x)]; simpa [dim_size, hl] using hxa⟩)]
  have e1 : dim_size L 1 = b := hc 0 hapos
  by_cases hyb : b ≤ to_size_t y
  · rw [if_pos (Or.inr ((size_check _ _ (to_size_t_lt y)).mpr (by rw [e1]; exact hyb))),
      List.getD_eq_default (L.getD (to_size_t x) []) [] (by rw [hc _ hxa']; exact hyb)]
    simp
  have hyb' : to_size_t y < b := Nat.lt_of_not_le hyb
  have hbpos : 0 < b := by omega
  rw [if_neg (by
    rw [not_or]
    exact ⟨not_lt.mpr hy, by rw [size_check _ _ (to_size_t_lt y), e1]; exact hyb⟩)]
  have e2 : dim_size L 2 = c := hr 0 hapos 0 hbpos
  by_cases htc : c ≤ rr_type_index type
  · rw [if_pos ((size_check _ _ hT).mpr (by rw [e2]; exact htc)),
      List.getD_eq_default ((L.getD (to_size_t x) []).getD (to_size_t y) []) []
        (by rw [hr _ hxa' _ hyb']; exact htc)]
    simp
  rw [if_neg (by rw [size_check _ _ hT, e2]; exact htc)]
  by_cases hpr : (((L.getD (to_size_t x) []).getD (to_size_t y) []).getD
      (rr_type_index type) []).length ≤ to_size_t ptc
  · rw [if_pos (Or.inr ((size_check _ _ (to_size_t_lt ptc)).mpr hpr)),
      List.getD_eq_default _ [] hpr]
    simp
  rw [if_neg (by
    rw [not_or]
    exact ⟨not_lt.mpr hp, by rw [size_check _ _ (to_size_t_lt ptc)]; exact hpr⟩)]
  by_cases hsc : ((((L.getD (to_size_t x) []).getD (to_size_t y) []).getD
      (rr_type_index type) []).getD (to_size_t ptc) []).length ≤ side_index side
  · rw [if_pos ((size_check _ _ hS).mpr hsc), List.getD_eq_default _ none hsc]
  rw [if_neg (by rw [size_check _ _ hS]; exact hsc)]

/-- A negative coordinate or ptc number gives the invalid handle. -/
theorem find_node_in_negative (L : Lookup) (x y : Int) (type : t_rr_type) (ptc : Int)
    (side : e_side) (h : x < 0 ∨ y < 0 ∨ ptc < 0) :
    find_node_in L x y type ptc side = none := by
  unfold find_node_in
  dsimp only
  split_ifs <;> first | rfl | omega

/-- On a rectangular table with `NUM_RR_TYPES + 1` types the read of
`chan_num_tracks` is inside the table, and a coordinate outside the two outer
levels gives 0. -/
theorem chan_num_tracks_in_eq (L : Lookup) (a b : Nat) (ha : 0 < a) (hb : 0 < b)
    (h : lookup_shape L = List.replicate a (List.replicate b (NUM_RR_TYPES + 1)))
    (x y : Int) (type : t_rr_type) :
    chan_num_tracks_in L x y type
      = if x < 0 ∨ a ≤ to_size_t x ∨ y < 0 ∨ b ≤ to_size_t y then some 0
        else some (to_short (((L.getD (to_size_t x) []).getD (to_size_t y) []).getD
          (rr_type_index type) []).length) := by
  obtain ⟨hl, hc, hr⟩ := dims_of_shape L a b _ h
  have hT : rr_type_index type < 2 ^ 64 :=
    Nat.lt_of_lt_of_le (rr_type_index_lt type) (by norm_num [NUM_RR_TYPES])
  have e1 : dim_size L 1 = b := hc 0 ha
  have e2 : dim_size L 2 = NUM_RR_TYPES + 1 := hr 0 ha 0 hb
  have c0 : ∀ i : Nat, i < 2 ^ 64 → ∀ n : Nat, 0 < n → (i > size_minus_one n ↔ n ≤ i) := by
    intro i hi n hn
    rw [← size_check i n hi]
    constructor
    · exact Or.inl
    · rintro (h' | h')
      · exact h'
      · omega
  unfold chan_num_tracks_in
  by_cases hx : x < 0 ∨ a ≤ to_size_t x
  · rw [if_pos (by
      rcases hx with h' | h'
      · exact Or.inl h'
      · exact Or.inr ((c0 _ (to_size_t_lt x) _ (by simpa [dim_size, hl] using ha)).mpr
          (by simpa [dim_size, hl] using h'))),
      if_pos (hx.elim Or.inl (fun h' => Or.inr (Or.inl h')))]
  rw [not_or] at hx
  obtain ⟨hx1, hx2⟩ := hx
  rw [if_neg (by
    rw [not_or]
    exact ⟨hx1, by
      rw [c0 _ (to_size_t_lt x) _ (by simpa [dim_size, hl] using ha)]
      simpa [dim_size, hl] using hx2⟩)]
  by_cases hy : y < 0 ∨ b ≤ to_size_t y
  · rw [if_pos (by
      rcases hy with h' | h'
      · exact Or.inl h'
      · exact Or.inr ((c0 _ (to_size_t_lt y) _ (by rw [e1]; exact hb)).mpr
          (by rw [e1]; exact h'))), if_pos (Or.inr (Or.inr hy))]
  rw [not_or] at hy
  obtain ⟨hy1, hy2⟩ := hy
  rw [if_neg (by
    rw [not_or]
    exact ⟨hy1, by rw [c0 _ (to_size_t_lt y) _ (by rw [e1]; exact hb), e1]; exact hy2⟩)]
  have ht := rr_type_index_lt type
  rw [if_neg (by
    rw [c0 _ hT _ (by rw [e2]; omega), e2]
    omega)]
  have hx3 : to_size_t x < a := Nat.lt_of_not_le hx2
  have hy3 : to_size_t y < b := Nat.lt_of_not_le hy2
  rw [if_pos ⟨by rw [hl]; exact hx3, by rw [hc _ hx3]; exact hy3,
    by rw [hr _ hx3 _ hy3]; exact ht⟩,
    if_neg (by
      rintro (h' | h' | h' | h')
      exacts [hx1 h', hx2 h', hy1 h', hy2 h'])]

theorem mem_span_cells (lo hi : Int) (h1 : 0 ≤ lo) (h2 : 0 ≤ hi) (h3 : lo < 2 ^ 15)
    (h4 : hi < 2 ^ 15) (x : Nat) :
    x ∈ span_cells lo hi ↔ min lo hi ≤ (x : Int) ∧ (x : Int) ≤ max lo hi := by
  unfold span_cells to_size_t
  simp only [List.mem_map, List.mem_range]
  norm_num at h3 h4 ⊢
  constructor
  · rintro ⟨k, hk, rfl⟩
    omega
  · rintro ⟨a1, a2⟩
    refine ⟨x - (min lo hi).toNat, ?_, ?_⟩
    · omega
    · omega

theorem mem_lookup_cells (g : RRGraph) (c : Nat × Nat × Nat) :
    c ∈ lookup_cells g ↔
      c.1 < g.num_nodes_ ∧ valid_node_id g (some c.1) = true
      ∧ c.2.1 ∈ span_cells (node_xlow g (some c.1)) (node_xhigh g (some c.1))
      ∧ c.2.2 ∈ span_cells (node_ylow g (some c.1)) (node_yhigh g (some c.1)) := by
  obtain ⟨id, x, y⟩ := c
  unfold lookup_cells node_cells
  simp only [List.mem_flatMap, List.mem_range]
  constructor
  · rintro ⟨i, hi, hc⟩
    split_ifs at hc with hv
    · simp only [List.mem_flatMap, List.mem_map, Prod.mk.injEq] at hc
      obtain ⟨x', hx', y', hy', rfl, rfl, rfl⟩ := hc
      exact ⟨hi, hv, hx', hy'⟩
    · simp at hc
  · rintro ⟨hi, hv, hx, hy⟩
    refine ⟨id, hi, ?_⟩
    rw [if_pos hv]
    simp only [List.mem_flatMap, List.mem_map]
    exact ⟨x, hx, y, hy, rfl⟩

theorem max_coord_fold (g : RRGraph) (l : List Nat) :
    ∀ m : Int × Int,
      m.1 ≤ (l.foldl (max_coord_step g) m).1 ∧ m.2 ≤ (l.foldl (max_coord_step g) m).2
      ∧ (∀ id ∈ l, valid_node_id g (some id) = true →
          node_xhigh g (some id) ≤ (l.foldl (max_coord_step g) m).1
          ∧ node_xlow g (some id) ≤ (l.foldl (max_coord_step g) m).1
          ∧ node_yhigh g (some id) ≤ (l.foldl (max_coord_step g) m).2
          ∧ node_ylow g (some id) ≤ (l.foldl (max_coord_step g) m).2)
      ∧ ((l.foldl (max_coord_step g) m).1 = m.1
          ∨ ∃ id ∈ l, valid_node_id g (some id) = true
            ∧ ((l.foldl (max_coord_step g) m).1 = node_xhigh g (some id)
              ∨ (l.foldl (max_coord_step g) m).1 = node_xlow g (some id)))
      ∧ ((l.foldl (max_coord_step g) m).2 = m.2
          ∨ ∃ id ∈ l, valid_node_id g (some id) = true
            ∧ ((l.foldl (max_coord_step g) m).2 = node_yhigh g (some id)
              ∨ (l.foldl (max_coord_step g) m).2 = node_ylow g (some id))) := by
  induction l with
  | nil =>
    intro m
    simp
  | cons a l ih =>
    intro m
    rw [List.foldl_cons]
    obtain ⟨i1, i2, i3, i4, i5⟩ := ih (max_coord_step g m a)
    have s1 : m.1 ≤ (max_coord_step g m a).1 ∧ m.2 ≤ (max_coord_step g m a).2 := by
      unfold max_coord_step
      split_ifs
      · exact ⟨le_refl _, le_refl _⟩
      · exact ⟨le_max_left _ _, le_max_left _ _⟩
    refine ⟨le_trans s1.1 i1, le_trans s1.2 i2, ?_, ?_, ?_⟩
    · intro id hid hv
      rcases List.mem_cons.mp hid with rfl | hid
      · have s2 : node_xhigh g (some id) ≤ (max_coord_step g m id).1
            ∧ node_xlow g (some id) ≤ (max_coord_step g m id).1
            ∧ node_yhigh g (some id) ≤ (max_coord_step g m id).2
            ∧ node_ylow g (some id) ≤ (max_coord_step g m id).2 := by
          unfold max_coord_step
          simp only [hv, Bool.not_true, Bool.false_eq_true, if_false]
          refine ⟨?_, ?_, ?_, ?_⟩ <;> simp
        exact ⟨le_trans s2.1 i1, le_trans s2.2.1 i1, le_trans s2.2.2.1 i2,
          le_trans s2.2.2.2 i2⟩
      · exact i3 id hid hv
    · rcases i4 with h | ⟨id, hid, hv, h⟩
      · by_cases hv : valid_node_id g (some a) = true
        · have s3 : (max_coord_step g m a).1
              = max m.1 (max (node_xhigh g (some a)) (node_xlow g (some a))) := by
            unfold max_coord_step
            simp [hv]
          rw [h, s3]
          rcases max_choice m.1 (max (node_xhigh g (some a)) (node_xlow g (some a))) with e | e
          · left; exact e
          · right
            refine ⟨a, List.mem_cons_self _ _, hv, ?_⟩
            rw [e]
            rcases max_choice (node_xhigh g (some a)) (node_xlow g (some a)) with e' | e'
            · left; exact e'
            · right; exact e'
        · left
          rw [h]
          unfold max_coord_step
          simp [hv]
      · right
        exact ⟨id, List.mem_cons_of_mem _ hid, hv, h⟩
    · rcases i5 with h | ⟨id, hid, hv, h⟩
      · by_cases hv : valid_node_id g (some a) = true
        · have s3 : (max_coord_step g m a).2
              = max m.2 (max (node_yhigh g (some a)) (node_ylow g (some a))) := by
            unfold max_coord_step
            simp [hv]
          rw [h, s3]
          rcases max_choice m.2 (max (node_yhigh g (some a)) (node_ylow g (some a))) with e | e
          · left; exact e
          · right
            refine ⟨a, List.mem_cons_self _ _, hv, ?_⟩
            rw [e]
            rcases max_choice (node_yhigh g (some a)) (node_ylow g (some a)) with e' | e'
            · left; exact e'
            · right; exact e'
        · left
          rw [h]
          unfold max_coord_step
          simp [hv]
      · right
        exact ⟨id, List.mem_cons_of_mem _ hid, hv, h⟩

theorem node_ready_spec (g : RRGraph) (id : Nat) (h : node_ready g id = true) :
    (0 ≤ node_xlow g (some id) ∧ node_xlow g (some id) < 2 ^ 15
      ∧ 0 ≤ node_ylow g (some id) ∧ node_ylow g (some id) < 2 ^ 15
      ∧ 0 ≤ node_xhigh g (some id) ∧ node_xhigh g (some id) < 2 ^ 15
      ∧ 0 ≤ node_yhigh g (some id) ∧ node_yhigh g (some id) < 2 ^ 15)
    ∧ (∀ p ∈ node_ptc_nums g (some id), 0 ≤ p ∧ p < 2 ^ 15)
    ∧ 0 < (node_ptc_nums g (some id)).length
    ∧ (node_type g (some id) = t_rr_type.CHANX →
        node_xlow g (some id) ≤ node_xhigh g (some id)
        ∧ node_xhigh g (some id) - node_xlow g (some id) < (node_ptc_nums g (some id)).length)
    ∧ (node_type g (some id) = t_rr_type.CHANY →
        node_ylow g (some id) ≤ node_yhigh g (some id)
        ∧ node_yhigh g (some id) - node_ylow g (some id)
            < (node_ptc_nums g (some id)).length) := by
  unfold node_ready at h
  simp only [Bool.and_eq_true, decide_eq_true_eq, List.all_eq_true] at h
  obtain ⟨⟨⟨h1, h2⟩, h3⟩, h4⟩ := h
  refine ⟨h1, h2, h3, ?_, ?_⟩
  · intro ht
    rw [if_pos ht] at h4
    simpa using h4
  · intro ht
    by_cases hx : node_type g (some id) = t_rr_type.CHANX
    · rw [hx] at ht
      exact absurd ht (by decide)
    · rw [if_neg hx, if_pos ht] at h4
      simpa using h4

/-- The key recorded for a cell of a ready node: the cell, the type of the
node, its ptc number at the cell and its side slot. -/
theorem cell_key_ready (g : RRGraph) (c : Nat × Nat × Nat)
    (hr : node_ready g c.1 = true)
    (hx : c.2.1 ∈ span_cells (node_xlow g (some c.1)) (node_xhigh g (some c.1)))
    (hy : c.2.2 ∈ span_cells (node_ylow g (some c.1)) (node_yhigh g (some c.1))) :
    cell_key g c
        = some (c.2.1, c.2.2, rr_type_index (node_type g (some c.1)),
            (node_ptc_at g (some c.1) c.2.1 c.2.2).toNat, node_side_slot g (some c.1))
    ∧ 0 ≤ node_ptc_at g (some c.1) c.2.1 c.2.2
    ∧ node_ptc_at g (some c.1) c.2.1 c.2.2 < 2 ^ 15 := by
  obtain ⟨⟨b1, b2, b3, b4, b5, b6, b7, b8⟩, hp, hlen, hcx, hcy⟩ := node_ready_spec g c.1 hr
  rw [mem_span_cells _ _ b1 b5 b2 b6] at hx
  rw [mem_span_cells _ _ b3 b7 b4 b8] at hy
  have h0 : (node_ptc_nums g (some c.1))[0]? = some ((node_ptc_nums g (some c.1)).getD 0 0) := by
    rw [List.getElem?_eq_getElem hlen, List.getD_eq_getElem _ _ hlen]
  have hsz : ∀ p ∈ node_ptc_nums g (some c.1), to_size_t p = p.toNat := by
    intro p hpm
    obtain ⟨p1, p2⟩ := hp p hpm
    exact to_size_t_of_nonneg p p1 (by norm_num at p2 ⊢; omega)
  unfold cell_key node_ptc_at node_side_slot
  dsimp only
  rw [h0]
  dsimp only
  by_cases tx : node_type g (some c.1) = t_rr_type.CHANX
  · obtain ⟨c1, c2⟩ := hcx tx
    have hidx : (c.2.1 + 2 ^ 64 - to_size_t (node_xlow g (some c.1))) % 2 ^ 64
        = ((c.2.1 : Int) - node_xlow g (some c.1)).toNat := by
      unfold to_size_t
      norm_num at b2 b6 ⊢
      omega
    have hlt : ((c.2.1 : Int) - node_xlow g (some c.1)).toNat
        < (node_ptc_nums g (some c.1)).length := by omega
    have hm := getD_mem_of_lt (node_ptc_nums g (some c.1)) _ 0 hlt
    rw [if_pos tx, if_pos tx, hidx, List.getElem?_eq_getElem hlt,
      ← List.getD_eq_getElem _ 0 hlt]
    simp only [Option.map_some']
    rw [hsz _ hm]
    exact ⟨rfl, hp _ hm⟩
  · rw [if_neg tx, if_neg tx]
    by_cases ty : node_type g (some c.1) = t_rr_type.CHANY
    · obtain ⟨c1, c2⟩ := hcy ty
      have hidx : (c.2.2 + 2 ^ 64 - to_size_t (node_ylow g (some c.1))) % 2 ^ 64
          = ((c.2.2 : Int) - node_ylow g (some c.1)).toNat := by
        unfold to_size_t
        norm_num at b4 b8 ⊢
        omega
      have hlt : ((c.2.2 : Int) - node_ylow g (some c.1)).toNat
          < (node_ptc_nums g (some c.1)).length := by omega
      have hm := getD_mem_of_lt (node_ptc_nums g (some c.1)) _ 0 hlt
      rw [if_pos ty, if_pos ty, hidx, List.getElem?_eq_getElem hlt,
        ← List.getD_eq_getElem _ 0 hlt]
      simp only [Option.map_some']
      rw [hsz _ hm]
      exact ⟨rfl, hp _ hm⟩
    · have hm := getD_mem_of_lt (node_ptc_nums g (some c.1)) 0 0 hlen
      rw [if_neg ty, if_neg ty]
      simp only [Option.map_some']
      rw [hsz _ hm]
      exact ⟨rfl, hp _ hm⟩

theorem lookup_ready_node (g : RRGraph) (h : lookup_ready g = true) (id : Nat)
    (hid : id < g.num_nodes_) (hv : valid_node_id g (some id) = true) :
    node_ready g id = true := by
  unfold lookup_ready at h
  rw [List.all_eq_true] at h
  have := h id (List.mem_range.mpr hid)
  simpa [hv] using this

/-- On a graph all of whose valid nodes are ready, `max_coord` is a
non-negative `short` that bounds both corners of every valid node. -/
theorem max_coord_ready (g : RRGraph) (h : lookup_ready g = true) :
    0 ≤ (lookup_max_coord g).1 ∧ (lookup_max_coord g).1 < 2 ^ 15
    ∧ 0 ≤ (lookup_max_coord g).2 ∧ (lookup_max_coord g).2 < 2 ^ 15
    ∧ ∀ id < g.num_nodes_, valid_node_id g (some id) = true →
        node_xhigh g (some id) ≤ (lookup_max_coord g).1
        ∧ node_xlow g (some id) ≤ (lookup_max_coord g).1
        ∧ node_yhigh g (some id) ≤ (lookup_max_coord g).2
        ∧ node_ylow g (some id) ≤ (lookup_max_coord g).2 := by
  obtain ⟨m1, m2, m3, m4, m5⟩ := max_coord_fold g (List.range g.num_nodes_) (0, 0)
  refine ⟨m1, ?_, m2, ?_, fun id hid hv => m3 id (List.mem_range.mpr hid) hv⟩
  · rcases m4 with e | ⟨id, hid, hv, e⟩
    · unfold lookup_max_coord
      rw [e]
      norm_num
    · obtain ⟨⟨_, b2, _, _, _, b6, _, _⟩, _⟩ :=
        node_ready_spec g id (lookup_ready_node g h id (List.mem_range.mp hid) hv)
      unfold lookup_max_coord
      rcases e with e | e
      · rw [e]; exact b6
      · rw [e]; exact b2
  · rcases m5 with e | ⟨id, hid, hv, e⟩
    · unfold lookup_max_coord
      rw [e]
      norm_num
    · obtain ⟨⟨_, _, _, b4, _, _, _, b8⟩, _⟩ :=
        node_ready_spec g id (lookup_ready_node g h id (List.mem_range.mp hid) hv)
      unfold lookup_max_coord
      rcases e with e | e
      · rw [e]; exact b8
      · rw [e]; exact b4

theorem lookup_foldlM_inv {β : Type} (step : Lookup → β → Option Lookup)
    (Inv : Lookup → Prop) :
    ∀ (W : List β), (∀ c ∈ W, ∀ L, Inv L → ∃ L', step L c = some L' ∧ Inv L') →
      ∀ L, Inv L → ∃ L', W.foldlM step L = some L' ∧ Inv L' := by
  intro W
  induction W with
  | nil =>
    intro _ L hL
    exact ⟨L, rfl, hL⟩
  | cons c W ih =>
    intro hstep L hL
    obtain ⟨L1, h1, i1⟩ := hstep c (List.mem_cons_self _ _) L hL
    obtain ⟨L2, h2, i2⟩ := ih (fun c' hc' => hstep c' (List.mem_cons_of_mem _ hc')) L1 i1
    refine ⟨L2, ?_, i2⟩
    simp only [List.foldlM, bind, Option.bind_eq_some]
    exact ⟨L1, h1, h2⟩

/-- On a ready graph every iteration of the write loop stays inside the
table. -/
theorem cell_step_ready (g : RRGraph) (h : lookup_ready g = true) (c : Nat × Nat × Nat)
    (hc : c ∈ lookup_cells g) (L : Lookup)
    (hs : lookup_shape L
      = List.replicate (to_size_t (lookup_max_coord g).1 + 1)
          (List.replicate (to_size_t (lookup_max_coord g).2 + 1) (NUM_RR_TYPES + 1))) :
    ∃ L', cell_step g L c = some L'
      ∧ lookup_shape L'
        = List.replicate (to_size_t (lookup_max_coord g).1 + 1)
            (List.replicate (to_size_t (lookup_max_coord g).2 + 1) (NUM_RR_TYPES + 1)) := by
  obtain ⟨hid, hv, hx, hy⟩ := (mem_lookup_cells g c).mp hc
  have hr := lookup_ready_node g h c.1 hid hv
  obtain ⟨hk, p0, p1⟩ := cell_key_ready g c hr hx hy
  obtain ⟨⟨b1, b2, b3, b4, b5, b6, b7, b8⟩, _⟩ := node_ready_spec g c.1 hr
  rw [mem_span_cells _ _ b1 b5 b2 b6] at hx
  rw [mem_span_cells _ _ b3 b7 b4 b8] at hy
  obtain ⟨m1, m2, m3, m4, m5⟩ := max_coord_ready g h
  obtain ⟨n1, n2, n3, n4⟩ := m5 c.1 hid hv
  obtain ⟨hl, hcol, hrow⟩ := dims_of_shape L _ _ _ hs
  have ex : to_size_t (lookup_max_coord g).1 = (lookup_max_coord g).1.toNat :=
    to_size_t_of_nonneg _ m1 (by norm_num at m2 ⊢; omega)
  have ey : to_size_t (lookup_max_coord g).2 = (lookup_max_coord g).2.toNat :=
    to_size_t_of_nonneg _ m3 (by norm_num at m4 ⊢; omega)
  have hxa : c.2.1 < to_size_t (lookup_max_coord g).1 + 1 := by
    rw [ex]
    have : (c.2.1 : Int) ≤ (lookup_max_coord g).1 := le_trans hx.2 (max_le n2 n1)
    omega
  have hyb : c.2.2 < to_size_t (lookup_max_coord g).2 + 1 := by
    rw [ey]
    have : (c.2.2 : Int) ≤ (lookup_max_coord g).2 := le_trans hy.2 (max_le n4 n3)
    omega
  have hside : node_side_slot g (some c.1) ≤ 4 := by
    unfold node_side_slot
    split_ifs
    · exact side_index_le _
    · exact side_index_le _
  obtain ⟨L', hw⟩ := lookup_write_some L c.2.1 c.2.2 (rr_type_index (node_type g (some c.1)))
    (node_ptc_at g (some c.1) c.2.1 c.2.2).toNat (node_side_slot g (some c.1)) (some c.1)
    (by rw [hl]; exact hxa) (by rw [hcol _ hxa]; exact hyb)
    (by rw [hrow _ hxa _ hyb]; exact rr_type_index_lt _)
    (by unfold vector_max_size; norm_num at p1 ⊢; omega)
    (by norm_num; omega)
  refine ⟨L', ?_, (lookup_write_shape _ _ _ _ _ _ _ _ hw).trans hs⟩
  rw [cell_step_eq, hk]
  exact hw

/-- On a ready graph `build_fast_node_lookup` returns; the table it builds is
the result of the write loop over all cells of all valid nodes. -/
theorem build_ready (g : RRGraph) (h : lookup_ready g = true) :
    ∃ L, build_fast_node_lookup g = some { g with node_lookup_ := L }
      ∧ (lookup_cells g).foldlM (cell_step g) (empty_lookup g) = some L := by
  obtain ⟨L, hL, _⟩ := lookup_foldlM_inv (cell_step g)
    (fun L => lookup_shape L
      = List.replicate (to_size_t (lookup_max_coord g).1 + 1)
          (List.replicate (to_size_t (lookup_max_coord g).2 + 1) (NUM_RR_TYPES + 1)))
    (lookup_cells g) (fun c hc L hs => cell_step_ready g h c hc L hs)
    (empty_lookup g) (lookup_shape_empty g)
  refine ⟨L, ?_, hL⟩
  rw [build_fast_node_lookup_eq, hL]
  rfl

/-- The table built over the cells of all valid nodes: it has the sizes of
the empty table; a key recorded by some cell holds the node of one of the
cells that record it; every other key holds the invalid handle. -/
theorem built_lookup (g : RRGraph) (L : Lookup)
    (hL : (lookup_cells g).foldlM (cell_step g) (empty_lookup g) = some L) :
    lookup_shape L
        = List.replicate (to_size_t (lookup_max_coord g).1 + 1)
            (List.replicate (to_size_t (lookup_max_coord g).2 + 1) (NUM_RR_TYPES + 1))
    ∧ ∀ x y t p s,
      ((∃ c ∈ lookup_cells g, cell_key g c = some (x, y, t, p, s)) →
          ∃ c ∈ lookup_cells g, cell_key g c = some (x, y, t, p, s)
            ∧ lookup_get L x y t p s = some c.1)
      ∧ ((¬ ∃ c ∈ lookup_cells g, cell_key g c = some (x, y, t, p, s)) →
          lookup_get L x y t p s = none) := by
  obtain ⟨h1, h2⟩ := cells_fold g _ _ _ hL
  refine ⟨h1.trans (lookup_shape_empty g), fun x y t p s => ⟨(h2 x y t p s).1, fun hno => ?_⟩⟩
  rw [(h2 x y t p s).2 hno, lookup_get_empty]

/-- With the index unbuilt, or built from the present state, the lazy
initialisation amounts to a build. -/
theorem initialize_of_fresh (g : RRGraph)
    (hf : valid_fast_node_lookup g = false ∨ build_fast_node_lookup g = some g) :
    initialize_fast_node_lookup g = build_fast_node_lookup g := by
  unfold initialize_fast_node_lookup
  by_cases hv : valid_fast_node_lookup g = true
  · rw [if_pos hv]
    rcases hf with h | h
    · rw [hv] at h
      exact absurd h (by decide)
    · exact h.symm
  · rw [if_neg hv]

theorem rr_type_index_inj (a b : t_rr_type) (h : rr_type_index a = rr_type_index b) :
    a = b := by
  cases a <;> cases b <;> first | rfl | exact absurd h (by decide)

/-- On a ready graph the cells that record a key are the cells of the nodes
that `node_records` names for the query with that key. -/
theorem cell_key_records (g : RRGraph) (h : lookup_ready g = true) (x y : Int)
    (type : t_rr_type) (ptc : Int) (side : e_side)
    (hx0 : 0 ≤ x) (hx : x < 2 ^ 15) (hy0 : 0 ≤ y) (hy : y < 2 ^ 15)
    (hp0 : 0 ≤ ptc) (hp : ptc < 2 ^ 31) (id : Nat) :
    ((id, to_size_t x, to_size_t y) ∈ lookup_cells g
      ∧ cell_key g (id, to_size_t x, to_size_t y)
        = some (to_size_t x, to_size_t y, rr_type_index type, to_size_t ptc, side_index side))
    ↔ (id < g.num_nodes_ ∧ valid_node_id g (some id) = true
        ∧ node_records g id x y type ptc side = true) := by
  have ex : to_size_t x = x.toNat := to_size_t_of_nonneg x hx0 (by norm_num at hx ⊢; omega)
  have ey : to_size_t y = y.toNat := to_size_t_of_nonneg y hy0 (by norm_num at hy ⊢; omega)
  have ep : to_size_t ptc = ptc.toNat :=
    to_size_t_of_nonneg ptc hp0 (by norm_num at hp ⊢; omega)
  have cx : ((x.toNat : Nat) : Int) = x := Int.toNat_of_nonneg hx0
  have cy : ((y.toNat : Nat) : Int) = y := Int.toNat_of_nonneg hy0
  rw [ex, ey, ep, mem_lookup_cells]
  unfold node_records
  simp only [decide_eq_true_eq]
  constructor
  · rintro ⟨⟨hid, hv, hsx, hsy⟩, hk⟩
    have hr := lookup_ready_node g h id hid hv
    obtain ⟨hk', p0, p1⟩ := cell_key_ready g (id, x.toNat, y.toNat) hr hsx hsy
    obtain ⟨⟨b1, b2, b3, b4, b5, b6, b7, b8⟩, _⟩ := node_ready_spec g id hr
    rw [mem_span_cells _ _ b1 b5 b2 b6] at hsx
    rw [mem_span_cells _ _ b3 b7 b4 b8] at hsy
    dsimp only at hsx hsy hk' p0 p1
    rw [cx] at hsx
    rw [cy] at hsy
    rw [hk', cx, cy] at hk
    simp only [Option.some.injEq, Prod.mk.injEq, true_and] at hk
    obtain ⟨k1, k2, k3⟩ := hk
    rw [cx, cy] at p0
    refine ⟨hid, hv, hsx.1, hsx.2, hsy.1, hsy.2, rr_type_index_inj _ _ k1, ?_, k3⟩
    omega
  · rintro ⟨hid, hv, r1, r2, r3, r4, r5, r6, r7⟩
    have hr := lookup_ready_node g h id hid hv
    obtain ⟨⟨b1, b2, b3, b4, b5, b6, b7, b8⟩, _⟩ := node_ready_spec g id hr
    have hsx : x.toNat ∈ span_cells (node_xlow g (some id)) (node_xhigh g (some id)) := by
      rw [mem_span_cells _ _ b1 b5 b2 b6, cx]
      exact ⟨r1, r2⟩
    have hsy : y.toNat ∈ span_cells (node_ylow g (some id)) (node_yhigh g (some id)) := by
      rw [mem_span_cells _ _ b3 b7 b4 b8, cy]
      exact ⟨r3, r4⟩
    obtain ⟨hk', _, _⟩ := cell_key_ready g (id, x.toNat, y.toNat) hr hsx hsy
    dsimp only at hk'
    rw [cx, cy] at hk'
    refine ⟨⟨hid, hv, hsx, hsy⟩, ?_⟩
    rw [hk', r5, r6, r7]

theorem cell_key_coords (g : RRGraph) (c : Nat × Nat × Nat) (x y t p s : Nat)
    (h : cell_key g c = some (x, y, t, p, s)) : c = (c.1, x, y) := by
  unfold cell_key at h
  dsimp only at h
  split at h
  · simp at h
  · simp only [Option.map_eq_some', Prod.mk.injEq] at h
    obtain ⟨_, _, h1, h2, _⟩ := h
    obtain ⟨id, cx, cy⟩ := c
    simp only at h1 h2
    rw [h1, h2]

theorem lookup_cells_nil (g : RRGraph)
    (h : ∀ id < g.num_nodes_, valid_node_id g (some id) = false) : lookup_cells g = [] := by
  unfold lookup_cells
  rw [List.flatMap_eq_nil_iff]
  intro id hid
  unfold node_cells
  rw [if_neg]
  rw [h id (List.mem_range.mp hid)]
  decide

theorem lookup_row_empty (g : RRGraph) (x y t : Nat) :
    (((empty_lookup g).getD x []).getD y []).getD t [] = [] := by
  unfold empty_lookup
  by_cases hx : x < to_size_t (lookup_max_coord g).1 + 1
  · by_cases hy : y < to_size_t (lookup_max_coord g).2 + 1
    · by_cases ht : t < NUM_RR_TYPES + 1
      · simp [List.getD_eq_getElem?_getD, List.getElem?_replicate, hx, hy, ht]
      · simp [List.getD_eq_getElem?_getD, List.getElem?_replicate, hx, hy, ht]
    · simp [List.getD_eq_getElem?_getD, List.getElem?_replicate, hx, hy]
  · simp [List.getD_eq_getElem?_getD, List.getElem?_replicate, hx]

/-- C14. On a graph whose valid nodes are all ready for the build, with the
index unbuilt or built from the present state, and for `short` coordinates
and an `int` ptc number: `find_node` returns the invalid handle when `x < 0`,
`y < 0` or `ptc < 0`, when `x` (or `y`) exceeds both corners of every valid
node, and when no valid node is recorded under the query. -/
theorem find_node_outside_extent (g : RRGraph) (x y : Int) (type : t_rr_type) (ptc : Int)
    (side : e_side) (hready : lookup_ready g = true)
    (hfresh : valid_fast_node_lookup g = false ∨ build_fast_node_lookup g = some g)
    (hx : x < 2 ^ 15) (hy : y < 2 ^ 15) (hp : ptc < 2 ^ 31)
    (hq : x < 0 ∨ y < 0 ∨ ptc < 0
      ∨ (∀ id < g.num_nodes_, valid_node_id g (some id) = true →
          node_xlow g (some id) < x ∧ node_xhigh g (some id) < x)
      ∨ (∀ id < g.num_nodes_, valid_node_id g (some id) = true →
          node_ylow g (some id) < y ∧ node_yhigh g (some id) < y)
      ∨ (∀ id < g.num_nodes_, valid_node_id g (some id) = true →
          node_records g id x y type ptc side = false)) :
    ∃ g', find_node g x y type ptc side = some (g', none) := by
  obtain ⟨L, hb, hL⟩ := build_ready g hready
  obtain ⟨hshape, hget⟩ := built_lookup g L hL
  refine ⟨{ g with node_lookup_ := L }, ?_⟩
  unfold find_node
  rw [initialize_of_fresh g hfresh, hb]
  simp only [Option.map_some', Option.some.injEq, Prod.mk.injEq, true_and]
  by_cases hneg : x < 0 ∨ y < 0 ∨ ptc < 0
  · exact find_node_in_negative L x y type ptc side hneg
  · have hx0 : 0 ≤ x := by omega
    have hy0 : 0 ≤ y := by omega
    have hp0 : 0 ≤ ptc := by omega
    rw [find_node_in_eq L _ _ _ hshape x y type ptc side hx0 hy0 hp0]
    apply (hget _ _ _ _ _).2
    rintro ⟨c, hc, hk⟩
    have hcc := cell_key_coords g c _ _ _ _ _ hk
    rw [hcc] at hc hk
    obtain ⟨hid, hv, hrec⟩ :=
      (cell_key_records g hready x y type ptc side hx0 hx hy0 hy hp0 hp c.1).mp ⟨hc, hk⟩
    have hrec' := hrec
    unfold node_records at hrec'
    simp only [decide_eq_true_eq] at hrec'
    obtain ⟨r1, r2, r3, r4, _⟩ := hrec'
    rcases hq with h | h | h | h | h | h
    · omega
    · omega
    · omega
    · obtain ⟨q1, q2⟩ := h c.1 hid hv
      have := max_lt q1 q2
      omega
    · obtain ⟨q1, q2⟩ := h c.1 hid hv
      have := max_lt q1 q2
      omega
    · rw [h c.1 hid hv] at hrec
      exact absurd hrec (by decide)

/-- C15. On a graph whose valid nodes are all ready for the build, with the
index unbuilt or built from the present state: for a valid CHANX or CHANY
node `n` and a cell `(x, y)` of its span, `find_node` with the type of `n`,
the track number of `n` at the cell and `NUM_SIDES` returns `n`, provided no
other valid node is recorded under the same query. -/
theorem find_node_channel_cell (g : RRGraph) (n : Nat) (x y : Int)
    (hready : lookup_ready g = true)
    (hfresh : valid_fast_node_lookup g = false ∨ build_fast_node_lookup g = some g)
    (hn : n < g.num_nodes_) (hv : valid_node_id g (some n) = true)
    (hchan : node_type g (some n) = t_rr_type.CHANX ∨ node_type g (some n) = t_rr_type.CHANY)
    (hspan : node_xlow g (some n) ≤ x ∧ x ≤ node_xhigh g (some n)
      ∧ node_ylow g (some n) ≤ y ∧ y ≤ node_yhigh g (some n))
    (huniq : ∀ id < g.num_nodes_, valid_node_id g (some id) = true → id ≠ n →
      node_records g id x y (node_type g (some n)) (node_ptc_at g (some n) x y)
        e_side.NUM_SIDES = false) :
    ∃ g', find_node g x y (node_type g (some n)) (node_ptc_at g (some n) x y)
        e_side.NUM_SIDES = some (g', some n) := by
  obtain ⟨L, hb, hL⟩ := build_ready g hready
  obtain ⟨hshape, hget⟩ := built_lookup g L hL
  have hr := lookup_ready_node g hready n hn hv
  obtain ⟨⟨b1, b2, b3, b4, b5, b6, b7, b8⟩, _⟩ := node_ready_spec g n hr
  obtain ⟨s1, s2, s3, s4⟩ := hspan
  have hx0 : 0 ≤ x := le_trans b1 s1
  have hy0 : 0 ≤ y := le_trans b3 s3
  have hx : x < 2 ^ 15 := lt_of_le_of_lt s2 b6
  have hy : y < 2 ^ 15 := lt_of_le_of_lt s4 b8
  have cx : ((x.toNat : Nat) : Int) = x := Int.toNat_of_nonneg hx0
  have cy : ((y.toNat : Nat) : Int) = y := Int.toNat_of_nonneg hy0
  have hsx : x.toNat ∈ span_cells (node_xlow g (some n)) (node_xhigh g (some n)) := by
    rw [mem_span_cells _ _ b1 b5 b2 b6, cx]
    exact ⟨le_trans (min_le_left _ _) s1, le_trans s2 (le_max_right _ _)⟩
  have hsy : y.toNat ∈ span_cells (node_ylow g (some n)) (node_yhigh g (some n)) := by
    rw [mem_span_cells _ _ b3 b7 b4 b8, cy]
    exact ⟨le_trans (min_le_left _ _) s3, le_trans s4 (le_max_right _ _)⟩
  obtain ⟨_, p0, p1⟩ := cell_key_ready g (n, x.toNat, y.toNat) hr hsx hsy
  dsimp only at p0 p1
  rw [cx, cy] at p0 p1
  have hp : node_ptc_at g (some n) x y < 2 ^ 31 := lt_trans p1 (by norm_num)
  have hside : node_side_slot g (some n) = side_index e_side.NUM_SIDES := by
    unfold node_side_slot
    rw [if_neg]
    rintro (h | h) <;> rcases hchan with h' | h' <;> rw [h'] at h <;> exact absurd h (by decide)
  have hrec : node_records g n x y (node_type g (some n)) (node_ptc_at g (some n) x y)
      e_side.NUM_SIDES = true := by
    unfold node_records
    rw [decide_eq_true_eq]
    exact ⟨le_trans (min_le_left _ _) s1, le_trans s2 (le_max_right _ _),
      le_trans (min_le_left _ _) s3, le_trans s4 (le_max_right _ _), rfl, rfl, hside⟩
  obtain ⟨hc0, hk0⟩ := (cell_key_records g hready x y _ _ _ hx0 hx hy0 hy p0 hp n).mpr
    ⟨hn, hv, hrec⟩
  obtain ⟨c, hc, hk, hval⟩ := (hget _ _ _ _ _).1 ⟨_, hc0, hk0⟩
  have hcc := cell_key_coords g c _ _ _ _ _ hk
  rw [hcc] at hc hk
  obtain ⟨hid, hvc, hrc⟩ :=
    (cell_key_records g hready x y _ _ _ hx0 hx hy0 hy p0 hp c.1).mp ⟨hc, hk⟩
  have hcn : c.1 = n := by
    by_contra hne
    rw [huniq c.1 hid hvc hne] at hrc
    exact absurd hrc (by decide)
  refine ⟨{ g with node_lookup_ := L }, ?_⟩
  unfold find_node
  rw [initialize_of_fresh g hfresh, hb]
  simp only [Option.map_some', Option.some.injEq, Prod.mk.injEq, true_and]
  rw [find_node_in_eq L _ _ _ hshape x y _ _ _ hx0 hy0 p0, hval, hcn]

/-- C16. On a graph whose valid nodes are all ready for the build, with the
index unbuilt or built from the present state, and for `short` coordinates:
`chan_num_tracks` of a channel type returns 0 when `x < 0` or `y < 0` and when
`x` (or `y`) exceeds both corners of every valid node. -/
theorem chan_num_tracks_outside_extent (g : RRGraph) (x y : Int) (type : t_rr_type)
    (hready : lookup_ready g = true)
    (hfresh : valid_fast_node_lookup g = false ∨ build_fast_node_lookup g = some g)
    (htype : type = t_rr_type.CHANX ∨ type = t_rr_type.CHANY)
    (hx : x < 2 ^ 15) (hy : y < 2 ^ 15)
    (hq : x < 0 ∨ y < 0
      ∨ (∀ id < g.num_nodes_, valid_node_id g (some id) = true →
          node_xlow g (some id) < x ∧ node_xhigh g (some id) < x)
      ∨ (∀ id < g.num_nodes_, valid_node_id g (some id) = true →
          node_ylow g (some id) < y ∧ node_yhigh g (some id) < y)) :
    ∃ g', chan_num_tracks g x y type = some (g', 0) := by
  obtain ⟨L, hb, hL⟩ := build_ready g hready
  obtain ⟨hshape, _⟩ := built_lookup g L hL
  have h0 : to_short ((0 : Nat) : Int) = 0 := by
    unfold to_short
    norm_num
  refine ⟨{ g with node_lookup_ := L }, ?_⟩
  unfold chan_num_tracks
  rw [if_pos htype, initialize_of_fresh g hfresh, hb]
  simp only [Option.bind]
  rw [chan_num_tracks_in_eq L _ _ (Nat.succ_pos _) (Nat.succ_pos _) hshape]
  by_cases hne : ∃ id, id < g.num_nodes_ ∧ valid_node_id g (some id) = true
  · obtain ⟨id0, hid0, hv0⟩ := hne
    obtain ⟨⟨b1, _, b3, _⟩, _⟩ :=
      node_ready_spec g id0 (lookup_ready_node g hready id0 hid0 hv0)
    obtain ⟨m1, m2, m3, m4, _⟩ := max_coord_ready g hready
    obtain ⟨_, _, _, a4, a5⟩ := max_coord_fold g (List.range g.num_nodes_) (0, 0)
    have ex : to_size_t (lookup_max_coord g).1 = (lookup_max_coord g).1.toNat :=
      to_size_t_of_nonneg _ m1 (by norm_num at m2 ⊢; omega)
    have ey : to_size_t (lookup_max_coord g).2 = (lookup_max_coord g).2.toNat :=
      to_size_t_of_nonneg _ m3 (by norm_num at m4 ⊢; omega)
    rw [if_pos]
    · rfl
    · rcases hq with h | h | h | h
      · exact Or.inl h
      · exact Or.inr (Or.inr (Or.inl h))
      · right; left
        have hxpos : 0 < x := lt_of_le_of_lt b1 (h id0 hid0 hv0).1
        have hlt : (lookup_max_coord g).1 < x := by
          rcases a4 with e | ⟨id, hid, hv, e⟩
          · unfold lookup_max_coord
            rw [e]
            exact hxpos
          · obtain ⟨q1, q2⟩ := h id (List.mem_range.mp hid) hv
            unfold lookup_max_coord
            rcases e with e | e
            · rw [e]; exact q2
            · rw [e]; exact q1
        rw [ex, to_size_t_of_nonneg x (le_of_lt hxpos) (by norm_num at hx ⊢; omega)]
        omega
      · right; right; right
        have hypos : 0 < y := lt_of_le_of_lt b3 (h id0 hid0 hv0).1
        have hlt : (lookup_max_coord g).2 < y := by
          rcases a5 with e | ⟨id, hid, hv, e⟩
          · unfold lookup_max_coord
            rw [e]
            exact hypos
          · obtain ⟨q1, q2⟩ := h id (List.mem_range.mp hid) hv
            unfold lookup_max_coord
            rcases e with e | e
            · rw [e]; exact q2
            · rw [e]; exact q1
        rw [ey, to_size_t_of_nonneg y (le_of_lt hypos) (by norm_num at hy ⊢; omega)]
        omega
  · have hnil : lookup_cells g = [] := by
      apply lookup_cells_nil
      intro id hid
      by_contra hv
      exact hne ⟨id, hid, by simpa using hv⟩
    rw [hnil] at hL
    simp only [List.foldlM, pure, Option.some.injEq] at hL
    rw [← hL, lookup_row_empty]
    split_ifs
    · rfl
    · simp only [List.length_nil, Option.map_some', h0]

/-- On a graph whose valid nodes are all ready for the build, with the index
unbuilt or built from the present state, `find_node` and `chan_num_tracks`
(of a channel type) return for every query: no index leaves the table or a
ptc vector. -/
theorem lookup_queries_defined (g : RRGraph) (x y : Int) (type : t_rr_type) (ptc : Int)
    (side : e_side) (hready : lookup_ready g = true)
    (hfresh : valid_fast_node_lookup g = false ∨ build_fast_node_lookup g = some g) :
    (∃ r, find_node g x y type ptc side = some r)
    ∧ (type = t_rr_type.CHANX ∨ type = t_rr_type.CHANY →
        ∃ r, chan_num_tracks g x y type = some r) := by
  obtain ⟨L, hb, hL⟩ := build_ready g hready
  obtain ⟨hshape, _⟩ := built_lookup g L hL
  constructor
  · unfold find_node
    rw [initialize_of_fresh g hfresh, hb]
    exact ⟨_, rfl⟩
  · intro htype
    unfold chan_num_tracks
    rw [if_pos htype, initialize_of_fresh g hfresh, hb]
    simp only [Option.bind]
    rw [chan_num_tracks_in_eq L _ _ (Nat.succ_pos _) (Nat.succ_pos _) hshape]
    split_ifs
    · exact ⟨_, rfl⟩
    · exact ⟨_, rfl⟩

/-- Counterexample for C14: a SOURCE node is given the box (0, 0, 3, 0), a
query builds the index, and `set_node_xhigh` then shrinks the box to
(0, 0, 0, 0) without clearing the index.  The only valid node now has
`xlow = xhigh = 0`, yet `find_node(3, 0, SOURCE, 0, NUM_SIDES)` returns node 0
from the table built earlier. -/
theorem find_node_stale_index :
    stale_source.map
        (fun g => (g.num_nodes_, valid_node_id g (some 0), node_xlow g (some 0),
          node_xhigh g (some 0), valid_fast_node_lookup g))
      = some (1, true, 0, 0, true)
    ∧ stale_source.bind
        (fun g => (find_node g 3 0 t_rr_type.SOURCE 0 e_side.NUM_SIDES).map Prod.snd)
      = some (some 0) := by
  refine ⟨by decide, by decide⟩

/-- Witness for C14: on the scenario graph, whose nodes span x = 0..2, the
query at x = 5 returns the invalid handle. -/
theorem find_node_outside_extent_witness :
    lookup_ready lookup_scenario_graph = true
    ∧ valid_fast_node_lookup lookup_scenario_graph = false
    ∧ ∃ g', find_node lookup_scenario_graph 5 0 t_rr_type.CHANX 1 e_side.NUM_SIDES
        = some (g', none) :=
  ⟨by decide, by decide,
    find_node_outside_extent lookup_scenario_graph 5 0 t_rr_type.CHANX 1 e_side.NUM_SIDES
      (by decide) (Or.inl (by decide)) (by norm_num) (by norm_num) (by norm_num)
      (Or.inr (Or.inr (Or.inr (Or.inl (by decide)))))⟩

/-- Counterexample for C15: two valid CHANX nodes hold the box (0, 0, 0, 0)
and track 0, each with a ptc vector of `node_length + 1 = 1` entry.  Node 0
spans the cell (0, 0) with track 0 there, yet
`find_node(0, 0, CHANX, 0, NUM_SIDES)` returns node 1, whose write came last.
Second case: a CHANX node is queried at (0, 0), which builds the index, then
widened to (0, 0, 1, 0) with track 0; `find_node(1, 0, CHANX, 0, NUM_SIDES)`
returns the invalid handle from the table built earlier. -/
theorem find_node_shared_track :
    shared_track.map
        (fun g => (valid_node_id g (some 0), node_type g (some 0), node_bounding_box g (some 0),
          node_ptc_nums g (some 0), node_length g (some 0)))
      = some (true, t_rr_type.CHANX, ⟨0, 0, 0, 0⟩, [0], 0)
    ∧ shared_track.bind
        (fun g => (find_node g 0 0 t_rr_type.CHANX 0 e_side.NUM_SIDES).map Prod.snd)
      = some (some 1)
    ∧ moved_channel.map
        (fun g => (valid_node_id g (some 0), node_type g (some 0), node_bounding_box g (some 0),
          node_ptc_nums g (some 0), node_length g (some 0)))
      = some (true, t_rr_type.CHANX, ⟨0, 0, 1, 0⟩, [0, 0], 1)
    ∧ moved_channel.bind
        (fun g => (find_node g 1 0 t_rr_type.CHANX 0 e_side.NUM_SIDES).map Prod.snd)
      = some none := by
  refine ⟨by decide, by decide, by decide, by decide⟩

/-- Witness for C15: on the scenario graph the CHANX node 1 spans x = 0..2 at
y = 0 on track 1, and the query at the cell (1, 0) returns node 1. -/
theorem find_node_channel_cell_witness :
    lookup_ready lookup_scenario_graph = true
    ∧ valid_node_id lookup_scenario_graph (some 1) = true
    ∧ node_type lookup_scenario_graph (some 1) = t_rr_type.CHANX
    ∧ node_ptc_at lookup_scenario_graph (some 1) 1 0 = 1
    ∧ ∃ g', find_node lookup_scenario_graph 1 0 t_rr_type.CHANX 1 e_side.NUM_SIDES
        = some (g', some 1) :=
  ⟨by decide, by decide, by decide, by decide,
    find_node_channel_cell lookup_scenario_graph 1 1 0 (by decide) (Or.inl (by decide))
      (by decide) (by decide) (Or.inl (by decide)) (by decide) (by decide)⟩

/-- Counterexample for C16: a CHANX node is given the box (0, 0, 5, 0) and
track 0, a query builds the index, and `set_node_xhigh` then shrinks the box
to (0, 0, 0, 0) without clearing the index.  The only valid node now has
`xlow = xhigh = 0`, yet `chan_num_tracks(5, 0, CHANX)` returns 1. -/
theorem chan_num_tracks_stale_index :
    stale_channel.map
        (fun g => (g.num_nodes_, valid_node_id g (some 0), node_xlow g (some 0),
          node_xhigh g (some 0), valid_fast_node_lookup g))
      = some (1, true, 0, 0, true)
    ∧ stale_channel.bind (fun g => (chan_num_tracks g 5 0 t_rr_type.CHANX).map Prod.snd)
      = some 1 := by
  refine ⟨by decide, by decide⟩

/-- Witness for C16: on the scenario graph, whose extent is 0..2,
`chan_num_tracks(5, 5, CHANX)` returns 0. -/
theorem chan_num_tracks_outside_extent_witness :
    lookup_ready lookup_scenario_graph = true
    ∧ valid_fast_node_lookup lookup_scenario_graph = false
    ∧ ∃ g', chan_num_tracks lookup_scenario_graph 5 5 t_rr_type.CHANX = some (g', 0) :=
  ⟨by decide, by decide,
    chan_num_tracks_outside_extent lookup_scenario_graph 5 5 t_rr_type.CHANX
      (by decide) (Or.inl (by decide)) (Or.inl rfl) (by norm_num) (by norm_num)
      (Or.inr (Or.inr (Or.inl (by decide))))⟩

/-- C17. Three graphs built by the public mutators on which the lazy build
triggered by `find_node` and `chan_num_tracks` leaves the table or a ptc
vector.  A node with the default box (-1, -1, -1, -1) is visited at the cell
`x = y = size_t(-1)` of a table with one column; a node with the box
(0, 0, 0, 0) and the default ptc `-1` is recorded at `ptc = size_t(-1)`, for
which `resize(ptc + 1)` is `resize(0)` and the entry read next does not
exist; a CHANX node spanning x = 0..2 whose ptc vector has one entry is read
at the offsets 1 and 2. -/
theorem find_node_default_node_out_of_range :
    (default_node.map (fun g => (valid_node_id g (some 0), node_bounding_box g (some 0))))
      = some (true, ⟨-1, -1, -1, -1⟩)
    ∧ default_node.map (fun g => lookup_cells g) = some [(0, 2 ^ 64 - 1, 2 ^ 64 - 1)]
    ∧ default_node.map (fun g => (empty_lookup g).length) = some 1
    ∧ default_node.bind (fun g => find_node g 0 0 t_rr_type.SOURCE 0 e_side.NUM_SIDES) = none
    ∧ default_node.bind (fun g => chan_num_tracks g 0 0 t_rr_type.CHANX) = none
    ∧ default_ptc_node.map (fun g => node_ptc_nums g (some 0)) = some [-1]
    ∧ default_ptc_node.map (fun g => lookup_cells g) = some [(0, 0, 0)]
    ∧ default_ptc_node.map
        (fun g => (lookup_cells g).map (fun c => (cell_key g c).map (fun k => k.2.2.2.1)))
      = some [some (2 ^ 64 - 1)]
    ∧ default_ptc_node.bind
        (fun g => find_node g 0 0 t_rr_type.SOURCE 0 e_side.NUM_SIDES) = none
    ∧ (short_ptc_channel.map (fun g => (node_bounding_box g (some 0), node_ptc_nums g (some 0))))
      = some (⟨0, 0, 2, 0⟩, [5])
    ∧ short_ptc_channel.map (fun g => lookup_cells g) = some [(0, 0, 0), (0, 1, 0), (0, 2, 0)]
    ∧ short_ptc_channel.map
        (fun g => (lookup_cells g).map (fun c => (cell_key g c).map (fun k => k.2.2.2.1)))
      = some [some 5, none, none]
    ∧ short_ptc_channel.bind
        (fun g => find_node g 0 0 t_rr_type.CHANX 5 e_side.NUM_SIDES) = none
    ∧ short_ptc_channel.bind (fun g => chan_num_tracks g 0 0 t_rr_type.CHANX) = none := by
  refine ⟨by decide, by decide, by decide, by decide, by decide, by decide, by decide,
    by decide, by decide, by decide, by decide, by decide, by decide, by decide⟩

/-- Size consistency is kept by `create_node`, which returns on every
size-consistent state. -/
theorem sizesOk_create_node (g : RRGraph) (type : t_rr_type) (hs : SizesOk g) :
    ∃ g', create_node g type = some (g', some g.num_nodes_) ∧ SizesOk g' := by
  refine ⟨_, create_node_eq g type hs, ?_⟩
  constructor <;>
    simp [invalidate_fast_node_lookup, hs.types, hs.boxes, hs.capacities, hs.ptcs, hs.costs,
      hs.directions, hs.sides, hs.rs, hs.cs, hs.rc_data, hs.segments, hs.fan_in, hs.fan_out,
      hs.nc_in, hs.nc_out, hs.slots, hs.srcs, hs.sinks, hs.switches, hs.switch_ids,
      hs.segment_ids]

theorem sizesOk_of_storageRetained (g g' : RRGraph) (hs : SizesOk g)
    (r : StorageRetained g g') : SizesOk g' := by
  constructor
  · rw [r.types, r.num_nodes]; exact hs.types
  · rw [r.boxes, r.num_nodes]; exact hs.boxes
  · rw [r.capacities, r.num_nodes]; exact hs.capacities
  · rw [r.ptcs, r.num_nodes]; exact hs.ptcs
  · rw [r.costs, r.num_nodes]; exact hs.costs
  · rw [r.directions, r.num_nodes]; exact hs.directions
  · rw [r.sides, r.num_nodes]; exact hs.sides
  · rw [r.rs, r.num_nodes]; exact hs.rs
  · rw [r.cs, r.num_nodes]; exact hs.cs
  · rw [r.rc_data, r.num_nodes]; exact hs.rc_data
  · rw [r.segments, r.num_nodes]; exact hs.segments
  · rw [r.fan_in, r.num_nodes]; exact hs.fan_in
  · rw [r.fan_out, r.num_nodes]; exact hs.fan_out
  · rw [r.nc_in, r.num_nodes]; exact hs.nc_in
  · rw [r.nc_out, r.num_nodes]; exact hs.nc_out
  · rw [r.slots_length, r.num_nodes]; exact hs.slots
  · rw [r.srcs, r.num_edges]; exact hs.srcs
  · rw [r.sinks, r.num_edges]; exact hs.sinks
  · rw [r.switches, r.num_edges]; exact hs.switches
  · rw [r.switch_infos, r.switch_ids]; exact hs.switch_ids
  · rw [r.segment_infos, r.segment_ids]; exact hs.segment_ids

/-- Size consistency is kept by every `remove_edge` and `remove_node` that
returns. -/
theorem sizesOk_remove (g g1 : RRGraph) (hs : SizesOk g) :
    (∀ edge, remove_edge g edge = some g1 → SizesOk g1)
    ∧ (∀ node, remove_node g node = some g1 → SizesOk g1) := by
  constructor
  · intro edge h
    exact sizesOk_of_storageRetained g g1 hs (storageRetained_remove_edge g g1 edge h)
  · intro node h
    obtain ⟨g2, r, _, rfl⟩ := remove_node_some g g1 node h
    have h2 := sizesOk_of_storageRetained g g2 hs r
    constructor <;> first
      | exact h2.types | exact h2.boxes | exact h2.capacities | exact h2.ptcs | exact h2.costs
      | exact h2.directions | exact h2.sides | exact h2.rs | exact h2.cs | exact h2.rc_data
      | exact h2.segments | exact h2.fan_in | exact h2.fan_out | exact h2.nc_in
      | exact h2.nc_out | exact h2.slots | exact h2.srcs | exact h2.sinks | exact h2.switches
      | exact h2.switch_ids | exact h2.segment_ids

/-! ## Edge creation, accessors, catalogs and the validator -/

theorem create_edge_eq (g : RRGraph) (source sink : RRNodeId) (switch_id : RRSwitchId)
    (fake_switch : Bool) (hs : SizesOk g)
    (h1 : valid_node_id g source = true) (h2 : valid_node_id g sink = true)
    (h3 : fake_switch = true ∨ valid_switch_id g switch_id = true) :
    create_edge g source sink switch_id fake_switch
      = some ({ g with
                num_edges_ := g.num_edges_ + 1
                edge_src_nodes_ := g.edge_src_nodes_ ++ [source]
                edge_sink_nodes_ := g.edge_sink_nodes_ ++ [sink]
                edge_switches_ := g.edge_switches_ ++ [switch_id] },
              some g.num_edges_) := by
  unfold create_edge
  rw [if_neg (by simp [h1]), if_neg (by simp [h2]), if_neg (by
    rcases h3 with h | h
    · simp [h]
    · simp [h])]
  dsimp only
  rw [if_pos]
  simp [validate_sizes, validate_node_sizes, validate_edge_sizes, validate_switch_sizes,
    validate_segment_sizes, hs.types, hs.boxes, hs.capacities, hs.ptcs, hs.costs,
    hs.directions, hs.sides, hs.rs, hs.cs, hs.segments, hs.nc_in, hs.nc_out, hs.slots,
    hs.srcs, hs.sinks, hs.switches, hs.switch_ids, hs.segment_ids]

theorem mem_in_edges_of_node_edges (g : RRGraph) (node : RRNodeId) (e : RREdgeId) :
    (e ∈ node_in_edges g node → e ∈ node_edges g node)
    ∧ (e ∈ node_out_edges g node → e ∈ node_edges g node) := by
  have hsplit : node_edges g node = node_in_edges g node ++ node_out_edges g node := by
    unfold node_edges node_in_edges node_out_edges
    rw [List.take_add]
  rw [hsplit]
  exact ⟨fun h => List.mem_append_left _ h, fun h => List.mem_append_right _ h⟩

/-- C22. On a size-consistent graph, a `create_edge` with valid arguments
returns and leaves the adjacency vector and the four counter vectors as they
were; if no adjacency range held the id `num_edges_` before the call, the new
edge lies in no adjacency range, in-range or out-range of any node after
it. -/
theorem create_edge_frame (g : RRGraph) (source sink : RRNodeId) (switch_id : RRSwitchId)
    (fake_switch : Bool) (hs : SizesOk g)
    (h1 : valid_node_id g source = true) (h2 : valid_node_id g sink = true)
    (h3 : fake_switch = true ∨ valid_switch_id g switch_id = true)
    (hslots : ∀ node, some g.num_edges_ ∉ node_edges g node) :
    ∃ g', create_edge g source sink switch_id fake_switch = some (g', some g.num_edges_)
      ∧ g'.node_edges_ = g.node_edges_
      ∧ g'.node_num_in_edges_ = g.node_num_in_edges_
      ∧ g'.node_num_out_edges_ = g.node_num_out_edges_
      ∧ g'.node_num_non_configurable_in_edges_ = g.node_num_non_configurable_in_edges_
      ∧ g'.node_num_non_configurable_out_edges_ = g.node_num_non_configurable_out_edges_
      ∧ ∀ node, some g.num_edges_ ∉ node_edges g' node
          ∧ some g.num_edges_ ∉ node_in_edges g' node
          ∧ some g.num_edges_ ∉ node_out_edges g' node := by
  refine ⟨_, create_edge_eq g source sink switch_id fake_switch hs h1 h2 h3, rfl, rfl, rfl, rfl,
    rfl, ?_⟩
  intro node
  have hn : some g.num_edges_ ∉ node_edges
      { g with
        num_edges_ := g.num_edges_ + 1
        edge_src_nodes_ := g.edge_src_nodes_ ++ [source]
        edge_sink_nodes_ := g.edge_sink_nodes_ ++ [sink]
        edge_switches_ := g.edge_switches_ ++ [switch_id] } node := hslots node
  exact ⟨hn, fun h => hn ((mem_in_edges_of_node_edges _ node _).1 h),
    fun h => hn ((mem_in_edges_of_node_edges _ node _).2 h)⟩

/-- Witness for C22: on the scenario graph with built adjacency, whose
adjacency arrays are `[[0], [0, 1], [1]]`, `create_edge(0, 2, switch 1)`
returns edge 2 and the arrays are still `[[0], [0, 1], [1]]`. -/
theorem create_edge_frame_witness :
    (rebuild_node_edges scenario_graph).node_edges_ = [[some 0], [some 0, some 1], [some 1]]
    ∧ ∃ g', create_edge (rebuild_node_edges scenario_graph) (some 0) (some 2) (some 1) false
        = some (g', some 2)
      ∧ g'.node_edges_ = [[some 0], [some 0, some 1], [some 1]]
      ∧ some 2 ∉ node_out_edges g' (some 0) ∧ some 2 ∉ node_in_edges g' (some 2) := by
  refine ⟨by decide, ?_⟩
  have hs : SizesOk (rebuild_node_edges scenario_graph) := by constructor <;> decide
  obtain ⟨g', h, he, _, _, _, _, hn⟩ :=
    create_edge_frame (rebuild_node_edges scenario_graph) (some 0) (some 2) (some 1) false hs
      (by decide) (by decide) (Or.inr (by decide))
      (by
        intro node
        cases node with
        | none => decide
        | some n =>
          by_cases h0 : n < 3
          · interval_cases n <;> decide
          · have hnil : node_edge_slots (rebuild_node_edges scenario_graph) (some n) = [] := by
              unfold node_edge_slots at_id
              exact List.getD_eq_default _ _ (by
                have : (rebuild_node_edges scenario_graph).node_edges_.length = 3 := by decide
                omega)
            unfold node_edges
            rw [hnil]
            simp)
  refine ⟨g', h, ?_, (hn (some 0)).2.2, (hn (some 2)).2.1⟩
  rw [he]
  decide

/-- C24. For a CHANX or CHANY node, `node_start_coordinate` is
`(xhigh, yhigh)` and `node_end_coordinate` is `(xlow, ylow)` when the stored
direction is `DEC_DIRECTION`; for `INC_DIRECTION`, `BI_DIRECTION` and
`NO_DIRECTION` the start is `(xlow, ylow)` and the end `(xhigh, yhigh)`.  On a
node of any other type both accessors fail at their assertion. -/
theorem node_start_end_coordinate (g : RRGraph) (node : RRNodeId) :
    ((node_type g node = t_rr_type.CHANX ∨ node_type g node = t_rr_type.CHANY) →
      (at_id g.node_directions_ node e_direction.NO_DIRECTION = e_direction.DEC_DIRECTION →
        node_start_coordinate g node = some (node_xhigh g node, node_yhigh g node)
        ∧ node_end_coordinate g node = some (node_xlow g node, node_ylow g node))
      ∧ (at_id g.node_directions_ node e_direction.NO_DIRECTION = e_direction.INC_DIRECTION
          ∨ at_id g.node_directions_ node e_direction.NO_DIRECTION = e_direction.BI_DIRECTION
          ∨ at_id g.node_directions_ node e_direction.NO_DIRECTION
              = e_direction.NO_DIRECTION →
        node_start_coordinate g node = some (node_xlow g node, node_ylow g node)
        ∧ node_end_coordinate g node = some (node_xhigh g node, node_yhigh g node))
      ∧ node_direction g node
          = some (at_id g.node_directions_ node e_direction.NO_DIRECTION))
    ∧ (¬ (node_type g node = t_rr_type.CHANX ∨ node_type g node = t_rr_type.CHANY) →
      node_start_coordinate g node = none ∧ node_end_coordinate g node = none) := by
  constructor
  · intro hc
    refine ⟨?_, ?_, ?_⟩
    · intro hd
      simp [node_start_coordinate, node_end_coordinate, node_direction, hc, hd]
    · intro hd
      have hne : at_id g.node_directions_ node e_direction.NO_DIRECTION
          ≠ e_direction.DEC_DIRECTION := by
        rcases hd with h | h | h <;> rw [h] <;> decide
      simp [node_start_coordinate, node_end_coordinate, node_direction, hc, hne]
    · simp [node_direction, hc]
  · intro hc
    simp [node_start_coordinate, node_end_coordinate, hc]

/-- Witness for C24: a CHANX node with the box (1, 2, 4, 2) and direction
`DEC_DIRECTION` starts at (4, 2) and ends at (1, 2); the SOURCE node of the
scenario graph has no start coordinate. -/
theorem node_start_end_coordinate_witness :
    node_type dec_channel_graph (some 0) = t_rr_type.CHANX
    ∧ node_direction dec_channel_graph (some 0) = some e_direction.DEC_DIRECTION
    ∧ node_start_coordinate dec_channel_graph (some 0) = some (4, 2)
    ∧ node_end_coordinate dec_channel_graph (some 0) = some (1, 2)
    ∧ node_start_coordinate scenario_graph (some 0) = none := by
  obtain ⟨h1, _⟩ := node_start_end_coordinate dec_channel_graph (some 0)
  obtain ⟨a1, _, a3⟩ := h1 (Or.inl (by decide))
  obtain ⟨b1, b2⟩ := a1 (by decide)
  refine ⟨by decide, ?_, ?_, ?_, ?_⟩
  · rw [a3]; decide
  · rw [b1]; decide
  · rw [b2]; decide
  · exact ((node_start_end_coordinate scenario_graph (some 0)).2 (by decide)).1

/-- C26. `node_pin_num` fails unless the type is IPIN or OPIN,
`node_class_num` unless it is SOURCE or SINK, `node_track_num` unless it is
CHANX or CHANY; with the right type each returns what `node_ptc_num` returns,
so that on a node with a non-empty ptc vector each succeeds exactly for its
types.  Each of `set_node_pin_num`, `set_node_class_num`,
`set_node_track_num` fails on an invalid node or a type outside its pair and
otherwise does what `set_node_ptc_num` does. -/
theorem ptc_aliases (g : RRGraph) (node : RRNodeId) (p : Int) :
    (node_pin_num g node
        = if node_type g node = t_rr_type.IPIN ∨ node_type g node = t_rr_type.OPIN then
            node_ptc_num g node else none)
    ∧ (node_class_num g node
        = if node_type g node = t_rr_type.SOURCE ∨ node_type g node = t_rr_type.SINK then
            node_ptc_num g node else none)
    ∧ (node_track_num g node
        = if node_type g node = t_rr_type.CHANX ∨ node_type g node = t_rr_type.CHANY then
            node_ptc_num g node else none)
    ∧ (0 < (node_ptc_nums g node).length →
        ((node_pin_num g node).isSome = true
          ↔ (node_type g node = t_rr_type.IPIN ∨ node_type g node = t_rr_type.OPIN))
        ∧ ((node_class_num g node).isSome = true
          ↔ (node_type g node = t_rr_type.SOURCE ∨ node_type g node = t_rr_type.SINK))
        ∧ ((node_track_num g node).isSome = true
          ↔ (node_type g node = t_rr_type.CHANX ∨ node_type g node = t_rr_type.CHANY)))
    ∧ (set_node_pin_num g node p
        = if valid_node_id g node = true
            ∧ (node_type g node = t_rr_type.IPIN ∨ node_type g node = t_rr_type.OPIN) then
            set_node_ptc_num g node p else none)
    ∧ (set_node_class_num g node p
        = if valid_node_id g node = true
            ∧ (node_type g node = t_rr_type.SOURCE ∨ node_type g node = t_rr_type.SINK) then
            set_node_ptc_num g node p else none)
    ∧ (set_node_track_num g node p
        = if valid_node_id g node = true
            ∧ (node_type g node = t_rr_type.CHANX ∨ node_type g node = t_rr_type.CHANY) then
            set_node_ptc_num g node p else none) := by
  refine ⟨rfl, rfl, rfl, ?_, rfl, rfl, rfl⟩
  intro hlen
  have hsome : (node_ptc_num g node).isSome = true := by
    unfold node_ptc_num
    rw [List.getElem?_eq_getElem hlen]
    rfl
  refine ⟨?_, ?_, ?_⟩
  · unfold node_pin_num
    split_ifs with h
    · exact ⟨fun _ => h, fun _ => hsome⟩
    · exact ⟨fun h' => absurd h' (by simp), fun h' => absurd h' h⟩
  · unfold node_class_num
    split_ifs with h
    · exact ⟨fun _ => h, fun _ => hsome⟩
    · exact ⟨fun h' => absurd h' (by simp), fun h' => absurd h' h⟩
  · unfold node_track_num
    split_ifs with h
    · exact ⟨fun _ => h, fun _ => hsome⟩
    · exact ⟨fun h' => absurd h' (by simp), fun h' => absurd h' h⟩

/-- Witness for C26: on the scenario with geometry, node 1 is the CHANX node
on track 1: `node_track_num` returns 1 and `node_pin_num`, `node_class_num`
fail. -/
theorem ptc_aliases_witness :
    0 < (node_ptc_nums lookup_scenario_graph (some 1)).length
    ∧ node_type lookup_scenario_graph (some 1) = t_rr_type.CHANX
    ∧ node_track_num lookup_scenario_graph (some 1) = some 1
    ∧ node_pin_num lookup_scenario_graph (some 1) = none
    ∧ node_class_num lookup_scenario_graph (some 1) = none := by
  obtain ⟨a1, a2, a3, a4, _⟩ := ptc_aliases lookup_scenario_graph (some 1) 0
  obtain ⟨b1, b2, b3⟩ := a4 (by decide)
  refine ⟨by decide, by decide, ?_, ?_, ?_⟩
  · rw [a3]; decide
  · rw [a1]; decide
  · rw [a2]; decide

/-- Counterexample for C23: a valid CHANX node holds the box (3, 0, 1, 0),
stored by `set_node_bounding_box`; `node_length` is 0 while
`max(|xhigh - xlow|, |yhigh - ylow|)` is 2.  A valid node holds the box
(-1, 0, 32767, 0), stored by `create_node` and the coordinate setters;
`node_length` is -32768, the `short` of the extent 32768. -/
theorem node_length_reversed_box :
    reversed_box.map
        (fun g => (valid_node_id g (some 0), node_bounding_box g (some 0),
          node_length g (some 0)))
      = some (true, ⟨3, 0, 1, 0⟩, 0)
    ∧ reversed_box.map
        (fun g => max |node_xhigh g (some 0) - node_xlow g (some 0)|
          |node_yhigh g (some 0) - node_ylow g (some 0)|)
      = some 2
    ∧ wide_box.map
        (fun g => (valid_node_id g (some 0), node_bounding_box g (some 0),
          node_length g (some 0)))
      = some (true, ⟨-1, 0, 32767, 0⟩, -32768)
    ∧ wide_box.map
        (fun g => max |node_xhigh g (some 0) - node_xlow g (some 0)|
          |node_yhigh g (some 0) - node_ylow g (some 0)|)
      = some 32768 := by
  refine ⟨by decide, by decide, by decide, by decide⟩

/-- C23. For a node whose stored box has `xlow <= xhigh` and `ylow <= yhigh`,
with both extents below 2^15, `node_length` is the larger of `xhigh - xlow`
and `yhigh - ylow`, which is `max(|xhigh - xlow|, |yhigh - ylow|)`. -/
theorem node_length_ordered_box (g : RRGraph) (node : RRNodeId)
    (hx : node_xlow g node ≤ node_xhigh g node) (hy : node_ylow g node ≤ node_yhigh g node)
    (hxs : node_xhigh g node - node_xlow g node < 2 ^ 15)
    (hys : node_yhigh g node - node_ylow g node < 2 ^ 15) :
    node_length g node
        = max (node_xhigh g node - node_xlow g node) (node_yhigh g node - node_ylow g node)
    ∧ node_length g node
        = max |node_xhigh g node - node_xlow g node| |node_yhigh g node - node_ylow g node| := by
  have h1 : |node_xhigh g node - node_xlow g node| = node_xhigh g node - node_xlow g node :=
    abs_of_nonneg (by omega)
  have h2 : |node_yhigh g node - node_ylow g node| = node_yhigh g node - node_ylow g node :=
    abs_of_nonneg (by omega)
  rw [h1, h2]
  have h3 : node_length g node
      = max (node_xhigh g node - node_xlow g node)
          (node_yhigh g node - node_ylow g node) := by
    unfold node_length to_short
    norm_num at hxs hys ⊢
    omega
  exact ⟨h3, h3⟩

/-- Witness for C23: the CHANX node of the scenario with geometry has the
box (0, 0, 2, 0) and length 2. -/
theorem node_length_ordered_box_witness :
    node_bounding_box lookup_scenario_graph (some 1) = ⟨0, 0, 2, 0⟩
    ∧ node_length lookup_scenario_graph (some 1) = 2 := by
  obtain ⟨h, _⟩ := node_length_ordered_box lookup_scenario_graph (some 1)
    (by decide) (by decide) (by decide) (by decide)
  refine ⟨by decide, ?_⟩
  rw [h]
  decide

theorem at_set_id_self {α : Type} (v : List α) (i : Nat) (x d : α) (h : i < v.length) :
    at_id (set_id v (some i) x) (some i) d = x := by
  unfold at_id set_id
  simp only
  rw [getD_set_lt v i i x d h, if_pos rfl]

theorem at_set_id_ne {α : Type} (v : List α) (node m : Option Nat) (x d : α) (h : m ≠ node) :
    at_id (set_id v node x) m d = at_id v m d := by
  cases node with
  | none => rfl
  | some i =>
    cases m with
    | none => rfl
    | some j =>
      unfold at_id set_id
      simp only
      exact getD_set_ne v i j x d (fun h' => h (by rw [h']))

theorem node_length_bounds (g : RRGraph) (node : RRNodeId) :
    -(2 ^ 15) ≤ node_length g node ∧ node_length g node < 2 ^ 15 := by
  unfold node_length to_short
  constructor <;> omega

theorem valid_node_id_lt (g : RRGraph) (node : RRNodeId) (h : valid_node_id g node = true) :
    ∃ i, node = some i ∧ i < g.num_nodes_ := by
  cases node with
  | none => exact absurd h (by simp [valid_node_id])
  | some i =>
    refine ⟨i, rfl, ?_⟩
    simp only [valid_node_id, Bool.and_eq_true, decide_eq_true_eq] at h
    exact h.1

/-- Counterexample for C25: a valid CHANX node with the box (1, 1, 0, 0) has
`node_length` -1; `set_node_ptc_num(0, 5)` returns and leaves an empty ptc
vector, in which `node_ptc_num` finds no entry.  A valid SOURCE node whose ptc
vector holds three entries: `set_node_ptc_num(0, 7)` fails at its
assertion. -/
theorem set_node_ptc_num_reversed_box :
    reversed_box_ptc.map
        (fun g => (valid_node_id g (some 0), node_type g (some 0), node_length g (some 0),
          node_ptc_nums g (some 0), node_ptc_num g (some 0)))
      = some (true, t_rr_type.CHANX, -1, [], none)
    ∧ retyped_node.map
        (fun g => (valid_node_id g (some 0), node_type g (some 0), node_ptc_nums g (some 0),
          set_node_ptc_num g (some 0) 7))
      = some (true, t_rr_type.SOURCE, [4, 4, 4], none) := by
  refine ⟨by decide, by decide⟩

/-- C25. On a valid node `n` of a graph whose ptc storage has one vector per
node: if `n` is CHANX or CHANY and `node_length(n) >= 0`,
`set_node_ptc_num(n, p)` returns and the ptc vector of `n` has
`node_length(n) + 1` entries, each equal to `p`; if `n` is of another type
the call fails exactly when the ptc vector of `n` does not hold one entry, and
where it returns the vector is `[p]`; in both cases `node_ptc_num(n)` is `p`
afterwards and the ptc vector of every other node is unchanged. -/
theorem set_node_ptc_num_effect (g : RRGraph) (node : RRNodeId) (p : Int)
    (hv : valid_node_id g node = true)
    (hsz : g.node_ptc_nums_.length = g.num_nodes_) :
    ((node_type g node = t_rr_type.CHANX ∨ node_type g node = t_rr_type.CHANY) →
      0 ≤ node_length g node →
      ∃ g', set_node_ptc_num g node p = some g'
        ∧ node_ptc_nums g' node = List.replicate (node_length g node + 1).toNat p
        ∧ ((node_ptc_nums g' node).length : Int) = node_length g node + 1
        ∧ (∀ x ∈ node_ptc_nums g' node, x = p)
        ∧ node_length g' node = node_length g node
        ∧ node_ptc_num g' node = some p
        ∧ ∀ m, m ≠ node → node_ptc_nums g' m = node_ptc_nums g m)
    ∧ (¬ (node_type g node = t_rr_type.CHANX ∨ node_type g node = t_rr_type.CHANY) →
      (set_node_ptc_num g node p = none ↔ (node_ptc_nums g node).length ≠ 1)
      ∧ ∀ g', set_node_ptc_num g node p = some g' →
        node_ptc_nums g' node = [p]
        ∧ node_ptc_num g' node = some p
        ∧ ∀ m, m ≠ node → node_ptc_nums g' m = node_ptc_nums g m) := by
  obtain ⟨i, rfl, hi⟩ := valid_node_id_lt g node hv
  have hlt : i < g.node_ptc_nums_.length := by rw [hsz]; exact hi
  constructor
  · intro hc h0
    obtain ⟨_, hub⟩ := node_length_bounds g (some i)
    have hn : (to_size_t (node_length g (some i)) + 1) % 2 ^ 64
        = (node_length g (some i) + 1).toNat := by
      unfold to_size_t
      norm_num at hub ⊢
      omega
    have hsmall : ¬ ((node_length g (some i) + 1).toNat
          ≠ (node_ptc_nums g (some i)).length
        ∧ (node_length g (some i) + 1).toNat > vector_max_size) := by
      unfold vector_max_size
      norm_num at hub ⊢
      intro _
      omega
    have hset : set_node_ptc_num g (some i) p
        = some { g with
            node_ptc_nums_ :=
              set_id g.node_ptc_nums_ (some i)
                (List.replicate (node_length g (some i) + 1).toNat p) } := by
      unfold set_node_ptc_num
      rw [if_pos hv, if_pos hc]
      simp only [hn]
      rw [if_neg hsmall]
    refine ⟨_, hset, ?_, ?_, ?_, rfl, ?_, ?_⟩
    · exact at_set_id_self _ _ _ _ hlt
    · unfold node_ptc_nums
      rw [at_set_id_self _ _ _ _ hlt, List.length_replicate]
      omega
    · intro x hx
      unfold node_ptc_nums at hx
      rw [at_set_id_self _ _ _ _ hlt] at hx
      exact List.eq_of_mem_replicate hx
    · unfold node_ptc_num node_ptc_nums
      rw [at_set_id_self _ _ _ _ hlt]
      have hpos : 0 < (node_length g (some i) + 1).toNat := by omega
      obtain ⟨k, hk⟩ := Nat.exists_eq_succ_of_ne_zero (Nat.pos_iff_ne_zero.mp hpos)
      rw [hk, List.replicate_succ]
      simp
    · intro m hm
      exact at_set_id_ne _ _ _ _ _ hm
  · intro hc
    constructor
    · unfold set_node_ptc_num
      rw [if_pos hv, if_neg hc]
      by_cases h1 : (node_ptc_nums g (some i)).length = 1
      · rw [if_pos h1]
        exact ⟨fun h => absurd h (by simp), fun h => absurd h1 h⟩
      · rw [if_neg h1]
        exact ⟨fun _ => h1, fun _ => rfl⟩
    · intro g' hg'
      unfold set_node_ptc_num at hg'
      rw [if_pos hv, if_neg hc] at hg'
      by_cases h1 : (node_ptc_nums g (some i)).length = 1
      · rw [if_pos h1] at hg'
        have hg := (Option.some.inj hg').symm
        subst hg
        refine ⟨at_set_id_self _ _ _ _ hlt, ?_, fun m hm => at_set_id_ne _ _ _ _ _ hm⟩
        unfold node_ptc_num node_ptc_nums
        rw [at_set_id_self _ _ _ _ hlt]
        simp
      · rw [if_neg h1] at hg'
        exact absurd hg' (by simp)

/-- Witness for C25: on the scenario with geometry, node 1 is the CHANX node
of length 2 and node 0 the SOURCE node; `set_node_ptc_num(1, 9)` leaves
`[9, 9, 9]` and `set_node_ptc_num(0, 9)` leaves `[9]`. -/
theorem set_node_ptc_num_effect_witness :
    valid_node_id lookup_scenario_graph (some 1) = true
    ∧ node_length lookup_scenario_graph (some 1) = 2
    ∧ (∃ g', set_node_ptc_num lookup_scenario_graph (some 1) 9 = some g'
        ∧ node_ptc_nums g' (some 1) = [9, 9, 9]
        ∧ node_ptc_num g' (some 1) = some 9
        ∧ node_ptc_nums g' (some 0) = [0])
    ∧ (∀ g', set_node_ptc_num lookup_scenario_graph (some 0) 9 = some g' →
        node_ptc_nums g' (some 0) = [9]) := by
  obtain ⟨h1, _⟩ := set_node_ptc_num_effect lookup_scenario_graph (some 1) 9
    (by decide) (by decide)
  obtain ⟨g', a1, a2, _, _, _, a6, a7⟩ := h1 (Or.inl (by decide)) (by decide)
  refine ⟨by decide, by decide, ⟨g', a1, ?_, a6, ?_⟩, ?_⟩
  · rw [a2]; decide
  · rw [a7 (some 0) (by decide)]; decide
  · intro g' hg'
    exact (((set_node_ptc_num_effect lookup_scenario_graph (some 0) 9
      (by decide) (by decide)).2 (by decide)).2 g' hg').1

theorem valid_edge_id_lt (g : RRGraph) (edge : RREdgeId) (h : valid_edge_id g edge = true) :
    ∃ i, edge = some i ∧ i < g.num_edges_ := by
  cases edge with
  | none => exact absurd h (by simp [valid_edge_id])
  | some i =>
    refine ⟨i, rfl, ?_⟩
    simp only [valid_edge_id, Bool.and_eq_true, decide_eq_true_eq] at h
    exact h.1

theorem all_range_guarded (N : Nat) (valid check : Nat → Bool) :
    (List.range N).all (fun id => !valid id || check id) = true
      ↔ ∀ id, id < N → valid id = true → check id = true := by
  rw [List.all_eq_true]
  constructor
  · intro h id hid hv
    have := h id (List.mem_range.mpr hid)
    rw [hv] at this
    simpa using this
  · intro h id hid
    cases hv : valid id with
    | false => rfl
    | true =>
      rw [h id (List.mem_range.mp hid) hv]
      rfl

theorem initialize_keeps (g g1 : RRGraph) (h : initialize_fast_node_lookup g = some g1) :
    ∃ L, g1 = { g with node_lookup_ := L } := by
  unfold initialize_fast_node_lookup at h
  split_ifs at h
  · exact ⟨g.node_lookup_, (Option.some.inj h).symm⟩
  · unfold build_fast_node_lookup at h
    simp only [Option.map_eq_some'] at h
    obtain ⟨L, _, hL⟩ := h
    exact ⟨L, hL.symm⟩

theorem validate_nodes_edges_iff (g : RRGraph) :
    validate_nodes_edges g = true
      ↔ ∀ n, valid_node_id g n = true →
          (∀ e ∈ node_in_edges g n, edge_sink_node g e = n)
          ∧ (∀ e ∈ node_out_edges g n, edge_src_node g e = n) := by
  unfold validate_nodes_edges validate_nodes_in_edges validate_nodes_out_edges
  rw [Bool.and_eq_true,
    all_range_guarded g.num_nodes_ (fun id => valid_node_id g (some id))
      (fun id => validate_node_in_edges g (some id)),
    all_range_guarded g.num_nodes_ (fun id => valid_node_id g (some id))
      (fun id => validate_node_out_edges g (some id))]
  have hin : ∀ n, validate_node_in_edges g n = true
      ↔ ∀ e ∈ node_in_edges g n, edge_sink_node g e = n := by
    intro n
    unfold validate_node_in_edges validate_node_is_edge_sink
    rw [List.all_eq_true]
    exact ⟨fun h e he => (beq_iff_eq.mp (h e he)).symm,
      fun h e he => beq_iff_eq.mpr (h e he).symm⟩
  have hout : ∀ n, validate_node_out_edges g n = true
      ↔ ∀ e ∈ node_out_edges g n, edge_src_node g e = n := by
    intro n
    unfold validate_node_out_edges validate_node_is_edge_src
    rw [List.all_eq_true]
    exact ⟨fun h e he => (beq_iff_eq.mp (h e he)).symm,
      fun h e he => beq_iff_eq.mpr (h e he).symm⟩
  constructor
  · rintro ⟨h1, h2⟩ n hv
    obtain ⟨i, rfl, hi⟩ := valid_node_id_lt g n hv
    exact ⟨(hin _).mp (h1 i hi hv), (hout _).mp (h2 i hi hv)⟩
  · intro h
    exact ⟨fun id _ hv => (hin _).mpr (h (some id) hv).1,
      fun id _ hv => (hout _).mpr (h (some id) hv).2⟩

theorem validate_node_segments_iff (g : RRGraph) :
    validate_node_segments g = true
      ↔ ∀ n, valid_node_id g n = true →
          (node_type g n = t_rr_type.CHANX ∨ node_type g n = t_rr_type.CHANY) →
          valid_segment_id g (node_segment g n) = true := by
  unfold validate_node_segments
  rw [all_range_guarded g.num_nodes_ (fun id => valid_node_id g (some id))
      (fun id => validate_node_segment g (some id))]
  have hseg : ∀ n, validate_node_segment g n = true
      ↔ ((node_type g n = t_rr_type.CHANX ∨ node_type g n = t_rr_type.CHANY) →
          valid_segment_id g (node_segment g n) = true) := by
    intro n
    unfold validate_node_segment
    split_ifs with hc
    · exact ⟨fun h _ => h, fun h => h hc⟩
    · exact ⟨fun _ h => absurd h hc, fun _ => rfl⟩
  constructor
  · intro h n hv
    obtain ⟨i, rfl, hi⟩ := valid_node_id_lt g n hv
    exact (hseg _).mp (h i hi hv)
  · intro h id _ hv
    exact (hseg _).mpr (h (some id) hv)

theorem validate_edge_switches_iff (g : RRGraph) :
    validate_edge_switches g = true
      ↔ ∀ e, valid_edge_id g e = true → valid_switch_id g (edge_switch g e) = true := by
  unfold validate_edge_switches
  rw [all_range_guarded g.num_edges_ (fun id => valid_edge_id g (some id))
      (fun id => validate_edge_switch g (some id))]
  constructor
  · intro h e hv
    obtain ⟨i, rfl, hi⟩ := valid_edge_id_lt g e hv
    exact h i hi hv
  · intro h id _ hv
    exact h (some id) hv

theorem validate_num_err_zero (g : RRGraph) :
    0 = validate_num_err g
      ↔ (validate_sizes g = true ∧ validate_nodes_edges g = true
          ∧ validate_node_segments g = true ∧ validate_edge_switches g = true) := by
  unfold validate_num_err
  cases validate_sizes g <;> cases validate_nodes_edges g
    <;> cases validate_node_segments g <;> cases validate_edge_switches g <;> simp

/-- C27. Whenever `validate` returns, its verdict is `true` exactly when the
four checks `validate_sizes`, `validate_nodes_edges`, `validate_node_segments`
and `validate_edge_switches` all pass, and its error count is the number of
failing checks among the four, each counted whether or not an earlier one
failed; it returns when the spatial index is already built or every valid
node is ready for the build.  `validate_nodes_edges` passes exactly when, for
every valid node, every edge of its in-range has the node as sink and every
edge of its out-range has the node as source; `validate_node_segments`
exactly when every valid CHANX or CHANY node has a segment id inside the
catalog; `validate_edge_switches` exactly when every valid edge has a switch
id inside the catalog. -/
theorem validate_verdict (g : RRGraph) :
    (∀ g1 b, validate g = some (g1, b) →
      (b = true ↔ (validate_sizes g = true ∧ validate_nodes_edges g = true
          ∧ validate_node_segments g = true ∧ validate_edge_switches g = true))
      ∧ validate_num_err g1
          = [validate_sizes g, validate_nodes_edges g, validate_node_segments g,
              validate_edge_switches g].count false)
    ∧ ((valid_fast_node_lookup g = true ∨ lookup_ready g = true) →
        ∃ g1 b, validate g = some (g1, b))
    ∧ (validate_nodes_edges g = true
        ↔ ∀ n, valid_node_id g n = true →
            (∀ e ∈ node_in_edges g n, edge_sink_node g e = n)
            ∧ (∀ e ∈ node_out_edges g n, edge_src_node g e = n))
    ∧ (validate_node_segments g = true
        ↔ ∀ n, valid_node_id g n = true →
            (node_type g n = t_rr_type.CHANX ∨ node_type g n = t_rr_type.CHANY) →
            valid_segment_id g (node_segment g n) = true)
    ∧ (validate_edge_switches g = true
        ↔ ∀ e, valid_edge_id g e = true → valid_switch_id g (edge_switch g e) = true) := by
  refine ⟨?_, ?_, validate_nodes_edges_iff g, validate_node_segments_iff g,
    validate_edge_switches_iff g⟩
  · intro g1 b h
    unfold validate at h
    simp only [Option.map_eq_some'] at h
    obtain ⟨g2, hinit, hpair⟩ := h
    obtain ⟨L, hL⟩ := initialize_keeps g g2 hinit
    have h1 : g2 = g1 := congrArg Prod.fst hpair
    have h2 : decide (0 = validate_num_err g2) = b := congrArg Prod.snd hpair
    have herr : validate_num_err g2 = validate_num_err g := by rw [hL]; rfl
    constructor
    · rw [← h2, herr, decide_eq_true_eq]
      exact validate_num_err_zero g
    · rw [← h1, herr]
      unfold validate_num_err
      cases validate_sizes g <;> cases validate_nodes_edges g
        <;> cases validate_node_segments g <;> cases validate_edge_switches g <;> rfl
  · intro h
    unfold validate initialize_fast_node_lookup
    by_cases hv : valid_fast_node_lookup g = true
    · rw [if_pos hv]
      exact ⟨_, _, rfl⟩
    · rw [if_neg hv]
      rcases h with h | h
      · exact absurd h hv
      · obtain ⟨L, hL, _⟩ := build_ready g h
        rw [hL]
        exact ⟨_, _, rfl⟩

/-- Witness for C27: the connected pair of nodes passes the four checks and
`validate` returns `true`; on the scenario with geometry the CHANX node has no
segment id, one check fails and `validate` returns `false`. -/
theorem validate_verdict_witness :
    lookup_ready connected_pair_graph = true
    ∧ (validate connected_pair_graph).map Prod.snd = some true
    ∧ (validate lookup_scenario_graph).map Prod.snd = some false
    ∧ validate_node_segments lookup_scenario_graph = false := by
  obtain ⟨h1, h2, _⟩ := validate_verdict connected_pair_graph
  obtain ⟨g1, b, hb⟩ := h2 (Or.inr (by decide))
  obtain ⟨k1, k2, _⟩ := validate_verdict lookup_scenario_graph
  obtain ⟨g2, c, hc⟩ := k2 (Or.inr (by decide))
  refine ⟨by decide, ?_, ?_, by decide⟩
  · rw [hb]
    exact congrArg some (((h1 g1 b hb).1).mpr (by decide))
  · rw [hc]
    have hne : ¬ c = true := fun hct => by
      have := ((k1 g2 c hc).1).mp hct
      exact absurd this.2.2.1 (by decide)
    exact congrArg some (Bool.eq_false_iff.mpr hne)

/-- C28. Evaluation at a graph reached by `create_node` twice, `create_edge`
from node 0 to node 1 and `remove_node(1)` before any adjacency is built:
edge 0 is valid, its sink node 1 is not a valid node, the check
`validate_edge_sink_nodes` rejects the graph, and `validate` returns
`true`. -/
theorem validate_accepts_dangling_sink :
    dangling_sink.isSome = true
    ∧ valid_edge_id dangling_sink_graph (some 0) = true
    ∧ edge_sink_node dangling_sink_graph (some 0) = some 1
    ∧ valid_node_id dangling_sink_graph (some 1) = false
    ∧ validate_edge_sink_nodes dangling_sink_graph = false
    ∧ (validate dangling_sink_graph).map Prod.snd = some true := by
  refine ⟨by decide, by decide, by decide, by decide, by decide, by decide⟩

/-- C29. Evaluation at a graph with a self-loop and a later in-edge, every
node and edge valid: edge 0 runs from node 0 to node 0 and edge 1 from node 1
to node 0.  After `rebuild_node_edges`, `find_edges(0, 0)` returns `[1]`: it
misses the self-loop 0 and returns edge 1, whose source is node 1. -/
theorem find_edges_self_loop :
    build loop_then_in_steps = some loop_then_in_graph
    ∧ nodes (rebuild_node_edges loop_then_in_graph) = [some 0, some 1]
    ∧ edges (rebuild_node_edges loop_then_in_graph) = [some 0, some 1]
    ∧ edge_src_node (rebuild_node_edges loop_then_in_graph) (some 0) = some 0
    ∧ edge_sink_node (rebuild_node_edges loop_then_in_graph) (some 0) = some 0
    ∧ edge_src_node (rebuild_node_edges loop_then_in_graph) (some 1) = some 1
    ∧ edge_sink_node (rebuild_node_edges loop_then_in_graph) (some 1) = some 0
    ∧ find_edges (rebuild_node_edges loop_then_in_graph) (some 0) (some 0) = [some 1] := by
  decide

theorem mem_edges_iff (g : RRGraph) (e : RREdgeId) :
    e ∈ edges g ↔ valid_edge_id g e = true := by
  unfold edges
  rw [List.mem_filter]
  constructor
  · exact fun h => h.2
  · intro h
    obtain ⟨i, rfl, hi⟩ := valid_edge_id_lt g e h
    exact ⟨List.mem_map.mpr ⟨i, List.mem_range.mpr hi, rfl⟩, h⟩

theorem edges_nodup (g : RRGraph) : (edges g).Nodup := by
  unfold edges
  exact ((List.nodup_range _).map (fun a b h => Option.some.inj h)).filter _

/-- On a freshly built graph, for a source node `n` that carries no
self-loop edge: after `rebuild_node_edges`, `find_edges(n, t)` holds exactly
the valid edges with source `n` and sink `t`, each once. -/
theorem find_edges_without_self_loop (g : RRGraph) (hg : FreshlyBuilt g) (n : Nat)
    (hn : n < g.num_nodes_)
    (hloop : ∀ e ∈ edges g, ¬ (edge_src_node g e = some n ∧ edge_sink_node g e = some n))
    (t : RRNodeId) :
    (∀ e, e ∈ find_edges (rebuild_node_edges g) (some n) t
        ↔ (valid_edge_id (rebuild_node_edges g) e = true
            ∧ edge_src_node (rebuild_node_edges g) e = some n
            ∧ edge_sink_node (rebuild_node_edges g) e = t))
    ∧ (find_edges (rebuild_node_edges g) (some n) t).Nodup := by
  obtain ⟨_, _, _, hout⟩ := rebuild_node_edges_layout g hg n hn hloop
  generalize rebuild_node_edges g = g' at hout ⊢
  unfold find_edges
  rw [hout]
  constructor
  · intro e
    simp only [List.mem_filter, List.mem_append, Bool.and_eq_true, beq_iff_eq,
      mem_edges_iff, edge_is_non_configurable]
    constructor
    · rintro ⟨h | h, hs⟩
      · exact ⟨h.1, h.2.1, hs⟩
      · exact ⟨h.1, h.2.1, hs⟩
    · rintro ⟨hv, hsrc, hs⟩
      refine ⟨?_, hs⟩
      cases hc : edge_is_configurable g' e with
      | true => exact Or.inl ⟨hv, hsrc, rfl⟩
      | false => exact Or.inr ⟨hv, hsrc, rfl⟩
  · apply List.Nodup.filter
    rw [List.nodup_append]
    refine ⟨(edges_nodup g').filter _, (edges_nodup g').filter _, ?_⟩
    intro e h1 h2
    simp only [List.mem_filter, Bool.and_eq_true, edge_is_non_configurable] at h1 h2
    rw [h1.2.2] at h2
    exact absurd h2.2.2 (by decide)

theorem catalog_foldl {β : Type} (f : RRGraph → β → RRGraph)
    (hf : ∀ a x, catalog_view (f a x) = catalog_view a) (l : List β) :
    ∀ a, catalog_view (l.foldl f a) = catalog_view a := by
  induction l with
  | nil => intro a; rfl
  | cons x l ih =>
    intro a
    rw [List.foldl_cons, ih, hf]

theorem catalog_rebuild_node_edges (g : RRGraph) :
    catalog_view (rebuild_node_edges g) = catalog_view g := by
  unfold rebuild_node_edges
  dsimp only
  rw [catalog_foldl partition_node_edges
    (fun a x => by unfold partition_node_edges; split_ifs <;> rfl)]
  show catalog_view ((nodes _).foldl allocate_node_edges _) = _
  rw [catalog_foldl allocate_node_edges
    (fun a x => by unfold allocate_node_edges; split_ifs <;> rfl)]
  rw [catalog_foldl count_edge (fun a x => by unfold count_edge; split_ifs <;> rfl)]
  rfl

theorem catalog_set_node_ptc_num (g g1 : RRGraph) (node : RRNodeId) (p : Int)
    (h : set_node_ptc_num g node p = some g1) : catalog_view g1 = catalog_view g := by
  unfold set_node_ptc_num at h
  dsimp only at h
  split_ifs at h <;> (rw [← Option.some.inj h]; rfl)

theorem catalog_box_setters (g g1 : RRGraph) (node : RRNodeId) (v : Int)
    (h : set_node_xlow g node v = some g1 ∨ set_node_ylow g node v = some g1
      ∨ set_node_xhigh g node v = some g1 ∨ set_node_yhigh g node v = some g1) :
    catalog_view g1 = catalog_view g := by
  rcases h with h | h | h | h
  · unfold set_node_xlow at h
    split_ifs at h
    rw [← Option.some.inj h]
    rfl
  · unfold set_node_ylow at h
    split_ifs at h
    rw [← Option.some.inj h]
    rfl
  · unfold set_node_xhigh at h
    split_ifs at h
    rw [← Option.some.inj h]
    rfl
  · unfold set_node_yhigh at h
    split_ifs at h
    rw [← Option.some.inj h]
    rfl

theorem catalog_ptc_setters (g g1 : RRGraph) (node : RRNodeId) (p : Int)
    (h : set_node_ptc_num g node p = some g1 ∨ set_node_pin_num g node p = some g1
      ∨ set_node_track_num g node p = some g1 ∨ set_node_class_num g node p = some g1) :
    catalog_view g1 = catalog_view g := by
  rcases h with h | h | h | h
  · exact catalog_set_node_ptc_num g g1 node p h
  · unfold set_node_pin_num at h
    split_ifs at h
    exact catalog_set_node_ptc_num g g1 node p h
  · unfold set_node_track_num at h
    split_ifs at h
    exact catalog_set_node_ptc_num g g1 node p h
  · unfold set_node_class_num at h
    split_ifs at h
    exact catalog_set_node_ptc_num g g1 node p h

/-- C30. On a graph whose catalogs agree with their id vectors in size:
`create_switch` (`create_segment`) returns the id equal to the number of
entries, `get_switch` (`get_segment`) of that id yields the record passed in,
every id that was valid stays valid and keeps its record, and the other
catalog is untouched; `remove_node`, `remove_edge`, `compress`,
`create_node`, `create_edge`, `rebuild_node_edges`, the node attribute setters
and the lazy build of the spatial index leave both catalogs and their id
vectors as they were. -/
theorem catalogs_append_only (g : RRGraph)
    (hsw : g.switches_.length = g.switch_ids_.length)
    (hseg : g.segments_.length = g.segment_ids_.length) :
    (∀ info : t_rr_switch_inf,
      (create_switch g info).2 = some g.switch_ids_.length
      ∧ get_switch (create_switch g info).1 (create_switch g info).2 = some info
      ∧ (create_switch g info).1.switches_.length = g.switches_.length + 1
      ∧ (∀ id, valid_switch_id g id = true →
          valid_switch_id (create_switch g info).1 id = true
          ∧ get_switch (create_switch g info).1 id = get_switch g id)
      ∧ (create_switch g info).1.segments_ = g.segments_
      ∧ (create_switch g info).1.segment_ids_ = g.segment_ids_)
    ∧ (∀ info : t_segment_inf,
      (create_segment g info).2 = some g.segment_ids_.length
      ∧ get_segment (create_segment g info).1 (create_segment g info).2 = some info
      ∧ (create_segment g info).1.segments_.length = g.segments_.length + 1
      ∧ (∀ id, valid_segment_id g id = true →
          valid_segment_id (create_segment g info).1 id = true
          ∧ get_segment (create_segment g info).1 id = get_segment g id)
      ∧ (create_segment g info).1.switches_ = g.switches_
      ∧ (create_segment g info).1.switch_ids_ = g.switch_ids_)
    ∧ (∀ node g1, remove_node g node = some g1 → catalog_view g1 = catalog_view g)
    ∧ (∀ edge g1, remove_edge g edge = some g1 → catalog_view g1 = catalog_view g)
    ∧ (∀ g1, compress g = some g1 → catalog_view g1 = catalog_view g)
    ∧ (∀ type r, create_node g type = some r → catalog_view r.1 = catalog_view g)
    ∧ (∀ source sink switch_id fake_switch r,
        create_edge g source sink switch_id fake_switch = some r →
        catalog_view r.1 = catalog_view g)
    ∧ catalog_view (rebuild_node_edges g) = catalog_view g
    ∧ (∀ node type g1, set_node_type g node type = some g1 →
        catalog_view g1 = catalog_view g)
    ∧ (∀ node bb g1, set_node_bounding_box g node bb = some g1 →
        catalog_view g1 = catalog_view g)
    ∧ (∀ node v g1,
        (set_node_xlow g node v = some g1 ∨ set_node_ylow g node v = some g1
          ∨ set_node_xhigh g node v = some g1 ∨ set_node_yhigh g node v = some g1) →
        catalog_view g1 = catalog_view g)
    ∧ (∀ node p g1,
        (set_node_ptc_num g node p = some g1 ∨ set_node_pin_num g node p = some g1
          ∨ set_node_track_num g node p = some g1
          ∨ set_node_class_num g node p = some g1) →
        catalog_view g1 = catalog_view g)
    ∧ (∀ node d g1, set_node_direction g node d = some g1 →
        catalog_view g1 = catalog_view g)
    ∧ (∀ g1, initialize_fast_node_lookup g = some g1 →
        catalog_view g1 = catalog_view g) := by
  refine ⟨?_, ?_, ?_, ?_, ?_, ?_, ?_, catalog_rebuild_node_edges g, ?_, ?_,
    fun node v g1 h => catalog_box_setters g g1 node v h,
    fun node p g1 h => catalog_ptc_setters g g1 node p h, ?_, ?_⟩
  · intro info
    refine ⟨rfl, ?_, ?_, ?_, rfl, rfl⟩
    · simp [create_switch, get_switch, ← hsw]
    · simp [create_switch]
    · intro id hid
      cases id with
      | none => simp [valid_switch_id] at hid
      | some i =>
        simp only [valid_switch_id, decide_eq_true_eq] at hid
        constructor
        · simp only [valid_switch_id, create_switch, List.length_append, List.length_singleton,
            decide_eq_true_eq]
          omega
        · simp [create_switch, get_switch, List.getElem?_append_left hid]
  · intro info
    refine ⟨rfl, ?_, ?_, ?_, rfl, rfl⟩
    · simp [create_segment, get_segment, ← hseg]
    · simp [create_segment]
    · intro id hid
      cases id with
      | none => simp [valid_segment_id] at hid
      | some i =>
        simp only [valid_segment_id, decide_eq_true_eq] at hid
        constructor
        · simp only [valid_segment_id, create_segment, List.length_append,
            List.length_singleton, decide_eq_true_eq]
          omega
        · simp [create_segment, get_segment, List.getElem?_append_left hid]
  · intro node g1 h
    obtain ⟨g2, r, _, rfl⟩ := remove_node_some g g1 node h
    simp only [catalog_view, set_dirty, invalidate_fast_node_lookup, r.switch_ids,
      r.switch_infos, r.segment_ids, r.segment_infos]
  · intro edge g1 h
    obtain ⟨s, rfl, _, _⟩ := remove_edge_some g g1 edge h
    rfl
  · intro g1 h
    obtain ⟨_, rfl⟩ := compress_some g g1 h
    rfl
  · intro type r h
    unfold create_node at h
    dsimp only at h
    split_ifs at h
    rw [← Option.some.inj h]
    rfl
  · intro source sink switch_id fake_switch r h
    unfold create_edge at h
    dsimp only at h
    split_ifs at h
    rw [← Option.some.inj h]
    rfl
  · intro node type g1 h
    unfold set_node_type at h
    split_ifs at h
    rw [← Option.some.inj h]
    rfl
  · intro node bb g1 h
    unfold set_node_bounding_box at h
    split_ifs at h
    rw [← Option.some.inj h]
    rfl
  · intro node d g1 h
    unfold set_node_direction at h
    split_ifs at h
    rw [← Option.some.inj h]
    rfl
  · intro g1 h
    obtain ⟨L, rfl⟩ := initialize_keeps g g1 h
    rfl

/-- Witness for C30: on the scenario graph, which has two switches,
`create_switch` returns id 2, whose record reads back, and switch 0 keeps its
record. -/
theorem catalogs_append_only_witness :
    scenario_graph.switches_.length = scenario_graph.switch_ids_.length
    ∧ scenario_graph.segments_.length = scenario_graph.segment_ids_.length
    ∧ (create_switch scenario_graph ⟨false, 7⟩).2 = some 2
    ∧ get_switch (create_switch scenario_graph ⟨false, 7⟩).1 (some 2) = some ⟨false, 7⟩
    ∧ get_switch (create_switch scenario_graph ⟨false, 7⟩).1 (some 0) = some ⟨true, 0⟩ := by
  obtain ⟨h1, _⟩ := catalogs_append_only scenario_graph (by decide) (by decide)
  obtain ⟨a1, a2, _, a4, _⟩ := h1 ⟨false, 7⟩
  refine ⟨by decide, by decide, a1, a2, ?_⟩
  rw [(a4 (some 0) (by decide)).2]
  decide

/-! ## Repeated builds, the track setter and invariants of the spatial index -/

/-- C34. For every node whose non-configurable counters do not exceed its
fan-in and fan-out: `node_in_edges` followed by `node_out_edges` is
`node_edges`; the configurable in-range followed by the non-configurable
in-range is `node_in_edges`; the configurable out-range followed by the
non-configurable out-range is `node_out_edges`; the four sub-ranges, in this
order, make up `node_edges`, each being the slice of the one array that
starts where the one before ends. -/
theorem edge_ranges_tile (g : RRGraph) (node : RRNodeId)
    (hin : node_num_non_configurable_in_edges g node ≤ node_num_in_edges g node)
    (hout : node_num_non_configurable_out_edges g node ≤ node_num_out_edges g node) :
    node_in_edges g node ++ node_out_edges g node = node_edges g node
    ∧ node_configurable_in_edges g node ++ node_non_configurable_in_edges g node
        = node_in_edges g node
    ∧ node_configurable_out_edges g node ++ node_non_configurable_out_edges g node
        = node_out_edges g node
    ∧ node_configurable_in_edges g node ++ node_non_configurable_in_edges g node
        ++ node_configurable_out_edges g node ++ node_non_configurable_out_edges g node
        = node_edges g node
    ∧ node_configurable_in_edges g node
        = (node_edges g node).take
            (node_num_in_edges g node - node_num_non_configurable_in_edges g node)
    ∧ node_non_configurable_in_edges g node
        = ((node_edges g node).drop
            (node_num_in_edges g node - node_num_non_configurable_in_edges g node)).take
            (node_num_non_configurable_in_edges g node)
    ∧ node_configurable_out_edges g node
        = ((node_edges g node).drop (node_num_in_edges g node)).take
            (node_num_out_edges g node - node_num_non_configurable_out_edges g node)
    ∧ node_non_configurable_out_edges g node
        = (node_edges g node).drop
            (node_num_in_edges g node + node_num_out_edges g node
              - node_num_non_configurable_out_edges g node) := by
  have h1 : node_in_edges g node ++ node_out_edges g node = node_edges g node := by
    unfold node_edges node_in_edges node_out_edges
    rw [List.take_add]
  have h2 : node_configurable_in_edges g node ++ node_non_configurable_in_edges g node
      = node_in_edges g node := by
    unfold node_configurable_in_edges node_non_configurable_in_edges node_in_edges
    rw [← List.take_add, Nat.sub_add_cancel hin]
  have h3 : node_configurable_out_edges g node ++ node_non_configurable_out_edges g node
      = node_out_edges g node := by
    unfold node_configurable_out_edges node_non_configurable_out_edges node_out_edges
    have e : node_num_in_edges g node + node_num_out_edges g node
        - node_num_non_configurable_out_edges g node
        = node_num_in_edges g node
          + (node_num_out_edges g node - node_num_non_configurable_out_edges g node) := by omega
    rw [e, ← List.drop_drop, ← List.take_add, Nat.sub_add_cancel hout]
  refine ⟨h1, h2, h3, ?_, ?_, ?_, ?_, ?_⟩
  · rw [h2, List.append_assoc, h3, h1]
  · unfold node_configurable_in_edges node_edges
    rw [List.take_take]
    congr 1
    omega
  · unfold node_non_configurable_in_edges node_edges
    rw [List.drop_take, List.take_take]
    congr 1
    omega
  · unfold node_configurable_out_edges node_edges
    rw [List.drop_take, List.take_take]
    congr 1
    omega
  · unfold node_non_configurable_out_edges node_edges
    rw [List.drop_take]
    congr 1
    omega

/-- Witness for C34: the CHANX node of the scenario graph after
`rebuild_node_edges` has the array `[0, 1]`, edge 0 in its configurable
in-range and edge 1 in its non-configurable out-range. -/
theorem edge_ranges_tile_witness :
    node_edges (rebuild_node_edges scenario_graph) (some 1) = [some 0, some 1]
    ∧ node_configurable_in_edges (rebuild_node_edges scenario_graph) (some 1) = [some 0]
    ∧ node_non_configurable_out_edges (rebuild_node_edges scenario_graph) (some 1) = [some 1]
    ∧ node_configurable_in_edges (rebuild_node_edges scenario_graph) (some 1)
        ++ node_non_configurable_in_edges (rebuild_node_edges scenario_graph) (some 1)
        ++ node_configurable_out_edges (rebuild_node_edges scenario_graph) (some 1)
        ++ node_non_configurable_out_edges (rebuild_node_edges scenario_graph) (some 1)
        = [some 0, some 1] := by
  obtain ⟨_, _, _, h4, _⟩ :=
    edge_ranges_tile (rebuild_node_edges scenario_graph) (some 1) (by decide) (by decide)
  refine ⟨by decide, by decide, by decide, ?_⟩
  rw [h4]
  decide

/-- C31. Evaluation at the scenario graph (three valid nodes, edge 0 from
node 0 to node 1 and edge 1 from node 1 to node 2): the first
`rebuild_node_edges` leaves the fan-in counters `[0, 1, 1]`, the fan-out
counters `[1, 1, 0]`, the non-configurable counters `[0, 0, 1]` and
`[0, 1, 0]`, and adjacency arrays of 1, 2 and 1 slots; a second call with no
mutation in between leaves every counter doubled and arrays of 2, 4 and 2
slots, and the reciprocity check that held after the first call fails. -/
theorem rebuild_node_edges_twice :
    build scenario_steps = some scenario_graph
    ∧ counter_view (rebuild_node_edges scenario_graph)
        = ([0, 1, 1], [1, 1, 0], [0, 0, 1], [0, 1, 0])
    ∧ (rebuild_node_edges scenario_graph).node_edges_.map List.length = [1, 2, 1]
    ∧ counter_view (rebuild_node_edges (rebuild_node_edges scenario_graph))
        = ([0, 2, 2], [2, 2, 0], [0, 0, 2], [0, 2, 0])
    ∧ (rebuild_node_edges (rebuild_node_edges scenario_graph)).node_edges_.map List.length
        = [2, 4, 2]
    ∧ node_edges (rebuild_node_edges scenario_graph) (some 1) = [some 0, some 1]
    ∧ (node_edges (rebuild_node_edges (rebuild_node_edges scenario_graph)) (some 1)).length = 4
    ∧ validate_nodes_edges (rebuild_node_edges scenario_graph) = true
    ∧ validate_nodes_edges (rebuild_node_edges (rebuild_node_edges scenario_graph)) = false := by
  refine ⟨by decide, by decide, by decide, by decide, by decide, by decide, by decide,
    by decide, by decide⟩

/-- C35. Evaluation at a graph built by `create_switch`, two `create_node`
and two `create_edge` calls, every node, edge and switch valid: edge 0 is a
self-loop at node 0 and edge 1 runs from node 1 to node 0.  After one
`rebuild_node_edges` the out-range of node 0 holds edge 1, whose source is
node 1, and `validate_nodes_edges` returns `false`. -/
theorem validate_nodes_edges_self_loop :
    build loop_then_in_steps = some loop_then_in_graph
    ∧ nodes loop_then_in_graph = [some 0, some 1]
    ∧ edges loop_then_in_graph = [some 0, some 1]
    ∧ (∀ e ∈ edges loop_then_in_graph,
        valid_node_id loop_then_in_graph (edge_src_node loop_then_in_graph e) = true
        ∧ valid_node_id loop_then_in_graph (edge_sink_node loop_then_in_graph e) = true
        ∧ valid_switch_id loop_then_in_graph (edge_switch loop_then_in_graph e) = true)
    ∧ node_out_edges (rebuild_node_edges loop_then_in_graph) (some 0) = [some 1]
    ∧ edge_src_node (rebuild_node_edges loop_then_in_graph) (some 1) = some 1
    ∧ validate_node_out_edges (rebuild_node_edges loop_then_in_graph) (some 0) = false
    ∧ validate_nodes_out_edges (rebuild_node_edges loop_then_in_graph) = false
    ∧ validate_nodes_edges (rebuild_node_edges loop_then_in_graph) = false := by
  refine ⟨by decide, by decide, by decide, by decide, by decide, by decide, by decide,
    by decide, by decide⟩

/-- On a freshly built graph without self-loop edges the reciprocity check
passes after `rebuild_node_edges`. -/
theorem validate_nodes_edges_without_self_loop (g : RRGraph) (hg : FreshlyBuilt g)
    (hloop : ∀ e ∈ edges g, edge_src_node g e ≠ edge_sink_node g e) :
    validate_nodes_edges (rebuild_node_edges g) = true := by
  rw [validate_nodes_edges_iff]
  intro n hv
  obtain ⟨i, rfl, hi⟩ := valid_node_id_lt _ n hv
  obtain ⟨s, hs⟩ := rebuild_fresh g hg
  have hnum : (rebuild_node_edges g).num_nodes_ = g.num_nodes_ := by
    rw [hs]
    show ((edges g).foldl count_edge g).num_nodes_ = g.num_nodes_
    have := edge_view_count_fold (edges g) g
    exact congrArg (fun v => v.1) this
  rw [hnum] at hi
  obtain ⟨_, _, h3, h4⟩ := rebuild_node_edges_layout g hg i hi
    (fun e he h => hloop e he (h.1.trans h.2.symm))
  constructor
  · intro e he
    rw [h3] at he
    simp only [List.mem_append, List.mem_filter, Bool.and_eq_true, beq_iff_eq] at he
    rcases he with h | h
    · exact h.2.1
    · exact h.2.1
  · intro e he
    rw [h4] at he
    simp only [List.mem_append, List.mem_filter, Bool.and_eq_true, beq_iff_eq] at he
    rcases he with h | h
    · exact h.2.1
    · exact h.2.1

theorem getElem?_resize_of_lt {α : Type} (l : List α) (n : Nat) (d : α) (i : Nat)
    (h1 : i < l.length) (h2 : i < n) : (resize l n d)[i]? = l[i]? := by
  unfold resize
  rw [List.getElem?_append_left (by rw [List.length_take]; omega), List.getElem?_take_of_lt h2]

theorem getElem?_resize_new {α : Type} (l : List α) (n : Nat) (d : α) (i : Nat)
    (h1 : l.length ≤ i) (h2 : i < n) : (resize l n d)[i]? = some d := by
  unfold resize
  have ht : (l.take n).length = l.length := by rw [List.length_take]; omega
  rw [List.getElem?_append_right (by rw [ht]; exact h1), ht, List.getElem?_replicate]
  rw [if_pos (by omega)]

/-- C33. On a valid CHANX or CHANY node `n` of a graph whose ptc storage has
one vector per node, with `short` box coordinates and a cell `(x, y)` inside
the span of the node, so that `xlow <= xhigh` and `ylow <= yhigh`: if the
offset `(x - xlow) + (y - ylow)` is below `node_length(n) + 1`,
`add_node_track_num(n, (x, y), t)` returns, the ptc vector has
`node_length(n) + 1` entries, the entry at the offset is `t`, every other
entry that existed before and is still inside the vector is unchanged, every
other new entry is 0, and no other node's vector changes; if the offset is
not below `node_length(n) + 1` the call fails. -/
theorem add_node_track_num_effect (g : RRGraph) (node : RRNodeId) (x y : Nat) (t : Int)
    (hv : valid_node_id g node = true)
    (hsz : g.node_ptc_nums_.length = g.num_nodes_)
    (hc : node_type g node = t_rr_type.CHANX ∨ node_type g node = t_rr_type.CHANY)
    (hbox : -(2 ^ 15) ≤ node_xlow g node ∧ node_xhigh g node < 2 ^ 15
      ∧ -(2 ^ 15) ≤ node_ylow g node ∧ node_yhigh g node < 2 ^ 15)
    (hcell : node_xlow g node ≤ x ∧ (x : Int) ≤ node_xhigh g node
      ∧ node_ylow g node ≤ y ∧ (y : Int) ≤ node_yhigh g node)
    (hlen : (node_ptc_nums g node).length ≤ vector_max_size) :
    (((x : Int) - node_xlow g node) + ((y : Int) - node_ylow g node) < node_length g node + 1 →
      ∃ g', add_node_track_num g node (x, y) t = some g'
        ∧ ((node_ptc_nums g' node).length : Int) = node_length g node + 1
        ∧ (node_ptc_nums g' node)[(((x : Int) - node_xlow g node)
            + ((y : Int) - node_ylow g node)).toNat]? = some t
        ∧ (∀ i : Nat, (i : Int) ≠ ((x : Int) - node_xlow g node) + ((y : Int) - node_ylow g node) →
            (i : Int) < node_length g node + 1 →
            (node_ptc_nums g' node)[i]?
              = if i < (node_ptc_nums g node).length then (node_ptc_nums g node)[i]?
                else some 0)
        ∧ node_length g' node = node_length g node
        ∧ ∀ m, m ≠ node → node_ptc_nums g' m = node_ptc_nums g m)
    ∧ (¬ (((x : Int) - node_xlow g node) + ((y : Int) - node_ylow g node)
          < node_length g node + 1) →
      add_node_track_num g node (x, y) t = none) := by
  obtain ⟨i, rfl, hi⟩ := valid_node_id_lt g node hv
  have hlt : i < g.node_ptc_nums_.length := by rw [hsz]; exact hi
  obtain ⟨hlb, hub⟩ := node_length_bounds g (some i)
  obtain ⟨b1, b2, b3, b4⟩ := hbox
  obtain ⟨c1, c2, c3, c4⟩ := hcell
  have hoff : (x + 2 ^ 64 - to_size_t (node_xlow g (some i)) + y + 2 ^ 64
        - to_size_t (node_ylow g (some i))) % 2 ^ 64
      = (((x : Int) - node_xlow g (some i)) + ((y : Int) - node_ylow g (some i))).toNat := by
    unfold to_size_t
    norm_num at b1 b2 b3 b4 ⊢
    omega
  generalize hL : node_length g (some i) = len at hlb hub ⊢
  generalize hO : ((x : Int) - node_xlow g (some i)) + ((y : Int) - node_ylow g (some i)) = off
    at hoff ⊢
  have hO0 : 0 ≤ off := by rw [← hO]; omega
  constructor
  · intro hlt2
    have hn : (to_size_t len + 1) % 2 ^ 64 = (len + 1).toNat := by
      unfold to_size_t
      norm_num at hub ⊢
      omega
    have hsmall : ¬ ((len + 1).toNat ≠ (node_ptc_nums g (some i)).length
        ∧ (len + 1).toNat > vector_max_size) := by
      unfold vector_max_size
      norm_num at hub ⊢
      intro _
      omega
    have hv2 : (if (len + 1).toNat ≠ (node_ptc_nums g (some i)).length then
          resize (node_ptc_nums g (some i)) (len + 1).toNat 0
        else node_ptc_nums g (some i))
        = resize (node_ptc_nums g (some i)) (len + 1).toNat 0 := by
      split_ifs with h
      · rfl
      · rw [not_not] at h
        rw [h, resize_self]
    have hin : off.toNat < (resize (node_ptc_nums g (some i)) (len + 1).toNat 0).length := by
      rw [length_resize]
      omega
    have hset : add_node_track_num g (some i) (x, y) t
        = some { g with
            node_ptc_nums_ :=
              set_id g.node_ptc_nums_ (some i)
                ((resize (node_ptc_nums g (some i)) (len + 1).toNat 0).set off.toNat t) } := by
      unfold add_node_track_num
      rw [if_pos ⟨hv, hc⟩]
      simp only [hL, hn, hoff, hv2]
      rw [if_neg hsmall, if_pos hin]
    have hptc : node_ptc_nums
        ({ g with
            node_ptc_nums_ :=
              set_id g.node_ptc_nums_ (some i)
                ((resize (node_ptc_nums g (some i)) (len + 1).toNat 0).set off.toNat t) } :
          RRGraph) (some i)
        = (resize (node_ptc_nums g (some i)) (len + 1).toNat 0).set off.toNat t :=
      at_set_id_self _ _ _ _ hlt
    refine ⟨_, hset, ?_, ?_, ?_, hL, ?_⟩
    · rw [hptc, List.length_set, length_resize]
      omega
    · rw [hptc, List.getElem?_set_self hin]
    · intro j hj hjl
      rw [hptc, List.getElem?_set_ne (by omega)]
      split_ifs with h
      · exact getElem?_resize_of_lt _ _ _ _ h (by omega)
      · exact getElem?_resize_new _ _ _ _ (by omega) (by omega)
    · intro m hm
      exact at_set_id_ne _ _ _ _ _ hm
  · intro hge
    unfold add_node_track_num
    rw [if_pos ⟨hv, hc⟩]
    simp only [hL, hoff]
    by_cases hbig : (to_size_t len + 1) % 2 ^ 64 ≠ (node_ptc_nums g (some i)).length
        ∧ (to_size_t len + 1) % 2 ^ 64 > vector_max_size
    · rw [if_pos hbig]
    · rw [if_neg hbig]
      have hn : (to_size_t len + 1) % 2 ^ 64 ≤ vector_max_size → 
          ((to_size_t len + 1) % 2 ^ 64 : Nat) = (len + 1).toNat := by
        unfold to_size_t vector_max_size
        norm_num at hub hlb ⊢
        omega
      have hle : (to_size_t len + 1) % 2 ^ 64 ≤ vector_max_size := by
        by_contra hgt
        rw [not_and_or, not_not] at hbig
        rcases hbig with h | h
        · rw [h] at hgt
          exact hgt hlen
        · exact hgt (by omega)
      rw [hn hle]
      have hv2 : (if (len + 1).toNat ≠ (node_ptc_nums g (some i)).length then
            resize (node_ptc_nums g (some i)) (len + 1).toNat 0
          else node_ptc_nums g (some i))
          = resize (node_ptc_nums g (some i)) (len + 1).toNat 0 := by
        split_ifs with h
        · rfl
        · rw [not_not] at h
          rw [h, resize_self]
      rw [hv2, if_neg]
      rw [length_resize]
      omega

/-- Witness for C33: on the CHANX node of the scenario with geometry, box
(0, 0, 2, 0) and ptc vector `[1, 1, 1]`, `add_node_track_num(1, (2, 0), 7)`
leaves `[1, 1, 7]`; on a CHANX node with the box (0, 0, 1, 1), of length 1,
the cell (1, 1) has the offset 2 and the call fails. -/
theorem add_node_track_num_effect_witness :
    node_ptc_nums lookup_scenario_graph (some 1) = [1, 1, 1]
    ∧ (∃ g', add_node_track_num lookup_scenario_graph (some 1) (2, 0) 7 = some g'
        ∧ node_ptc_nums g' (some 1) = [1, 1, 7])
    ∧ node_length square_channel_graph (some 0) = 1
    ∧ add_node_track_num square_channel_graph (some 0) (1, 1) 7 = none := by
  obtain ⟨h1, _⟩ := add_node_track_num_effect lookup_scenario_graph (some 1) 2 0 7
    (by decide) (by decide) (Or.inl (by decide)) (by decide) (by decide) (by decide)
  obtain ⟨g', a1, _, _, _, _, _⟩ := h1 (by decide)
  refine ⟨by decide, ⟨g', a1, ?_⟩, by decide, ?_⟩
  · have : add_node_track_num lookup_scenario_graph (some 1) (2, 0) 7
        = some { lookup_scenario_graph with
            node_ptc_nums_ := [[0], [1, 1, 7], [0]] } := by decide
    rw [this] at a1
    rw [← Option.some.inj a1]
    decide
  · exact (add_node_track_num_effect square_channel_graph (some 0) 1 1 7
      (by decide) (by decide) (Or.inl (by decide)) (by decide) (by decide) (by decide)).2
      (by decide)

theorem index_view_foldl {β : Type} (f : RRGraph → β → RRGraph)
    (hf : ∀ a x, index_view (f a x) = index_view a) (l : List β) :
    ∀ a, index_view (l.foldl f a) = index_view a := by
  induction l with
  | nil => intro a; rfl
  | cons x l ih =>
    intro a
    rw [List.foldl_cons, ih, hf]

theorem index_view_rebuild_node_edges (g : RRGraph) :
    index_view (rebuild_node_edges g) = index_view g := by
  unfold rebuild_node_edges
  dsimp only
  rw [index_view_foldl partition_node_edges
    (fun a x => by unfold partition_node_edges; split_ifs <;> rfl)]
  show index_view ((nodes _).foldl allocate_node_edges _) = _
  rw [index_view_foldl allocate_node_edges
    (fun a x => by unfold allocate_node_edges; split_ifs <;> rfl)]
  rw [index_view_foldl count_edge (fun a x => by unfold count_edge; split_ifs <;> rfl)]
  rfl

theorem index_view_set_node_ptc_num (g g1 : RRGraph) (node : RRNodeId) (p : Int)
    (h : set_node_ptc_num g node p = some g1) : index_view g1 = index_view g := by
  unfold set_node_ptc_num at h
  dsimp only at h
  split_ifs at h <;> (rw [← Option.some.inj h]; rfl)

theorem initialize_cases (g g1 : RRGraph) (h : initialize_fast_node_lookup g = some g1) :
    (valid_fast_node_lookup g = true ∧ g1 = g)
    ∨ (valid_fast_node_lookup g = false ∧ build_fast_node_lookup g = some g1) := by
  unfold initialize_fast_node_lookup at h
  by_cases hv : valid_fast_node_lookup g = true
  · rw [if_pos hv] at h
    exact Or.inl ⟨hv, (Option.some.inj h).symm⟩
  · rw [if_neg hv] at h
    exact Or.inr ⟨by simpa using hv, h⟩

/-- The effect of every call of `Mutation` on the spatial index: `create_node`,
`remove_node` and `compress` leave it empty; every other call leaves the node
count, the invalid-node set and the table as they were, except that a query or
`validate` on an empty index builds it from the present state. -/
theorem apply_mutation_index (g g1 : RRGraph) (m : Mutation)
    (h : apply_mutation g m = some g1) :
    (clears_index m = true ∧ g1.node_lookup_ = [])
    ∨ (clears_index m = false
        ∧ (index_view g1 = index_view g
          ∨ (valid_fast_node_lookup g = false ∧ build_fast_node_lookup g = some g1))) := by
  cases m with
  | create_node type =>
    refine Or.inl ⟨rfl, ?_⟩
    simp only [apply_mutation, Option.map_eq_some'] at h
    obtain ⟨r, hr, rfl⟩ := h
    unfold create_node at hr
    dsimp only at hr
    split_ifs at hr
    rw [← Option.some.inj hr]
    rfl
  | remove_node node =>
    refine Or.inl ⟨rfl, ?_⟩
    obtain ⟨g2, _, _, rfl⟩ := remove_node_some g g1 node h
    rfl
  | compress =>
    refine Or.inl ⟨rfl, ?_⟩
    obtain ⟨_, rfl⟩ := compress_some g g1 h
    rfl
  | create_edge source sink switch_id fake_switch =>
    refine Or.inr ⟨rfl, Or.inl ?_⟩
    simp only [apply_mutation, Option.map_eq_some'] at h
    obtain ⟨r, hr, rfl⟩ := h
    unfold create_edge at hr
    dsimp only at hr
    split_ifs at hr
    rw [← Option.some.inj hr]
    rfl
  | create_switch info =>
    refine Or.inr ⟨rfl, Or.inl ?_⟩
    rw [← Option.some.inj h]
    rfl
  | create_segment info =>
    refine Or.inr ⟨rfl, Or.inl ?_⟩
    rw [← Option.some.inj h]
    rfl
  | rebuild_node_edges =>
    refine Or.inr ⟨rfl, Or.inl ?_⟩
    rw [← Option.some.inj h]
    exact index_view_rebuild_node_edges g
  | remove_edge edge =>
    refine Or.inr ⟨rfl, Or.inl ?_⟩
    obtain ⟨s, rfl, _, _⟩ := remove_edge_some g g1 edge h
    rfl
  | set_edge_switch edge switch_id =>
    refine Or.inr ⟨rfl, Or.inl ?_⟩
    simp only [apply_mutation, set_edge_switch] at h
    split_ifs at h
    rw [← Option.some.inj h]
    rfl
  | set_node_type node type =>
    refine Or.inr ⟨rfl, Or.inl ?_⟩
    simp only [apply_mutation, set_node_type] at h
    split_ifs at h
    rw [← Option.some.inj h]
    rfl
  | set_node_xlow node v =>
    refine Or.inr ⟨rfl, Or.inl ?_⟩
    simp only [apply_mutation, set_node_xlow] at h
    split_ifs at h
    rw [← Option.some.inj h]
    rfl
  | set_node_ylow node v =>
    refine Or.inr ⟨rfl, Or.inl ?_⟩
    simp only [apply_mutation, set_node_ylow] at h
    split_ifs at h
    rw [← Option.some.inj h]
    rfl
  | set_node_xhigh node v =>
    refine Or.inr ⟨rfl, Or.inl ?_⟩
    simp only [apply_mutation, set_node_xhigh] at h
    split_ifs at h
    rw [← Option.some.inj h]
    rfl
  | set_node_yhigh node v =>
    refine Or.inr ⟨rfl, Or.inl ?_⟩
    simp only [apply_mutation, set_node_yhigh] at h
    split_ifs at h
    rw [← Option.some.inj h]
    rfl
  | set_node_bounding_box node bb =>
    refine Or.inr ⟨rfl, Or.inl ?_⟩
    simp only [apply_mutation, set_node_bounding_box] at h
    split_ifs at h
    rw [← Option.some.inj h]
    rfl
  | set_node_capacity node v =>
    refine Or.inr ⟨rfl, Or.inl ?_⟩
    simp only [apply_mutation, set_node_capacity] at h
    split_ifs at h
    rw [← Option.some.inj h]
    rfl
  | set_node_ptc_num node v =>
    exact Or.inr ⟨rfl, Or.inl (index_view_set_node_ptc_num g g1 node v h)⟩
  | set_node_pin_num node v =>
    refine Or.inr ⟨rfl, Or.inl ?_⟩
    simp only [apply_mutation, set_node_pin_num] at h
    split_ifs at h
    exact index_view_set_node_ptc_num g g1 node v h
  | set_node_track_num node v =>
    refine Or.inr ⟨rfl, Or.inl ?_⟩
    simp only [apply_mutation, set_node_track_num] at h
    split_ifs at h
    exact index_view_set_node_ptc_num g g1 node v h
  | set_node_class_num node v =>
    refine Or.inr ⟨rfl, Or.inl ?_⟩
    simp only [apply_mutation, set_node_class_num] at h
    split_ifs at h
    exact index_view_set_node_ptc_num g g1 node v h
  | add_node_track_num node node_offset v =>
    refine Or.inr ⟨rfl, Or.inl ?_⟩
    simp only [apply_mutation] at h
    unfold add_node_track_num at h
    dsimp only at h
    split_ifs at h <;> (rw [← Option.some.inj h]; rfl)
  | set_node_cost_index node v =>
    refine Or.inr ⟨rfl, Or.inl ?_⟩
    simp only [apply_mutation, set_node_cost_index] at h
    split_ifs at h
    rw [← Option.some.inj h]
    rfl
  | set_node_direction node d =>
    refine Or.inr ⟨rfl, Or.inl ?_⟩
    simp only [apply_mutation, set_node_direction] at h
    split_ifs at h
    rw [← Option.some.inj h]
    rfl
  | set_node_side node side =>
    refine Or.inr ⟨rfl, Or.inl ?_⟩
    simp only [apply_mutation, set_node_side] at h
    split_ifs at h
    rw [← Option.some.inj h]
    rfl
  | set_node_R node v =>
    refine Or.inr ⟨rfl, Or.inl ?_⟩
    simp only [apply_mutation, set_node_R] at h
    split_ifs at h
    rw [← Option.some.inj h]
    rfl
  | set_node_C node v =>
    refine Or.inr ⟨rfl, Or.inl ?_⟩
    simp only [apply_mutation, set_node_C] at h
    split_ifs at h
    rw [← Option.some.inj h]
    rfl
  | set_node_rc_data_index node v =>
    refine Or.inr ⟨rfl, Or.inl ?_⟩
    simp only [apply_mutation, set_node_rc_data_index] at h
    split_ifs at h
    rw [← Option.some.inj h]
    rfl
  | set_node_segment node segment_id =>
    refine Or.inr ⟨rfl, Or.inl ?_⟩
    simp only [apply_mutation, set_node_segment] at h
    split_ifs at h
    rw [← Option.some.inj h]
    rfl
  | find_node x y type ptc side =>
    refine Or.inr ⟨rfl, ?_⟩
    simp only [apply_mutation, find_node, Option.map_map, Option.map_eq_some'] at h
    obtain ⟨g2, hinit, rfl⟩ := h
    rcases initialize_cases g g2 hinit with ⟨_, rfl⟩ | ⟨hv, hb⟩
    · exact Or.inl rfl
    · exact Or.inr ⟨hv, hb⟩
  | chan_num_tracks x y type =>
    refine Or.inr ⟨rfl, ?_⟩
    simp only [apply_mutation, chan_num_tracks] at h
    split_ifs at h
    · simp only [Option.map_eq_some', Option.bind_eq_some] at h
      obtain ⟨r, ⟨g2, hinit, hr⟩, rfl⟩ := h
      obtain ⟨n, _, rfl⟩ := hr
      rcases initialize_cases g g2 hinit with ⟨_, rfl⟩ | ⟨hv, hb⟩
      · exact Or.inl rfl
      · exact Or.inr ⟨hv, hb⟩
    · simp at h
  | validate =>
    refine Or.inr ⟨rfl, ?_⟩
    simp only [apply_mutation, validate, Option.map_map, Option.map_eq_some'] at h
    obtain ⟨g2, hinit, rfl⟩ := h
    rcases initialize_cases g g2 hinit with ⟨_, rfl⟩ | ⟨hv, hb⟩
    · exact Or.inl rfl
    · exact Or.inr ⟨hv, hb⟩

theorem lookup_nil_of_invalid (g : RRGraph) (h : valid_fast_node_lookup g = false) :
    g.node_lookup_ = [] := by
  unfold valid_fast_node_lookup at h
  cases hl : g.node_lookup_ with
  | nil => rfl
  | cons a l => rw [hl] at h; simp at h

theorem valid_of_lookup_nil (g : RRGraph) (h : g.node_lookup_ = []) :
    valid_fast_node_lookup g = false := by
  unfold valid_fast_node_lookup
  rw [h]
  rfl

/-- Counterexample for C32: a SOURCE node at (0, 0) with class 0 is indexed
by a query; after `set_node_class_num(0, 3)` the index is still built,
`find_node(0, 0, SOURCE, 3)` returns the invalid handle and
`find_node(0, 0, SOURCE, 0)` returns node 0, where an index built from the
present state gives node 0 and the invalid handle.  After `set_node_type`
to SINK, `find_node(0, 0, SINK, 0)` returns the invalid handle where a fresh
index gives node 0.  A CHANX node on track 0 is indexed; after
`add_node_track_num` to track 4, `chan_num_tracks(0, 0, CHANX)` returns 1
where a fresh index gives 5. -/
theorem queries_read_stale_index :
    stale_class.map (fun g => (valid_fast_node_lookup g, node_ptc_nums g (some 0)))
      = some (true, [3])
    ∧ stale_class.bind
        (fun g => (find_node g 0 0 t_rr_type.SOURCE 3 e_side.NUM_SIDES).map Prod.snd)
      = some none
    ∧ stale_class.bind
        (fun g => (find_node (invalidate_fast_node_lookup g) 0 0 t_rr_type.SOURCE 3
          e_side.NUM_SIDES).map Prod.snd)
      = some (some 0)
    ∧ stale_class.bind
        (fun g => (find_node g 0 0 t_rr_type.SOURCE 0 e_side.NUM_SIDES).map Prod.snd)
      = some (some 0)
    ∧ stale_class.bind
        (fun g => (find_node (invalidate_fast_node_lookup g) 0 0 t_rr_type.SOURCE 0
          e_side.NUM_SIDES).map Prod.snd)
      = some none
    ∧ stale_type.map (fun g => (valid_fast_node_lookup g, node_type g (some 0)))
      = some (true, t_rr_type.SINK)
    ∧ stale_type.bind
        (fun g => (find_node g 0 0 t_rr_type.SINK 0 e_side.NUM_SIDES).map Prod.snd)
      = some none
    ∧ stale_type.bind
        (fun g => (find_node (invalidate_fast_node_lookup g) 0 0 t_rr_type.SINK 0
          e_side.NUM_SIDES).map Prod.snd)
      = some (some 0)
    ∧ stale_track.map (fun g => (valid_fast_node_lookup g, node_ptc_nums g (some 0)))
      = some (true, [4])
    ∧ stale_track.bind (fun g => (chan_num_tracks g 0 0 t_rr_type.CHANX).map Prod.snd)
      = some 1
    ∧ stale_track.bind
        (fun g => (chan_num_tracks (invalidate_fast_node_lookup g) 0 0
          t_rr_type.CHANX).map Prod.snd)
      = some 5 := by
  refine ⟨by decide, by decide, by decide, by decide, by decide, by decide, by decide,
    by decide, by decide, by decide, by decide⟩

/-- C32 (amended). After a `create_node`, `remove_node` or `compress` that
returns, and after `clear` (or its part `clear_nodes`, or
`invalidate_fast_node_lookup` itself), the spatial index is empty and the next
`find_node` or `chan_num_tracks` answers from a table built from the present
state.  After any other call of `Mutation` that returns on a graph with a
built index, the setters of the bounding box, the ptc numbers, the type and
the side included, and after `clear_edges`, `clear_switches`,
`clear_segments`, `set_dirty`, `clear_dirty` and the four `reserve` calls, the
table is the one held before the call and the next query answers from it. -/
theorem index_cleared_by_structural_calls (g g1 : RRGraph) (m : Mutation)
    (h : apply_mutation g m = some g1) :
    (clears_index m = true →
      valid_fast_node_lookup g1 = false
      ∧ (∀ x y type ptc side,
          find_node g1 x y type ptc side
            = (build_fast_node_lookup g1).map
                (fun g2 => (g2, find_node_in g2.node_lookup_ x y type ptc side)))
      ∧ (∀ x y type, type = t_rr_type.CHANX ∨ type = t_rr_type.CHANY →
          chan_num_tracks g1 x y type
            = (build_fast_node_lookup g1).bind
                (fun g2 => (chan_num_tracks_in g2.node_lookup_ x y type).map
                  (fun n => (g2, n)))))
    ∧ (clears_index m = false → valid_fast_node_lookup g = true →
      g1.node_lookup_ = g.node_lookup_
      ∧ (∀ x y type ptc side,
          find_node g1 x y type ptc side
            = some (g1, find_node_in g.node_lookup_ x y type ptc side))
      ∧ (∀ x y type, type = t_rr_type.CHANX ∨ type = t_rr_type.CHANY →
          chan_num_tracks g1 x y type
            = (chan_num_tracks_in g.node_lookup_ x y type).map (fun n => (g1, n))))
    ∧ (∀ g2, g2 = clear g ∨ g2 = clear_nodes g ∨ g2 = invalidate_fast_node_lookup g →
      valid_fast_node_lookup g2 = false
      ∧ (∀ x y type ptc side,
          find_node g2 x y type ptc side
            = (build_fast_node_lookup g2).map
                (fun g3 => (g3, find_node_in g3.node_lookup_ x y type ptc side)))
      ∧ (∀ x y type, type = t_rr_type.CHANX ∨ type = t_rr_type.CHANY →
          chan_num_tracks g2 x y type
            = (build_fast_node_lookup g2).bind
                (fun g3 => (chan_num_tracks_in g3.node_lookup_ x y type).map
                  (fun n => (g3, n)))))
    ∧ (∀ g2, (g2 = clear_edges g ∨ g2 = clear_switches g ∨ g2 = clear_segments g
          ∨ g2 = set_dirty g ∨ g2 = clear_dirty g
          ∨ ∃ k, g2 = reserve_nodes g k ∨ g2 = reserve_edges g k
              ∨ g2 = reserve_switches g k ∨ g2 = reserve_segments g k) →
      valid_fast_node_lookup g = true →
      g2.node_lookup_ = g.node_lookup_
      ∧ (∀ x y type ptc side,
          find_node g2 x y type ptc side
            = some (g2, find_node_in g.node_lookup_ x y type ptc side))
      ∧ (∀ x y type, type = t_rr_type.CHANX ∨ type = t_rr_type.CHANY →
          chan_num_tracks g2 x y type
            = (chan_num_tracks_in g.node_lookup_ x y type).map (fun n => (g2, n)))) := by
  have fresh : ∀ g2 : RRGraph, g2.node_lookup_ = [] →
      valid_fast_node_lookup g2 = false
      ∧ (∀ x y type ptc side,
          find_node g2 x y type ptc side
            = (build_fast_node_lookup g2).map
                (fun g3 => (g3, find_node_in g3.node_lookup_ x y type ptc side)))
      ∧ (∀ x y type, type = t_rr_type.CHANX ∨ type = t_rr_type.CHANY →
          chan_num_tracks g2 x y type
            = (build_fast_node_lookup g2).bind
                (fun g3 => (chan_num_tracks_in g3.node_lookup_ x y type).map
                  (fun n => (g3, n)))) := by
    intro g2 hnil
    have hv := valid_of_lookup_nil g2 hnil
    have hinit : initialize_fast_node_lookup g2 = build_fast_node_lookup g2 := by
      unfold initialize_fast_node_lookup
      rw [hv]
      rfl
    refine ⟨hv, ?_, ?_⟩
    · intro x y type ptc side
      unfold find_node
      rw [hinit]
    · intro x y type htype
      unfold chan_num_tracks
      rw [if_pos htype, hinit]
  have kept : ∀ g2 : RRGraph, g2.node_lookup_ = g.node_lookup_ →
      valid_fast_node_lookup g = true →
      g2.node_lookup_ = g.node_lookup_
      ∧ (∀ x y type ptc side,
          find_node g2 x y type ptc side
            = some (g2, find_node_in g.node_lookup_ x y type ptc side))
      ∧ (∀ x y type, type = t_rr_type.CHANX ∨ type = t_rr_type.CHANY →
          chan_num_tracks g2 x y type
            = (chan_num_tracks_in g.node_lookup_ x y type).map (fun n => (g2, n))) := by
    intro g2 hlook hv
    have hv1 : valid_fast_node_lookup g2 = true := by
      unfold valid_fast_node_lookup at hv ⊢
      rw [hlook]
      exact hv
    have hinit : initialize_fast_node_lookup g2 = some g2 := by
      unfold initialize_fast_node_lookup
      rw [if_pos hv1]
    refine ⟨hlook, ?_, ?_⟩
    · intro x y type ptc side
      unfold find_node
      rw [hinit, Option.map_some', hlook]
    · intro x y type htype
      unfold chan_num_tracks
      rw [if_pos htype, hinit, Option.some_bind, hlook]
  refine ⟨?_, ?_, ?_, ?_⟩
  · intro hm
    exact fresh g1 (by
      rcases apply_mutation_index g g1 m h with ⟨_, h1⟩ | ⟨h1, _⟩
      · exact h1
      · rw [hm] at h1
        exact absurd h1 (by decide))
  · intro hm hv
    exact kept g1 (by
      rcases apply_mutation_index g g1 m h with ⟨h1, _⟩ | ⟨_, h1 | ⟨h1, _⟩⟩
      · rw [hm] at h1
        exact absurd h1 (by decide)
      · exact congrArg (fun v => v.2.2) h1
      · rw [hv] at h1
        exact absurd h1 (by decide)) hv
  · rintro g2 (rfl | rfl | rfl) <;> exact fresh _ rfl
  · rintro g2 (rfl | rfl | rfl | rfl | rfl | ⟨k, rfl | rfl | rfl | rfl⟩) hv <;>
      exact kept _ rfl hv

/-- Witness for C32: on the scenario with geometry and a built index,
`remove_node(1)` leaves an empty index and `find_node(2, 0, CHANX, 1)`, which
returned node 1, returns the invalid handle; `set_node_xhigh(1, 0)` leaves
the index built and the same query still returns node 1; `clear` leaves the
empty graph, whose index is empty, and the query returns the invalid
handle. -/
theorem index_cleared_by_structural_calls_witness :
    valid_fast_node_lookup indexed_scenario_graph = true
    ∧ (find_node indexed_scenario_graph 2 0 t_rr_type.CHANX 1 e_side.NUM_SIDES).map Prod.snd
        = some (some 1)
    ∧ (∃ g1, apply_mutation indexed_scenario_graph (.remove_node (some 1)) = some g1
        ∧ valid_fast_node_lookup g1 = false
        ∧ (find_node g1 2 0 t_rr_type.CHANX 1 e_side.NUM_SIDES).map Prod.snd = some none)
    ∧ (∃ g1, apply_mutation indexed_scenario_graph (.set_node_xhigh (some 1) 0) = some g1
        ∧ node_xhigh g1 (some 1) = 0
        ∧ (find_node g1 2 0 t_rr_type.CHANX 1 e_side.NUM_SIDES).map Prod.snd
            = some (some 1))
    ∧ clear indexed_scenario_graph = RRGraph.empty
    ∧ valid_fast_node_lookup (clear indexed_scenario_graph) = false
    ∧ (find_node (clear indexed_scenario_graph) 2 0 t_rr_type.CHANX 1
        e_side.NUM_SIDES).map Prod.snd = some none := by
  refine ⟨by decide, by decide, ?_, ?_, rfl,
    ((index_cleared_by_structural_calls indexed_scenario_graph _
      (.create_switch ⟨true, 0⟩) rfl).2.2.1 (clear indexed_scenario_graph)
      (Or.inl rfl)).1, by decide⟩
  · cases h : apply_mutation indexed_scenario_graph (.remove_node (some 1)) with
    | none => exact absurd h (by decide)
    | some g1 =>
      obtain ⟨h1, _⟩ := index_cleared_by_structural_calls _ g1 _ h
      obtain ⟨a1, _, _⟩ := h1 rfl
      refine ⟨g1, rfl, a1, ?_⟩
      have hg : apply_mutation indexed_scenario_graph (.remove_node (some 1))
          = remove_node indexed_scenario_graph (some 1) := rfl
      rw [hg] at h
      have hq : (remove_node indexed_scenario_graph (some 1)).bind
          (fun g => (find_node g 2 0 t_rr_type.CHANX 1 e_side.NUM_SIDES).map Prod.snd)
            = some none := by decide
      rw [h] at hq
      exact hq
  · cases h : apply_mutation indexed_scenario_graph (.set_node_xhigh (some 1) 0) with
    | none => exact absurd h (by decide)
    | some g1 =>
      obtain ⟨_, h2, _⟩ := index_cleared_by_structural_calls _ g1 _ h
      obtain ⟨_, a2, _⟩ := h2 rfl (by decide)
      refine ⟨g1, rfl, ?_, ?_⟩
      · have hg : apply_mutation indexed_scenario_graph (.set_node_xhigh (some 1) 0)
            = set_node_xhigh indexed_scenario_graph (some 1) 0 := rfl
        rw [hg] at h
        have hq : (set_node_xhigh indexed_scenario_graph (some 1) 0).map
            (fun g => node_xhigh g (some 1)) = some 0 := by decide
        rw [h] at hq
        exact Option.some.inj hq
      · rw [a2, Option.map_some']
        have hq : find_node_in indexed_scenario_graph.node_lookup_ 2 0 t_rr_type.CHANX 1
            e_side.NUM_SIDES = some 1 := by decide
        exact congrArg some hq

theorem lookup_get_nil (x y t p s : Nat) : lookup_get [] x y t p s = none := by
  simp [lookup_get]

theorem index_sound_of_nil (g : RRGraph) (h : g.node_lookup_ = []) : index_sound g := by
  intro x y t p s
  rw [h]
  exact Or.inl (lookup_get_nil x y t p s)

theorem valid_node_id_of_view (g g1 : RRGraph) (h1 : g1.num_nodes_ = g.num_nodes_)
    (h2 : g1.invalid_node_ids_ = g.invalid_node_ids_) (n : RRNodeId) :
    valid_node_id g1 n = valid_node_id g n := by
  unfold valid_node_id
  rw [h1, h2]

theorem index_sound_of_view (g g1 : RRGraph) (h : index_view g1 = index_view g)
    (hs : index_sound g) : index_sound g1 := by
  simp only [index_view, Prod.mk.injEq] at h
  obtain ⟨h1, h2, h3⟩ := h
  intro x y t p s
  rw [h3, valid_node_id_of_view g g1 h1 h2]
  exact hs x y t p s

theorem build_some (g g1 : RRGraph) (h : build_fast_node_lookup g = some g1) :
    ∃ L, (lookup_cells g).foldlM (cell_step g) (empty_lookup g) = some L
      ∧ g1 = { g with node_lookup_ := L } := by
  rw [build_fast_node_lookup_eq] at h
  simp only [Option.map_eq_some'] at h
  obtain ⟨L, hL, rfl⟩ := h
  exact ⟨L, hL, rfl⟩

/-- The table built by `build_fast_node_lookup` holds valid node ids only. -/
theorem index_sound_build (g g1 : RRGraph) (h : build_fast_node_lookup g = some g1) :
    index_sound g1 := by
  obtain ⟨L, hL, rfl⟩ := build_some g g1 h
  obtain ⟨_, hget⟩ := cells_fold g _ _ _ hL
  intro x y t p s
  show lookup_get L x y t p s = none ∨ valid_node_id g (lookup_get L x y t p s) = true
  by_cases hex : ∃ c ∈ lookup_cells g, cell_key g c = some (x, y, t, p, s)
  · obtain ⟨c, hc, _, hval⟩ := (hget x y t p s).1 hex
    rw [hval]
    exact Or.inr ((mem_lookup_cells g c).mp hc).2.1
  · rw [(hget x y t p s).2 hex, lookup_get_empty]
    exact Or.inl rfl

theorem find_node_in_get (L : Lookup) (x y : Int) (type : t_rr_type) (ptc : Int)
    (side : e_side) :
    find_node_in L x y type ptc side = none
    ∨ find_node_in L x y type ptc side
        = lookup_get L (to_size_t x) (to_size_t y) (rr_type_index type) (to_size_t ptc)
            (side_index side) := by
  unfold find_node_in lookup_get
  dsimp only
  split_ifs
  · exact Or.inl rfl
  · exact Or.inl rfl
  · exact Or.inl rfl
  · exact Or.inl rfl
  · exact Or.inl rfl
  · exact Or.inr rfl

theorem index_sound_step (g g1 : RRGraph) (m : Mutation)
    (h : apply_mutation g m = some g1) (hs : index_sound g) : index_sound g1 := by
  rcases apply_mutation_index g g1 m h with ⟨_, h1⟩ | ⟨_, h1 | ⟨_, h1⟩⟩
  · exact index_sound_of_nil g1 h1
  · exact index_sound_of_view g g1 h1 hs
  · exact index_sound_build g g1 h1

theorem index_sound_foldlM (ms : List Mutation) :
    ∀ g0 g, index_sound g0 → ms.foldlM apply_mutation g0 = some g → index_sound g := by
  induction ms with
  | nil =>
    intro g0 g h0 h
    simp only [List.foldlM, pure, Option.some.injEq] at h
    exact h ▸ h0
  | cons m ms ih =>
    intro g0 g h0 h
    simp only [List.foldlM, bind, Option.bind_eq_some] at h
    obtain ⟨g1, h1, h2⟩ := h
    exact ih g1 g (index_sound_step g0 g1 m h1 h0) h2

/-- Every call of `Mutation` other than `compress` keeps the ids of the invalid-node
set in it. -/
theorem apply_mutation_invalid_mono (g g1 : RRGraph) (m : Mutation)
    (h : apply_mutation g m = some g1) (hm : m ≠ Mutation.compress) (n : RRNodeId)
    (hn : n ∈ g.invalid_node_ids_) : n ∈ g1.invalid_node_ids_ := by
  cases m with
  | compress => exact absurd rfl hm
  | create_node type =>
    simp only [apply_mutation, Option.map_eq_some'] at h
    obtain ⟨r, hr, rfl⟩ := h
    unfold create_node at hr
    dsimp only at hr
    split_ifs at hr
    rw [← Option.some.inj hr]
    exact hn
  | remove_node node =>
    obtain ⟨g2, _, hinv, rfl⟩ := remove_node_some g g1 node h
    show n ∈ g2.invalid_node_ids_.insert node
    rw [hinv]
    exact List.mem_insert_of_mem hn
  | _ =>
    rcases apply_mutation_index g g1 _ h with ⟨h0, _⟩ | ⟨_, h1 | ⟨_, h1⟩⟩
    · exact absurd h0 (by simp [clears_index])
    · have : g1.invalid_node_ids_ = g.invalid_node_ids_ := congrArg (fun v => v.2.1) h1
      rw [this]
      exact hn
    · obtain ⟨L, _, rfl⟩ := build_some g g1 h1
      exact hn

theorem invalid_mono_foldlM (ms : List Mutation) :
    ∀ g0 g, (∀ m ∈ ms, m ≠ Mutation.compress) → ms.foldlM apply_mutation g0 = some g →
      ∀ n ∈ g0.invalid_node_ids_, n ∈ g.invalid_node_ids_ := by
  induction ms with
  | nil =>
    intro g0 g _ h n hn
    simp only [List.foldlM, pure, Option.some.injEq] at h
    exact h ▸ hn
  | cons m ms ih =>
    intro g0 g hne h n hn
    simp only [List.foldlM, bind, Option.bind_eq_some] at h
    obtain ⟨g1, h1, h2⟩ := h
    exact ih g1 g (fun m' hm' => hne m' (List.mem_cons_of_mem _ hm')) h2 n
      (apply_mutation_invalid_mono g0 g1 m h1 (hne m (List.mem_cons_self _ _)) n hn)

theorem find_node_sound (g : RRGraph) (hs : index_sound g) (x y : Int) (type : t_rr_type)
    (ptc : Int) (side : e_side) (g' : RRGraph) (r : RRNodeId)
    (h : find_node g x y type ptc side = some (g', r)) :
    r = none ∨ (valid_node_id g r = true ∧ valid_node_id g' r = true) := by
  have hstate : apply_mutation g (.find_node x y type ptc side) = some g' := by
    simp only [apply_mutation, h, Option.map_some']
  have hs' := index_sound_step g g' _ hstate hs
  unfold find_node at h
  simp only [Option.map_eq_some', Prod.mk.injEq] at h
  obtain ⟨g2, hinit, rfl, hr⟩ := h
  obtain ⟨L, hL⟩ := initialize_keeps g g2 hinit
  have hval : ∀ n, valid_node_id g2 n = valid_node_id g n := by
    intro n
    rw [hL]
    rfl
  rcases find_node_in_get g2.node_lookup_ x y type ptc side with h0 | h0
  · exact Or.inl (hr ▸ h0)
  · rw [h0] at hr
    rcases hs' (to_size_t x) (to_size_t y) (rr_type_index type) (to_size_t ptc)
        (side_index side) with h1 | h1
    · exact Or.inl (hr ▸ h1)
    · rw [hr] at h1
      exact Or.inr ⟨(hval r) ▸ h1, h1⟩

/-- C38. In every state reached from the empty graph by public calls (the
creation calls, the setters, `rebuild_node_edges`, `remove_node`,
`remove_edge`, `compress`, the queries and `validate`), whatever `find_node`
returns is the invalid handle or a valid node id; `find_node` returns when the
index is built or every valid node is ready for the build; and after
`remove_node(n)`, in every state reached by further calls other than
`compress`, `n` is not valid and no `find_node` returns `n`. -/
theorem find_node_returns_valid (ms : List Mutation) (g : RRGraph)
    (hrun : run_mutations ms = some g) :
    (∀ x y type ptc side g' r, find_node g x y type ptc side = some (g', r) →
      r = none ∨ (valid_node_id g r = true ∧ valid_node_id g' r = true))
    ∧ ((valid_fast_node_lookup g = true ∨ lookup_ready g = true) →
        ∀ x y type ptc side, ∃ res, find_node g x y type ptc side = some res)
    ∧ (∀ i g1, remove_node g (some i) = some g1 →
        ∀ (ms1 : List Mutation) (g2 : RRGraph), (∀ m ∈ ms1, m ≠ Mutation.compress) →
          ms1.foldlM apply_mutation g1 = some g2 →
          valid_node_id g2 (some i) = false
          ∧ ∀ x y type ptc side g' r, find_node g2 x y type ptc side = some (g', r) →
              r ≠ some i) := by
  have hs : index_sound g :=
    index_sound_foldlM ms RRGraph.empty g (index_sound_of_nil _ rfl) hrun
  refine ⟨fun x y type ptc side g' r h => find_node_sound g hs x y type ptc side g' r h,
    ?_, ?_⟩
  · intro hready x y type ptc side
    unfold find_node initialize_fast_node_lookup
    by_cases hv : valid_fast_node_lookup g = true
    · rw [if_pos hv]
      exact ⟨_, rfl⟩
    · rw [if_neg hv]
      rcases hready with h | h
      · exact absurd h hv
      · obtain ⟨L, hL, _⟩ := build_ready g h
        rw [hL]
        exact ⟨_, rfl⟩
  · intro i g1 hrem ms1 g2 hne hrun2
    have hstep : apply_mutation g (.remove_node (some i)) = some g1 := hrem
    have hs1 : index_sound g1 := index_sound_step g g1 _ hstep hs
    have hs2 : index_sound g2 := index_sound_foldlM ms1 g1 g2 hs1 hrun2
    have hmem1 : some i ∈ g1.invalid_node_ids_ := by
      obtain ⟨g3, _, _, rfl⟩ := remove_node_some g g1 (some i) hrem
      show some i ∈ g3.invalid_node_ids_.insert (some i)
      exact List.mem_insert_self _ _
    have hmem2 := invalid_mono_foldlM ms1 g1 g2 hne hrun2 (some i) hmem1
    have hinv : valid_node_id g2 (some i) = false := by
      simp [valid_node_id, hmem2]
    refine ⟨hinv, ?_⟩
    intro x y type ptc side g' r h hr
    rcases find_node_sound g2 hs2 x y type ptc side g' r h with h0 | ⟨h0, _⟩
    · rw [hr] at h0
      exact absurd h0 (by simp)
    · rw [hr, hinv] at h0
      exact absurd h0 (by decide)

/-- Witness for C38: the state reached by seven calls holds a SOURCE node and
a CHANX node and a built index; `find_node(1, 0, CHANX, 1)` returns node 1,
which is valid; after `remove_node(1)` and a further `set_node_xhigh(0, 1)`
the same query returns the invalid handle. -/
theorem find_node_returns_valid_witness :
    run_mutations indexed_steps = some indexed_steps_graph
    ∧ (find_node indexed_steps_graph 1 0 t_rr_type.CHANX 1 e_side.NUM_SIDES).map Prod.snd
        = some (some 1)
    ∧ valid_node_id indexed_steps_graph (some 1) = true
    ∧ (∃ g1 g2, remove_node indexed_steps_graph (some 1) = some g1
        ∧ [Mutation.set_node_xhigh (some 0) 1].foldlM apply_mutation g1 = some g2
        ∧ valid_node_id g2 (some 1) = false
        ∧ ∀ g' r, find_node g2 1 0 t_rr_type.CHANX 1 e_side.NUM_SIDES = some (g', r) →
            r ≠ some 1) := by
  have hrun : run_mutations indexed_steps = some indexed_steps_graph := by decide
  obtain ⟨_, _, h3⟩ := find_node_returns_valid indexed_steps indexed_steps_graph hrun
  refine ⟨hrun, by decide, by decide, ?_⟩
  cases h1 : remove_node indexed_steps_graph (some 1) with
  | none => exact absurd h1 (by decide)
  | some g1 =>
    have hq : ((remove_node indexed_steps_graph (some 1)).bind
        (fun g => [Mutation.set_node_xhigh (some 0) 1].foldlM apply_mutation g)).isSome
          = true := by decide
    rw [h1, Option.some_bind] at hq
    cases h2 : [Mutation.set_node_xhigh (some 0) 1].foldlM apply_mutation g1 with
    | none => rw [h2] at hq; exact absurd hq (by decide)
    | some g2 =>
      obtain ⟨a1, a2⟩ := h3 1 g1 h1 [Mutation.set_node_xhigh (some 0) 1] g2
        (by intro m hm; rw [List.mem_singleton.mp hm]; decide) h2
      exact ⟨g1, g2, rfl, h2, a1, fun g' r h => a2 _ _ _ _ _ g' r h⟩

/-- The table after a run of the write loop: a key holds the node of the last
visited cell that records it, and reads as before if no visited cell records
it. -/
theorem cells_fold_last (g : RRGraph) (x y t p s : Nat) :
    ∀ (W : List (Nat × Nat × Nat)) (L L' : Lookup),
      W.foldlM (cell_step g) L = some L' →
      lookup_get L' x y t p s
        = (((W.filter (fun c => decide (cell_key g c = some (x, y, t, p, s)))).getLast?).map
            (fun c => some c.1)).getD (lookup_get L x y t p s) := by
  intro W
  induction W with
  | nil =>
    intro L L' h
    simp only [List.foldlM, pure, Option.some.injEq] at h
    subst h
    rfl
  | cons c W ih =>
    intro L L' h
    simp only [List.foldlM, bind, Option.bind_eq_some] at h
    obtain ⟨L1, h1, h2⟩ := h
    rw [cell_step_eq] at h1
    simp only [Option.bind_eq_some] at h1
    obtain ⟨k, hk, hw⟩ := h1
    have hget := lookup_write_get _ _ _ _ _ _ _ _ hw x y t p s
    rw [ih L1 L' h2, List.filter_cons]
    by_cases hc : cell_key g c = some (x, y, t, p, s)
    · rw [if_pos (by simpa using hc), List.getLast?_cons]
      rw [hk] at hc
      have hk' := Option.some.inj hc
      subst hk'
      rw [hget, if_pos ⟨rfl, rfl, rfl, rfl, rfl⟩]
      generalize (W.filter (fun c => decide (cell_key g c = some (x, y, t, p, s)))).getLast?
        = o
      cases o <;> rfl
    · rw [if_neg (by simpa using hc)]
      have hne : ¬ (x = k.1 ∧ y = k.2.1 ∧ t = k.2.2.1 ∧ p = k.2.2.2.1 ∧ s = k.2.2.2.2) := by
        rintro ⟨rfl, rfl, rfl, rfl, rfl⟩
        exact hc hk
      rw [hget, if_neg hne]

/-- The cells of the write loop are visited in ascending node id. -/
theorem lookup_cells_sorted (g : RRGraph) :
    List.Pairwise (fun a b : Nat × Nat × Nat => a.1 ≤ b.1) (lookup_cells g) := by
  unfold lookup_cells
  have key : ∀ N : Nat,
      List.Pairwise (fun a b : Nat × Nat × Nat => a.1 ≤ b.1)
        ((List.range N).flatMap (node_cells g))
      ∧ ∀ c ∈ (List.range N).flatMap (node_cells g), c.1 < N := by
    intro N
    induction N with
    | zero => simp
    | succ N ih =>
      have hcells : ∀ c ∈ node_cells g N, c.1 = N := by
        intro c hc
        unfold node_cells at hc
        split_ifs at hc
        · simp only [List.mem_flatMap, List.mem_map] at hc
          obtain ⟨_, _, _, _, rfl⟩ := hc
          rfl
        · simp at hc
      rw [List.range_succ, List.flatMap_append]
      simp only [List.flatMap_cons, List.flatMap_nil, List.append_nil]
      constructor
      · rw [List.pairwise_append]
        refine ⟨ih.1, ?_, ?_⟩
        · rw [List.pairwise_iff_forall_sublist]
          intro a b hab
          have ha := hcells a (hab.subset (List.mem_cons_self _ _))
          have hb := hcells b (hab.subset (List.mem_cons_of_mem _ (List.mem_cons_self _ _)))
          omega
        · intro a ha b hb
          have := ih.2 a ha
          have := hcells b hb
          omega
      · intro c hc
        rcases List.mem_append.mp hc with h | h
        · have := ih.2 c h
          omega
        · have := hcells c h
          omega
  exact (key g.num_nodes_).1

theorem getLast_of_sorted (l : List (Nat × Nat × Nat))
    (hs : List.Pairwise (fun a b : Nat × Nat × Nat => a.1 ≤ b.1) l) (c : Nat × Nat × Nat)
    (hc : l.getLast? = some c) : ∀ a ∈ l, a.1 ≤ c.1 := by
  induction l with
  | nil => intro a ha; simp at ha
  | cons b l ih =>
    intro a ha
    rw [List.pairwise_cons] at hs
    cases l with
    | nil =>
      simp only [List.getLast?_singleton, Option.some.injEq] at hc
      simp only [List.mem_singleton] at ha
      rw [ha, hc]
    | cons b' l' =>
      rw [List.getLast?_cons_cons] at hc
      have hmem : c ∈ b' :: l' := List.mem_of_mem_getLast? hc
      rcases List.mem_cons.mp ha with h | h
      · rw [h]
        exact hs.1 c hmem
      · exact ih hs.2 hc a h

/-- C37. On a graph whose valid nodes are all ready for the build, with the
index unbuilt or built from the present state: if the valid node `n` is
recorded under the query `(x, y, type, ptc, side)` and no valid node with a
larger id is recorded under it, `find_node` returns `n`; this is the node with
the largest id of two or more nodes recorded under one key, and the node
itself when it is the only one. -/
theorem find_node_last_writer (g : RRGraph) (x y : Int) (type : t_rr_type) (ptc : Int)
    (side : e_side) (n : Nat) (hready : lookup_ready g = true)
    (hfresh : valid_fast_node_lookup g = false ∨ build_fast_node_lookup g = some g)
    (hn : n < g.num_nodes_) (hv : valid_node_id g (some n) = true)
    (hrec : node_records g n x y type ptc side = true)
    (hmax : ∀ id < g.num_nodes_, valid_node_id g (some id) = true →
      node_records g id x y type ptc side = true → id ≤ n) :
    ∃ g', find_node g x y type ptc side = some (g', some n) := by
  obtain ⟨L, hb, hL⟩ := build_ready g hready
  obtain ⟨hshape, _⟩ := built_lookup g L hL
  have hr := lookup_ready_node g hready n hn hv
  obtain ⟨⟨b1, b2, b3, b4, b5, b6, b7, b8⟩, _⟩ := node_ready_spec g n hr
  have hrec' := hrec
  unfold node_records at hrec'
  rw [decide_eq_true_eq] at hrec'
  obtain ⟨s1, s2, s3, s4, _, s6, _⟩ := hrec'
  have hx0 : 0 ≤ x := le_trans (le_min b1 b5) s1
  have hy0 : 0 ≤ y := le_trans (le_min b3 b7) s3
  have hx : x < 2 ^ 15 := lt_of_le_of_lt s2 (max_lt b2 b6)
  have hy : y < 2 ^ 15 := lt_of_le_of_lt s4 (max_lt b4 b8)
  have cx : ((x.toNat : Nat) : Int) = x := Int.toNat_of_nonneg hx0
  have cy : ((y.toNat : Nat) : Int) = y := Int.toNat_of_nonneg hy0
  have hsx : x.toNat ∈ span_cells (node_xlow g (some n)) (node_xhigh g (some n)) := by
    rw [mem_span_cells _ _ b1 b5 b2 b6, cx]
    exact ⟨s1, s2⟩
  have hsy : y.toNat ∈ span_cells (node_ylow g (some n)) (node_yhigh g (some n)) := by
    rw [mem_span_cells _ _ b3 b7 b4 b8, cy]
    exact ⟨s3, s4⟩
  obtain ⟨_, p0, p1⟩ := cell_key_ready g (n, x.toNat, y.toNat) hr hsx hsy
  dsimp only at p0 p1
  rw [cx, cy, s6] at p0 p1
  have hp : ptc < 2 ^ 31 := lt_trans p1 (by norm_num)
  have hcell := (cell_key_records g hready x y type ptc side hx0 hx hy0 hy p0 hp n).mpr
    ⟨hn, hv, hrec⟩
  refine ⟨{ g with node_lookup_ := L }, ?_⟩
  unfold find_node
  rw [initialize_of_fresh g hfresh, hb]
  simp only [Option.map_some', Option.some.injEq, Prod.mk.injEq, true_and]
  rw [find_node_in_eq L _ _ _ hshape x y type ptc side hx0 hy0 p0,
    cells_fold_last g _ _ _ _ _ _ _ _ hL]
  have hmem : (n, to_size_t x, to_size_t y)
      ∈ (lookup_cells g).filter (fun c => decide (cell_key g c
          = some (to_size_t x, to_size_t y, rr_type_index type, to_size_t ptc,
              side_index side))) := by
    rw [List.mem_filter]
    exact ⟨hcell.1, by simpa using hcell.2⟩
  cases hlast : ((lookup_cells g).filter (fun c => decide (cell_key g c
      = some (to_size_t x, to_size_t y, rr_type_index type, to_size_t ptc,
          side_index side)))).getLast? with
  | none =>
    rw [List.getLast?_eq_none_iff] at hlast
    rw [hlast] at hmem
    simp at hmem
  | some c =>
    simp only [Option.map_some', Option.getD_some, Option.some.injEq]
    have hcm := List.mem_of_mem_getLast? hlast
    rw [List.mem_filter] at hcm
    obtain ⟨hc1, hc2⟩ := hcm
    rw [decide_eq_true_eq] at hc2
    have hcc := cell_key_coords g c _ _ _ _ _ hc2
    have hle : n ≤ c.1 :=
      getLast_of_sorted _ ((lookup_cells_sorted g).filter _) c hlast _ hmem
    rw [hcc] at hc1 hc2
    obtain ⟨hid, hvc, hrc⟩ :=
      (cell_key_records g hready x y type ptc side hx0 hx hy0 hy p0 hp c.1).mp ⟨hc1, hc2⟩
    have hge := hmax c.1 hid hvc hrc
    omega

/-- Witness for C37: two valid CHANX nodes cover the cell (0, 0) on track 0;
both are recorded under the key (0, 0, CHANX, 0, NUM_SIDES) and `find_node`
returns node 1; on the scenario with geometry node 1 is the only node under
(1, 0, CHANX, 1, NUM_SIDES) and is returned. -/
theorem find_node_last_writer_witness :
    node_records shared_track_graph 0 0 0 t_rr_type.CHANX 0 e_side.NUM_SIDES = true
    ∧ node_records shared_track_graph 1 0 0 t_rr_type.CHANX 0 e_side.NUM_SIDES = true
    ∧ (∃ g', find_node shared_track_graph 0 0 t_rr_type.CHANX 0 e_side.NUM_SIDES
        = some (g', some 1))
    ∧ (∃ g', find_node lookup_scenario_graph 1 0 t_rr_type.CHANX 1 e_side.NUM_SIDES
        = some (g', some 1)) := by
  refine ⟨by decide, by decide, ?_, ?_⟩
  · exact find_node_last_writer shared_track_graph 0 0 t_rr_type.CHANX 0 e_side.NUM_SIDES 1
      (by decide) (Or.inl (by decide)) (by decide) (by decide) (by decide)
      (fun id hid _ _ => by
        have : shared_track_graph.num_nodes_ = 2 := by decide
        omega)
  · exact find_node_last_writer lookup_scenario_graph 1 0 t_rr_type.CHANX 1 e_side.NUM_SIDES 1
      (by decide) (Or.inl (by decide)) (by decide) (by decide) (by decide)
      (fun id hid hv hrec => by
        have h3 : lookup_scenario_graph.num_nodes_ = 3 := by decide
        have hid3 : id < 3 := by omega
        interval_cases id
        · exact absurd hrec (by decide)
        · exact le_refl _
        · exact absurd hrec (by decide))

theorem to_short_of_lt (v : Nat) (h : v < 2 ^ 15) : to_short (v : Int) = v := by
  unfold to_short
  omega

theorem wide_fan_base_built : build wide_fan_base_steps = some wide_fan_base := by decide

theorem sizesOk_wide_fan (j : Nat) : SizesOk (wide_fan_graph j) := by
  have hb : SizesOk wide_fan_base := by constructor <;> decide
  constructor
  · exact hb.types
  · exact hb.boxes
  · exact hb.capacities
  · exact hb.ptcs
  · exact hb.costs
  · exact hb.directions
  · exact hb.sides
  · exact hb.rs
  · exact hb.cs
  · exact hb.rc_data
  · exact hb.segments
  · exact hb.fan_in
  · exact hb.fan_out
  · exact hb.nc_in
  · exact hb.nc_out
  · exact hb.slots
  · exact List.length_replicate _ _
  · exact List.length_replicate _ _
  · exact List.length_replicate _ _
  · exact hb.switch_ids
  · exact hb.segment_ids

theorem wide_fan_step (j : Nat) :
    build_step (wide_fan_graph j) (.edge (some 0) (some 1) (some 0) false)
      = some (wide_fan_graph (j + 1)) := by
  have h := create_edge_eq (wide_fan_graph j) (some 0) (some 1) (some 0) false
    (sizesOk_wide_fan j)
    (by decide : valid_node_id wide_fan_base (some 0) = true)
    (by decide : valid_node_id wide_fan_base (some 1) = true)
    (Or.inr (by decide : valid_switch_id wide_fan_base (some 0) = true))
  show (create_edge (wide_fan_graph j) (some 0) (some 1) (some 0) false).map Prod.fst = _
  rw [h, Option.map_some']
  unfold wide_fan_graph
  simp only [List.replicate_succ']

theorem wide_fan_fold (k : Nat) : ∀ j : Nat,
    (List.replicate k (BuildStep.edge (some 0) (some 1) (some 0) false)).foldlM build_step
        (wide_fan_graph j) = some (wide_fan_graph (j + k)) := by
  induction k with
  | zero => intro j; rfl
  | succ k ih =>
    intro j
    rw [List.replicate_succ, List.foldlM_cons, wide_fan_step]
    show (List.replicate k (BuildStep.edge (some 0) (some 1) (some 0) false)).foldlM build_step
        (wide_fan_graph (j + 1)) = _
    rw [ih (j + 1), Nat.add_assoc, Nat.add_comm 1 k]

theorem wide_fan_built (k : Nat) : build (wide_fan_steps k) = some (wide_fan_graph k) := by
  have hb : wide_fan_base_steps.foldlM build_step RRGraph.empty = some wide_fan_base :=
    wide_fan_base_built
  have h0 : wide_fan_base = wide_fan_graph 0 := by decide
  unfold build wide_fan_steps
  rw [List.foldlM_append, hb]
  show (List.replicate k (BuildStep.edge (some 0) (some 1) (some 0) false)).foldlM build_step
      wide_fan_base = _
  rw [h0, wide_fan_fold k 0, Nat.zero_add]

theorem freshlyBuilt_wide_fan (k : Nat) : FreshlyBuilt (wide_fan_graph k) :=
  freshlyBuilt_build (wide_fan_steps k) RRGraph.empty (wide_fan_graph k) freshlyBuilt_empty
    (wide_fan_built k)

theorem wide_fan_counts (k : Nat) :
    ((edges (rebuild_node_edges (wide_fan_graph k))).filter
        (fun e => edge_sink_node (rebuild_node_edges (wide_fan_graph k)) e == some 1)).length = k
    ∧ node_fan_in (rebuild_node_edges (wide_fan_graph k)) (some 1) = to_short (k : Int)
    ∧ ((edges (rebuild_node_edges (wide_fan_graph k))).filter
        (fun e => edge_src_node (rebuild_node_edges (wide_fan_graph k)) e == some 0)).length = k
    ∧ node_fan_out (rebuild_node_edges (wide_fan_graph k)) (some 0) = to_short (k : Int) := by
  have hg := freshlyBuilt_wide_fan k
  have hs := rebuild_fresh (wide_fan_graph k) hg
  have hev : edge_view (rebuild_node_edges (wide_fan_graph k)) = edge_view (wide_fan_graph k) :=
    (only_slots_edge_view hs).trans (edge_view_count_fold _ _)
  obtain ⟨a1, a2, _⟩ := accessors_of_edge_view hev
  have hE := edges_of_edge_view hev
  have hedges : edges (wide_fan_graph k) = (List.range k).map some :=
    edges_of_no_invalid (wide_fan_graph k) hg.no_invalid_edges
  have hsink : ((edges (rebuild_node_edges (wide_fan_graph k))).filter
      (fun e => edge_sink_node (rebuild_node_edges (wide_fan_graph k)) e == some 1)).length
        = k := by
    rw [a1, hE, hedges, List.filter_eq_self.2, List.length_map, List.length_range]
    intro a ha
    simp only [List.mem_map, List.mem_range] at ha
    obtain ⟨i, hi, rfl⟩ := ha
    simp [edge_sink_node, at_id, wide_fan_graph, List.getD_eq_getElem?_getD,
      List.getElem?_replicate, hi]
  have hsrc : ((edges (rebuild_node_edges (wide_fan_graph k))).filter
      (fun e => edge_src_node (rebuild_node_edges (wide_fan_graph k)) e == some 0)).length
        = k := by
    rw [a2, hE, hedges, List.filter_eq_self.2, List.length_map, List.length_range]
    intro a ha
    simp only [List.mem_map, List.mem_range] at ha
    obtain ⟨i, hi, rfl⟩ := ha
    simp [edge_src_node, at_id, wide_fan_graph, List.getD_eq_getElem?_getD,
      List.getElem?_replicate, hi]
  have hc := counts_of_only_slots (wide_fan_graph k) _ hg hs
  have h0 : 0 < (wide_fan_graph k).num_nodes_ :=
    (by decide : 0 < wide_fan_base.num_nodes_)
  have h1 : 1 < (wide_fan_graph k).num_nodes_ :=
    (by decide : 1 < wide_fan_base.num_nodes_)
  refine ⟨hsink, ?_, hsrc, ?_⟩
  · unfold node_fan_in
    rw [(hc 1 h1).1, hsink]
  · unfold node_fan_out
    rw [(hc 0 h0).2.1, hsrc]

/-- C3, the claim as stated fails.  The calls `create_switch`, two
`create_node` and 32768 `create_edge` from node 0 to node 1 all return and
build a graph on which, after `rebuild_node_edges`, 32768 valid edges have
sink 1 and source 0, while `node_fan_in(1)` and `node_fan_out(0)`, being
`short`, return -32768.  Second, `create_edge` with `fake_switch = true`
returns on the invalid switch id: the edge is valid and has no switch record,
so "its switch is not configurable" reads outside the switch catalog. -/
theorem rebuild_node_edges_counts_wrap :
    build (wide_fan_steps 32768) = some (wide_fan_graph 32768)
    ∧ ((edges (rebuild_node_edges (wide_fan_graph 32768))).filter
        (fun e => edge_sink_node (rebuild_node_edges (wide_fan_graph 32768)) e
          == some 1)).length = 32768
    ∧ node_fan_in (rebuild_node_edges (wide_fan_graph 32768)) (some 1) = -32768
    ∧ ((edges (rebuild_node_edges (wide_fan_graph 32768))).filter
        (fun e => edge_src_node (rebuild_node_edges (wide_fan_graph 32768)) e
          == some 0)).length = 32768
    ∧ node_fan_out (rebuild_node_edges (wide_fan_graph 32768)) (some 0) = -32768
    ∧ build fake_switch_steps = some fake_switch_graph
    ∧ edges (rebuild_node_edges fake_switch_graph) = [some 0]
    ∧ edge_switch (rebuild_node_edges fake_switch_graph) (some 0) = none
    ∧ valid_switch_id (rebuild_node_edges fake_switch_graph)
        (edge_switch (rebuild_node_edges fake_switch_graph) (some 0)) = false
    ∧ get_switch (rebuild_node_edges fake_switch_graph)
        (edge_switch (rebuild_node_edges fake_switch_graph) (some 0)) = none := by
  have h := wide_fan_counts 32768
  have hw : to_short ((32768 : Nat) : Int) = -32768 := by
    unfold to_short
    norm_num
  refine ⟨wide_fan_built 32768, h.1, h.2.1.trans hw, h.2.2.1, h.2.2.2.trans hw,
    by decide, by decide, by decide, by decide, by decide⟩

/-- C3 (amended). After the first `rebuild_node_edges` on a freshly built
graph in which every edge has a valid switch, every edge still has a switch
record, and for every node `n`: `node_fan_in(n)` and `node_fan_out(n)` are the
`short` conversions of the number of valid edges whose sink is `n` and of the
number of valid edges whose source is `n`, so they equal these numbers
whenever the numbers are below 2^15; the two non-configurable counters are the
numbers of those edges whose switch record is not configurable. -/
theorem rebuild_node_edges_counts (g : RRGraph) (hg : FreshlyBuilt g)
    (hsw : ∀ e ∈ edges g, valid_switch_id g (edge_switch g e) = true)
    (n : Nat) (hn : n < g.num_nodes_) :
    (∀ e ∈ edges (rebuild_node_edges g),
      ∃ s, get_switch (rebuild_node_edges g) (edge_switch (rebuild_node_edges g) e) = some s
        ∧ edge_is_non_configurable (rebuild_node_edges g) e = !s.configurable)
    ∧ node_fan_in (rebuild_node_edges g) (some n)
        = to_short (((edges (rebuild_node_edges g)).filter
            (fun e => edge_sink_node (rebuild_node_edges g) e == some n)).length : Int)
    ∧ node_fan_out (rebuild_node_edges g) (some n)
        = to_short (((edges (rebuild_node_edges g)).filter
            (fun e => edge_src_node (rebuild_node_edges g) e == some n)).length : Int)
    ∧ (((edges (rebuild_node_edges g)).filter
          (fun e => edge_sink_node (rebuild_node_edges g) e == some n)).length < 2 ^ 15 →
        node_fan_in (rebuild_node_edges g) (some n)
          = (((edges (rebuild_node_edges g)).filter
              (fun e => edge_sink_node (rebuild_node_edges g) e == some n)).length : Int))
    ∧ (((edges (rebuild_node_edges g)).filter
          (fun e => edge_src_node (rebuild_node_edges g) e == some n)).length < 2 ^ 15 →
        node_fan_out (rebuild_node_edges g) (some n)
          = (((edges (rebuild_node_edges g)).filter
              (fun e => edge_src_node (rebuild_node_edges g) e == some n)).length : Int))
    ∧ node_num_non_configurable_in_edges (rebuild_node_edges g) (some n)
        = ((edges (rebuild_node_edges g)).filter
            (fun e => edge_sink_node (rebuild_node_edges g) e == some n
              && edge_is_non_configurable (rebuild_node_edges g) e)).length
    ∧ node_num_non_configurable_out_edges (rebuild_node_edges g) (some n)
        = ((edges (rebuild_node_edges g)).filter
            (fun e => edge_src_node (rebuild_node_edges g) e == some n
              && edge_is_non_configurable (rebuild_node_edges g) e)).length := by
  have hs := rebuild_fresh g hg
  have hev : edge_view (rebuild_node_edges g) = edge_view g :=
    (only_slots_edge_view hs).trans (edge_view_count_fold _ g)
  have hE := edges_of_edge_view hev
  obtain ⟨c1, c2, c3, c4⟩ := counts_of_only_slots g (rebuild_node_edges g) hg hs n hn
  have hin : node_fan_in (rebuild_node_edges g) (some n)
      = to_short (((edges (rebuild_node_edges g)).filter
          (fun e => edge_sink_node (rebuild_node_edges g) e == some n)).length : Int) := by
    unfold node_fan_in
    rw [c1]
  have hout : node_fan_out (rebuild_node_edges g) (some n)
      = to_short (((edges (rebuild_node_edges g)).filter
          (fun e => edge_src_node (rebuild_node_edges g) e == some n)).length : Int) := by
    unfold node_fan_out
    rw [c2]
  refine ⟨?_, hin, hout, ?_, ?_, c3, c4⟩
  · intro e he
    rw [hE] at he
    have hv := hsw e he
    simp only [edge_view, Prod.mk.injEq] at hev
    obtain ⟨_, _, _, _, h5, h6, _, _⟩ := hev
    have hsw_eq : edge_switch (rebuild_node_edges g) e = edge_switch g e := by
      unfold edge_switch
      rw [h5]
    unfold edge_is_non_configurable edge_is_configurable get_switch
    rw [hsw_eq, h6]
    cases hi : edge_switch g e with
    | none => rw [hi] at hv; exact absurd hv (by simp [valid_switch_id])
    | some i =>
      rw [hi] at hv
      simp only [valid_switch_id, decide_eq_true_eq] at hv
      refine ⟨g.switches_[i], ?_, ?_⟩
      · simp [hv]
      · simp [List.get?_eq_getElem?, hv]
  · intro hlt
    rw [hin]
    exact to_short_of_lt _ hlt
  · intro hlt
    rw [hout]
    exact to_short_of_lt _ hlt

/-- Witness for C3: the scenario graph is freshly built and both its edges
have a valid switch; after `rebuild_node_edges` the CHANX node (id 1) has
fan-in 1 and fan-out 1, no non-configurable incoming edge and one
non-configurable outgoing edge. -/
theorem rebuild_node_edges_counts_witness :
    FreshlyBuilt scenario_graph
    ∧ (∀ e ∈ edges scenario_graph,
        valid_switch_id scenario_graph (edge_switch scenario_graph e) = true)
    ∧ 1 < scenario_graph.num_nodes_
    ∧ node_fan_in (rebuild_node_edges scenario_graph) (some 1) = 1
    ∧ node_fan_out (rebuild_node_edges scenario_graph) (some 1) = 1
    ∧ node_num_non_configurable_in_edges (rebuild_node_edges scenario_graph) (some 1) = 0
    ∧ node_num_non_configurable_out_edges (rebuild_node_edges scenario_graph) (some 1) = 1 := by
  have h := rebuild_node_edges_counts scenario_graph scenario_graph_fresh (by decide) 1
    (by decide)
  have e1 : ((edges (rebuild_node_edges scenario_graph)).filter
      (fun e => edge_sink_node (rebuild_node_edges scenario_graph) e == some 1)).length = 1 := by
    decide
  have e2 : ((edges (rebuild_node_edges scenario_graph)).filter
      (fun e => edge_src_node (rebuild_node_edges scenario_graph) e == some 1)).length = 1 := by
    decide
  refine ⟨scenario_graph_fresh, by decide, by decide, ?_, ?_, ?_, ?_⟩
  · rw [h.2.2.2.1 (by rw [e1]; norm_num), e1]; rfl
  · rw [h.2.2.2.2.1 (by rw [e2]; norm_num), e2]; rfl
  · rw [h.2.2.2.2.2.1]; decide
  · rw [h.2.2.2.2.2.2]; decide

end RRGraphObj
